import Mathlib

/-!
# Cypress TTSP Gen4 touchscreen core (`cyttsp4_core.c`): embedding and proofs

Shallow embedding of `drivers/input/touchscreen/cyttsp4_core.c`.

Conventions of the embedding.

* C unsigned integers (`u8`, `u16`) are natural numbers; every place where the
  C code truncates has an explicit `% 256` or `% 65536`.
* A `u8` buffer is a `List Nat`; loading element `i` is `ld8 buf i`, which
  truncates to eight bits and reads `0` outside the list.
* C `int` values that can be negative (return codes) are `Int`.
* Build configuration modelled: `CY_USE_TMA884` and `CY_AUTO_LOAD_FW`
  defined, and one of `CONFIG_PM`, `CONFIG_PM_SLEEP`, `CONFIG_HAS_EARLYSUSPEND`
  (suspend and resume are compiled; their bodies are the same for the three);
  `CY_USE_WATCHDOG`, `CY_USE_DEBUG_TOOLS`, `CONFIG_TOUCHSCREEN_DEBUG`,
  `CONFIG_TOUCHSCREEN_DEBUG_ENABLE_ENTRY`, `CY_USE_LEVEL_IRQ` and the
  `CONFIG_TOUCHSCREEN_CYPRESS_TTSP_SWAP_XY/FLIP_X/FLIP_Y` options undefined.
* C `int` values computed from record bytes (`touch.abs[]`) are 32-bit
  patterns in `Nat`, wrapped with `% 4294967296`; `s32` gives their signed
  value where the C code compares or reports them.
* Logging calls (`dev_err`, `dev_dbg`, `dev_vdbg`, `_cyttsp4_pr_buf`) have no
  effect on driver state and are omitted.
* The model is sequential: the mutex, `INIT_COMPLETION` and the interrupt
  handler are not modelled; a wait on `int_running` is answered by the `wait`
  field of the bus collaborators, and the interrupt handler leaves the driver
  context unchanged in `CY_CMD_STATE` and `CY_BL_STATE`, the states in which
  the modelled waits on `int_running` happen.
* Pointers are assumed valid (`ts->xy_mode`, `ts->btn`, `buf`, `pdata` are not
  NULL); an access to `ts->btn[i]` outside the table is a no-op.
* A `kzalloc` of a fixed size succeeds; the allocations of
  `_cyttsp4_get_sysinfo_regs` whose size comes from the device are answered by
  an allocator parameter.
* Where a statement is about what is written to the device, the bus
  collaborators are wrapped by `log_writes`, which records every
  `bus_ops->write` next to the device state and changes nothing else.
-/

namespace Cyttsp4

/-! ## Configuration CRC (`_cyttsp4_calc_partial_crc`, `_cyttsp4_calc_crc`) -/

/-- Body of the inner `for (j = 8; j > 0; --j)` loop of
`_cyttsp4_calc_partial_crc`: one shift of the `u16` register. -/
def crc_round (crc : Nat) : Nat :=
  if crc &&& 0x8000 ≠ 0 then ((crc <<< 1) ^^^ 0x1021) % 65536
  else (crc <<< 1) % 65536

/-- The inner loop `for (j = 8; j > 0; --j)`, with `j` rounds left. -/
def crc_rounds : Nat → Nat → Nat
  | 0, crc => crc
  | j + 1, crc => crc_rounds j (crc_round crc)

/-- Body of the outer loop of `_cyttsp4_calc_partial_crc`:
`crc ^= ((u16)pdata[i] << 8)` followed by the eight rounds. -/
def crc_byte (crc b : Nat) : Nat :=
  crc_rounds 8 ((crc ^^^ ((b % 256) <<< 8)) % 65536)

/-- `_cyttsp4_calc_partial_crc(ts, pdata, ndata, crc)`; `ndata` is the length
of `pdata`. -/
def _cyttsp4_calc_partial_crc (pdata : List Nat) (crc : Nat) : Nat :=
  pdata.foldl crc_byte crc

/-- `_cyttsp4_calc_crc(ts, pdata, ndata, crc_h, crc_l)`: the two output bytes
are passed in and returned; they are left untouched when `ndata == 0`. -/
def _cyttsp4_calc_crc (pdata : List Nat) (crc_h crc_l : Nat) : Nat × Nat :=
  if pdata.length = 0 then (crc_h, crc_l)
  else
    let crc := _cyttsp4_calc_partial_crc pdata 0xFFFF
    (crc / 256, crc % 256)

/-! ### Reference definition: bit-serial CCITT CRC-16 -/

/-- Reference CCITT CRC-16 register update for ONE message bit (polynomial
0x1021, no reflection): the register is shifted left by one, truncated to 16
bits, and the polynomial is added when the bit shifted out differs from the
message bit. -/
def ccitt_feed_bit (crc : Nat) (bit : Bool) : Nat :=
  if (crc.testBit 15 != bit) then ((2 * crc) % 65536) ^^^ 0x1021
  else (2 * crc) % 65536

/-- The `k` low bits of `m`, most significant first. -/
def msb_bits : Nat → Nat → List Bool
  | 0, _ => []
  | k + 1, m => m.testBit k :: msb_bits k m

/-- The message as a bit stream: every byte contributes its eight bits, most
significant bit first. -/
def message_bits_msb : List Nat → List Bool
  | [] => []
  | b :: bs => msb_bits 8 b ++ message_bits_msb bs

/-- Reference CCITT CRC-16: initial value 0xFFFF, message fed bit by bit, most
significant bit first, no final XOR. -/
def ccitt_crc16 (bytes : List Nat) : Nat :=
  (message_bits_msb bytes).foldl ccitt_feed_bit 0xFFFF

/-! ## Loader CRC (`_cyttsp4_compute_crc`) -/

/-- Body of the `for (i = 0, tmp = ...; i < 8; i++, tmp >>= 1)` loop of
`_cyttsp4_compute_crc`. -/
def ldr_crc_bit (crc tmp : Nat) : Nat :=
  if ((crc &&& 0x0001) ^^^ (tmp &&& 0x0001)) ≠ 0 then (crc >>> 1) ^^^ 0x8408
  else crc >>> 1

/-- The bit loop of `_cyttsp4_compute_crc` with `n` iterations left. -/
def ldr_crc_bits : Nat → Nat → Nat → Nat
  | 0, crc, _ => crc
  | n + 1, crc, tmp => ldr_crc_bits n (ldr_crc_bit crc tmp) (tmp >>> 1)

/-- One pass of the `do { ... } while (--size)` body: `tmp = 0x00ff & *buf++`
and the eight bit steps. -/
def ldr_crc_byte (crc b : Nat) : Nat :=
  ldr_crc_bits 8 crc (0x00ff &&& b)

/-- `_cyttsp4_compute_crc(ts, buf, size)`; `size` is the length of `buf`.
`~crc` on a `u16` is `0xFFFF - crc`. -/
def _cyttsp4_compute_crc (buf : List Nat) : Nat :=
  if buf.length = 0 then 0xFFFF - 0xFFFF
  else
    let crc := buf.foldl ldr_crc_byte 0xFFFF
    let crc := 0xFFFF - crc
    let tmp := crc
    ((crc <<< 8) ||| ((tmp >>> 8) &&& 0xFF)) % 65536

/-! ### Reference definition: reflected CRC-16 -/

/-- Reference reflected CRC-16 shift (polynomial 0x8408): the register moves
right by one and the polynomial is added when the bit shifted out is set. -/
def refl_round (crc : Nat) : Nat :=
  if crc % 2 = 1 then (crc / 2) ^^^ 0x8408 else crc / 2

/-- Reference reflected CRC-16 over a byte sequence, initial value 0xFFFF,
least significant bit first: each byte is added into the low bits of the
register, which is then shifted eight times. -/
def crc16_reflected (bytes : List Nat) : Nat :=
  bytes.foldl (fun c b => refl_round^[8] (c ^^^ (b % 256))) 0xFFFF

/-- Ones-complement of a 16-bit value. -/
def complement16 (x : Nat) : Nat := 0xFFFF - x

/-- Exchange of the two bytes of a 16-bit value. -/
def swap_bytes16 (x : Nat) : Nat := (x % 256) * 256 + x / 256

/-! ## Bus transport and kernel facilities -/

/-- `-EIO`. -/
def err_io : Int := -5
/-- `-EINVAL`. -/
def err_inval : Int := -22
/-- `-ETIMEDOUT`. -/
def err_timedout : Int := -110

/-- Load of a `u8` from a buffer. -/
def ld8 (buf : List Nat) (i : Nat) : Nat := (buf.getD i 0) % 256

/-- Store of `length` bytes of `data` at offset `off` of buffer `buf`
(`memcpy`, `memset` with empty `data`, or the payload of a bus read). -/
def store (buf : List Nat) (off length : Nat) (data : List Nat) : List Nat :=
  (List.range off).map (fun i => buf.getD i 0)
    ++ (List.range length).map (fun i => data.getD i 0 % 256)
    ++ buf.drop (off + length)

/-- The collaborators outside the driver, over an abstract device state `D`:
`read` is `bus_ops->read(command, length, buf, i2c_addr)` giving the return
code and the bytes delivered, `write` is `bus_ops->write`, and `wait` is
`wait_for_completion_interruptible_timeout` on `int_running`, giving `0` on a
timeout and a non-zero value otherwise.  `num_retry` is the macro
`CY_NUM_RETRY` of `cyttsp4_core.h`, a header outside the source file.
`read` and `write` are the transfers with `use_subaddr = true`;
`read_nosub` and `write_nosub` are the transfers with `use_subaddr = false`,
which the bootloader commands use.  `wait_si` is the wait on
`si_int_running`, `hw_reset` is `platform_data->hw_reset` (`none` for a NULL
pointer) and `irq_stat` is `platform_data->irq_stat()`.  `max_prbuf_size` is
the macro `CY_MAX_PRBUF_SIZE`, also of a header outside the source file. -/
structure cyttsp4_bus_ops (D : Type) where
  read : D → Nat → Nat → Nat → Int × List Nat × D
  write : D → Nat → List Nat → Nat → Int × D
  wait : D → Nat → Nat × D
  num_retry : Nat
  read_nosub : D → Nat → Nat → Nat → Int × List Nat × D := read
  write_nosub : D → Nat → List Nat → Nat → Int × D := write
  wait_si : D → Nat → Nat × D := wait
  hw_reset : Option (D → Int × D) := none
  irq_stat : D → Nat × D := fun d => (1, d)
  max_prbuf_size : Nat := 0

/-- The retry loop of `_cyttsp4_read_block_data`,
`for (tries = 0, retval = -1; tries < CY_NUM_RETRY && (retval < 0); tries++)`,
with `n` tries left.  A failed transfer leaves the destination as it was. -/
def read_tries {D : Type} (ops : cyttsp4_bus_ops D) (command length i2c_addr : Nat) :
    Nat → Int → List Nat → D → Int × List Nat × D
  | 0, retval, buf, dev => (retval, buf, dev)
  | n + 1, retval, buf, dev =>
    if retval < 0 then
      let r := ops.read dev command length i2c_addr
      read_tries ops command length i2c_addr n r.1
        (if r.1 < 0 then buf else store buf 0 length r.2.1) r.2.2
    else (retval, buf, dev)

/-- `_cyttsp4_read_block_data(ts, command, length, buf, i2c_addr, true)`:
return code, destination buffer afterwards, device afterwards. -/
def _cyttsp4_read_block_data {D : Type} (ops : cyttsp4_bus_ops D) (dev : D)
    (command length : Nat) (buf : List Nat) (i2c_addr : Nat) : Int × List Nat × D :=
  if length = 0 then (err_inval, buf, dev)
  else read_tries ops command length i2c_addr ops.num_retry (-1) buf dev

/-- The retry loop of `_cyttsp4_write_block_data` with `n` tries left. -/
def write_tries {D : Type} (ops : cyttsp4_bus_ops D) (command : Nat) (buf : List Nat)
    (i2c_addr : Nat) : Nat → Int → D → Int × D
  | 0, retval, dev => (retval, dev)
  | n + 1, retval, dev =>
    if retval < 0 then
      let r := ops.write dev command buf i2c_addr
      write_tries ops command buf i2c_addr n r.1 r.2
    else (retval, dev)

/-- `_cyttsp4_write_block_data(ts, command, length, buf, i2c_addr, true)`;
`length` is the length of `buf`. -/
def _cyttsp4_write_block_data {D : Type} (ops : cyttsp4_bus_ops D) (dev : D)
    (command : Nat) (buf : List Nat) (i2c_addr : Nat) : Int × D :=
  if buf.length = 0 then (err_inval, dev)
  else write_tries ops command buf i2c_addr ops.num_retry (-1) dev

/-! ## Driver data model -/

inductive cyttsp4_driver_state where
  | CY_IDLE_STATE
  | CY_READY_STATE
  | CY_ACTIVE_STATE
  | CY_SLEEP_STATE
  | CY_BL_STATE
  | CY_SYSINFO_STATE
  | CY_CMD_STATE
  | CY_EXIT_BL_STATE
  | CY_TRANSFER_STATE
  | CY_OPCMD_STATE
  | CY_INVALID_STATE
  deriving DecidableEq, Repr

inductive cyttsp4_controller_mode where
  | CY_MODE_BOOTLOADER
  | CY_MODE_SYSINFO
  | CY_MODE_OPERATIONAL
  | CY_MODE_CONFIG
  | CY_MODE_NUM
  deriving DecidableEq, Repr

open cyttsp4_driver_state cyttsp4_controller_mode

def CY_HANDSHAKE_BIT : Nat := 0x80
def CY_LOW_POWER_MODE : Nat := 0x04
def CY_MODE_CHANGE : Nat := 0x08
def CY_OPERATE_MODE : Nat := 0x00
def CY_SYSINFO_MODE : Nat := 0x10
def CY_CONFIG_MODE : Nat := 0x20
def CY_CMD_RDY_BIT : Nat := 0x40
def CY_REG_BASE : Nat := 0x00
def CY_TEN_SEC_TMO_MS : Nat := 10000
def CY_HALF_SEC_TMO_MS : Nat := 500
def CY_NUM_TCH_ID : Nat := 10
def CY_NUM_DAT : Nat := 6
def CY_IGNORE_VALUE : Nat := 0xFFFF
def CY_NUM_ABS_SET : Nat := 5
def CY_SIGNAL_OST : Nat := 0
def CY_MIN_OST : Nat := 1
def CY_MAX_OST : Nat := 2
def CY_ABS_X_OST : Nat := 0
def CY_ABS_W_OST : Nat := 3
def CY_ABS_ID_OST : Nat := 4
def CY_TCH_X : Nat := 0
def CY_TCH_Y : Nat := 1
def CY_TCH_P : Nat := 2
def CY_TCH_T : Nat := 3
def CY_TCH_E : Nat := 4
def CY_TCH_O : Nat := 5
def CY_TCH_W : Nat := 6
def CY_TCH_NUM_ABS : Nat := 7
def CY_EV_LIFTOFF : Nat := 3
def CY_NUM_BTN_PER_REG : Nat := 4
def CY_NUM_BTN_EVENT_ID : Nat := 4
def CY_BITS_PER_BTN : Nat := 2
def CY_BTN_RELEASED : Int := 0
def CY_BTN_PRESSED : Int := 1
/-- `BTN_TOUCH` of `linux/input.h`. -/
def BTN_TOUCH : Nat := 0x14a

/-- `struct cyttsp4_tch_abs_params`. -/
structure cyttsp4_tch_abs_params where
  ofs : Nat
  size : Nat
  max : Nat
  bofs : Nat
  deriving DecidableEq, Repr, Inhabited

/-- `struct cyttsp4_sysinfo_ofs` (all fields `size_t`), without
`btn_keys_size`, which is a multiple of `sizeof(struct cyttsp4_btn)`.  The
fields used by the report path come first; the others are those that only
`_cyttsp4_get_sysinfo_regs` sets. -/
structure cyttsp4_sysinfo_ofs where
  cmd_ofs : Nat
  rep_ofs : Nat
  num_btns : Nat
  num_btn_regs : Nat
  tt_stat_ofs : Nat
  tch_rec_siz : Nat
  max_tchs : Nat
  mode_size : Nat
  tch_abs : List cyttsp4_tch_abs_params
  rep_sz : Nat := 0
  obj_cfg0 : Nat := 0
  data_size : Nat := 0
  map_sz : Nat := 0
  cydata_ofs : Nat := 0
  test_ofs : Nat := 0
  pcfg_ofs : Nat := 0
  opcfg_ofs : Nat := 0
  ddata_ofs : Nat := 0
  mdata_ofs : Nat := 0
  cydata_size : Nat := 0
  test_size : Nat := 0
  pcfg_size : Nat := 0
  opcfg_size : Nat := 0
  ddata_size : Nat := 0
  mdata_size : Nat := 0
  btn_rec_siz : Nat := 0
  btn_diff_ofs : Nat := 0
  btn_diff_siz : Nat := 0
  deriving DecidableEq, Repr, Inhabited

/-- `struct cyttsp4_sysinfo_ptr`: the six blocks read from the device; a NULL
pointer is the empty list. -/
structure cyttsp4_sysinfo_ptr where
  cydata : List Nat := []
  test : List Nat := []
  pcfg : List Nat := []
  opcfg : List Nat := []
  ddata : List Nat := []
  mdata : List Nat := []
  deriving DecidableEq, Repr, Inhabited

/-- `struct cyttsp4_btn`. -/
structure cyttsp4_btn where
  enabled : Bool
  state : Int
  key_code : Nat
  deriving DecidableEq, Repr, Inhabited

/-- What the driver hands to the input layer, one constructor per call:
`input_report_key`, `input_report_abs`, `input_mt_sync`, `input_sync`. -/
inductive input_event where
  | report_key (code : Nat) (value : Int)
  | report_abs (code : Nat) (value : Int)
  | mt_sync
  | sync
  deriving DecidableEq, Repr

/-- `struct cyttsp4`, restricted to the fields the modelled functions touch.
`input` is the sequence of calls made on `ts->input`, oldest first;
`frmwrk_abs` is `platform_data->frmwrk->abs` (a `uint16_t` table),
`addr_tch` is `platform_data->addr[CY_TCH_ADDR_OFS]`, `sysinfo_data` holds the
16 bytes of `struct cyttsp4_sysinfo_data`, and `btn_keys` is the `u16` table
`platform_data->sett[CY_IC_GRPNUM_BTN_KEYS]->data` with its `size` as length
(empty when the setting or its data is NULL).  `addr_ldr` is
`platform_data->addr[CY_LDR_ADDR_OFS]`, and `fw_img` is the firmware image
`platform_data->fw->img` with `platform_data->fw->size` as its length (`none`
for a NULL pointer).  `test_cur_mode` is `ts->test.cur_mode`. -/
structure cyttsp4 where
  driver_state : cyttsp4_driver_state
  current_mode : cyttsp4_controller_mode
  low_power_enable : Bool
  si_ofs : cyttsp4_sysinfo_ofs
  btn : List cyttsp4_btn
  xy_mode : List Nat
  xy_data : List Nat
  xy_data_touch1 : List Nat
  num_prv_tch : Int
  prev_record_count : Nat
  frmwrk_abs : List Nat
  addr_tch : Nat
  input : List input_event
  sysinfo_data : List Nat := []
  sysinfo_ptr : cyttsp4_sysinfo_ptr := {}
  btn_rec_data : List Nat := []
  btn_keys : List Nat := []
  addr_ldr : Nat := 0
  soft_reset_asserted : Bool := false
  switch_flag : Bool := false
  powered : Bool := false
  fw_img : Option (List Nat) := none
  test_cur_mode : Nat := 0
  suspend_blocked : Bool := false
  charger_hdmi_update_pending : Bool := false
  deriving DecidableEq, Repr

/-- Element `i` of `platform_data->frmwrk->abs`. -/
def frmwrk_abs_at (ts : cyttsp4) (i : Nat) : Nat := (ts.frmwrk_abs.getD i 0) % 65536

/-- The value of a C `int` held as a 32-bit pattern. -/
def s32 (p : Nat) : Int := if p % 4294967296 < 2147483648 then (p % 4294967296 : Nat)
  else ((p % 4294967296 : Nat) : Int) - 4294967296

/-- `_cyttsp4_change_state`. -/
def _cyttsp4_change_state (ts : cyttsp4) (new_state : cyttsp4_driver_state) : cyttsp4 :=
  { ts with driver_state := new_state }

/-- One call on `ts->input`. -/
def emit (ts : cyttsp4) (e : input_event) : cyttsp4 :=
  { ts with input := ts.input ++ [e] }

/-! ## Command and mode control -/

/-- `_cyttsp4_chk_cmd_rdy`. -/
def _cyttsp4_chk_cmd_rdy (cmd : Nat) : Bool := (cmd &&& CY_CMD_RDY_BIT) != 0

/-- `_cyttsp4_chk_mode_change`. -/
def _cyttsp4_chk_mode_change (cmd : Nat) : Bool := (cmd &&& CY_MODE_CHANGE) == 0

/-- The part of `_cyttsp4_put_cmd_wait` from the label
`_cyttsp4_put_cmd_wait_retry` up to the exit label, with `n = 2 - tries` extra
waits left: the return code, the local `cmd`, whether the "got command ready"
branch ran, and the device afterwards. -/
def put_cmd_wait_retry {D : Type} (ops : cyttsp4_bus_ops D) (ofs timeout_ms : Nat)
    (cond : Option (Nat → Bool)) (i2c_addr : Nat) :
    Nat → Nat → D → Int × Nat × Bool × D
  | n, cmd, dev =>
    let w := ops.wait dev timeout_ms
    let r := _cyttsp4_read_block_data ops w.2 ofs 1 [cmd] i2c_addr
    let cmd1 := ld8 r.2.1 0
    match cond with
    | some c =>
      if !(c cmd1) then
        if w.1 = 0 then (err_timedout, cmd1, false, r.2.2)
        else
          match n with
          | k + 1 => put_cmd_wait_retry ops ofs timeout_ms cond i2c_addr k cmd1 r.2.2
          | 0 => (err_io, cmd1, false, r.2.2)
      else (0, cmd1, true, r.2.2)
    | none => (0, cmd1, true, r.2.2)

/-- `_cyttsp4_put_cmd_wait(ts, ofs, cmd_len, cmd_buf, timeout_ms, cond, retcmd,
i2c_addr, true, cmd_state)`.  `retcmd` is `none` for a NULL pointer and
`some v` for a pointer to a byte holding `v`; the second component of the
result is that byte afterwards. -/
def _cyttsp4_put_cmd_wait {D : Type} (ops : cyttsp4_bus_ops D) (ts : cyttsp4) (dev : D)
    (ofs : Nat) (cmd_buf : List Nat) (timeout_ms : Nat) (cond : Option (Nat → Bool))
    (retcmd : Option Nat) (i2c_addr : Nat) (cmd_state : cyttsp4_driver_state) :
    Int × Option Nat × cyttsp4 × D :=
  let tmp_state := ts.driver_state
  let ts := if cmd_state ≠ CY_OPCMD_STATE then _cyttsp4_change_state ts CY_TRANSFER_STATE
    else ts
  let ts := _cyttsp4_change_state ts cmd_state
  let w := _cyttsp4_write_block_data ops dev ofs cmd_buf i2c_addr
  if w.1 < 0 then
    (w.1, retcmd, _cyttsp4_change_state ts tmp_state, w.2)
  else
    let r := put_cmd_wait_retry ops ofs timeout_ms cond i2c_addr 2 0 w.2
    let retcmd := if r.2.2.1 then retcmd.map (fun _ => r.2.1) else retcmd
    (r.1, retcmd, _cyttsp4_change_state ts tmp_state, r.2.2.2)

/-- The byte `_cyttsp4_handshake` writes for `hst_mode`. -/
def handshake_cmd (ts : cyttsp4) (hst_mode : Nat) : Nat :=
  let hst_mode := hst_mode % 256
  let cmd := if hst_mode &&& CY_HANDSHAKE_BIT ≠ 0 then hst_mode &&& (0xFF - CY_HANDSHAKE_BIT)
    else hst_mode ||| CY_HANDSHAKE_BIT
  if ts.low_power_enable then cmd ||| CY_LOW_POWER_MODE
  else cmd &&& (0xFF - CY_LOW_POWER_MODE)

/-- `_cyttsp4_handshake(ts, hst_mode)`. -/
def _cyttsp4_handshake {D : Type} (ops : cyttsp4_bus_ops D) (ts : cyttsp4) (dev : D)
    (hst_mode : Nat) : Int × D :=
  _cyttsp4_write_block_data ops dev CY_REG_BASE [handshake_cmd ts hst_mode] ts.addr_tch

/-- `_cyttsp4_handshake_enable(ts)`. -/
def _cyttsp4_handshake_enable {D : Type} (ops : cyttsp4_bus_ops D) (ts : cyttsp4) (dev : D) :
    Int × cyttsp4 × D :=
  let cmd_dat := [0x26, 0x03, 0, 0, 0, 0, 0]
  let p := _cyttsp4_put_cmd_wait ops ts dev ts.si_ofs.cmd_ofs cmd_dat CY_HALF_SEC_TMO_MS
    (some _cyttsp4_chk_cmd_rdy) none ts.addr_tch CY_CMD_STATE
  if p.1 < 0 then (p.1, p.2.2.1, p.2.2.2)
  else
    let r := _cyttsp4_read_block_data ops p.2.2.2 ts.si_ofs.cmd_ofs (CY_NUM_DAT + 1) cmd_dat
      ts.addr_tch
    (r.1, p.2.2.1, r.2.2)

/-- `_cyttsp4_set_device_mode(ts, new_mode, new_cur_mode, mode)`. -/
def _cyttsp4_set_device_mode {D : Type} (ops : cyttsp4_bus_ops D) (ts : cyttsp4) (dev : D)
    (new_mode : Nat) (new_cur_mode : cyttsp4_controller_mode) : Int × cyttsp4 × D :=
  let cmd := (new_mode + CY_MODE_CHANGE) % 256
  let p := _cyttsp4_put_cmd_wait ops ts dev CY_REG_BASE [cmd] CY_TEN_SEC_TMO_MS
    (some _cyttsp4_chk_mode_change) (some cmd) ts.addr_tch CY_CMD_STATE
  let ts := p.2.2.1
  let cmd := p.2.1.getD cmd
  if p.1 < 0 then (p.1, ts, p.2.2.2)
  else if cmd ≠ new_mode then (err_io, ts, p.2.2.2)
  else
    let ts := { ts with current_mode := new_cur_mode }
    let h := _cyttsp4_handshake ops ts p.2.2.2 cmd
    (0, ts, h.2)

/-- `_cyttsp4_set_mode(ts, new_mode)`. -/
def _cyttsp4_set_mode {D : Type} (ops : cyttsp4_bus_ops D) (ts : cyttsp4) (dev : D)
    (new_mode : Nat) : Int × cyttsp4 × D :=
  if new_mode = CY_OPERATE_MODE then
    let ts := _cyttsp4_change_state ts CY_READY_STATE
    let r := _cyttsp4_set_device_mode ops ts dev new_mode CY_MODE_OPERATIONAL
    if r.1 < 0 then (r.1, _cyttsp4_change_state r.2.1 CY_IDLE_STATE, r.2.2)
    else (r.1, _cyttsp4_change_state r.2.1 CY_ACTIVE_STATE, r.2.2)
  else if new_mode = CY_SYSINFO_MODE then
    let r := _cyttsp4_set_device_mode ops ts dev new_mode CY_MODE_SYSINFO
    if r.1 < 0 then (r.1, _cyttsp4_change_state r.2.1 CY_IDLE_STATE, r.2.2)
    else (r.1, _cyttsp4_change_state r.2.1 CY_SYSINFO_STATE, r.2.2)
  else if new_mode = CY_CONFIG_MODE then
    let new_state := ts.driver_state
    let r := _cyttsp4_set_device_mode ops ts dev new_mode CY_MODE_OPERATIONAL
    if r.1 < 0 then (r.1, _cyttsp4_change_state r.2.1 CY_IDLE_STATE, r.2.2)
    else (r.1, _cyttsp4_change_state r.2.1 new_state, r.2.2)
  else (err_inval, ts, dev)

/-! ## Touch extraction -/

/-- The loop of `_cyttsp4_get_touch_axis` with `n` bytes left:
`*axis = (*axis * 256) + (xy_data[next] >> bofs); next++`, on 32-bit `int`. -/
def get_touch_axis_loop (xy_data : List Nat) (bofs : Nat) : Nat → Nat → Nat → Nat
  | 0, axis, _ => axis
  | n + 1, axis, next =>
    get_touch_axis_loop xy_data bofs n
      ((axis * 256 + (ld8 xy_data next >>> bofs)) % 4294967296) (next + 1)

/-- `_cyttsp4_get_touch_axis(ts, abs, axis, size, max, xy_data, bofs)`: the
value left in `*axis`, as a 32-bit pattern; `max - 1` is taken on 32 bits. -/
def _cyttsp4_get_touch_axis (size max : Nat) (xy_data : List Nat) (bofs : Nat) : Nat :=
  get_touch_axis_loop xy_data bofs size 0 0 &&& ((max + 4294967295) % 4294967296)

/-- `_cyttsp4_get_touch(ts, touch, xy_data)`: the seven entries of
`touch->abs`, in the order of `enum cyttsp4_tch_abs`. -/
def _cyttsp4_get_touch (ts : cyttsp4) (xy_data : List Nat) : List Nat :=
  (List.range CY_TCH_NUM_ABS).map (fun abs =>
    let p := ts.si_ofs.tch_abs.getD abs default
    _cyttsp4_get_touch_axis p.size p.max (xy_data.drop p.ofs) p.bofs)

/-- The position and pressure loop `for (j = 0; j < CY_ABS_W_OST; j++)` of
`_cyttsp4_get_mt_touches`, with `n` signals left. -/
def report_pos_loop (touch : List Nat) : Nat → Nat → cyttsp4 → cyttsp4
  | 0, _, ts => ts
  | n + 1, j, ts =>
    let signal := frmwrk_abs_at ts ((CY_ABS_X_OST + j) * CY_NUM_ABS_SET + 0)
    let ts := if signal ≠ CY_IGNORE_VALUE then
        emit ts (.report_abs signal (s32 (touch.getD (CY_TCH_X + j) 0)))
      else ts
    report_pos_loop touch n (j + 1) ts

/-- Body of the loop of `_cyttsp4_get_mt_touches` for contact `i`; the state is
the driver context and the local `mt_sync_count`. -/
def get_mt_touches_body (i : Nat) (st : cyttsp4 × Nat) : cyttsp4 × Nat :=
  let ts := st.1
  let touch := _cyttsp4_get_touch ts (ts.xy_data.drop (i * ts.si_ofs.tch_rec_siz))
  let id := s32 (touch.getD CY_TCH_T 0)
  let id_min : Int := frmwrk_abs_at ts (CY_ABS_ID_OST * CY_NUM_ABS_SET + CY_MIN_OST)
  let id_max : Int := frmwrk_abs_at ts (CY_ABS_ID_OST * CY_NUM_ABS_SET + CY_MAX_OST)
  if id < id_min ∨ id > id_max then
    (emit ts .mt_sync, st.2 + 1)
  else
    let signal := frmwrk_abs_at ts (CY_ABS_ID_OST * CY_NUM_ABS_SET + 0)
    if signal ≠ CY_IGNORE_VALUE ∧ s32 (touch.getD CY_TCH_E 0) = CY_EV_LIFTOFF then
      st
    else
      let ts := if signal ≠ CY_IGNORE_VALUE then emit ts (.report_abs signal (id - id_min))
        else ts
      let ts := report_pos_loop touch CY_ABS_W_OST 0 ts
      let signal := frmwrk_abs_at ts (CY_ABS_W_OST * CY_NUM_ABS_SET + 0)
      let ts := if signal ≠ CY_IGNORE_VALUE then
          emit ts (.report_abs signal (s32 (touch.getD CY_TCH_W 0)))
        else ts
      (emit ts .mt_sync, st.2 + 1)

/-- The loop `for (i = 0; i < num_cur_tch; i++)` of `_cyttsp4_get_mt_touches`
with `n` contacts left. -/
def get_mt_touches_loop : Nat → Nat → cyttsp4 × Nat → cyttsp4 × Nat
  | 0, _, st => st
  | n + 1, i, st => get_mt_touches_loop n (i + 1) (get_mt_touches_body i st)

/-- `_cyttsp4_get_mt_touches(ts, num_cur_tch)`. -/
def _cyttsp4_get_mt_touches (ts : cyttsp4) (num_cur_tch : Nat) : cyttsp4 :=
  let st := get_mt_touches_loop num_cur_tch 0 (ts, 0)
  let ts := if st.2 ≠ 0 then emit st.1 .sync else st.1
  { ts with num_prv_tch := num_cur_tch }

/-! ## Buttons -/

/-- The 2-bit field of button `btn` inside a button register:
`(cur_btn_mask >> (btn * CY_BITS_PER_BTN)) & (CY_NUM_BTN_EVENT_ID - 1)`. -/
def btn_field (cur_btn_mask btn : Nat) : Nat :=
  (cur_btn_mask >>> (btn * CY_BITS_PER_BTN)) &&& (CY_NUM_BTN_EVENT_ID - 1)

/-- Assignment `ts->btn[idx].state = v`. -/
def set_btn_state (ts : cyttsp4) (idx : Nat) (v : Int) : cyttsp4 :=
  { ts with btn := ts.btn.modify (fun b => { b with state := v }) idx }

/-- Loop body of `_cyttsp4_btn_key_release` for `btn`. -/
def btn_key_release_body (cur_btn cur_btn_mask btn : Nat) (ts : cyttsp4) : cyttsp4 :=
  match ts.btn[cur_btn + btn]? with
  | none => ts
  | some b =>
    if b.enabled ∧ btn_field cur_btn_mask btn = 0 ∧ b.state = CY_BTN_PRESSED then
      let ts := emit ts (.report_key b.key_code CY_BTN_RELEASED)
      let ts := set_btn_state ts (cur_btn + btn) CY_BTN_RELEASED
      emit ts .sync
    else ts

/-- Loop body of `_cyttsp4_btn_key_press` for `btn`. -/
def btn_key_press_body (cur_btn cur_btn_mask btn : Nat) (ts : cyttsp4) : cyttsp4 :=
  match ts.btn[cur_btn + btn]? with
  | none => ts
  | some b =>
    if b.enabled ∧ btn_field cur_btn_mask btn = 1 ∧ b.state = CY_BTN_RELEASED then
      let ts := emit ts (.report_key b.key_code CY_BTN_PRESSED)
      let ts := set_btn_state ts (cur_btn + btn) CY_BTN_PRESSED
      emit ts .sync
    else ts

/-- A `for (btn = 0; btn < num_btns; btn++)` loop with `n` iterations left. -/
def btn_loop (body : Nat → cyttsp4 → cyttsp4) : Nat → Nat → cyttsp4 → cyttsp4
  | 0, _, ts => ts
  | n + 1, btn, ts => btn_loop body n (btn + 1) (body btn ts)

/-- `_cyttsp4_btn_key_release(ts, cur_btn, cur_btn_mask, num_btns)`. -/
def _cyttsp4_btn_key_release (ts : cyttsp4) (cur_btn cur_btn_mask num_btns : Nat) : cyttsp4 :=
  btn_loop (btn_key_release_body cur_btn cur_btn_mask) num_btns 0 ts

/-- `_cyttsp4_btn_key_press(ts, cur_btn, cur_btn_mask, num_btns)`. -/
def _cyttsp4_btn_key_press (ts : cyttsp4) (cur_btn cur_btn_mask num_btns : Nat) : cyttsp4 :=
  btn_loop (btn_key_press_body cur_btn cur_btn_mask) num_btns 0 ts

/-- The register loop of `_cyttsp4_xy_worker` for one `btn_state`, with `n`
registers left; `num_cur_btn` is a C `int`. -/
def btn_reg_loop (btn_state : Int) : Nat → Nat → Nat → Int → cyttsp4 → cyttsp4
  | 0, _, _, _, ts => ts
  | n + 1, cur_reg, cur_btn, num_cur_btn, ts =>
    let ts :=
      if num_cur_btn > 0 then
        let cur_btn_mask := ld8 ts.xy_mode (ts.si_ofs.rep_ofs + 2 + cur_reg)
        let i := if num_cur_btn / CY_NUM_BTN_PER_REG ≠ 0 then (CY_NUM_BTN_PER_REG : Int)
          else num_cur_btn
        if btn_state = CY_BTN_RELEASED then
          _cyttsp4_btn_key_release ts cur_btn cur_btn_mask i.toNat
        else if btn_state = CY_BTN_PRESSED then
          _cyttsp4_btn_key_press ts cur_btn cur_btn_mask i.toNat
        else ts
      else ts
    btn_reg_loop btn_state n (cur_reg + 1) (cur_btn + CY_NUM_BTN_PER_REG)
      (num_cur_btn - CY_NUM_BTN_PER_REG) ts

/-- The button section of `_cyttsp4_xy_worker`
(`if (ts->si_ofs.num_btns > 0) { for (btn_state = ...) ... }`). -/
def xy_worker_buttons (ts : cyttsp4) : cyttsp4 :=
  if ts.si_ofs.num_btns > 0 then
    let ts := btn_reg_loop CY_BTN_RELEASED ts.si_ofs.num_btn_regs 0 0 ts.si_ofs.num_btns ts
    btn_reg_loop CY_BTN_PRESSED ts.si_ofs.num_btn_regs 0 0 ts.si_ofs.num_btns ts
  else ts

/-! ## The report worker -/

def GET_NUM_TOUCHES (x : Nat) : Nat := x &&& 0x1F
def IS_LARGE_AREA (x : Nat) : Nat := x &&& 0x20
def IS_BAD_PKT (x : Nat) : Nat := x &&& 0x20
def GET_HSTMODE (reg : Nat) : Nat := (reg &&& 0x70) >>> 4
def IS_BOOTLOADERMODE (reg : Nat) : Nat := reg &&& 0x01
def GET_RECORD_COUNT (reg : Nat) : Nat := reg &&& 0xC0

/-- The last two branches of the condition chain of `_cyttsp4_xy_worker`
(`IS_LARGE_AREA(tt_stat)` and `num_cur_tch > ts->si_ofs.max_tchs`): the value
of `num_cur_tch` that goes on to extraction. -/
def xy_num_cur_tch (si_ofs : cyttsp4_sysinfo_ofs) (tt_stat : Nat) : Nat :=
  let num_cur_tch := GET_NUM_TOUCHES tt_stat
  if IS_LARGE_AREA tt_stat ≠ 0 then 0
  else if num_cur_tch > si_ofs.max_tchs then
    if num_cur_tch = 0x1F then 0 else CY_NUM_TCH_ID
  else num_cur_tch

/-- `_cyttsp4_xy_worker` from the `IS_LARGE_AREA` branch up to the button
section: touch count and touch extraction. -/
def xy_worker_touches (ts : cyttsp4) (rep_stat tt_stat : Nat) : cyttsp4 :=
  let num_cur_tch := xy_num_cur_tch ts.si_ofs tt_stat
  let ts := { ts with prev_record_count := GET_RECORD_COUNT rep_stat }
  if num_cur_tch ≠ 0 then
    let ts := if ts.num_prv_tch = 0 then emit ts (.report_key BTN_TOUCH CY_BTN_PRESSED)
      else ts
    _cyttsp4_get_mt_touches ts num_cur_tch
  else
    let ts := if ts.num_prv_tch ≠ 0 then
        emit (emit (emit ts (.report_key BTN_TOUCH CY_BTN_RELEASED)) .mt_sync) .sync
      else ts
    { ts with num_prv_tch := 0 }

/-- `_cyttsp4_xy_worker` from the `IS_LARGE_AREA` branch to the end: touch
count, touch extraction and the button section. -/
def xy_worker_extract (ts : cyttsp4) (rep_stat tt_stat : Nat) : cyttsp4 :=
  xy_worker_buttons (xy_worker_touches ts rep_stat tt_stat)

/-- `_cyttsp4_load_status_regs(ts)`. -/
def _cyttsp4_load_status_regs {D : Type} (ops : cyttsp4_bus_ops D) (ts : cyttsp4) (dev : D) :
    Int × cyttsp4 × D :=
  let r := _cyttsp4_read_block_data ops dev CY_REG_BASE ts.si_ofs.mode_size ts.xy_mode
    ts.addr_tch
  (if r.1 < 0 then err_io else r.1, { ts with xy_mode := r.2.1 }, r.2.2)

/-- `_cyttsp4_xy_worker(ts)`. -/
def _cyttsp4_xy_worker {D : Type} (ops : cyttsp4_bus_ops D) (ts : cyttsp4) (dev : D) :
    Int × cyttsp4 × D :=
  let ts := { ts with xy_mode := store ts.xy_mode 0 ts.si_ofs.mode_size [] }
  let cleared := store ts.xy_data_touch1 0 (1 + ts.si_ofs.tch_rec_siz) []
  let ts := { ts with xy_data_touch1 := cleared }
  let l := _cyttsp4_load_status_regs ops ts dev
  let ts := l.2.1
  if l.1 < 0 then (err_io, ts, l.2.2)
  else
    let r := _cyttsp4_read_block_data ops l.2.2 ts.si_ofs.tt_stat_ofs
      (1 + ts.si_ofs.tch_rec_siz) ts.xy_data_touch1 ts.addr_tch
    let ts := { ts with xy_data_touch1 := r.2.1 }
    if r.1 < 0 then (err_io, ts, r.2.2)
    else
      let hst_mode := ld8 ts.xy_mode CY_REG_BASE
      let rep_len := ld8 ts.xy_mode ts.si_ofs.rep_ofs
      let rep_stat := ld8 ts.xy_mode (ts.si_ofs.rep_ofs + 1)
      let tt_stat := ld8 ts.xy_data_touch1 0
      if rep_len = 0 then (r.1, ts, r.2.2)
      else
        let first := store ts.xy_data 0 ts.si_ofs.tch_rec_siz (ts.xy_data_touch1.drop 1)
        let ts := if GET_NUM_TOUCHES tt_stat > 0 then { ts with xy_data := first } else ts
        let r2 :=
          if GET_NUM_TOUCHES tt_stat > 1 then
            let len := (GET_NUM_TOUCHES tt_stat - 1) * ts.si_ofs.tch_rec_siz
            let q := _cyttsp4_read_block_data ops r.2.2
              (ts.si_ofs.tt_stat_ofs + 1 + ts.si_ofs.tch_rec_siz) len
              (ts.xy_data.drop ts.si_ofs.tch_rec_siz) ts.addr_tch
            let rest := store ts.xy_data ts.si_ofs.tch_rec_siz len q.2.1
            (q.1, { ts with xy_data := rest }, q.2.2)
          else (r.1, ts, r.2.2)
        let ts := r2.2.1
        if GET_NUM_TOUCHES tt_stat > 1 ∧ r2.1 < 0 then (r2.1, ts, r2.2.2)
        else
          let h := _cyttsp4_handshake ops ts r2.2.2 hst_mode
          let dev := h.2
          if ts.driver_state = CY_IDLE_STATE then (0, ts, dev)
          else if IS_BAD_PKT rep_stat ≠ 0 then (0, ts, dev)
          else if IS_BOOTLOADERMODE rep_stat ≠ 0 then (err_io, ts, dev)
          else if GET_HSTMODE hst_mode = GET_HSTMODE CY_SYSINFO_MODE then
            let m := _cyttsp4_set_mode ops ts dev CY_OPERATE_MODE
            if m.1 < 0 then (m.1, _cyttsp4_change_state m.2.1 CY_IDLE_STATE, m.2.2)
            else
              let e := _cyttsp4_handshake_enable ops
                (_cyttsp4_change_state m.2.1 CY_ACTIVE_STATE) m.2.2
              e
          else (0, xy_worker_extract ts rep_stat tt_stat, dev)

/-! ## Reference definitions for the touch extractor -/

/-- The `size` bytes of a field, in buffer order. -/
def field_bytes (size : Nat) (xy_data : List Nat) : List Nat :=
  (List.range size).map (ld8 xy_data)

/-- Big-endian accumulation, `value = value * 256 + byte` from the first byte
on. -/
def be_accumulate (bytes : List Nat) : Nat :=
  bytes.foldl (fun value byte => value * 256 + byte) 0

/-- The axis value when ONLY the first byte is shifted right by the bit
offset before the big-endian accumulation and the mask `max - 1`. -/
def axis_first_byte_shifted (size max : Nat) (xy_data : List Nat) (bofs : Nat) : Nat :=
  let shifted := match field_bytes size xy_data with
    | [] => []
    | b :: rest => (b >>> bofs) :: rest
  be_accumulate shifted &&& (max - 1)

/-- The axis value when EVERY byte is shifted right by the bit offset before
the big-endian accumulation and the mask `max - 1`. -/
def axis_every_byte_shifted (size max : Nat) (xy_data : List Nat) (bofs : Nat) : Nat :=
  be_accumulate ((field_bytes size xy_data).map (fun b => b >>> bofs)) &&& (max - 1)

/-- The touch record of contact `i`: the seven fields extracted from the bytes
at offset `i * tch_rec_siz` of the touch buffer. -/
def contact_record (ts : cyttsp4) (i : Nat) : List Nat :=
  _cyttsp4_get_touch ts (ts.xy_data.drop (i * ts.si_ofs.tch_rec_siz))

/-- The extracted track id of contact `i` lies outside the platform range. -/
def track_id_out_of_range (ts : cyttsp4) (i : Nat) : Prop :=
  s32 ((contact_record ts i).getD CY_TCH_T 0)
      < (frmwrk_abs_at ts (CY_ABS_ID_OST * CY_NUM_ABS_SET + CY_MIN_OST) : Int)
  ∨ s32 ((contact_record ts i).getD CY_TCH_T 0)
      > (frmwrk_abs_at ts (CY_ABS_ID_OST * CY_NUM_ABS_SET + CY_MAX_OST) : Int)

instance (ts : cyttsp4) (i : Nat) : Decidable (track_id_out_of_range ts i) := by
  unfold track_id_out_of_range; exact inferInstance


/-! ## Device models and sample data used by the concrete evaluations -/

/-- A device that takes every bus write, fails every bus read with `-EIO`
and completes every wait by an interrupt. -/
def bus_read_fails : cyttsp4_bus_ops Unit where
  read := fun d _ _ _ => (-5, [], d)
  write := fun d _ _ _ => (0, d)
  wait := fun d _ => (1, d)
  num_retry := 2

/-- A device that refuses every bus write with `-EIO`. -/
def bus_write_fails : cyttsp4_bus_ops Unit where
  read := fun d _ _ _ => (0, [0], d)
  write := fun d _ _ _ => (-5, d)
  wait := fun d _ => (1, d)
  num_retry := 2

/-- A device that acknowledges mode changes: its state is the host-mode
register; a read of register 0 returns it with the mode-change bit cleared. -/
def bus_mode_ack : cyttsp4_bus_ops Nat where
  read := fun d command _ _ => (0, if command = 0 then [d &&& 0xF7] else [0], d)
  write := fun d command buf _ => (0, if command = 0 then buf.getD 0 0 else d)
  wait := fun d _ => (1, d)
  num_retry := 2

/-- A touch-record layout with ten-byte records: X and Y on two bytes each,
pressure on one byte, track id in the low five bits and event id in bits 5..6
of byte 5, object id in byte 6 and size in byte 7. -/
def sample_si_ofs : cyttsp4_sysinfo_ofs where
  cmd_ofs := 2
  rep_ofs := 17
  num_btns := 0
  num_btn_regs := 0
  tt_stat_ofs := 34
  tch_rec_siz := 10
  max_tchs := 10
  mode_size := 35
  tch_abs := [⟨0, 2, 0x10000, 0⟩, ⟨2, 2, 0x10000, 0⟩, ⟨4, 1, 0x100, 0⟩, ⟨5, 1, 0x20, 0⟩,
    ⟨5, 1, 4, 5⟩, ⟨6, 1, 4, 0⟩, ⟨7, 1, 0x100, 0⟩]

/-- A platform signal table in the order X, Y, P, W, ID (signal, min, max,
fuzz, flat): `ABS_MT_POSITION_X`, `ABS_MT_POSITION_Y`, `ABS_MT_PRESSURE`,
`ABS_MT_TOUCH_MAJOR`, `ABS_MT_TRACKING_ID` with track ids 0..15. -/
def sample_frmwrk_abs : List Nat :=
  [0x35, 0, 1279, 0, 0, 0x36, 0, 799, 0, 0, 0x3a, 0, 255, 0, 0, 0x30, 0, 255, 0, 0,
   0x39, 0, 15, 0, 0]

/-- A driver context in the bootloader state with the sample layout. -/
def sample_ts : cyttsp4 where
  driver_state := CY_BL_STATE
  current_mode := CY_MODE_BOOTLOADER
  low_power_enable := false
  si_ofs := sample_si_ofs
  btn := []
  xy_mode := []
  xy_data := []
  xy_data_touch1 := []
  num_prv_tch := 0
  prev_record_count := 0
  frmwrk_abs := sample_frmwrk_abs
  addr_tch := 0x67
  input := []

/-- The parts of the driver context that touch extraction reads. -/
def same_touch_cfg (a b : cyttsp4) : Prop :=
  a.xy_data = b.xy_data ∧ a.si_ofs = b.si_ofs ∧ a.frmwrk_abs = b.frmwrk_abs

/-! ## Reference definitions for the touch report -/

/-- Contact `i` is well formed: its track id is inside the platform range and
its event id is not lift-off. -/
def contact_valid (ts : cyttsp4) (i : Nat) : Prop :=
  ¬ track_id_out_of_range ts i
  ∧ s32 ((contact_record ts i).getD CY_TCH_E 0) ≠ (CY_EV_LIFTOFF : Int)

instance (ts : cyttsp4) (i : Nat) : Decidable (contact_valid ts i) := by
  unfold contact_valid; exact inferInstance

/-- The report of one value on the platform signal stored at `signal_index`,
or nothing when the platform sets that signal to `CY_IGNORE_VALUE`. -/
def abs_event (ts : cyttsp4) (signal_index : Nat) (value : Int) : List input_event :=
  if frmwrk_abs_at ts signal_index ≠ CY_IGNORE_VALUE then
    [input_event.report_abs (frmwrk_abs_at ts signal_index) value]
  else []

/-- The X value of the touch record of contact `i`. -/
def contact_x (ts : cyttsp4) (i : Nat) : Int := s32 ((contact_record ts i).getD CY_TCH_X 0)

/-- The Y value of the touch record of contact `i`. -/
def contact_y (ts : cyttsp4) (i : Nat) : Int := s32 ((contact_record ts i).getD CY_TCH_Y 0)

/-- The bytes of touch record `i`: the touch buffer from offset
`i * tch_rec_siz` on. -/
def record_bytes (ts : cyttsp4) (i : Nat) : List Nat :=
  ts.xy_data.drop (i * ts.si_ofs.tch_rec_siz)

/-- Several calls on `ts->input` in a row. -/
def emit_list (ts : cyttsp4) (evs : List input_event) : cyttsp4 :=
  { ts with input := ts.input ++ evs }

/-- The contact record sent to the input layer for a well-formed contact `i`:
zero-based track id, X, Y, pressure and size, each on its platform signal
unless that signal is ignored, closed by one multi-touch sync. -/
def contact_events (ts : cyttsp4) (i : Nat) : List input_event :=
  abs_event ts (CY_ABS_ID_OST * CY_NUM_ABS_SET + 0)
      (s32 ((contact_record ts i).getD CY_TCH_T 0)
        - (frmwrk_abs_at ts (CY_ABS_ID_OST * CY_NUM_ABS_SET + CY_MIN_OST) : Int))
    ++ abs_event ts ((CY_ABS_X_OST + 0) * CY_NUM_ABS_SET + 0) (contact_x ts i)
    ++ abs_event ts ((CY_ABS_X_OST + 1) * CY_NUM_ABS_SET + 0) (contact_y ts i)
    ++ abs_event ts ((CY_ABS_X_OST + 2) * CY_NUM_ABS_SET + 0)
        (s32 ((contact_record ts i).getD CY_TCH_P 0))
    ++ abs_event ts (CY_ABS_W_OST * CY_NUM_ABS_SET + 0)
        (s32 ((contact_record ts i).getD CY_TCH_W 0))
    ++ [input_event.mt_sync]

/-- Two ten-byte touch records: contact 0 at X = 0x0123, Y = 0x0045, pressure
0x20, track id 1, touch-down; contact 1 at X = 0x0234, Y = 0x0156, pressure
0x30, track id 2, move. -/
def sample_xy_data : List Nat :=
  [0x01, 0x23, 0x00, 0x45, 0x20, 0x21, 0x00, 0x05, 0x00, 0x00,
   0x02, 0x34, 0x01, 0x56, 0x30, 0x42, 0x00, 0x06, 0x00, 0x00]

/-- An active driver context holding the two sample records, previous touch
count 0. -/
def sample_ts_two_touches : cyttsp4 :=
  { sample_ts with driver_state := CY_ACTIVE_STATE, current_mode := CY_MODE_OPERATIONAL,
                   xy_data := sample_xy_data }

/-- The same context on a platform that sets the X signal to
`CY_IGNORE_VALUE`. -/
def sample_ts_x_ignored : cyttsp4 :=
  { sample_ts_two_touches with frmwrk_abs := sample_frmwrk_abs.set 0 0xFFFF }

/-- A context whose first record carries track id 31, above the platform
maximum 15. -/
def sample_ts_bad_id : cyttsp4 :=
  { sample_ts_two_touches with xy_data := sample_xy_data.set 5 0x3F }

/-! ## Reference definitions for the button report -/

/-- The fresh 2-bit value of button `b` in the mode registers: bits
`2 * (b mod 4)` and `2 * (b mod 4) + 1` of button register `b div 4`. -/
def btn_fresh (ts : cyttsp4) (b : Nat) : Nat :=
  btn_field (ld8 ts.xy_mode (ts.si_ofs.rep_ofs + 2 + b / 4)) (b % 4)

/-- The key events of a trace that carry key code `code`. -/
def key_events (code : Nat) (evs : List input_event) : List input_event :=
  evs.filter (fun e => match e with
    | input_event.report_key c _ => c == code
    | _ => false)

/-- An edge step on one button: when the button is enabled, its 2-bit field
equals `trig` and its stored state is `src`, the key event with value `to` is
sent, the stored state becomes `to` and an input sync follows.  The release
body is the instance `(0, PRESSED, RELEASED)`, the press body the instance
`(1, RELEASED, PRESSED)`. -/
def btn_edge_body (trig : Nat) (src dst : Int) (cur_btn cur_btn_mask btn : Nat)
    (ts : cyttsp4) : cyttsp4 :=
  match ts.btn[cur_btn + btn]? with
  | none => ts
  | some b =>
    if b.enabled ∧ btn_field cur_btn_mask btn = trig ∧ b.state = src then
      emit (set_btn_state (emit ts (.report_key b.key_code dst)) (cur_btn + btn) dst) .sync
    else ts

/-- What never changes during a button report: mode registers, layout, the
number of buttons and each button's `enabled` flag and key code. -/
def btn_frame (t ts : cyttsp4) : Prop :=
  t.xy_mode = ts.xy_mode ∧ t.si_ofs = ts.si_ofs ∧ t.btn.length = ts.btn.length
  ∧ ∀ j : Nat, (t.btn[j]?).map (fun (x : cyttsp4_btn) => (x.enabled, x.key_code))
      = (ts.btn[j]?).map (fun (x : cyttsp4_btn) => (x.enabled, x.key_code))

/-- Progress invariant of one pass over the buttons, seen from button `b` with
key code `c`, fresh value `f` and stored state `s` at the start of the pass:
after the buttons below `p` have been examined. -/
def btn_pass_inv (ts0 : cyttsp4) (b c f : Nat) (s : Int) (trig : Nat) (src dst : Int)
    (p : Nat) (t : cyttsp4) : Prop :=
  btn_frame t ts0
  ∧ (t.btn[b]?).map (fun (x : cyttsp4_btn) => x.state)
      = some (if b < p ∧ f = trig ∧ s = src then dst else s)
  ∧ key_events c t.input
      = key_events c ts0.input
        ++ (if b < p ∧ f = trig ∧ s = src then [input_event.report_key c dst] else [])

/-- Button `b` of the context is an enabled button in state `s`, Released or
Pressed, with key code `c` that no other button uses; the button table has
`num_btns` entries and `num_btn_regs` is `ceil(num_btns / 4)`, as set up by
`_cyttsp4_get_sysinfo_regs`. -/
def btn_ok (ts : cyttsp4) (b c : Nat) (s : Int) : Prop :=
  ts.si_ofs.num_btns = ts.btn.length
  ∧ ts.si_ofs.num_btn_regs = (ts.si_ofs.num_btns + 3) / 4
  ∧ (s = CY_BTN_RELEASED ∨ s = CY_BTN_PRESSED)
  ∧ (∃ bt : cyttsp4_btn, ts.btn[b]? = some bt ∧ bt.enabled = true ∧ bt.key_code = c
      ∧ bt.state = s)
  ∧ ∀ (j : Nat) (x : cyttsp4_btn), ts.btn[j]? = some x → j ≠ b → x.key_code ≠ c

/-- A sequence of reports seen by the button section: each report loads the
mode registers `m` and runs the button section of `_cyttsp4_xy_worker`. -/
def button_reports (ts : cyttsp4) : List (List Nat) → cyttsp4
  | [] => ts
  | m :: ms => button_reports (xy_worker_buttons { ts with xy_mode := m }) ms

/-- The values of a sequence that differ from their predecessor, the first
one being compared with `s`. -/
def edges (s : Int) : List Nat → List Nat
  | [] => []
  | v :: vs => (if (v : Int) ≠ s then [v] else []) ++ edges v vs

/-- The last value of a sequence, or `s` for the empty sequence. -/
def last_value (s : Int) : List Nat → Int
  | [] => s
  | v :: vs => last_value v vs

/-- A context with one enabled button (key code 158) in the Released
state. -/
def sample_ts_one_button : cyttsp4 :=
  { sample_ts with
      driver_state := CY_ACTIVE_STATE
      si_ofs := { sample_si_ofs with num_btns := 1, num_btn_regs := 1, rep_ofs := 0 }
      btn := [⟨true, 0, 158⟩] }

/-- Mode registers whose first button register holds the 2-bit value `v` for
button 0. -/
def sample_mode_regs (v : Nat) : List Nat := [0, 0, v]

/-- The events one pass sends for button `b` (its slot in the pass): the key
event with value `dst` and an input sync when the button is enabled, its
fresh value is `trig` and its stored state is `src`; nothing otherwise. -/
def edge_slot (trig : Nat) (src dst : Int) (ts : cyttsp4) (b : Nat) : List input_event :=
  match ts.btn[b]? with
  | none => []
  | some bt =>
    if bt.enabled = true ∧ btn_fresh ts b = trig ∧ bt.state = src then
      [input_event.report_key bt.key_code dst, input_event.sync]
    else []

/-- The stored state of button `b` after one pass. -/
def edge_state (trig : Nat) (src dst : Int) (ts : cyttsp4) (b : Nat) : Option Int :=
  (ts.btn[b]?).map (fun (bt : cyttsp4_btn) =>
    if bt.enabled = true ∧ btn_fresh ts b = trig ∧ bt.state = src then dst else bt.state)

/-- The slot of button `b` in the release pass of a report. -/
def release_slot (ts : cyttsp4) (b : Nat) : List input_event :=
  edge_slot 0 CY_BTN_PRESSED CY_BTN_RELEASED ts b

/-- The slot of button `b` in the press pass of a report. -/
def press_slot (ts : cyttsp4) (b : Nat) : List input_event :=
  edge_slot 1 CY_BTN_RELEASED CY_BTN_PRESSED ts b

/-- Progress invariant of one pass over all buttons: the buttons below `p`
have been examined. -/
def btn_full_inv (ts0 : cyttsp4) (trig : Nat) (src dst : Int) (p : Nat) (t : cyttsp4) : Prop :=
  btn_frame t ts0
  ∧ (∀ j : Nat, (t.btn[j]?).map (fun (x : cyttsp4_btn) => x.state)
      = if j < p then edge_state trig src dst ts0 j
        else (ts0.btn[j]?).map (fun (x : cyttsp4_btn) => x.state))
  ∧ t.input = ts0.input ++ (List.range p).flatMap (edge_slot trig src dst ts0)

/-- The stored state of button `b` after one report: the release pass, then
the press pass on its result. -/
def report_state (ts : cyttsp4) (b : Nat) : Option Int :=
  (ts.btn[b]?).map (fun (bt : cyttsp4_btn) =>
    if bt.enabled = true ∧ btn_fresh ts b = 1
        ∧ (if bt.enabled = true ∧ btn_fresh ts b = 0 ∧ bt.state = CY_BTN_PRESSED then
            CY_BTN_RELEASED else bt.state) = CY_BTN_RELEASED then CY_BTN_PRESSED
    else if bt.enabled = true ∧ btn_fresh ts b = 0 ∧ bt.state = CY_BTN_PRESSED then
      CY_BTN_RELEASED
    else bt.state)

/-! ## Ghost views of `_cyttsp4_put_cmd_wait` -/

/-- The waits made by the retry part of `_cyttsp4_put_cmd_wait`, oldest first:
one entry per pass through the label `_cyttsp4_put_cmd_wait_retry`, holding
`uretval` of the wait and the local `cmd` after the status read that follows
it.  The control flow is that of `put_cmd_wait_retry`. -/
def put_cmd_wait_retry_waits {D : Type} (ops : cyttsp4_bus_ops D) (ofs timeout_ms : Nat)
    (cond : Option (Nat → Bool)) (i2c_addr : Nat) :
    Nat → Nat → D → List (Nat × Nat)
  | n, cmd, dev =>
    let w := ops.wait dev timeout_ms
    let r := _cyttsp4_read_block_data ops w.2 ofs 1 [cmd] i2c_addr
    let cmd1 := ld8 r.2.1 0
    (w.1, cmd1) ::
      match cond with
      | some c =>
        if !(c cmd1) then
          if w.1 = 0 then []
          else
            match n with
            | k + 1 => put_cmd_wait_retry_waits ops ofs timeout_ms cond i2c_addr k cmd1 r.2.2
            | 0 => []
        else []
      | none => []

/-- The waits made by one call of `_cyttsp4_put_cmd_wait`: none when the write
of the command fails, otherwise those of the retry part entered with
`tries = 0` and `cmd = 0`. -/
def put_cmd_wait_waits {D : Type} (ops : cyttsp4_bus_ops D) (dev : D) (ofs : Nat)
    (cmd_buf : List Nat) (timeout_ms : Nat) (cond : Option (Nat → Bool)) (i2c_addr : Nat) :
    List (Nat × Nat) :=
  let w := _cyttsp4_write_block_data ops dev ofs cmd_buf i2c_addr
  if w.1 < 0 then []
  else put_cmd_wait_retry_waits ops ofs timeout_ms cond i2c_addr 2 0 w.2

/-- A device that raises its interrupt at every wait and whose status byte
never shows the command-ready bit. -/
def bus_never_ready : cyttsp4_bus_ops Unit where
  read := fun d _ _ _ => (0, [0x00], d)
  write := fun d _ _ _ => (0, d)
  wait := fun d _ => (1, d)
  num_retry := 1

/-! ## Configuration blocks (`_cyttsp4_calc_data_crc`, `_cyttsp4_get_ic_crc`,
`_cyttsp4_write_config_block`, `_cyttsp4_set_data_block`)

`kzalloc` is taken to succeed, so the `-ENOMEM` exits are not modelled. -/

/-- `-EOVERFLOW`. -/
def err_overflow : Int := -75

def CY_GET_CFG_BLK_CRC : Nat := 0x05
def CY_ONE_SEC_TMO_MS : Nat := 1000

/-- `_cyttsp4_calc_data_crc(ts, ndata, pdata, &crc_h, &crc_l, name)`: the
return code and the bytes `*crc_h`, `*crc_l` afterwards. -/
def _cyttsp4_calc_data_crc (ndata : Nat) (pdata : List Nat) : Int × Nat × Nat :=
  let crc_h := 0
  let crc_l := 0
  let buf := List.replicate 126 0
  if ndata > 122 then (err_overflow, crc_h, crc_l)
  else
    let buf := buf.set 0 0x00
    let buf := buf.set 1 0x7E
    let buf := buf.set 2 0x00
    let buf := buf.set 3 0x7E
    let buf := store buf 4 ndata pdata
    let c := _cyttsp4_calc_crc (buf.take 126) crc_h crc_l
    (0, c.1, c.2)

/-- `_cyttsp4_get_ic_crc(ts, ebid, &crc_h, &crc_l)`; `crc_h` and `crc_l` are
the bytes behind the two pointers before the call, and the second and third
components of the result are those bytes afterwards. -/
def _cyttsp4_get_ic_crc {D : Type} (ops : cyttsp4_bus_ops D) (ts : cyttsp4) (dev : D)
    (ebid crc_h crc_l : Nat) : Int × Nat × Nat × cyttsp4 × D :=
  let cmd_dat := (((List.replicate (CY_NUM_DAT + 1) 0).set 0 CY_GET_CFG_BLK_CRC).set 1
    (ebid % 256))
  let p := _cyttsp4_put_cmd_wait ops ts dev ts.si_ofs.cmd_ofs cmd_dat CY_ONE_SEC_TMO_MS
    (some _cyttsp4_chk_cmd_rdy) none ts.addr_tch CY_CMD_STATE
  let ts := p.2.2.1
  if p.1 < 0 then (p.1, crc_h, crc_l, ts, p.2.2.2)
  else
    let cmd_dat := List.replicate (CY_NUM_DAT + 1) 0
    let r := _cyttsp4_read_block_data ops p.2.2.2 ts.si_ofs.cmd_ofs (CY_NUM_DAT + 1) cmd_dat
      ts.addr_tch
    if r.1 < 0 then (r.1, crc_h, crc_l, ts, r.2.2)
    else if ld8 r.2.1 1 ≠ 0 then (err_io, crc_h, crc_l, ts, r.2.2)
    else (r.1, ld8 r.2.1 2, ld8 r.2.1 3, ts, r.2.2)

/-- The 142-byte buffer `buf` that `_cyttsp4_write_config_block` fills in
before it writes to the device. -/
def write_config_block_buf (blockid : Nat) (pdata : List Nat) (ndata crc_h crc_l : Nat) :
    List Nat :=
  let buf := List.replicate 142 0
  let buf := buf.set 0 0x04
  let buf := buf.set 1 0x00
  let buf := buf.set 2 0x00
  let buf := buf.set 3 0x00
  let buf := buf.set 4 0x80
  let buf := buf.set 5 (blockid % 256)
  let buf := buf.set 6 0x00
  let buf := buf.set 7 0x7E
  let buf := buf.set 8 0x00
  let buf := buf.set 9 0x7E
  let buf := store buf 10 ndata pdata
  let buf := buf.set 132 (crc_h % 256)
  let buf := buf.set 133 (crc_l % 256)
  let buf := buf.set 134 0x45
  let buf := buf.set 135 0x63
  let buf := buf.set 136 0x36
  let buf := buf.set 137 0x6F
  let buf := buf.set 138 0x34
  let buf := buf.set 139 0x38
  let buf := buf.set 140 0x73
  let buf := buf.set 141 0x77
  buf

/-- `_cyttsp4_write_config_block(ts, blockid, pdata, ndata, crc_h, crc_l, name)`. -/
def _cyttsp4_write_config_block {D : Type} (ops : cyttsp4_bus_ops D) (ts : cyttsp4) (dev : D)
    (blockid : Nat) (pdata : List Nat) (ndata crc_h crc_l : Nat) : Int × cyttsp4 × D :=
  let status := 0
  let lpe_local := ts.low_power_enable
  let ts := { ts with low_power_enable := false }
  if ndata > 122 then (err_overflow, { ts with low_power_enable := lpe_local }, dev)
  else
    let buf := write_config_block_buf blockid pdata ndata crc_h crc_l
    let w := _cyttsp4_write_block_data ops dev (ts.si_ofs.cmd_ofs + 1) ((buf.drop 1).take 141)
      ts.addr_tch
    if w.1 < 0 then (w.1, { ts with low_power_enable := lpe_local }, w.2)
    else
      let p := _cyttsp4_put_cmd_wait ops ts w.2 ts.si_ofs.cmd_ofs (buf.take 1)
        CY_TEN_SEC_TMO_MS (some _cyttsp4_chk_cmd_rdy) none ts.addr_tch CY_CMD_STATE
      let ts := p.2.2.1
      if p.1 < 0 then (p.1, { ts with low_power_enable := lpe_local }, p.2.2.2)
      else
        let r := _cyttsp4_read_block_data ops p.2.2.2 (ts.si_ofs.cmd_ofs + 1) 1 [status]
          ts.addr_tch
        let status := ld8 r.2.1 0
        if r.1 < 0 then (r.1, { ts with low_power_enable := lpe_local }, r.2.2)
        else if status ≠ 0x00 then (r.1, { ts with low_power_enable := lpe_local }, r.2.2)
        else (r.1, { ts with low_power_enable := lpe_local }, r.2.2)

/-- `_cyttsp4_set_data_block(ts, blkid, pdata, ndata, name, force,
&data_updated)`: the return code, `*data_updated` afterwards, the driver
context and the device. -/
def _cyttsp4_set_data_block {D : Type} (ops : cyttsp4_bus_ops D) (ts : cyttsp4) (dev : D)
    (blkid : Nat) (pdata : List Nat) (ndata : Nat) (force : Bool) :
    Int × Bool × cyttsp4 × D :=
  let ic_crc_h := 0
  let ic_crc_l := 0
  let data_updated := false
  let c := _cyttsp4_calc_data_crc ndata pdata
  if c.1 < 0 then (c.1, data_updated, ts, dev)
  else
    let m := _cyttsp4_set_mode ops ts dev CY_OPERATE_MODE
    if m.1 < 0 then (m.1, data_updated, m.2.1, m.2.2)
    else
      let g := _cyttsp4_get_ic_crc ops m.2.1 m.2.2 blkid ic_crc_h ic_crc_l
      if g.1 < 0 then (g.1, data_updated, g.2.2.2.1, g.2.2.2.2)
      else if c.2.1 ≠ g.2.1 ∨ c.2.2 ≠ g.2.2.1 ∨ force then
        let m2 := _cyttsp4_set_mode ops g.2.2.2.1 g.2.2.2.2 CY_CONFIG_MODE
        if m2.1 < 0 then (m2.1, data_updated, m2.2.1, m2.2.2)
        else
          let w := _cyttsp4_write_config_block ops m2.2.1 m2.2.2 blkid pdata ndata c.2.1 c.2.2
          if w.1 < 0 then (w.1, data_updated, w.2.1, w.2.2)
          else (w.1, true, w.2.1, w.2.2)
      else (g.1, data_updated, g.2.2.2.1, g.2.2.2.2)

/-- Bus collaborators that also record every `bus_ops->write` (register and
bytes), oldest first, next to the device state. -/
def log_writes {D : Type} (ops : cyttsp4_bus_ops D) :
    cyttsp4_bus_ops (D × List (Nat × List Nat)) where
  read := fun d command length addr =>
    let r := ops.read d.1 command length addr
    (r.1, r.2.1, (r.2.2, d.2))
  write := fun d command buf addr =>
    let r := ops.write d.1 command buf addr
    (r.1, (r.2, d.2 ++ [(command, buf)]))
  wait := fun d tmo =>
    let r := ops.wait d.1 tmo
    (r.1, (r.2, d.2))
  num_retry := ops.num_retry
  read_nosub := fun d command length addr =>
    let r := ops.read_nosub d.1 command length addr
    (r.1, r.2.1, (r.2.2, d.2))
  write_nosub := fun d command buf addr =>
    let r := ops.write_nosub d.1 command buf addr
    (r.1, (r.2, d.2 ++ [(command, buf)]))
  wait_si := fun d tmo =>
    let r := ops.wait_si d.1 tmo
    (r.1, (r.2, d.2))
  hw_reset := ops.hw_reset.map (fun f d =>
    let r := f d.1
    (r.1, (r.2, d.2)))
  irq_stat := fun d =>
    let r := ops.irq_stat d.1
    (r.1, (r.2, d.2))
  max_prbuf_size := ops.max_prbuf_size

/-- A device for the configuration commands with the command registers at
offset 2: its state is the host-mode register, read back from register 0 with
the mode-change bit cleared; register 2 reads as a completed command with
status 0 followed by the block CRC `crc_h`, `crc_l`; a read that starts at
register 3 delivers the status `status` of the last write-block command. -/
def bus_cfg (status crc_h crc_l : Nat) : cyttsp4_bus_ops Nat where
  read := fun d command _ _ =>
    (0, if command = 0 then [d &&& 0xF7]
        else if command = 2 then [0x40, 0, crc_h, crc_l, 0, 0, 0]
        else [status], d)
  write := fun d command buf _ => (0, if command = 0 then buf.getD 0 0 else d)
  wait := fun d _ => (1, d)
  num_retry := 2

/-- The configuration CRC of the buffer that `_cyttsp4_calc_data_crc`
describes in words: the header `00 7E 00 7E`, the payload, zero padding up to
126 bytes. -/
def padded_block_crc (payload : List Nat) : Nat × Nat :=
  _cyttsp4_calc_crc ([0x00, 0x7E, 0x00, 0x7E] ++ payload
    ++ List.replicate (122 - payload.length) 0) 0 0

/-- The `ndata` bytes `pdata[0..ndata-1]`. -/
def payload_bytes (pdata : List Nat) (ndata : Nat) : List Nat :=
  (List.range ndata).map (fun i => ld8 pdata i)

/-- Three bytes of platform data for the concrete evaluations. -/
def sample_cfg_data : List Nat := [0x11, 0x22, 0x33]

/-- A configuration device whose block CRC is the CRC of `sample_cfg_data`
and whose write-block status is `status`. -/
def bus_cfg_sample (status : Nat) : cyttsp4_bus_ops Nat :=
  bus_cfg status (padded_block_crc sample_cfg_data).1 (padded_block_crc sample_cfg_data).2

/-- The sample context after a successful switch to the Operational mode. -/
def sample_ts_operational : cyttsp4 :=
  { sample_ts with driver_state := CY_ACTIVE_STATE, current_mode := CY_MODE_OPERATIONAL }

/-! ## Bootloader command packets -/

def CY_START_OF_PACKET : Nat := 0x01
def CY_END_OF_PACKET : Nat := 0x17
def CY_DATA_ROW_SIZE : Nat := 288
def CY_PACKET_DATA_LEN : Nat := 96
def CY_MAX_PACKET_LEN : Nat := 512
def CY_CMD_LDR_ENTER : Nat := 0x38
def CY_CMD_LDR_ERASE_ROW : Nat := 0x34
def CY_CMD_LDR_SEND_DATA : Nat := 0x37
def CY_CMD_LDR_PROG_ROW : Nat := 0x39
def CY_CMD_LDR_VERIFY_ROW : Nat := 0x3A
def CY_CMD_LDR_VERIFY_CHKSUM : Nat := 0x31
def CY_CMD_LDR_EXIT : Nat := 0x3B

/-- `struct cyttsp4_hex_image`: `array_id` is a `u8`, `row_num` and
`row_size` are `u16`, `row_data` holds `CY_DATA_ROW_SIZE` bytes. -/
structure cyttsp4_hex_image where
  array_id : Nat
  row_num : Nat
  row_size : Nat
  row_data : List Nat
  deriving DecidableEq, Repr

/-- The command `_cyttsp4_ldr_enter` writes: the first `cmd_size = 7` bytes of
`ldr_enter_cmd`. -/
def ldr_enter_cmd : List Nat :=
  let cmd := [CY_START_OF_PACKET, CY_CMD_LDR_ENTER, 0x00, 0x00]
  let crc := _cyttsp4_compute_crc cmd
  cmd ++ [crc % 256, (crc >>> 8) % 256, CY_END_OF_PACKET]

/-- The command `_cyttsp4_ldr_erase_row` hands to `_cyttsp4_send_cmd`: the
first `i` bytes of `ldr_erase_row_cmd`. -/
def ldr_erase_row_cmd (row_image : cyttsp4_hex_image) : List Nat :=
  let cmd := [CY_START_OF_PACKET, CY_CMD_LDR_ERASE_ROW, 0x03, 0x00,
    row_image.array_id % 256, row_image.row_num % 256, ((row_image.row_num % 65536) >>> 8) % 256]
  let crc := _cyttsp4_compute_crc cmd
  cmd ++ [crc % 256, (crc >>> 8) % 256, CY_END_OF_PACKET]

/-- The inner loop `for (data = 0; data < n; data++)` of
`_cyttsp4_ldr_prog_row`: the `n` bytes `row_image->row_data[row_data ..]`
copied into `cmd`. -/
def ldr_row_bytes (row_image : cyttsp4_hex_image) (row_data n : Nat) : List Nat :=
  (List.range n).map (fun data => ld8 row_image.row_data (row_data + data))

/-- The bytes `cmd[0..next)` that `_cyttsp4_ldr_prog_row` hands to
`_cyttsp4_send_cmd` in one pass of its segment loop, entered with the running
index `row_data`. -/
def ldr_send_data_cmd (row_image : cyttsp4_hex_image) (row_data : Nat) : List Nat :=
  let cmd := [CY_START_OF_PACKET, CY_CMD_LDR_SEND_DATA, CY_PACKET_DATA_LEN % 256,
    (CY_PACKET_DATA_LEN >>> 8) % 256]
  let cmd := cmd ++ ldr_row_bytes row_image row_data CY_PACKET_DATA_LEN
  let crc := _cyttsp4_compute_crc cmd
  cmd ++ [crc % 256, (crc >>> 8) % 256, CY_END_OF_PACKET]

/-- The bytes `cmd[0..next)` of the final command of `_cyttsp4_ldr_prog_row`,
built with the running index `row_data`. -/
def ldr_prog_row_cmd (row_image : cyttsp4_hex_image) (row_data : Nat) : List Nat :=
  let data_len := CY_PACKET_DATA_LEN
  let cmd := [CY_START_OF_PACKET, CY_CMD_LDR_PROG_ROW, (data_len + 3) % 256,
    ((data_len + 3) >>> 8) % 256,
    row_image.array_id % 256, row_image.row_num % 256, ((row_image.row_num % 65536) >>> 8) % 256]
  let cmd := cmd ++ ldr_row_bytes row_image row_data data_len
  let crc := _cyttsp4_compute_crc cmd
  cmd ++ [crc % 256, (crc >>> 8) % 256, CY_END_OF_PACKET]

/-- The command `_cyttsp4_ldr_verify_row` hands to `_cyttsp4_send_cmd`. -/
def ldr_verify_row_cmd (row_image : cyttsp4_hex_image) : List Nat :=
  let cmd := [CY_START_OF_PACKET, CY_CMD_LDR_VERIFY_ROW, 0x03, 0x00,
    row_image.array_id % 256, row_image.row_num % 256, ((row_image.row_num % 65536) >>> 8) % 256]
  let crc := _cyttsp4_compute_crc cmd
  cmd ++ [crc % 256, (crc >>> 8) % 256, CY_END_OF_PACKET]

/-- The command `_cyttsp4_ldr_verify_chksum` hands to `_cyttsp4_send_cmd`. -/
def ldr_verify_chksum_cmd : List Nat :=
  let cmd := [CY_START_OF_PACKET, CY_CMD_LDR_VERIFY_CHKSUM, 0x00, 0x00]
  let crc := _cyttsp4_compute_crc cmd
  cmd ++ [crc % 256, (crc >>> 8) % 256, CY_END_OF_PACKET]

/-- The command `_cyttsp4_ldr_exit` hands to `_cyttsp4_send_cmd`. -/
def ldr_exit_cmd : List Nat :=
  let cmd := [CY_START_OF_PACKET, CY_CMD_LDR_EXIT, 0x00, 0x00]
  let crc := _cyttsp4_compute_crc cmd
  cmd ++ [crc % 256, (crc >>> 8) % 256, CY_END_OF_PACKET]

/-- The frame of a bootloader command in the words of the specification:
`0x01`, the opcode, the payload length as a 16-bit little-endian number, the
payload, the low and the high byte of the loader CRC of everything before
them, `0x17`. -/
def ldr_frame (opcode : Nat) (payload : List Nat) : List Nat :=
  [0x01, opcode, payload.length % 256, payload.length / 256]
    ++ payload
    ++ [_cyttsp4_compute_crc ([0x01, opcode, payload.length % 256, payload.length / 256]
          ++ payload) % 256,
        _cyttsp4_compute_crc ([0x01, opcode, payload.length % 256, payload.length / 256]
          ++ payload) / 256,
        0x17]

/-- The three payload bytes that address a flash row: the array id and the
row number, low byte first. -/
def ldr_row_address (row_image : cyttsp4_hex_image) : List Nat :=
  [row_image.array_id % 256, row_image.row_num % 65536 % 256, row_image.row_num % 65536 / 256]

/-- A firmware row for the concrete evaluations: array 1, row 0x0123, data
bytes 0, 1, 2, ... -/
def sample_row_image : cyttsp4_hex_image where
  array_id := 1
  row_num := 0x0123
  row_size := 288
  row_data := (List.range 288).map (fun i => i % 256)

/-! ## System information (`_cyttsp4_bits_2_bytes`, `_cyttsp4_get_sysinfo_regs`)

`size_t` is 32 bits wide (the kernel tree targets 32-bit ARM).  The six
blocks have device-given sizes, so their allocations may fail: `kzalloc_ok n`
tells whether `kzalloc(n, GFP_KERNEL)` returns a buffer.  The allocations of
the button table and of the report buffers are taken to succeed.  The body of
`_cyttsp4_get_sysinfo_regs` is cut at its reads: each part below runs from one
read to the next and ends in the part that follows it or at one of the two
exit labels. -/

/-- `-ENOMEM`. -/
def err_nomem : Int := -12

def CY_BYTE_OFS_MASK : Nat := 0x1F
def CY_BOFS_MASK : Nat := 0xE0
def CY_BOFS_SHIFT : Nat := 5
def CY_NUM_NEW_TCH_FIELDS : Nat := 0
def CY_NUM_OLD_TCH_FIELDS : Nat := CY_TCH_NUM_ABS - CY_NUM_NEW_TCH_FIELDS
/-- `KEY_RESERVED` of `linux/input.h`. -/
def KEY_RESERVED : Nat := 0

/-- Subtraction of two `size_t` values. -/
def size_t_sub (a b : Nat) : Nat := (a + 4294967296 - b) % 4294967296

/-- The loop of `_cyttsp4_bits_2_bytes`,
`for (nbytes = 0; nbits > 0;) { nbytes++; if (nbits > 8) nbits -= 8; else nbits = 0; }`,
with `fuel` passes left. -/
def bits_2_bytes_loop : Nat → Nat → Nat → Nat
  | 0, _, nbytes => nbytes
  | fuel + 1, nbits, nbytes =>
    if nbits > 0 then
      bits_2_bytes_loop fuel (if nbits > 8 then nbits - 8 else 0) (nbytes + 1)
    else nbytes

/-- `_cyttsp4_bits_2_bytes(ts, nbits, &max)` for `nbits ≥ 0`: the value
returned and `*max`.  Every pass lowers `nbits`, so `nbits` passes suffice;
`1 << nbits` is taken modulo `2^32`. -/
def _cyttsp4_bits_2_bytes (nbits : Nat) : Nat × Nat :=
  (bits_2_bytes_loop nbits nbits 0, (1 <<< nbits) % 4294967296)

/-- The value of `ts->si_ofs` after `memset(&ts->si_ofs, 0, ...)`. -/
def si_ofs_zero : cyttsp4_sysinfo_ofs where
  cmd_ofs := 0
  rep_ofs := 0
  num_btns := 0
  num_btn_regs := 0
  tt_stat_ofs := 0
  tch_rec_siz := 0
  max_tchs := 0
  mode_size := 0
  tch_abs := List.replicate CY_TCH_NUM_ABS ⟨0, 0, 0, 0⟩

/-- The exit label `_cyttsp4_get_sysinfo_regs_exit`: the handshake for the
`hst_mode` byte of the header, whose return code replaces whatever `retval`
held on arrival. -/
def get_sysinfo_regs_exit {D : Type} (ops : cyttsp4_bus_ops D) (ts : cyttsp4) (dev : D) :
    Int × cyttsp4 × D :=
  let h := _cyttsp4_handshake ops ts dev (ld8 ts.sysinfo_data 0)
  (h.1, ts, h.2)

/-- The button table set up after the last read (`if (ts->si_ofs.num_btns)`
... `else`): one enabled entry per button, with the key codes of the platform
table as far as it reaches and `KEY_RESERVED` beyond. -/
def get_sysinfo_regs_btn (ts : cyttsp4) : cyttsp4 :=
  if ts.si_ofs.num_btns ≠ 0 then
    let num_defined_keys := ts.btn_keys.length
    { ts with btn := (List.range ts.si_ofs.num_btns).map (fun btn =>
        if btn < num_defined_keys then
          { enabled := true, state := 0, key_code := ts.btn_keys.getD btn 0 % 65536 }
        else { enabled := true, state := 0, key_code := KEY_RESERVED }) }
  else { ts with btn := [] }

/-- The report buffers allocated at the end, each only when its pointer is
still NULL. -/
def get_sysinfo_regs_bufs (ts : cyttsp4) : cyttsp4 :=
  let ts := if ts.xy_mode = [] then
      { ts with xy_mode := List.replicate ts.si_ofs.mode_size 0 } else ts
  let ts := if ts.xy_data = [] then
      { ts with xy_data := List.replicate ts.si_ofs.data_size 0 } else ts
  let ts := if ts.xy_data_touch1 = [] then
      { ts with xy_data_touch1 := List.replicate (ts.si_ofs.tch_rec_siz + 1) 0 } else ts
  let ts := if ts.btn_rec_data = [] then
      { ts with btn_rec_data := List.replicate (ts.si_ofs.btn_rec_siz * ts.si_ofs.num_btns) 0 }
    else ts
  ts

/-- The mdata block and everything after it. -/
def get_sysinfo_regs_mdata {D : Type} (kzalloc_ok : Nat → Bool) (ops : cyttsp4_bus_ops D)
    (ts : cyttsp4) (dev : D) : Int × cyttsp4 × D :=
  let ts := { ts with si_ofs := { ts.si_ofs with
    mdata_size := size_t_sub ts.si_ofs.map_sz ts.si_ofs.mdata_ofs } }
  if !kzalloc_ok ts.si_ofs.mdata_size then
    let ts := { ts with sysinfo_ptr := { ts.sysinfo_ptr with mdata := [] } }
    get_sysinfo_regs_exit ops (get_sysinfo_regs_bufs (get_sysinfo_regs_btn ts)) dev
  else
    let r := _cyttsp4_read_block_data ops dev ts.si_ofs.mdata_ofs ts.si_ofs.mdata_size
      (List.replicate ts.si_ofs.mdata_size 0) ts.addr_tch
    let ts := { ts with sysinfo_ptr := { ts.sysinfo_ptr with mdata := r.2.1 } }
    if r.1 < 0 then get_sysinfo_regs_exit ops ts r.2.2
    else get_sysinfo_regs_exit ops (get_sysinfo_regs_bufs (get_sysinfo_regs_btn ts)) r.2.2

/-- The ddata block and everything after it. -/
def get_sysinfo_regs_ddata {D : Type} (kzalloc_ok : Nat → Bool) (ops : cyttsp4_bus_ops D)
    (ts : cyttsp4) (dev : D) : Int × cyttsp4 × D :=
  let ts := { ts with si_ofs := { ts.si_ofs with
    ddata_size := size_t_sub ts.si_ofs.mdata_ofs ts.si_ofs.ddata_ofs } }
  if !kzalloc_ok ts.si_ofs.ddata_size then
    let ts := { ts with sysinfo_ptr := { ts.sysinfo_ptr with ddata := [] } }
    get_sysinfo_regs_mdata kzalloc_ok ops ts dev
  else
    let r := _cyttsp4_read_block_data ops dev ts.si_ofs.ddata_ofs ts.si_ofs.ddata_size
      (List.replicate ts.si_ofs.ddata_size 0) ts.addr_tch
    let ts := { ts with sysinfo_ptr := { ts.sysinfo_ptr with ddata := r.2.1 } }
    if r.1 < 0 then get_sysinfo_regs_exit ops ts r.2.2
    else get_sysinfo_regs_mdata kzalloc_ok ops ts r.2.2

/-- The decoding of the opcfg block into `ts->si_ofs` (from
`ts->si_ofs.cmd_ofs = ...` to `ts->si_ofs.mode_size += ...`).  A field of
`struct cyttsp4_opcfg` beyond the bytes read is taken as 0. -/
def get_sysinfo_regs_decode (ts : cyttsp4) : cyttsp4 :=
  let opcfg := ts.sysinfo_ptr.opcfg
  let num_btns := ld8 opcfg 4
  let num_btn_regs :=
    if num_btns = 0 then 0
    else
      let n := num_btns / CY_NUM_BTN_PER_REG
      if num_btns % CY_NUM_BTN_PER_REG ≠ 0 then n + 1 else n
  let tt_stat_ofs := ld8 opcfg 5
  let max_tchs := ld8 opcfg 7 &&& CY_BYTE_OFS_MASK
  let tch_abs := (List.range CY_NUM_OLD_TCH_FIELDS).map (fun abs =>
    let loc := ld8 opcfg (9 + 2 * abs)
    let size := ld8 opcfg (9 + 2 * abs + 1)
    ({ ofs := loc &&& CY_BYTE_OFS_MASK
       size := (_cyttsp4_bits_2_bytes size).1
       max := (_cyttsp4_bits_2_bytes size).2
       bofs := (loc &&& CY_BOFS_MASK) >>> CY_BOFS_SHIFT } : cyttsp4_tch_abs_params))
  let mode_size := tt_stat_ofs + 1
  let mode_size := if num_btns ≠ 0 then mode_size + num_btn_regs else mode_size
  { ts with si_ofs := { ts.si_ofs with
      cmd_ofs := ld8 opcfg 0
      rep_ofs := ld8 opcfg 1
      rep_sz := ld8 opcfg 2 * 256 + ld8 opcfg 3
      num_btns := num_btns
      num_btn_regs := num_btn_regs
      tt_stat_ofs := tt_stat_ofs
      obj_cfg0 := ld8 opcfg 6
      max_tchs := max_tchs
      tch_rec_siz := ld8 opcfg 8 &&& CY_BYTE_OFS_MASK
      tch_abs := tch_abs
      btn_rec_siz := ld8 opcfg 23
      btn_diff_ofs := ld8 opcfg 24
      btn_diff_siz := ld8 opcfg 25
      mode_size := mode_size
      data_size := max_tchs * ld8 opcfg 8 } }

/-- The opcfg block and everything after it. -/
def get_sysinfo_regs_opcfg {D : Type} (kzalloc_ok : Nat → Bool) (ops : cyttsp4_bus_ops D)
    (ts : cyttsp4) (dev : D) : Int × cyttsp4 × D :=
  let ts := { ts with si_ofs := { ts.si_ofs with
    opcfg_size := size_t_sub ts.si_ofs.ddata_ofs ts.si_ofs.opcfg_ofs } }
  if !kzalloc_ok ts.si_ofs.opcfg_size then
    let ts := { ts with sysinfo_ptr := { ts.sysinfo_ptr with opcfg := [] } }
    get_sysinfo_regs_exit ops ts dev
  else
    let r := _cyttsp4_read_block_data ops dev ts.si_ofs.opcfg_ofs ts.si_ofs.opcfg_size
      (List.replicate ts.si_ofs.opcfg_size 0) ts.addr_tch
    let ts := { ts with sysinfo_ptr := { ts.sysinfo_ptr with opcfg := r.2.1 } }
    if r.1 < 0 then get_sysinfo_regs_exit ops ts r.2.2
    else get_sysinfo_regs_ddata kzalloc_ok ops (get_sysinfo_regs_decode ts) r.2.2

/-- The pcfg block and everything after it. -/
def get_sysinfo_regs_pcfg {D : Type} (kzalloc_ok : Nat → Bool) (ops : cyttsp4_bus_ops D)
    (ts : cyttsp4) (dev : D) : Int × cyttsp4 × D :=
  let ts := { ts with si_ofs := { ts.si_ofs with
    pcfg_size := size_t_sub ts.si_ofs.opcfg_ofs ts.si_ofs.pcfg_ofs } }
  if !kzalloc_ok ts.si_ofs.pcfg_size then
    let ts := { ts with sysinfo_ptr := { ts.sysinfo_ptr with pcfg := [] } }
    get_sysinfo_regs_exit ops ts dev
  else
    let r := _cyttsp4_read_block_data ops dev ts.si_ofs.pcfg_ofs ts.si_ofs.pcfg_size
      (List.replicate ts.si_ofs.pcfg_size 0) ts.addr_tch
    let ts := { ts with sysinfo_ptr := { ts.sysinfo_ptr with pcfg := r.2.1 } }
    if r.1 < 0 then get_sysinfo_regs_exit ops ts r.2.2
    else get_sysinfo_regs_opcfg kzalloc_ok ops ts r.2.2

/-- The test block and everything after it. -/
def get_sysinfo_regs_test {D : Type} (kzalloc_ok : Nat → Bool) (ops : cyttsp4_bus_ops D)
    (ts : cyttsp4) (dev : D) : Int × cyttsp4 × D :=
  let ts := { ts with si_ofs := { ts.si_ofs with
    test_size := size_t_sub ts.si_ofs.pcfg_ofs ts.si_ofs.test_ofs } }
  if !kzalloc_ok ts.si_ofs.test_size then
    let ts := { ts with sysinfo_ptr := { ts.sysinfo_ptr with test := [] } }
    get_sysinfo_regs_exit ops ts dev
  else
    let r := _cyttsp4_read_block_data ops dev ts.si_ofs.test_ofs ts.si_ofs.test_size
      (List.replicate ts.si_ofs.test_size 0) ts.addr_tch
    let ts := { ts with sysinfo_ptr := { ts.sysinfo_ptr with test := r.2.1 } }
    if r.1 < 0 then get_sysinfo_regs_exit ops ts r.2.2
    else get_sysinfo_regs_pcfg kzalloc_ok ops ts r.2.2

/-- The cydata block and everything after it; a failed read of the block
leaves by `_cyttsp4_get_sysinfo_regs_exit_no_handshake`. -/
def get_sysinfo_regs_cydata {D : Type} (kzalloc_ok : Nat → Bool) (ops : cyttsp4_bus_ops D)
    (ts : cyttsp4) (dev : D) : Int × cyttsp4 × D :=
  let ts := { ts with si_ofs := { ts.si_ofs with
    cydata_size := size_t_sub ts.si_ofs.test_ofs ts.si_ofs.cydata_ofs } }
  if !kzalloc_ok ts.si_ofs.cydata_size then
    let ts := { ts with sysinfo_ptr := { ts.sysinfo_ptr with cydata := [] } }
    get_sysinfo_regs_exit ops ts dev
  else
    let r := _cyttsp4_read_block_data ops dev ts.si_ofs.cydata_ofs ts.si_ofs.cydata_size
      (List.replicate ts.si_ofs.cydata_size 0) ts.addr_tch
    let ts := { ts with sysinfo_ptr := { ts.sysinfo_ptr with cydata := r.2.1 } }
    if r.1 < 0 then (r.1, ts, r.2.2)
    else get_sysinfo_regs_test kzalloc_ok ops ts r.2.2

/-- The conversion of the offset bytes of the header into `ts->si_ofs`. -/
def get_sysinfo_regs_offsets (ts : cyttsp4) : cyttsp4 :=
  let d := ts.sysinfo_data
  { ts with si_ofs := { ts.si_ofs with
      map_sz := ld8 d 2 * 256 + ld8 d 3
      cydata_ofs := ld8 d 4 * 256 + ld8 d 5
      test_ofs := ld8 d 6 * 256 + ld8 d 7
      pcfg_ofs := ld8 d 8 * 256 + ld8 d 9
      opcfg_ofs := ld8 d 10 * 256 + ld8 d 11
      ddata_ofs := ld8 d 12 * 256 + ld8 d 13
      mdata_ofs := ld8 d 14 * 256 + ld8 d 15 } }

/-- `_cyttsp4_get_sysinfo_regs(ts)`. -/
def _cyttsp4_get_sysinfo_regs {D : Type} (kzalloc_ok : Nat → Bool) (ops : cyttsp4_bus_ops D)
    (ts : cyttsp4) (dev : D) : Int × cyttsp4 × D :=
  let ts := { ts with si_ofs := si_ofs_zero }
  let r := _cyttsp4_read_block_data ops dev CY_REG_BASE 16 ts.sysinfo_data ts.addr_tch
  let ts := { ts with sysinfo_data := r.2.1 }
  if r.1 < 0 then (r.1, ts, r.2.2)
  else get_sysinfo_regs_cydata kzalloc_ok ops (get_sysinfo_regs_offsets ts) r.2.2

/-- A device with the register map `mem` that takes every write and answers
every read with the bytes of the map, except that a read starting at the
register `fail_at` fails with `-EIO`. -/
def bus_regs (mem : List Nat) (fail_at : Option Nat) : cyttsp4_bus_ops Unit where
  read := fun d command length _ =>
    if some command = fail_at then (-5, [], d)
    else (0, (mem.drop command).take length, d)
  write := fun d _ _ _ => (0, d)
  wait := fun d _ => (1, d)
  num_retry := 2

/-- A system-information register map of 68 bytes: the header (`hst_mode`
0x10) with cydata at 16, test at 20, pcfg at 22, opcfg at 34, ddata at 60 and
mdata at 64; the opcfg block describes the layout of `sample_si_ofs` with two
buttons. -/
def sample_sysinfo_map : List Nat :=
  [0x10, 0, 0, 68, 0, 16, 0, 20, 0, 22, 0, 34, 0, 60, 0, 64]
    ++ [1, 2, 3, 4] ++ [5, 6] ++ List.replicate 12 7
    ++ [2, 17, 0, 100, 2, 34, 0, 10, 10, 0, 16, 2, 16, 4, 8, 5, 5, 0xA5, 2, 6, 2, 7, 8, 1, 0, 0]
    ++ [8, 8, 8, 8] ++ [9, 9, 9, 9]

/-- The register map of a device whose header puts the cydata block at
offset 8, inside the 16 bytes of the header. -/
def overlapping_sysinfo_map : List Nat :=
  [0x10, 0, 0, 68, 0, 8, 0, 20, 0, 22, 0, 34, 0, 60, 0, 64] ++ List.replicate 52 0

/-- The six block sizes of a decoded layout, added up. -/
def sysinfo_block_sizes (si : cyttsp4_sysinfo_ofs) : Nat :=
  si.cydata_size + si.test_size + si.pcfg_size + si.opcfg_size + si.ddata_size + si.mdata_size

/-- "The offsets of the header are strictly increasing". -/
def sysinfo_offsets_increasing (si : cyttsp4_sysinfo_ofs) : Prop :=
  si.cydata_ofs < si.test_ofs ∧ si.test_ofs < si.pcfg_ofs ∧ si.pcfg_ofs < si.opcfg_ofs
    ∧ si.opcfg_ofs < si.ddata_ofs ∧ si.ddata_ofs < si.mdata_ofs

instance (si : cyttsp4_sysinfo_ofs) : Decidable (sysinfo_offsets_increasing si) := by
  unfold sysinfo_offsets_increasing
  infer_instance

/-- The parts of the driver context that determine the handshake write. -/
def same_handshake_cfg (a b : cyttsp4) : Prop :=
  a.sysinfo_data = b.sysinfo_data ∧ a.low_power_enable = b.low_power_enable
    ∧ a.addr_tch = b.addr_tch

/-- The numbers of a layout that describe the register map: `map_sz`, the
six offsets and the six sizes. -/
def sysinfo_layout (si : cyttsp4_sysinfo_ofs) : List Nat :=
  [si.map_sz, si.cydata_ofs, si.test_ofs, si.pcfg_ofs, si.opcfg_ofs, si.ddata_ofs, si.mdata_ofs,
    si.cydata_size, si.test_size, si.pcfg_size, si.opcfg_size, si.ddata_size, si.mdata_size]

/-! ## Reference definitions for the handshake and the decoded layout -/

/-- The byte `h` with the handshake bit toggled. -/
def toggle_handshake_bit (h : Nat) : Nat := (h % 256) ^^^ CY_HANDSHAKE_BIT

/-- A byte with its low-power bit (0x04) set to `lpe`. -/
def with_low_power_bit (b : Nat) (lpe : Bool) : Nat :=
  if lpe then b ||| CY_LOW_POWER_MODE else b &&& (0xFF - CY_LOW_POWER_MODE)

/-- An operational-configuration block that declares four touches of ten
bytes and no buttons. -/
def sample_opcfg_four_touches : List Nat :=
  [2, 17, 0, 100, 0, 34, 0, 4, 10, 0, 16, 2, 16, 4, 8, 5, 5, 0xA5, 2, 6, 2, 7, 8, 0, 0, 0]

/-- The sample context with the layout decoded from
`sample_opcfg_four_touches` and the report buffers allocated for it. -/
def sample_ts_four_touches : cyttsp4 :=
  get_sysinfo_regs_bufs (get_sysinfo_regs_decode
    { sample_ts with sysinfo_ptr := { sample_ts.sysinfo_ptr with
        opcfg := sample_opcfg_four_touches } })

/-! ## Ghost view of the button loops -/

/-- The examinations of one `for (btn = 0; btn < num_btns; btn++)` loop of
`_cyttsp4_btn_key_release` / `_cyttsp4_btn_key_press`, called for register
`cur_reg` with first button `cur_btn`, with `n` iterations left: for each
`btn` the triple `(cur_btn, cur_reg, btn)`, meaning that `ts->btn[cur_btn +
btn]` is examined with the 2-bit field `btn` of register `cur_reg`. -/
def btn_loop_examined (cur_reg cur_btn : Nat) : Nat → Nat → List (Nat × Nat × Nat)
  | 0, _ => []
  | n + 1, btn => (cur_btn, cur_reg, btn) :: btn_loop_examined cur_reg cur_btn n (btn + 1)

/-- The examinations of one pass of the register loop of `_cyttsp4_xy_worker`,
following the control flow of `btn_reg_loop`, in order. -/
def btn_reg_loop_examined : Nat → Nat → Nat → Int → List (Nat × Nat × Nat)
  | 0, _, _, _ => []
  | n + 1, cur_reg, cur_btn, num_cur_btn =>
    (if num_cur_btn > 0 then
        let i := if num_cur_btn / CY_NUM_BTN_PER_REG ≠ 0 then (CY_NUM_BTN_PER_REG : Int)
          else num_cur_btn
        btn_loop_examined cur_reg cur_btn i.toNat 0
      else [])
    ++ btn_reg_loop_examined n (cur_reg + 1) (cur_btn + CY_NUM_BTN_PER_REG)
        (num_cur_btn - CY_NUM_BTN_PER_REG)

/-- One examination `(cur_btn, cur_reg, btn)` of the pass for `btn_state`: the
loop body of `_cyttsp4_btn_key_release` or `_cyttsp4_btn_key_press` on the
mask `xy_mode[rep_ofs + 2 + cur_reg]`. -/
def btn_examine (btn_state : Int) (e : Nat × Nat × Nat) (ts : cyttsp4) : cyttsp4 :=
  let cur_btn_mask := ld8 ts.xy_mode (ts.si_ofs.rep_ofs + 2 + e.2.1)
  if btn_state = CY_BTN_RELEASED then btn_key_release_body e.1 cur_btn_mask e.2.2 ts
  else if btn_state = CY_BTN_PRESSED then btn_key_press_body e.1 cur_btn_mask e.2.2 ts
  else ts

/-- A context with six enabled buttons and two button registers. -/
def sample_ts_six_buttons : cyttsp4 :=
  { sample_ts with
      driver_state := CY_ACTIVE_STATE
      si_ofs := { sample_si_ofs with num_btns := 6, num_btn_regs := 2, rep_ofs := 0 }
      xy_mode := [0, 0, 0x41, 0x04]
      btn := [⟨true, 1, 10⟩, ⟨true, 0, 11⟩, ⟨true, 0, 12⟩, ⟨true, 0, 13⟩, ⟨true, 1, 14⟩,
        ⟨true, 0, 15⟩] }

/-! ## Bootloader commands: transfer and status -/

def CY_COMM_BUSY : Nat := 0xFF
def CY_CMD_BUSY : Nat := 0xFE
def CY_STATUS_BYTE : Nat := 1
def CY_MAX_STATUS_SIZE : Nat := 32
def ERROR_SUCCESS : Nat := 0
def CY_SOFT_RESET_MODE : Nat := 0x01
def CY_IRQ_DEASSERT : Nat := 1
def CY_DELAY_DFLT : Nat := 20
def CY_DELAY_MAX : Nat := 500 / CY_DELAY_DFLT
/-- `-ENOSYS`. -/
def err_nosys : Int := -38
/-- `-ENODATA`. -/
def err_nodata : Int := -61

/-- The collaborators as a transfer with `use_subaddr = false` sees them:
`_cyttsp4_read_block_data (nosub ops)` is `_cyttsp4_read_block_data(...,
false)`, and likewise for the write. -/
def nosub {D : Type} (ops : cyttsp4_bus_ops D) : cyttsp4_bus_ops D :=
  { ops with read := ops.read_nosub, write := ops.write_nosub }

/-- The loop `for (tries = 0; tries < 2; tries++)` of `_cyttsp4_get_status`
with `n` tries left: a read of the status packet, repeated when the status
byte reads `CY_COMM_BUSY` or `CY_CMD_BUSY`. -/
def get_status_tries {D : Type} (ops : cyttsp4_bus_ops D) (size i2c_addr : Nat) :
    Nat → Int → List Nat → D → Int × List Nat × D
  | 0, retval, buf, dev => (retval, buf, dev)
  | n + 1, _, buf, dev =>
    let r := _cyttsp4_read_block_data (nosub ops) dev CY_REG_BASE size buf i2c_addr
    if ld8 r.2.1 1 = CY_COMM_BUSY ∨ ld8 r.2.1 1 = CY_CMD_BUSY then
      get_status_tries ops size i2c_addr n r.1 r.2.1 r.2.2
    else r

/-- `_cyttsp4_get_status(ts, buf, size, timeout_ms)`: return code, status
buffer and device afterwards. -/
def _cyttsp4_get_status {D : Type} (ops : cyttsp4_bus_ops D) (ts : cyttsp4) (dev : D)
    (buf : List Nat) (size timeout_ms : Nat) : Int × List Nat × D :=
  if timeout_ms ≠ 0 then
    let w := ops.wait dev timeout_ms
    get_status_tries ops size ts.addr_ldr 2 0 buf w.2
  else (0, buf, dev)

/-- `_cyttsp4_send_cmd(ts, cmd_buf, cmd_size, stat_ret, num_stat_byte,
status_size, timeout_ms)`; `cmd_size` is the length of `cmd_buf`, `stat_ret`
is `none` for a NULL pointer and `some v` for a pointer to a byte holding `v`;
the second component of the result is that byte afterwards. -/
def _cyttsp4_send_cmd {D : Type} (ops : cyttsp4_bus_ops D) (ts : cyttsp4) (dev : D)
    (cmd_buf : List Nat) (stat_ret : Option Nat) (num_stat_byte status_size timeout_ms : Nat) :
    Int × Option Nat × D :=
  if cmd_buf.length = 0 then (0, stat_ret, dev)
  else
    let w := _cyttsp4_write_block_data (nosub ops) dev CY_REG_BASE cmd_buf ts.addr_ldr
    if w.1 < 0 then (w.1, stat_ret, w.2)
    else if timeout_ms > 0 then
      let g := _cyttsp4_get_status ops ts w.2 (List.replicate CY_MAX_STATUS_SIZE 0) status_size
        timeout_ms
      if g.1 < 0 ∨ ld8 g.2.1 0 ≠ CY_START_OF_PACKET then
        (if ¬ (g.1 < 0) then err_io else g.1, stat_ret, g.2.2)
      else if ld8 g.2.1 CY_STATUS_BYTE ≠ ERROR_SUCCESS then (err_io, stat_ret, g.2.2)
      else
        (g.1, stat_ret.map (fun _ =>
          if num_stat_byte < status_size then ld8 g.2.1 num_stat_byte else 0), g.2.2)
    else (w.1, stat_ret.map (fun _ => ERROR_SUCCESS), w.2)

/-- `struct cyttsp4_dev_id`. -/
structure cyttsp4_dev_id where
  silicon_id : Nat
  rev_id : Nat
  bl_ver : Nat
  deriving DecidableEq, Repr

/-- `_cyttsp4_ldr_enter(ts, dev_id)`. -/
def _cyttsp4_ldr_enter {D : Type} (ops : cyttsp4_bus_ops D) (ts : cyttsp4) (dev : D) :
    Int × cyttsp4_dev_id × D :=
  let w := _cyttsp4_write_block_data (nosub ops) dev CY_REG_BASE ldr_enter_cmd ts.addr_ldr
  if w.1 < 0 then (w.1, ⟨0, 0, 0⟩, w.2)
  else
    let g := _cyttsp4_get_status ops ts w.2 (List.replicate CY_MAX_STATUS_SIZE 0) 15
      CY_HALF_SEC_TMO_MS
    if g.1 < 0 then (g.1, ⟨0, 0, 0⟩, g.2.2)
    else if ld8 g.2.1 CY_STATUS_BYTE = ERROR_SUCCESS then
      (0, { bl_ver := (ld8 g.2.1 11 <<< 16) ||| (ld8 g.2.1 10 <<< 8) ||| ld8 g.2.1 9
            rev_id := ld8 g.2.1 8
            silicon_id := ((ld8 g.2.1 7 <<< 24) ||| (ld8 g.2.1 6 <<< 16)
              ||| (ld8 g.2.1 5 <<< 8) ||| ld8 g.2.1 4) % 4294967296 }, g.2.2)
    else (err_io, ⟨0, 0, 0⟩, g.2.2)

/-- `_cyttsp4_ldr_erase_row(ts, row_image)`. -/
def _cyttsp4_ldr_erase_row {D : Type} (ops : cyttsp4_bus_ops D) (ts : cyttsp4) (dev : D)
    (row_image : cyttsp4_hex_image) : Int × D :=
  let r := _cyttsp4_send_cmd ops ts dev (ldr_erase_row_cmd row_image) none 0 7
    CY_HALF_SEC_TMO_MS
  (r.1, r.2.2)

/-- `_cyttsp4_get_short(buf + i)`. -/
def _cyttsp4_get_short (buf : List Nat) (i : Nat) : Nat :=
  ((ld8 buf i <<< 8) + ld8 buf (i + 1)) % 65536

/-- `_cyttsp4_get_row(ts, row_buf, image_buf, size)` with `image_buf = fw + p`:
the row buffer afterwards (the returned pointer is `fw + p + size`). -/
def _cyttsp4_get_row (row_buf fw : List Nat) (p size : Nat) : List Nat :=
  store row_buf 0 size (fw.drop p)

/-- The copy loop of `_cyttsp4_ldr_parse_row` with `n` bytes left:
`row_image->row_data[i] = row_buf[j++]`. -/
def parse_row_copy (row_buf : List Nat) : Nat → Nat → Nat → List Nat → List Nat
  | 0, _, _, row_data => row_data
  | n + 1, i, j, row_data =>
    parse_row_copy row_buf n (i + 1) (j + 1) (row_data.set i (ld8 row_buf j))

/-- `_cyttsp4_ldr_parse_row(ts, row_buf, row_image)`: the return code and
`*row_image` afterwards. -/
def _cyttsp4_ldr_parse_row (row_buf : List Nat) (row_image : cyttsp4_hex_image) :
    Int × cyttsp4_hex_image :=
  let row_image := { row_image with
    array_id := ld8 row_buf 0
    row_num := _cyttsp4_get_short row_buf 1
    row_size := _cyttsp4_get_short row_buf 3 }
  if row_image.row_size > CY_DATA_ROW_SIZE then (err_overflow, row_image)
  else
    (0, { row_image with
      row_data := parse_row_copy row_buf row_image.row_size 0 5 row_image.row_data })

/-- The segment loop of `_cyttsp4_ldr_prog_row` with `n` segments left and the
running index `row_data`: one send-data command per segment; a failed command
leaves the loop for the exit label. -/
def ldr_prog_row_segments {D : Type} (ops : cyttsp4_bus_ops D) (ts : cyttsp4)
    (row_image : cyttsp4_hex_image) : Nat → Nat → D → Int × Nat × D
  | 0, row_data, dev => (0, row_data, dev)
  | n + 1, row_data, dev =>
    let r := _cyttsp4_send_cmd ops ts dev (ldr_send_data_cmd row_image row_data) none 0 8
      CY_HALF_SEC_TMO_MS
    if r.1 < 0 then (r.1, row_data + CY_PACKET_DATA_LEN, r.2.2)
    else ldr_prog_row_segments ops ts row_image n (row_data + CY_PACKET_DATA_LEN) r.2.2

/-- `_cyttsp4_ldr_prog_row(ts, row_image)`. -/
def _cyttsp4_ldr_prog_row {D : Type} (ops : cyttsp4_bus_ops D) (ts : cyttsp4) (dev : D)
    (row_image : cyttsp4_hex_image) : Int × D :=
  let s := ldr_prog_row_segments ops ts row_image
    (CY_DATA_ROW_SIZE / CY_PACKET_DATA_LEN - 1) 0 dev
  if s.1 < 0 then (s.1, s.2.2)
  else
    let r := _cyttsp4_send_cmd ops ts s.2.2 (ldr_prog_row_cmd row_image s.2.1) none 0 7
      CY_HALF_SEC_TMO_MS
    (r.1, r.2.2)

/-- `_cyttsp4_ldr_verify_row(ts, row_image)`. -/
def _cyttsp4_ldr_verify_row {D : Type} (ops : cyttsp4_bus_ops D) (ts : cyttsp4) (dev : D)
    (row_image : cyttsp4_hex_image) : Int × D :=
  let r := _cyttsp4_send_cmd ops ts dev (ldr_verify_row_cmd row_image) (some 0) 4 8
    CY_HALF_SEC_TMO_MS
  (r.1, r.2.2)

/-- `_cyttsp4_ldr_verify_chksum(ts, app_chksum)`: return code, `*app_chksum`
and device afterwards. -/
def _cyttsp4_ldr_verify_chksum {D : Type} (ops : cyttsp4_bus_ops D) (ts : cyttsp4) (dev : D)
    (app_chksum : Nat) : Int × Nat × D :=
  let r := _cyttsp4_send_cmd ops ts dev ldr_verify_chksum_cmd (some app_chksum) 4 8
    CY_HALF_SEC_TMO_MS
  (r.1, r.2.1.getD app_chksum, r.2.2)

/-- `_cyttsp4_ldr_exit(ts)`. -/
def _cyttsp4_ldr_exit {D : Type} (ops : cyttsp4_bus_ops D) (ts : cyttsp4) (dev : D) :
    Int × D :=
  let r := _cyttsp4_send_cmd ops ts dev ldr_exit_cmd none 0 7 0
  (r.1, r.2.2)

/-! ## Reset and waits -/

/-- `_cyttsp4_soft_reset(ts)`. -/
def _cyttsp4_soft_reset {D : Type} (ops : cyttsp4_bus_ops D) (ts : cyttsp4) (dev : D) :
    Int × D :=
  _cyttsp4_write_block_data ops dev CY_REG_BASE [CY_SOFT_RESET_MODE] ts.addr_tch

/-- `_cyttsp4_reset(ts)`. -/
def _cyttsp4_reset {D : Type} (ops : cyttsp4_bus_ops D) (ts : cyttsp4) (dev : D) :
    Int × cyttsp4 × D :=
  let r : Int × cyttsp4 × D :=
    match ops.hw_reset with
    | some hw_reset =>
      let h := hw_reset dev
      if h.1 = err_nosys then
        let s := _cyttsp4_soft_reset ops ts h.2
        (s.1, { ts with soft_reset_asserted := true }, s.2)
      else (h.1, { ts with soft_reset_asserted := false }, h.2)
    | none =>
      let s := _cyttsp4_soft_reset ops ts dev
      (s.1, { ts with soft_reset_asserted := true }, s.2)
  if r.1 < 0 then r
  else (r.1, { r.2.1 with current_mode := CY_MODE_BOOTLOADER, driver_state := CY_BL_STATE },
    r.2.2)

/-- `_cyttsp4_wait_int_no_init(ts, timeout_ms)`. -/
def _cyttsp4_wait_int_no_init {D : Type} (ops : cyttsp4_bus_ops D) (dev : D)
    (timeout_ms : Nat) : Int × D :=
  let w := ops.wait dev timeout_ms
  (if w.1 = 0 then err_timedout else 0, w.2)

/-- `_cyttsp4_wait_int(ts, timeout_ms)`. -/
def _cyttsp4_wait_int {D : Type} (ops : cyttsp4_bus_ops D) (dev : D) (timeout_ms : Nat) :
    Int × D :=
  _cyttsp4_wait_int_no_init ops dev timeout_ms

/-- `_cyttsp4_wait_si_int(ts, timeout_ms)`. -/
def _cyttsp4_wait_si_int {D : Type} (ops : cyttsp4_bus_ops D) (dev : D) (timeout_ms : Nat) :
    Int × D :=
  let w := ops.wait_si dev timeout_ms
  (if w.1 = 0 then err_timedout else 0, w.2)

/-! ## Firmware load (`_cyttsp4_load_app`) -/

/-- The value of `sizeof(struct cyttsp4_hex_image)`, a packed structure: `image_rec_size`. -/
def image_rec_size : Nat := 1 + 2 + 2 + CY_DATA_ROW_SIZE

/-- The size of the row buffer of `_cyttsp4_load_app`:
`1024 > CY_MAX_PRBUF_SIZE ? 1024 : CY_MAX_PRBUF_SIZE`. -/
def row_buf_size {D : Type} (ops : cyttsp4_bus_ops D) : Nat :=
  if 1024 > ops.max_prbuf_size then 1024 else ops.max_prbuf_size

/-- The row image as `kzalloc` delivers it. -/
def row_image_zero : cyttsp4_hex_image where
  array_id := 0
  row_num := 0
  row_size := 0
  row_data := List.replicate CY_DATA_ROW_SIZE 0

/-- Where one pass of the row loop of `_cyttsp4_load_app` goes on: the next
pass, the label `bl_exit`, or the label `_cyttsp4_load_app_error_exit`. -/
inductive load_app_next where
  | next_row
  | bl_exit
  | error_exit
  deriving DecidableEq, Repr

/-- The erase loop of `_cyttsp4_load_app`,
`tries = 0; do { retval = _cyttsp4_ldr_erase_row(...); } while (retval &&
tries++ < 5);`, entered with `n = 5 - tries`. -/
def load_app_erase {D : Type} (ops : cyttsp4_bus_ops D) (ts : cyttsp4)
    (row_image : cyttsp4_hex_image) : Nat → D → Int × D
  | n, dev =>
    let r := _cyttsp4_ldr_erase_row ops ts dev row_image
    if r.1 ≠ 0 then
      match n with
      | k + 1 => load_app_erase ops ts row_image k r.2
      | 0 => r
    else r

/-- One pass of the row loop after the erase loop: program the row, verify
it. -/
def load_app_row_prog {D : Type} (ops : cyttsp4_bus_ops D) (ts : cyttsp4)
    (row_image : cyttsp4_hex_image) (dev : D) :
    load_app_next × Int × cyttsp4_hex_image × D :=
  let g := _cyttsp4_ldr_prog_row ops ts dev row_image
  if g.1 < 0 then (.error_exit, g.1, row_image, g.2)
  else
    let v := _cyttsp4_ldr_verify_row ops ts g.2 row_image
    if v.1 < 0 then (.error_exit, v.1, row_image, v.2)
    else (.next_row, v.1, row_image, v.2)

/-- One pass of the row loop of `_cyttsp4_load_app` for the record at
`fw + p`: where to go on, `retval`, `*row_image` and the device afterwards. -/
def load_app_row {D : Type} (ops : cyttsp4_bus_ops D) (ts : cyttsp4) (fw : List Nat)
    (p : Nat) (row_image : cyttsp4_hex_image) (dev : D) :
    load_app_next × Int × cyttsp4_hex_image × D :=
  let row_buf := _cyttsp4_get_row (List.replicate (row_buf_size ops) 0) fw p image_rec_size
  let pr := _cyttsp4_ldr_parse_row row_buf row_image
  if pr.1 < 0 then (.bl_exit, pr.1, pr.2, dev)
  else
    let e := load_app_erase ops ts pr.2 5 dev
    if e.1 < 0 then (.error_exit, e.1, pr.2, e.2)
    else load_app_row_prog ops ts pr.2 e.2

/-- The row loop `while (p < (fw + fw_size))` with `n` records left between
`fw + p` and the end of the image. -/
def load_app_rows {D : Type} (ops : cyttsp4_bus_ops D) (ts : cyttsp4) (fw : List Nat) :
    Nat → Nat → Int → cyttsp4_hex_image → D → load_app_next × Int × cyttsp4_hex_image × D
  | 0, _, retval, row_image, dev => (.next_row, retval, row_image, dev)
  | n + 1, p, _, row_image, dev =>
    let r := load_app_row ops ts fw p row_image dev
    if r.1 = .next_row then
      load_app_rows ops ts fw n (p + image_rec_size) r.2.1 r.2.2.1 r.2.2.2
    else r

/-- The label `bl_exit` of `_cyttsp4_load_app`, reached with `retval`. -/
def load_app_bl_exit {D : Type} (ops : cyttsp4_bus_ops D) (ts : cyttsp4) (dev : D)
    (retval : Int) : Int × cyttsp4 × D :=
  let x := _cyttsp4_ldr_exit ops ts dev
  if x.1 ≠ 0 then (x.1, _cyttsp4_change_state ts CY_BL_STATE, x.2)
  else (retval, _cyttsp4_change_state ts CY_TRANSFER_STATE, x.2)

/-- The part of `_cyttsp4_load_app` after the row loop. -/
def load_app_finish {D : Type} (ops : cyttsp4_bus_ops D) (ts : cyttsp4)
    (rows : load_app_next × Int × cyttsp4_hex_image × D) : Int × cyttsp4 × D :=
  match rows.1 with
  | .error_exit => (rows.2.1, _cyttsp4_change_state ts CY_BL_STATE, rows.2.2.2)
  | .bl_exit => load_app_bl_exit ops ts rows.2.2.2 rows.2.1
  | .next_row =>
    let c := _cyttsp4_ldr_verify_chksum ops ts rows.2.2.2 0
    load_app_bl_exit ops ts c.2.2 (if c.1 < 0 then 0 else c.1)

/-- `_cyttsp4_load_app(ts, fw, fw_size)`; `fw_size` is the length of `fw`. -/
def _cyttsp4_load_app {D : Type} (ops : cyttsp4_bus_ops D) (ts : cyttsp4) (dev : D)
    (fw : List Nat) : Int × cyttsp4 × D :=
  if fw.length = 0 ∨ fw.length % image_rec_size ≠ 0 then (err_inval, ts, dev)
  else
    let r := _cyttsp4_reset ops ts dev
    if r.1 < 0 then (r.1, r.2.1, r.2.2)
    else
      let w := _cyttsp4_wait_int ops r.2.2 (CY_TEN_SEC_TMO_MS * 2)
      if w.1 < 0 then (w.1, r.2.1, w.2)
      else
        let ts := _cyttsp4_change_state r.2.1 CY_BL_STATE
        let e := _cyttsp4_ldr_enter ops ts w.2
        if e.1 < 0 then (e.1, _cyttsp4_change_state ts CY_BL_STATE, e.2.2)
        else
          load_app_finish ops ts
            (load_app_rows ops ts fw (fw.length / image_rec_size) 0 e.1 row_image_zero e.2.2)

/-- A record for array 1, row 0x0123, declaring 288 data bytes 0, 1, 2, ... -/
def sample_record : List Nat :=
  [1, 0x01, 0x23, 0x01, 0x20] ++ (List.range 288).map (fun i => i % 256)

/-! ## Reference definitions for the erase retries -/

/-- The device after `k` consecutive calls of `_cyttsp4_ldr_erase_row` for
`row_image`. -/
def erase_attempts_dev {D : Type} (ops : cyttsp4_bus_ops D) (ts : cyttsp4)
    (row_image : cyttsp4_hex_image) : Nat → D → D
  | 0, dev => dev
  | k + 1, dev =>
    erase_attempts_dev ops ts row_image k (_cyttsp4_ldr_erase_row ops ts dev row_image).2

/-- The return code of erase attempt number `k + 1` in a run of consecutive
attempts that starts on `dev`. -/
def erase_attempt_code {D : Type} (ops : cyttsp4_bus_ops D) (ts : cyttsp4)
    (row_image : cyttsp4_hex_image) (k : Nat) (dev : D) : Int :=
  (_cyttsp4_ldr_erase_row ops ts (erase_attempts_dev ops ts row_image k dev) row_image).1

/-- A device "accepts the bootloader commands" at address `addr`: every
command write succeeds with return code 0 and every read of the status packet
succeeds with return code 0 and delivers a packet that starts with
`CY_START_OF_PACKET` and carries the status `ERROR_SUCCESS`. -/
def accepts_ldr_cmds {D : Type} (ops : cyttsp4_bus_ops D) (addr : Nat) : Prop :=
  (∀ (d : D) (c : Nat) (buf : List Nat), (ops.write_nosub d c buf addr).1 = 0)
  ∧ ∀ (d : D) (size : Nat),
      (ops.read_nosub d CY_REG_BASE size addr).1 = 0
      ∧ (ops.read_nosub d CY_REG_BASE size addr).2.1.getD 0 0 % 256 = CY_START_OF_PACKET
      ∧ (ops.read_nosub d CY_REG_BASE size addr).2.1.getD 1 0 % 256 = ERROR_SUCCESS

/-- A bootloader that refuses the first `fails` erase commands it sees with
the status `ERROR_FLASH_ARRAY` and accepts every other command.  Its state is
the number of erase commands seen and the opcode of the last command. -/
def bus_ldr_flaky (fails : Nat) : cyttsp4_bus_ops (Nat × Nat) where
  read := fun d _ _ _ => (0, [], d)
  write := fun d _ _ _ => (0, d)
  wait := fun d _ => (1, d)
  num_retry := 2
  read_nosub := fun d _ _ _ =>
    (0, [CY_START_OF_PACKET, if d.2 = CY_CMD_LDR_ERASE_ROW ∧ d.1 ≤ fails then 2 else 0,
         0, 0, 0, 0, 0, 0, 0, 0, 0, 0, 0, 0, 0], d)
  write_nosub := fun d _ buf _ =>
    (0, (if buf.getD 1 0 = CY_CMD_LDR_ERASE_ROW then d.1 + 1 else d.1, buf.getD 1 0))

/-- A one-record firmware image: the sample record. -/
def sample_fw : List Nat := sample_record

/-- The row image that the row loop of `_cyttsp4_load_app` parses from the
record of `sample_fw`. -/
def sample_fw_row : cyttsp4_hex_image :=
  (_cyttsp4_ldr_parse_row (_cyttsp4_get_row (List.replicate 1024 0) sample_fw 0 image_rec_size)
    row_image_zero).2

/-- A bootloader that accepts every command. -/
def bus_ldr_ok : cyttsp4_bus_ops Unit where
  read := fun d _ _ _ => (0, [], d)
  write := fun d _ _ _ => (0, d)
  wait := fun d _ => (1, d)
  num_retry := 2
  read_nosub := fun d _ _ _ =>
    (0, [CY_START_OF_PACKET, ERROR_SUCCESS, 0, 0, 0, 0, 0, 0, 0, 0, 0, 0, 0, 0, 0], d)
  write_nosub := fun d _ _ _ => (0, d)

/-! ## Reference definitions for the row data sent to the device -/

/-- The row data bytes that the commands of a write log carry: the 96 data
bytes of each send-data command and the 96 data bytes that follow the array id
and the row number in each program-row command, in the order of the log. -/
def row_data_sent (log : List (Nat × List Nat)) : List Nat :=
  log.flatMap (fun e =>
    if ld8 e.2 1 = CY_CMD_LDR_SEND_DATA then (e.2.drop 4).take CY_PACKET_DATA_LEN
    else if ld8 e.2 1 = CY_CMD_LDR_PROG_ROW then (e.2.drop 7).take CY_PACKET_DATA_LEN
    else [])

/-- A full record for row 0 of array 0 whose 288 data bytes all are `b`. -/
def sample_full_record (b : Nat) : List Nat :=
  [0, 0x00, 0x00, 0x01, 0x20] ++ List.replicate 288 b

/-- A record for row 1 of array 0 that declares 16 data bytes; all its data
bytes are 0x11. -/
def sample_short_record : List Nat :=
  [0, 0x00, 0x01, 0x00, 0x10] ++ List.replicate 288 0x11

/-- A two-record image: a full record with data bytes `b`, then the short
record. -/
def sample_fw_two (b : Nat) : List Nat := sample_full_record b ++ sample_short_record

/-! ## Startup (`_cyttsp4_startup`) and its callers -/

/-- The loop `for (i = 0; i < CY_DELAY_MAX * 10 * 5; i++)` of
`_cyttsp4_startup` that polls `irq_stat()` for `CY_IRQ_DEASSERT`, with `n`
polls left: `retval` and the device afterwards. -/
def startup_irq_poll {D : Type} (ops : cyttsp4_bus_ops D) : Nat → D → Int × D
  | 0, dev => (err_timedout, dev)
  | n + 1, dev =>
    let r := ops.irq_stat dev
    if r.1 = CY_IRQ_DEASSERT then (0, r.2) else startup_irq_poll ops n r.2

/-- Where one pass of `_cyttsp4_startup` goes on after the first read of the
system information: the label `_cyttsp4_startup_exit`, the label
`_cyttsp4_startup_start`, or the call of `_cyttsp4_get_sysinfo_regs`. -/
inductive startup_next where
  | exit
  | restart
  | sysinfo
  deriving DecidableEq, Repr

/-- The branch of `_cyttsp4_startup` taken when the first read of the system
information has failed, entered with the local `upgraded`: the attempt to
reflash the device from the platform firmware image. -/
def startup_reflash {D : Type} (ops : cyttsp4_bus_ops D) (ts : cyttsp4) (dev : D)
    (upgraded : Bool) : startup_next × Int × cyttsp4 × D :=
  let ts := _cyttsp4_change_state ts CY_BL_STATE
  if upgraded then (.exit, err_io, ts, dev)
  else
    match ts.fw_img with
    | none => (.exit, err_nodata, _cyttsp4_change_state ts CY_INVALID_STATE, dev)
    | some img =>
      if img.length = 0 then
        (.exit, err_nodata, _cyttsp4_change_state ts CY_INVALID_STATE, dev)
      else
        let l := _cyttsp4_load_app ops ts dev img
        if l.1 ≠ 0 then (.exit, err_io, _cyttsp4_change_state l.2.1 CY_INVALID_STATE, l.2.2)
        else (.restart, l.1, l.2.1, l.2.2)

/-- The first read of the system information in `_cyttsp4_startup` and what
follows from its outcome. -/
def startup_read_sysinfo {D : Type} (ops : cyttsp4_bus_ops D) (ts : cyttsp4) (dev : D)
    (upgraded : Bool) : startup_next × Int × cyttsp4 × D :=
  let ts := { ts with sysinfo_data := List.replicate 16 0 }
  let h := _cyttsp4_read_block_data ops dev CY_REG_BASE 16 ts.sysinfo_data ts.addr_tch
  let ts := { ts with sysinfo_data := h.2.1 }
  if h.1 < 0 then startup_reflash ops ts h.2.2 upgraded
  else (.sysinfo, h.1, ts, h.2.2)

/-- One pass of `_cyttsp4_startup` from the label `_cyttsp4_startup_start` to
the outcome of the first read of the system information, entered with the
local `upgraded`.  The interrupt handler that may run during the wait in
`CY_EXIT_BL_STATE` talks to the device, which is part of the answer `wait_si`
of the collaborators, and may set `driver_state` to `CY_SYSINFO_STATE`, which
the statement after the wait does in any case. -/
def startup_pass {D : Type} (ops : cyttsp4_bus_ops D) (ts : cyttsp4) (dev : D)
    (upgraded : Bool) : startup_next × Int × cyttsp4 × D :=
  let ts := _cyttsp4_change_state ts CY_BL_STATE
  let r := _cyttsp4_reset ops ts dev
  let ts := r.2.1
  let w := _cyttsp4_wait_int ops r.2.2 CY_HALF_SEC_TMO_MS
  if w.1 < 0 then (.exit, w.1, ts, w.2)
  else
    let ts := _cyttsp4_change_state ts CY_EXIT_BL_STATE
    let ts := { ts with switch_flag := true }
    let si := _cyttsp4_wait_si_int ops w.2 CY_TEN_SEC_TMO_MS
    let ts := if ts.driver_state ≠ CY_SYSINFO_STATE then
        _cyttsp4_change_state ts CY_SYSINFO_STATE
      else ts
    let q := startup_irq_poll ops (CY_DELAY_MAX * 10 * 5) si.2
    if q.1 < 0 then (.exit, q.1, ts, q.2)
    else startup_read_sysinfo ops ts q.2 upgraded

/-- The label `_cyttsp4_startup_exit`. -/
def startup_exit {D : Type} (r : Int × cyttsp4 × D) : Int × cyttsp4 × D :=
  (r.1, { r.2.1 with low_power_enable := true }, r.2.2)

/-- `_cyttsp4_startup(ts)` for the runs that reach the label
`_cyttsp4_startup_exit` before `_cyttsp4_get_sysinfo_regs` is called; the
result is `none` for a run that reaches this call, whose continuation is not
modelled.  The `memset` of `ts->test` clears `test_cur_mode`, the one field of
it that the driver context holds.  The second pass runs with
`upgraded = true` and cannot ask for a third. -/
def _cyttsp4_startup {D : Type} (ops : cyttsp4_bus_ops D) (ts : cyttsp4) (dev : D) :
    Option (Int × cyttsp4 × D) :=
  let ts := { ts with test_cur_mode := 0 }
  let ts := { ts with prev_record_count := 0xFF }
  let p1 := startup_pass ops ts dev false
  match p1.1 with
  | .exit => some (startup_exit p1.2)
  | .sysinfo => none
  | .restart =>
    let p2 := startup_pass ops p1.2.2.1 p1.2.2.2 true
    match p2.1 with
    | .exit => some (startup_exit p2.2)
    | .sysinfo => none
    | .restart => none

/-- `cyttsp4_ts_work_func(work)`: the driver context and the device
afterwards, for the runs of `_cyttsp4_startup` that are modelled. -/
def cyttsp4_ts_work_func {D : Type} (ops : cyttsp4_bus_ops D) (ts : cyttsp4) (dev : D) :
    Option (cyttsp4 × D) :=
  let ts := emit (emit ts .mt_sync) .sync
  (_cyttsp4_startup ops ts dev).map (fun r =>
    (if r.1 < 0 then _cyttsp4_change_state r.2.1 CY_IDLE_STATE else r.2.1, r.2.2))

/-- `cyttsp4_open(dev)`: return value, driver context and device afterwards,
for the runs of `_cyttsp4_startup` that are modelled. -/
def cyttsp4_open {D : Type} (ops : cyttsp4_bus_ops D) (ts : cyttsp4) (dev : D) :
    Option (Int × cyttsp4 × D) :=
  if !ts.powered then
    (_cyttsp4_startup ops ts dev).map (fun r =>
      if r.1 < 0 then
        (0, _cyttsp4_change_state { r.2.1 with powered := false } CY_IDLE_STATE, r.2.2)
      else (0, { r.2.1 with powered := true }, r.2.2))
  else some (0, ts, dev)

/-! ## The driver state during `_cyttsp4_put_cmd_wait` -/

/-- The retry part of `_cyttsp4_put_cmd_wait` run in the driver context `ts`,
with a record of `ts->driver_state` at each wait for `int_running` and at each
read of the status byte, oldest first: the points at which the function is
outside the driver and the interrupt handler can run.  The first component is
the result of `put_cmd_wait_retry`. -/
def put_cmd_wait_retry_states {D : Type} (ops : cyttsp4_bus_ops D) (ts : cyttsp4)
    (ofs timeout_ms : Nat) (cond : Option (Nat → Bool)) (i2c_addr : Nat) :
    Nat → Nat → D → (Int × Nat × Bool × D) × List cyttsp4_driver_state
  | n, cmd, dev =>
    let at_wait := ts.driver_state
    let w := ops.wait dev timeout_ms
    let at_read := ts.driver_state
    let r := _cyttsp4_read_block_data ops w.2 ofs 1 [cmd] i2c_addr
    let cmd1 := ld8 r.2.1 0
    match cond with
    | some c =>
      if !(c cmd1) then
        if w.1 = 0 then ((err_timedout, cmd1, false, r.2.2), [at_wait, at_read])
        else
          match n with
          | k + 1 =>
            let q := put_cmd_wait_retry_states ops ts ofs timeout_ms cond i2c_addr k cmd1 r.2.2
            (q.1, at_wait :: at_read :: q.2)
          | 0 => ((err_io, cmd1, false, r.2.2), [at_wait, at_read])
      else ((0, cmd1, true, r.2.2), [at_wait, at_read])
    | none => ((0, cmd1, true, r.2.2), [at_wait, at_read])

/-- `_cyttsp4_put_cmd_wait` with the driver context carried through every
statement as in the C code, and with a record of `ts->driver_state` at the
write of the command, at each wait and at each read of the status byte,
oldest first.  The first component is the result of the function. -/
def put_cmd_wait_states {D : Type} (ops : cyttsp4_bus_ops D) (ts : cyttsp4) (dev : D)
    (ofs : Nat) (cmd_buf : List Nat) (timeout_ms : Nat) (cond : Option (Nat → Bool))
    (retcmd : Option Nat) (i2c_addr : Nat) (cmd_state : cyttsp4_driver_state) :
    (Int × Option Nat × cyttsp4 × D) × List cyttsp4_driver_state :=
  let tmp_state := ts.driver_state
  let ts := if cmd_state ≠ CY_OPCMD_STATE then _cyttsp4_change_state ts CY_TRANSFER_STATE
    else ts
  let ts := _cyttsp4_change_state ts cmd_state
  let at_write := ts.driver_state
  let w := _cyttsp4_write_block_data ops dev ofs cmd_buf i2c_addr
  if w.1 < 0 then
    ((w.1, retcmd, _cyttsp4_change_state ts tmp_state, w.2), [at_write])
  else
    let r := put_cmd_wait_retry_states ops ts ofs timeout_ms cond i2c_addr 2 0 w.2
    let retcmd := if r.1.2.2.1 then retcmd.map (fun _ => r.1.2.1) else retcmd
    ((r.1.1, retcmd, _cyttsp4_change_state ts tmp_state, r.1.2.2.2), at_write :: r.2)

/-! ## Interrupt, suspend and resume -/

def CY_TEST_MODE_NORMAL_OP : Nat := 0
/-- `-EBUSY`. -/
def err_busy : Int := -16

/-- `cyttsp4_irq(irq, handle)` for the driver states in which the handler
does not process touches; the result is `none` for the states Sleep, Idle,
Ready, OpCommand and Active, whose branches are not modelled.  The calls of
`complete()` signal the waits, which the collaborators answer. -/
def cyttsp4_irq {D : Type} (ops : cyttsp4_bus_ops D) (ts : cyttsp4) (dev : D) :
    Option (cyttsp4 × D) :=
  match ts.driver_state with
  | CY_BL_STATE => some (ts, dev)
  | CY_CMD_STATE => some (ts, dev)
  | CY_SYSINFO_STATE => some (ts, dev)
  | CY_EXIT_BL_STATE =>
    if ts.switch_flag = true then
      let ts := { ts with switch_flag := false }
      let r := _cyttsp4_ldr_exit ops ts dev
      if r.1 < 0 then some (ts, r.2)
      else some ({ ts with driver_state := CY_SYSINFO_STATE }, r.2)
    else some (ts, dev)
  | CY_SLEEP_STATE => none
  | CY_IDLE_STATE => none
  | CY_READY_STATE => none
  | CY_OPCMD_STATE => none
  | CY_ACTIVE_STATE => none
  | CY_TRANSFER_STATE => some (ts, dev)
  | CY_INVALID_STATE => some (ts, dev)

/-- `cyttsp4_suspend(handle)`: return value and driver context afterwards; the
result is `none` for the Active state in normal operation, where the function
puts the device to sleep, which is not modelled. -/
def cyttsp4_suspend (ts : cyttsp4) : Option (Int × cyttsp4) :=
  if ts.test_cur_mode ≠ CY_TEST_MODE_NORMAL_OP then some (err_busy, ts)
  else
    match ts.driver_state with
    | CY_ACTIVE_STATE => none
    | CY_SLEEP_STATE => some (0, ts)
    | CY_BL_STATE => some (0, { ts with suspend_blocked := true })
    | CY_CMD_STATE => some (0, { ts with suspend_blocked := true })
    | CY_OPCMD_STATE => some (0, { ts with suspend_blocked := true })
    | CY_SYSINFO_STATE => some (0, { ts with suspend_blocked := true })
    | CY_READY_STATE => some (0, { ts with suspend_blocked := true })
    | CY_TRANSFER_STATE => some (0, { ts with suspend_blocked := true })
    | CY_IDLE_STATE => some (0, ts)
    | CY_INVALID_STATE => some (0, ts)
    | CY_EXIT_BL_STATE => some (0, ts)

/-- `cyttsp4_resume(handle)`: return value and driver context afterwards; the
result is `none` for the Sleep state, where the function wakes the device, and
when a charger/HDMI update is pending, where it calls
`write_charger_hdmi_config`; neither is modelled. -/
def cyttsp4_resume (ts : cyttsp4) : Option (Int × cyttsp4) :=
  match ts.driver_state with
  | CY_SLEEP_STATE => none
  | _ => if ts.charger_hdmi_update_pending = true then none else some (0, ts)

/-- The sample context in the Invalid state. -/
def sample_ts_invalid : cyttsp4 :=
  { sample_ts with driver_state := CY_INVALID_STATE }

/-! # Theorems -/

/-! ## Proofs: configuration CRC -/

theorem and_8000_ne_zero (x : Nat) : (x &&& 0x8000 ≠ 0) ↔ x.testBit 15 = true := by
  have h : (0x8000 : Nat) = 2 ^ 15 := by norm_num
  rw [h, Nat.and_two_pow]
  cases x.testBit 15 <;> simp

theorem xor_mod_pow (a p n : Nat) :
    (a ^^^ p) % 2 ^ n = (a % 2 ^ n) ^^^ (p % 2 ^ n) := by
  apply Nat.eq_of_testBit_eq
  intro j
  simp only [Nat.testBit_mod_two_pow, Nat.testBit_xor]
  by_cases h : j < n <;> simp [h]

/-- Shifting the register with `k + 1` pending message bits parked above the
live bits equals shifting the register alone and parking the remaining `k`
bits one position higher. -/
theorem shift_parked (crc m k : Nat) (hk : k < 16) :
    ((crc ^^^ ((m % 2 ^ (k + 1)) <<< (15 - k))) <<< 1) % 65536
      = ((2 * crc) % 65536) ^^^ ((m % 2 ^ k) <<< (16 - k)) := by
  apply Nat.eq_of_testBit_eq
  intro j
  have h : (65536 : Nat) = 2 ^ 16 := by norm_num
  rw [h, show 2 * crc = crc <<< 1 by simp [Nat.shiftLeft_eq, Nat.mul_comm]]
  simp only [Nat.testBit_mod_two_pow, Nat.testBit_xor, Nat.testBit_shiftLeft]
  by_cases h1 : j < 16 <;> by_cases h2 : 1 ≤ j <;> by_cases h3 : 16 - k ≤ j <;>
    simp [h1, h2, h3]
  · have e : j - 1 - (15 - k) = j - (16 - k) := by omega
    have a : 15 ≤ j - 1 + k := by omega
    have b : j - (16 - k) < k + 1 := by omega
    have c : j - (16 - k) < k := by omega
    simp [e, a, b, c]
  · have a : ¬ (15 ≤ j - 1 + k) := by omega
    simp [a]
  all_goals (intro hh; omega)

theorem ccitt_feed_bit_lt (c : Nat) (b : Bool) : ccitt_feed_bit c b < 65536 := by
  unfold ccitt_feed_bit
  have h1 : (2 * c) % 65536 < 2 ^ 16 := Nat.mod_lt _ (by norm_num)
  split
  · exact Nat.xor_lt_two_pow h1 (by norm_num)
  · exact h1

theorem crc_round_parked (crc m k : Nat) (hk : k < 16) :
    crc_round (crc ^^^ ((m % 2 ^ (k + 1)) <<< (15 - k)))
      = ccitt_feed_bit crc (m.testBit k) ^^^ ((m % 2 ^ k) <<< (16 - k)) := by
  have hb : (crc ^^^ ((m % 2 ^ (k + 1)) <<< (15 - k))).testBit 15
      = (crc.testBit 15 != m.testBit k) := by
    simp only [Nat.testBit_xor, Nat.testBit_shiftLeft, Nat.testBit_mod_two_pow]
    have e : 15 - (15 - k) = k := by omega
    have a : 15 ≥ 15 - k := by omega
    simp [e, a]
  unfold crc_round ccitt_feed_bit
  by_cases hx : (crc.testBit 15 != m.testBit k) = true
  · have h1 : (crc ^^^ ((m % 2 ^ (k + 1)) <<< (15 - k))) &&& 0x8000 ≠ 0 := by
      rw [and_8000_ne_zero, hb]; exact hx
    rw [if_pos h1, if_pos hx]
    have h16 : (65536 : Nat) = 2 ^ 16 := by norm_num
    have hp : (0x1021 : Nat) % 2 ^ 16 = 0x1021 := by norm_num
    have hc := shift_parked crc m k hk
    rw [h16] at hc ⊢
    rw [xor_mod_pow, hc, hp, Nat.xor_assoc, Nat.xor_assoc,
      Nat.xor_comm ((m % 2 ^ k) <<< (16 - k))]
  · have h1 : ¬ ((crc ^^^ ((m % 2 ^ (k + 1)) <<< (15 - k))) &&& 0x8000 ≠ 0) := by
      rw [and_8000_ne_zero, hb]; exact hx
    rw [if_neg h1, if_neg hx]
    exact shift_parked crc m k hk

theorem crc_rounds_eq_feed (k : Nat) : ∀ (crc m : Nat), k ≤ 16 →
    crc_rounds k (crc ^^^ ((m % 2 ^ k) <<< (16 - k)))
      = (msb_bits k m).foldl ccitt_feed_bit crc := by
  induction k with
  | zero => intro crc m _; simp [crc_rounds, msb_bits, Nat.mod_one]
  | succ k ih =>
    intro crc m hk
    have e : 16 - (k + 1) = 15 - k := by omega
    rw [crc_rounds, msb_bits, List.foldl_cons, e, crc_round_parked crc m k (by omega)]
    exact ih _ m (by omega)

theorem crc_byte_eq_feed (crc b : Nat) (hc : crc < 65536) :
    crc_byte crc b = (msb_bits 8 b).foldl ccitt_feed_bit crc := by
  have hb : (b % 256) <<< 8 < 2 ^ 16 := by
    have : b % 256 < 256 := Nat.mod_lt _ (by norm_num)
    rw [Nat.shiftLeft_eq]; omega
  have hx : crc ^^^ ((b % 256) <<< 8) < 2 ^ 16 := Nat.xor_lt_two_pow (by omega) hb
  have h := crc_rounds_eq_feed 8 crc b (by norm_num)
  unfold crc_byte
  rw [Nat.mod_eq_of_lt (by omega)]
  simpa using h

theorem foldl_feed_lt (bits : List Bool) : ∀ c, c < 65536 →
    bits.foldl ccitt_feed_bit c < 65536 := by
  induction bits with
  | nil => intro c hc; simpa using hc
  | cons b bs ih => intro c _; exact ih _ (ccitt_feed_bit_lt c b)

theorem partial_crc_eq_feed (pdata : List Nat) : ∀ crc, crc < 65536 →
    _cyttsp4_calc_partial_crc pdata crc
      = (message_bits_msb pdata).foldl ccitt_feed_bit crc := by
  induction pdata with
  | nil => intro crc _; rfl
  | cons b bs ih =>
    intro crc hc
    have hstep := crc_byte_eq_feed crc b hc
    have hlt : crc_byte crc b < 65536 := by
      rw [hstep]; exact foldl_feed_lt _ _ hc
    show _cyttsp4_calc_partial_crc bs (crc_byte crc b) = _
    rw [ih _ hlt, hstep, message_bits_msb, List.foldl_append]

set_option maxRecDepth 100000 in
theorem config_crc_check_value :
    _cyttsp4_calc_crc [0x31, 0x32, 0x33, 0x34, 0x35, 0x36, 0x37, 0x38, 0x39] 0 0
      = (0x29, 0xB1) := by decide

/-- C1: for every non-empty byte sequence the configuration CRC written by
`_cyttsp4_calc_crc` is the bit-serial CCITT CRC-16 (polynomial 0x1021, initial
value 0xFFFF, most significant bit first, no reflection, no final XOR, 16
bits), `crc_h` and `crc_l` being its high and low bytes; on the ASCII bytes of
"123456789" the result is 0x29B1. -/
theorem C1_config_crc_is_ccitt :
    (∀ (pdata : List Nat) (crc_h crc_l : Nat), pdata ≠ [] →
      _cyttsp4_calc_crc pdata crc_h crc_l
        = (ccitt_crc16 pdata / 256, ccitt_crc16 pdata % 256)
      ∧ _cyttsp4_calc_partial_crc pdata 0xFFFF = ccitt_crc16 pdata
      ∧ ccitt_crc16 pdata < 65536)
    ∧ _cyttsp4_calc_crc [0x31, 0x32, 0x33, 0x34, 0x35, 0x36, 0x37, 0x38, 0x39] 0 0
        = (0x29, 0xB1) := by
  refine ⟨?_, config_crc_check_value⟩
  intro pdata crc_h crc_l hne
  have hp := partial_crc_eq_feed pdata 0xFFFF (by norm_num)
  have hlen : ¬ pdata.length = 0 := by
    intro h; exact hne (List.length_eq_zero.mp h)
  refine ⟨?_, hp, foldl_feed_lt _ _ (by norm_num)⟩
  unfold _cyttsp4_calc_crc
  rw [if_neg hlen]
  simp only [hp]
  rfl

/-- Witness for C1 on the two-byte message `0x12 0x34`. -/
theorem C1_config_crc_is_ccitt_witness :
    _cyttsp4_calc_crc [0x12, 0x34] 7 9
      = (ccitt_crc16 [0x12, 0x34] / 256, ccitt_crc16 [0x12, 0x34] % 256) :=
  (C1_config_crc_is_ccitt.1 [0x12, 0x34] 7 9 (by decide)).1

/-! ## Proofs: loader CRC -/

theorem shiftRight_one_xor (a b : Nat) : (a ^^^ b) / 2 = (a / 2) ^^^ (b / 2) := by
  apply Nat.eq_of_testBit_eq
  intro j
  have h : ∀ x : Nat, x / 2 = x >>> 1 := fun x => by simp [Nat.shiftRight_eq_div_pow]
  simp only [h, Nat.testBit_shiftRight, Nat.testBit_xor]

theorem xor_mod_two (a b : Nat) : (a ^^^ b) % 2 = ((a % 2) ^^^ (b % 2)) := by
  have := xor_mod_pow a b 1
  simpa using this

theorem refl_round_xor (s t : Nat) :
    refl_round (s ^^^ t) = ldr_crc_bit s t ^^^ (t >>> 1) := by
  unfold refl_round ldr_crc_bit
  have hs : s >>> 1 = s / 2 := by simp [Nat.shiftRight_eq_div_pow]
  have ht : t >>> 1 = t / 2 := by simp [Nat.shiftRight_eq_div_pow]
  rw [Nat.and_one_is_mod, Nat.and_one_is_mod, ← xor_mod_two, shiftRight_one_xor, hs, ht]
  by_cases h : (s ^^^ t) % 2 = 1
  · have h2 : (s ^^^ t) % 2 ≠ 0 := by omega
    rw [if_pos h, if_pos h2, Nat.xor_assoc, Nat.xor_assoc, Nat.xor_comm (t / 2)]
  · have h2 : ¬ ((s ^^^ t) % 2 ≠ 0) := by omega
    rw [if_neg h, if_neg h2]

theorem ldr_crc_bits_eq_refl (n : Nat) : ∀ (s t : Nat), t < 2 ^ n →
    ldr_crc_bits n s t = refl_round^[n] (s ^^^ t) := by
  induction n with
  | zero =>
    intro s t ht
    have : t = 0 := by simpa using ht
    simp [ldr_crc_bits, this]
  | succ n ih =>
    intro s t ht
    have ht2 : t >>> 1 < 2 ^ n := by
      rw [Nat.shiftRight_eq_div_pow]
      have : 2 ^ (n + 1) = 2 * 2 ^ n := by ring
      omega
    rw [ldr_crc_bits, ih _ _ ht2, Function.iterate_succ_apply, refl_round_xor]

theorem ldr_crc_byte_eq_refl (c b : Nat) :
    ldr_crc_byte c b = refl_round^[8] (c ^^^ (b % 256)) := by
  have hb : 0x00ff &&& b = b % 256 := by
    rw [Nat.and_comm]
    exact Nat.and_pow_two_sub_one_eq_mod b 8
  unfold ldr_crc_byte
  rw [hb]
  exact ldr_crc_bits_eq_refl 8 c (b % 256) (Nat.mod_lt _ (by norm_num))

theorem ldr_fold_eq_reflected (buf : List Nat) :
    buf.foldl ldr_crc_byte 0xFFFF = crc16_reflected buf := by
  unfold crc16_reflected
  congr 1
  funext c b
  exact ldr_crc_byte_eq_refl c b

theorem refl_round_lt (c : Nat) (hc : c < 65536) : refl_round c < 65536 := by
  unfold refl_round
  have h1 : c / 2 < 2 ^ 16 := by omega
  split
  · exact Nat.xor_lt_two_pow h1 (by norm_num)
  · exact h1

theorem refl_iter_lt (n : Nat) : ∀ c, c < 65536 → refl_round^[n] c < 65536 := by
  induction n with
  | zero => intro c hc; simpa using hc
  | succ n ih =>
    intro c hc
    rw [Function.iterate_succ_apply]
    exact ih _ (refl_round_lt c hc)

theorem crc16_reflected_lt (bytes : List Nat) : crc16_reflected bytes < 65536 := by
  unfold crc16_reflected
  suffices h : ∀ c, c < 65536 →
      bytes.foldl (fun c b => refl_round^[8] (c ^^^ (b % 256))) c < 65536 from
    h _ (by norm_num)
  induction bytes with
  | nil => intro c hc; simpa using hc
  | cons b bs ih =>
    intro c hc
    apply ih
    apply refl_iter_lt
    have hb : b % 256 < 2 ^ 16 := by
      have : b % 256 < 256 := Nat.mod_lt _ (by norm_num)
      omega
    exact Nat.xor_lt_two_pow (by omega) hb

/-- The final `crc = (crc << 8) | (tmp >> 8 & 0xFF)` on a `u16` exchanges the
two bytes. -/
theorem swap_expr_eq (x : Nat) (hx : x < 65536) :
    ((x <<< 8) ||| ((x >>> 8) &&& 0xFF)) % 65536 = swap_bytes16 x := by
  unfold swap_bytes16
  have hh : (x >>> 8) &&& 0xFF = (x / 256) % 256 := by
    rw [Nat.shiftRight_eq_div_pow]
    exact Nat.and_pow_two_sub_one_eq_mod (x / 2 ^ 8) 8
  have hlt : (x / 256) % 256 < 2 ^ 8 := Nat.mod_lt _ (by norm_num)
  have hor := Nat.mul_add_lt_is_or hlt x
  rw [hh, Nat.shiftLeft_eq, Nat.mul_comm x, ← hor]
  clear hor hh
  have h1 : x / 256 % 256 = x / 256 := Nat.mod_eq_of_lt (by omega)
  rw [h1]
  norm_num
  omega

set_option maxRecDepth 100000 in
theorem loader_crc_check_value :
    _cyttsp4_compute_crc [0x31, 0x32, 0x33, 0x34, 0x35, 0x36, 0x37, 0x38, 0x39] = 0x6E90
    ∧ complement16 (crc16_reflected [0x31, 0x32, 0x33, 0x34, 0x35, 0x36, 0x37, 0x38, 0x39])
        = 0x906E := by decide

/-- C2: for every non-empty byte sequence the loader CRC returned by
`_cyttsp4_compute_crc` is the reflected CRC-16 (polynomial 0x8408, initial
value 0xFFFF, least significant bit first), ones-complemented, with its two
bytes exchanged; on the ASCII bytes of "123456789" it is 0x6E90, the byte
swap of the X-25 check value 0x906E; on the empty sequence it is 0x0000. -/
theorem C2_loader_crc_is_reflected :
    (∀ buf : List Nat, buf ≠ [] →
      _cyttsp4_compute_crc buf = swap_bytes16 (complement16 (crc16_reflected buf)))
    ∧ _cyttsp4_compute_crc [0x31, 0x32, 0x33, 0x34, 0x35, 0x36, 0x37, 0x38, 0x39] = 0x6E90
    ∧ complement16 (crc16_reflected [0x31, 0x32, 0x33, 0x34, 0x35, 0x36, 0x37, 0x38, 0x39])
        = 0x906E
    ∧ swap_bytes16 0x906E = 0x6E90
    ∧ _cyttsp4_compute_crc [] = 0x0000 := by
  refine ⟨?_, loader_crc_check_value.1, loader_crc_check_value.2, by decide, by decide⟩
  intro buf hne
  have hlen : ¬ buf.length = 0 := by
    intro h; exact hne (List.length_eq_zero.mp h)
  unfold _cyttsp4_compute_crc
  rw [if_neg hlen]
  simp only [ldr_fold_eq_reflected]
  have hlt := crc16_reflected_lt buf
  exact swap_expr_eq _ (by omega)

/-- Witness for C2 on the two-byte message `0x12 0x34`. -/
theorem C2_loader_crc_is_reflected_witness :
    _cyttsp4_compute_crc [0x12, 0x34]
      = swap_bytes16 (complement16 (crc16_reflected [0x12, 0x34])) :=
  C2_loader_crc_is_reflected.1 [0x12, 0x34] (by decide)

/-! ## Proofs: touch axis extraction -/

theorem mul_add_mod_wrap (a b M : Nat) : (a % M * 256 + b) % M = (a * 256 + b) % M := by
  rw [Nat.add_mod, Nat.mul_mod, Nat.mod_mod, ← Nat.mul_mod, ← Nat.add_mod]

theorem axis_loop_eq_foldl (xy_data : List Nat) (bofs : Nat) :
    ∀ (n axis next : Nat),
      get_touch_axis_loop xy_data bofs n (axis % 4294967296) next
        = (((List.range n).map (fun k => ld8 xy_data (next + k) >>> bofs)).foldl
            (fun value byte => value * 256 + byte) axis) % 4294967296 := by
  intro n
  induction n with
  | zero => intro axis next; simp [get_touch_axis_loop]
  | succ n ih =>
    intro axis next
    rw [get_touch_axis_loop, mul_add_mod_wrap, ih, List.range_succ_eq_map]
    simp only [List.map_cons, List.foldl_cons, List.map_map, Nat.add_zero]
    congr 2
    apply List.map_congr_left
    intro k _
    simp only [Function.comp, Nat.succ_eq_add_one]
    congr 2
    omega

theorem axis_loop_eq_be (size : Nat) (xy_data : List Nat) (bofs : Nat) :
    get_touch_axis_loop xy_data bofs size 0 0
      = be_accumulate ((field_bytes size xy_data).map (fun b => b >>> bofs)) % 4294967296 := by
  have h := axis_loop_eq_foldl xy_data bofs size 0 0
  simp only [Nat.zero_mod, Nat.zero_add] at h
  rw [h, be_accumulate, field_bytes, List.map_map]
  rfl

theorem be_accumulate_lt (bytes : List Nat) (hb : ∀ b ∈ bytes, b < 256) :
    be_accumulate bytes < 256 ^ bytes.length := by
  unfold be_accumulate
  suffices h : ∀ (l : List Nat) (v k : Nat), (∀ b ∈ l, b < 256) → v < 256 ^ k →
      l.foldl (fun value byte => value * 256 + byte) v < 256 ^ (k + l.length) by
    have := h bytes 0 0 hb (by norm_num)
    simpa using this
  intro l
  induction l with
  | nil => intro v k _ hv; simpa using hv
  | cons b bs ih =>
    intro v k hl hv
    have hb1 : b < 256 := hl b (List.mem_cons_self _ _)
    have hv2 : v * 256 + b < 256 ^ (k + 1) := by
      rw [pow_succ]; omega
    have := ih (v * 256 + b) (k + 1) (fun x hx => hl x (List.mem_cons_of_mem _ hx)) hv2
    simpa [Nat.add_assoc, Nat.add_comm 1] using this

theorem shifted_field_bytes_lt (size : Nat) (xy_data : List Nat) (bofs : Nat) :
    ∀ b ∈ (field_bytes size xy_data).map (fun b => b >>> bofs), b < 256 := by
  intro b hb
  simp only [field_bytes, List.map_map, List.mem_map, List.mem_range, Function.comp] at hb
  obtain ⟨k, _, rfl⟩ := hb
  have h1 : ld8 xy_data k < 256 := Nat.mod_lt _ (by norm_num)
  have h2 : ld8 xy_data k >>> bofs ≤ ld8 xy_data k := by
    rw [Nat.shiftRight_eq_div_pow]
    exact Nat.div_le_self _ _
  exact lt_of_le_of_lt h2 h1

/-- C3 (amended): for every field layout and every record buffer,
`_cyttsp4_get_touch_axis` shifts EVERY byte it reads right by the bit offset,
accumulates the shifted bytes big-endian on 32 bits and masks with
`max_value - 1` taken on 32 bits; whenever the field is at most four bytes
wide and `1 <= max_value <= 2^32` this is exactly the value obtained by
shifting each of the `byte_size` bytes, accumulating `value * 256 + byte` and
masking with `max_value - 1`. -/
theorem C3_touch_axis_every_byte_shifted (size max : Nat) (xy_data : List Nat) (bofs : Nat) :
    _cyttsp4_get_touch_axis size max xy_data bofs
        = (be_accumulate ((field_bytes size xy_data).map (fun b => b >>> bofs)) % 4294967296)
            &&& ((max + 4294967295) % 4294967296)
    ∧ (size ≤ 4 → 0 < max → max ≤ 4294967296 →
        _cyttsp4_get_touch_axis size max xy_data bofs
          = axis_every_byte_shifted size max xy_data bofs) := by
  have hgen : _cyttsp4_get_touch_axis size max xy_data bofs
        = (be_accumulate ((field_bytes size xy_data).map (fun b => b >>> bofs)) % 4294967296)
            &&& ((max + 4294967295) % 4294967296) := by
    unfold _cyttsp4_get_touch_axis
    rw [axis_loop_eq_be]
  refine ⟨hgen, ?_⟩
  intro hs hpos hmax
  rw [hgen, axis_every_byte_shifted]
  have hlen : ((field_bytes size xy_data).map (fun b => b >>> bofs)).length = size := by
    simp [field_bytes]
  have hlt := be_accumulate_lt _ (shifted_field_bytes_lt size xy_data bofs)
  rw [hlen] at hlt
  have hpow : 256 ^ size ≤ 4294967296 := by
    calc 256 ^ size ≤ 256 ^ 4 := Nat.pow_le_pow_right (by norm_num) hs
      _ = 4294967296 := by norm_num
  have hm : (max + 4294967295) % 4294967296 = max - 1 := by omega
  rw [Nat.mod_eq_of_lt (by omega), hm]

/-- Witness for C3 (amended): a two-byte field at bit offset 4. -/
theorem C3_touch_axis_every_byte_shifted_witness :
    _cyttsp4_get_touch_axis 2 0x1000 [0x12, 0x34] 4
      = axis_every_byte_shifted 2 0x1000 [0x12, 0x34] 4 :=
  (C3_touch_axis_every_byte_shifted 2 0x1000 [0x12, 0x34] 4).2
    (by decide) (by decide) (by decide)

/-- Counterexample to C3 as stated: for the two-byte field `0x12 0x34` at bit
offset 4 with `max_value = 0x1000` the code returns `0x103`, while shifting
only the first byte gives `0x134`. -/
theorem C3_first_byte_only_counterexample :
    _cyttsp4_get_touch_axis 2 0x1000 [0x12, 0x34] 4 = 0x103
    ∧ axis_first_byte_shifted 2 0x1000 [0x12, 0x34] 4 = 0x134
    ∧ _cyttsp4_get_touch_axis 2 0x1000 [0x12, 0x34] 4
        ≠ axis_first_byte_shifted 2 0x1000 [0x12, 0x34] 4 := by
  decide

/-! ## Proofs: effective touch count -/

theorem xy_worker_touches_zero (ts : cyttsp4) (rep_stat tt_stat : Nat)
    (h : xy_num_cur_tch ts.si_ofs tt_stat = 0) :
    (xy_worker_touches ts rep_stat tt_stat).num_prv_tch = 0
    ∧ (xy_worker_touches ts rep_stat tt_stat).input
        = ts.input ++ (if ts.num_prv_tch ≠ 0 then
            [input_event.report_key BTN_TOUCH CY_BTN_RELEASED, input_event.mt_sync,
              input_event.sync] else []) := by
  unfold xy_worker_touches
  simp only [h, ne_eq, not_true_eq_false, if_false]
  refine ⟨trivial, ?_⟩
  by_cases hp : ts.num_prv_tch = 0
  · simp [hp]
  · simp [hp, emit]

theorem xy_num_cur_tch_large_area (si_ofs : cyttsp4_sysinfo_ofs) (tt_stat : Nat)
    (h : tt_stat &&& 0x20 ≠ 0) : xy_num_cur_tch si_ofs tt_stat = 0 := by
  simp [xy_num_cur_tch, IS_LARGE_AREA, h]

theorem xy_num_cur_tch_sentinel (si_ofs : cyttsp4_sysinfo_ofs) (tt_stat : Nat)
    (h : tt_stat &&& 0x1F = 0x1F) (hmax : si_ofs.max_tchs < 0x1F) :
    xy_num_cur_tch si_ofs tt_stat = 0 := by
  unfold xy_num_cur_tch
  simp only [GET_NUM_TOUCHES, IS_LARGE_AREA, h]
  split
  · rfl
  · simp [hmax]

/-- C6 (amended): in the touch part of `_cyttsp4_xy_worker`, the large-area
bit of `tt_stat` makes the effective touch count zero, and low five bits equal
to 0x1F make it zero whenever the decoded `max_tchs` is below 0x1F; with a
zero count no contact is extracted: the stored previous touch count becomes 0
and the only events sent are the lift-off triple when it was not 0. -/
theorem C6_touch_count_sentinel (ts : cyttsp4) (rep_stat tt_stat : Nat) :
    ((tt_stat &&& 0x20 ≠ 0 ∨ (tt_stat &&& 0x1F = 0x1F ∧ ts.si_ofs.max_tchs < 0x1F)) →
      xy_num_cur_tch ts.si_ofs tt_stat = 0
      ∧ (xy_worker_touches ts rep_stat tt_stat).num_prv_tch = 0
      ∧ (xy_worker_touches ts rep_stat tt_stat).input
          = ts.input ++ (if ts.num_prv_tch ≠ 0 then
              [input_event.report_key BTN_TOUCH CY_BTN_RELEASED, input_event.mt_sync,
                input_event.sync] else [])) := by
  intro h
  have h0 : xy_num_cur_tch ts.si_ofs tt_stat = 0 := by
    rcases h with h | ⟨h1, h2⟩
    · exact xy_num_cur_tch_large_area _ _ h
    · exact xy_num_cur_tch_sentinel _ _ h1 h2
  exact ⟨h0, xy_worker_touches_zero ts rep_stat tt_stat h0⟩

/-- Counterexample to C6 as stated: with a decoded `max_tchs` of 0x1F, a
status byte whose low five bits are 0x1F (large-area bit clear) leaves an
effective touch count of 31. -/
theorem C6_sentinel_counterexample :
    (0x1F : Nat) &&& 0x1F = 0x1F
    ∧ xy_num_cur_tch { (default : cyttsp4_sysinfo_ofs) with max_tchs := 0x1F } 0x1F = 31 := by
  decide

/-- Witness for C6 (amended): the sample layout (`max_tchs = 10`) with
`tt_stat = 0x1F`. -/
theorem C6_touch_count_sentinel_witness :
    xy_num_cur_tch sample_ts.si_ofs 0x1F = 0
    ∧ (xy_worker_touches sample_ts 0 0x1F).num_prv_tch = 0 :=
  ⟨(C6_touch_count_sentinel sample_ts 0 0x1F (Or.inr ⟨by decide, by decide⟩)).1,
    (C6_touch_count_sentinel sample_ts 0 0x1F (Or.inr ⟨by decide, by decide⟩)).2.1⟩

/-! ## Proofs: multi-touch extraction -/

theorem same_touch_cfg_refl (a : cyttsp4) : same_touch_cfg a a := ⟨rfl, rfl, rfl⟩

theorem same_touch_cfg_trans {a b c : cyttsp4} (h1 : same_touch_cfg a b)
    (h2 : same_touch_cfg b c) : same_touch_cfg a c :=
  ⟨h1.1.trans h2.1, h1.2.1.trans h2.2.1, h1.2.2.trans h2.2.2⟩

theorem same_touch_cfg_emit (ts : cyttsp4) (e : input_event) : same_touch_cfg (emit ts e) ts :=
  ⟨rfl, rfl, rfl⟩

theorem contact_record_congr {a b : cyttsp4} (h : same_touch_cfg a b) (i : Nat) :
    contact_record a i = contact_record b i := by
  unfold contact_record _cyttsp4_get_touch
  rw [h.1, h.2.1]

theorem frmwrk_abs_at_congr {a b : cyttsp4} (h : same_touch_cfg a b) (k : Nat) :
    frmwrk_abs_at a k = frmwrk_abs_at b k := by
  unfold frmwrk_abs_at
  rw [h.2.2]

theorem track_id_out_of_range_congr {a b : cyttsp4} (h : same_touch_cfg a b) (i : Nat) :
    track_id_out_of_range a i ↔ track_id_out_of_range b i := by
  unfold track_id_out_of_range
  rw [contact_record_congr h, frmwrk_abs_at_congr h, frmwrk_abs_at_congr h]

theorem report_pos_loop_cfg (touch : List Nat) :
    ∀ (n j : Nat) (ts : cyttsp4), same_touch_cfg (report_pos_loop touch n j ts) ts := by
  intro n
  induction n with
  | zero => intro j ts; exact same_touch_cfg_refl ts
  | succ n ih =>
    intro j ts
    rw [report_pos_loop]
    refine same_touch_cfg_trans (ih _ _) ?_
    split
    · exact same_touch_cfg_emit _ _
    · exact same_touch_cfg_refl _

theorem get_mt_touches_body_cfg (i : Nat) (st : cyttsp4 × Nat) :
    same_touch_cfg (get_mt_touches_body i st).1 st.1 := by
  unfold get_mt_touches_body
  simp only
  split
  · exact same_touch_cfg_emit _ _
  · split
    · exact same_touch_cfg_refl _
    · refine same_touch_cfg_trans (same_touch_cfg_emit _ _) ?_
      have h3 : ∀ (t : cyttsp4) (c : Prop) [Decidable c] (e : input_event),
          same_touch_cfg (if c then emit t e else t) t := by
        intro t c _ e
        split
        · exact same_touch_cfg_emit _ _
        · exact same_touch_cfg_refl _
      refine same_touch_cfg_trans (h3 _ _ _) ?_
      refine same_touch_cfg_trans (report_pos_loop_cfg _ _ _ _) ?_
      exact h3 _ _ _

theorem get_mt_touches_loop_succ :
    ∀ (n i : Nat) (st : cyttsp4 × Nat),
      get_mt_touches_loop (n + 1) i st
        = get_mt_touches_body (i + n) (get_mt_touches_loop n i st) := by
  intro n
  induction n with
  | zero => intro i st; simp [get_mt_touches_loop]
  | succ n ih =>
    intro i st
    rw [get_mt_touches_loop, ih (i + 1) (get_mt_touches_body i st)]
    have e : i + 1 + n = i + (n + 1) := by omega
    rw [e]
    rfl

theorem get_mt_touches_loop_add :
    ∀ (a b i : Nat) (st : cyttsp4 × Nat),
      get_mt_touches_loop (a + b) i st
        = get_mt_touches_loop b (i + a) (get_mt_touches_loop a i st) := by
  intro a
  induction a with
  | zero => intro b i st; simp [get_mt_touches_loop]
  | succ a ih =>
    intro b i st
    have e : a + 1 + b = (a + b) + 1 := by omega
    rw [e, get_mt_touches_loop, ih, get_mt_touches_loop]
    have e2 : i + 1 + a = i + (a + 1) := by omega
    rw [e2]

theorem get_mt_touches_loop_cfg :
    ∀ (n i : Nat) (st : cyttsp4 × Nat), same_touch_cfg (get_mt_touches_loop n i st).1 st.1 := by
  intro n
  induction n with
  | zero => intro i st; exact same_touch_cfg_refl _
  | succ n ih =>
    intro i st
    rw [get_mt_touches_loop]
    exact same_touch_cfg_trans (ih _ _) (get_mt_touches_body_cfg i st)

theorem get_mt_touches_body_out_of_range (i : Nat) (st : cyttsp4 × Nat)
    (hbad : track_id_out_of_range st.1 i) :
    get_mt_touches_body i st = (emit st.1 .mt_sync, st.2 + 1) := by
  unfold track_id_out_of_range contact_record at hbad
  unfold get_mt_touches_body
  simp only
  rw [if_pos hbad]

/-- C4: in `_cyttsp4_get_mt_touches`, when the track id extracted for contact
`i` (`i < num_cur_tch`) is below the platform minimum or above the platform
maximum, processing that contact appends exactly one `input_mt_sync` to what
was already sent to the input layer (so no track id, X, Y, pressure or size
is reported for it), counts one sync, and the loop goes on with contact
`i + 1`. -/
theorem C4_bad_track_id_sync_only (ts : cyttsp4) (num_cur_tch i : Nat) (hi : i < num_cur_tch)
    (hbad : track_id_out_of_range ts i) :
    (get_mt_touches_loop (i + 1) 0 (ts, 0)).1.input
        = (get_mt_touches_loop i 0 (ts, 0)).1.input ++ [input_event.mt_sync]
    ∧ (get_mt_touches_loop (i + 1) 0 (ts, 0)).2 = (get_mt_touches_loop i 0 (ts, 0)).2 + 1
    ∧ get_mt_touches_loop num_cur_tch 0 (ts, 0)
        = get_mt_touches_loop (num_cur_tch - (i + 1)) (i + 1)
            (get_mt_touches_loop (i + 1) 0 (ts, 0)) := by
  have hcfg := get_mt_touches_loop_cfg i 0 (ts, 0)
  have hbad2 : track_id_out_of_range (get_mt_touches_loop i 0 (ts, 0)).1 i :=
    (track_id_out_of_range_congr hcfg i).mpr hbad
  have hstep := get_mt_touches_loop_succ i 0 (ts, 0)
  rw [Nat.zero_add, get_mt_touches_body_out_of_range i _ hbad2] at hstep
  refine ⟨?_, ?_, ?_⟩
  · rw [hstep]; rfl
  · rw [hstep]
  · have e : num_cur_tch = (i + 1) + (num_cur_tch - (i + 1)) := by omega
    conv_lhs => rw [e]
    rw [get_mt_touches_loop_add, Nat.zero_add]

/-! ## Proofs: command and mode control -/

theorem write_tries_done {D : Type} (ops : cyttsp4_bus_ops D) (command : Nat) (buf : List Nat)
    (i2c_addr n : Nat) (retval : Int) (dev : D) (h : 0 ≤ retval) :
    write_tries ops command buf i2c_addr n retval dev = (retval, dev) := by
  cases n with
  | zero => rfl
  | succ n => rw [write_tries, if_neg (by omega)]

theorem read_tries_done {D : Type} (ops : cyttsp4_bus_ops D) (command length i2c_addr n : Nat)
    (retval : Int) (buf : List Nat) (dev : D) (h : 0 ≤ retval) :
    read_tries ops command length i2c_addr n retval buf dev = (retval, buf, dev) := by
  cases n with
  | zero => rfl
  | succ n => rw [read_tries, if_neg (by omega)]

/-- A bus write that succeeds at the first attempt is issued once. -/
theorem write_block_data_ok {D : Type} (ops : cyttsp4_bus_ops D) (dev : D) (command : Nat)
    (buf : List Nat) (i2c_addr : Nat) (hn : 0 < ops.num_retry) (hb : buf ≠ [])
    (h : 0 ≤ (ops.write dev command buf i2c_addr).1) :
    _cyttsp4_write_block_data ops dev command buf i2c_addr
      = ops.write dev command buf i2c_addr := by
  unfold _cyttsp4_write_block_data
  have hl : ¬ buf.length = 0 := fun e => hb (List.length_eq_zero.mp e)
  rw [if_neg hl]
  obtain ⟨k, hk⟩ : ∃ k, ops.num_retry = k + 1 := ⟨ops.num_retry - 1, by omega⟩
  rw [hk, write_tries, if_pos (by norm_num), write_tries_done _ _ _ _ _ _ _ h]

/-- A bus read that succeeds at the first attempt stores the bytes delivered. -/
theorem read_block_data_ok {D : Type} (ops : cyttsp4_bus_ops D) (dev : D)
    (command length : Nat) (buf : List Nat) (i2c_addr : Nat) (hn : 0 < ops.num_retry)
    (hl : length ≠ 0) (h : 0 ≤ (ops.read dev command length i2c_addr).1) :
    _cyttsp4_read_block_data ops dev command length buf i2c_addr
      = ((ops.read dev command length i2c_addr).1,
          store buf 0 length (ops.read dev command length i2c_addr).2.1,
          (ops.read dev command length i2c_addr).2.2) := by
  unfold _cyttsp4_read_block_data
  rw [if_neg hl]
  obtain ⟨k, hk⟩ : ∃ k, ops.num_retry = k + 1 := ⟨ops.num_retry - 1, by omega⟩
  rw [hk, read_tries, if_pos (by norm_num), read_tries_done _ _ _ _ _ _ _ _ h,
    if_neg (by omega)]

theorem ld8_store_one (buf data : List Nat) :
    ld8 (store buf 0 1 data) 0 = data.getD 0 0 % 256 := by
  simp [ld8, store, List.range_succ]

theorem change_state_restore (ts : cyttsp4) (a b : cyttsp4_driver_state) :
    _cyttsp4_change_state (_cyttsp4_change_state (_cyttsp4_change_state ts a) b)
      ts.driver_state = ts := by
  cases ts; rfl

theorem put_cmd_wait_restores {D : Type} (ops : cyttsp4_bus_ops D) (ts : cyttsp4) (dev : D)
    (ofs : Nat) (cmd_buf : List Nat) (timeout_ms : Nat) (cond : Option (Nat → Bool))
    (retcmd : Option Nat) (i2c_addr : Nat) (cmd_state : cyttsp4_driver_state) :
    (_cyttsp4_put_cmd_wait ops ts dev ofs cmd_buf timeout_ms cond retcmd i2c_addr
      cmd_state).2.2.1 = ts := by
  have key : _cyttsp4_change_state (_cyttsp4_change_state
      (if cmd_state ≠ CY_OPCMD_STATE then _cyttsp4_change_state ts CY_TRANSFER_STATE else ts)
      cmd_state) ts.driver_state = ts := by
    split <;> (cases ts; rfl)
  unfold _cyttsp4_put_cmd_wait
  by_cases hw : (_cyttsp4_write_block_data ops dev ofs cmd_buf i2c_addr).1 < 0
  · simp only [if_pos hw]; exact key
  · simp only [if_neg hw]; exact key

/-- The wait phase ends either ready with return code 0 or not ready with
`-ETIMEDOUT` or `-EIO`. -/
theorem put_cmd_wait_retry_cases {D : Type} (ops : cyttsp4_bus_ops D) (ofs timeout_ms : Nat)
    (cond : Option (Nat → Bool)) (i2c_addr : Nat) :
    ∀ (n cmd : Nat) (dev : D),
      let q := put_cmd_wait_retry ops ofs timeout_ms cond i2c_addr n cmd dev
      (q.1 = 0 ∧ q.2.2.1 = true ∧ (∀ c, cond = some c → c q.2.1 = true))
      ∨ ((q.1 = err_timedout ∨ q.1 = err_io) ∧ q.2.2.1 = false
          ∧ (∃ c, cond = some c ∧ c q.2.1 = false)) := by
  intro n
  induction n with
  | zero =>
    intro cmd dev
    unfold put_cmd_wait_retry
    cases cond with
    | none => simp
    | some c =>
      simp only
      split
      · split
        · right; simp_all
        · right; simp_all
      · left; simp_all
  | succ n ih =>
    intro cmd dev
    unfold put_cmd_wait_retry
    cases cond with
    | none => simp
    | some c =>
      simp only
      split
      · split
        · right; simp_all
        · exact ih _ _
      · left; simp_all

/-- `_cyttsp4_set_device_mode` in terms of the bus write of the command byte
and the wait phase that follows it. -/
theorem set_device_mode_eq {D : Type} (ops : cyttsp4_bus_ops D) (ts : cyttsp4) (dev : D)
    (m : Nat) (cur : cyttsp4_controller_mode) :
    _cyttsp4_set_device_mode ops ts dev m cur =
      (let w := _cyttsp4_write_block_data ops dev CY_REG_BASE [(m + CY_MODE_CHANGE) % 256]
        ts.addr_tch
       let q := put_cmd_wait_retry ops CY_REG_BASE CY_TEN_SEC_TMO_MS
        (some _cyttsp4_chk_mode_change) ts.addr_tch 2 0 w.2
       if w.1 < 0 then (w.1, ts, w.2)
       else if q.1 < 0 then (q.1, ts, q.2.2.2)
       else if q.2.1 ≠ m then (err_io, ts, q.2.2.2)
       else (0, { ts with current_mode := cur },
          (_cyttsp4_handshake ops { ts with current_mode := cur } q.2.2.2 q.2.1).2)) := by
  have hts := put_cmd_wait_restores ops ts dev CY_REG_BASE [(m + CY_MODE_CHANGE) % 256]
    CY_TEN_SEC_TMO_MS (some _cyttsp4_chk_mode_change) (some ((m + CY_MODE_CHANGE) % 256))
    ts.addr_tch CY_CMD_STATE
  have hq := put_cmd_wait_retry_cases ops CY_REG_BASE CY_TEN_SEC_TMO_MS
    (some _cyttsp4_chk_mode_change) ts.addr_tch 2 0
    (_cyttsp4_write_block_data ops dev CY_REG_BASE [(m + CY_MODE_CHANGE) % 256] ts.addr_tch).2
  unfold _cyttsp4_set_device_mode
  simp only [hts]
  unfold _cyttsp4_put_cmd_wait
  simp only
  by_cases hw : (_cyttsp4_write_block_data ops dev CY_REG_BASE [(m + CY_MODE_CHANGE) % 256]
      ts.addr_tch).1 < 0
  · simp only [if_pos hw]
  · simp only [if_neg hw]
    rcases hq with ⟨h0, hf, _⟩ | ⟨he, hf, _⟩
    · simp only [h0, hf, if_true, Option.map_some', Option.getD_some, lt_self_iff_false,
        if_false]
    · have hneg : (put_cmd_wait_retry ops CY_REG_BASE CY_TEN_SEC_TMO_MS
          (some _cyttsp4_chk_mode_change) ts.addr_tch 2 0
          (_cyttsp4_write_block_data ops dev CY_REG_BASE [(m + CY_MODE_CHANGE) % 256]
            ts.addr_tch).2).1 < 0 := by
        rcases he with he | he <;> rw [he] <;> decide
      simp only [if_pos hneg]

/-- C8 (evaluation at the failing input): on a device whose status read
fails, `_cyttsp4_set_device_mode` for the Operational mode returns 0 and moves
`current_mode` from Bootloader to Operational although no command byte was
read back. -/
theorem C8_set_device_mode_failed_read :
    (_cyttsp4_read_block_data bus_read_fails () CY_REG_BASE 1 [0] sample_ts.addr_tch).1 < 0
    ∧ (_cyttsp4_set_device_mode bus_read_fails sample_ts () CY_OPERATE_MODE
        CY_MODE_OPERATIONAL).1 = 0
    ∧ sample_ts.current_mode = CY_MODE_BOOTLOADER
    ∧ (_cyttsp4_set_device_mode bus_read_fails sample_ts () CY_OPERATE_MODE
        CY_MODE_OPERATIONAL).2.1.current_mode = CY_MODE_OPERATIONAL := by
  decide

theorem valid_mode_byte (m : Nat)
    (hm : m = CY_OPERATE_MODE ∨ m = CY_SYSINFO_MODE ∨ m = CY_CONFIG_MODE) :
    (m + CY_MODE_CHANGE) % 256 = m + CY_MODE_CHANGE ∧ _cyttsp4_chk_mode_change m = true := by
  rcases hm with h | h | h <;> subst h <;> decide

/-- `_cyttsp4_set_mode` for a valid mode: the state entered before the command,
the controller mode recorded and the state entered on success. -/
theorem set_mode_eq {D : Type} (ops : cyttsp4_bus_ops D) (ts : cyttsp4) (dev : D) (m : Nat)
    (hm : m = CY_OPERATE_MODE ∨ m = CY_SYSINFO_MODE ∨ m = CY_CONFIG_MODE) :
    ∃ (pre : cyttsp4) (cur : cyttsp4_controller_mode) (new_state : cyttsp4_driver_state),
      pre.addr_tch = ts.addr_tch
      ∧ _cyttsp4_set_mode ops ts dev m =
        (if (_cyttsp4_set_device_mode ops pre dev m cur).1 < 0 then
          ((_cyttsp4_set_device_mode ops pre dev m cur).1,
            _cyttsp4_change_state (_cyttsp4_set_device_mode ops pre dev m cur).2.1
              CY_IDLE_STATE,
            (_cyttsp4_set_device_mode ops pre dev m cur).2.2)
        else
          ((_cyttsp4_set_device_mode ops pre dev m cur).1,
            _cyttsp4_change_state (_cyttsp4_set_device_mode ops pre dev m cur).2.1 new_state,
            (_cyttsp4_set_device_mode ops pre dev m cur).2.2)) := by
  rcases hm with h | h | h <;> subst h
  · exact ⟨_cyttsp4_change_state ts CY_READY_STATE, CY_MODE_OPERATIONAL, CY_ACTIVE_STATE, rfl,
      by unfold _cyttsp4_set_mode; rw [if_pos rfl]⟩
  · exact ⟨ts, CY_MODE_SYSINFO, CY_SYSINFO_STATE, rfl,
      by unfold _cyttsp4_set_mode; rw [if_neg (by decide), if_pos rfl]⟩
  · exact ⟨ts, CY_MODE_OPERATIONAL, ts.driver_state, rfl,
      by unfold _cyttsp4_set_mode; rw [if_neg (by decide), if_neg (by decide), if_pos rfl]⟩

/-- C10: for each of the three valid target modes, whenever the mode change
performed by `_cyttsp4_set_mode` fails, the call returns a negative error and
`driver_state` is `CY_IDLE_STATE` on return.  The failures are: the write of
the command byte fails; the wait phase ends with `-ETIMEDOUT` (timeout with
the mode-change bit still set) or with `-EIO` (bit still set after the extra
waits); the wait phase ends ready but the byte read back differs from the
requested mode. -/
theorem C10_failed_mode_change_goes_idle {D : Type} (ops : cyttsp4_bus_ops D) (ts : cyttsp4)
    (dev : D) (new_mode : Nat)
    (hm : new_mode = CY_OPERATE_MODE ∨ new_mode = CY_SYSINFO_MODE ∨ new_mode = CY_CONFIG_MODE) :
    ((_cyttsp4_set_mode ops ts dev new_mode).1 < 0 →
        (_cyttsp4_set_mode ops ts dev new_mode).2.1.driver_state = CY_IDLE_STATE)
    ∧ (((_cyttsp4_write_block_data ops dev CY_REG_BASE [new_mode + CY_MODE_CHANGE]
            ts.addr_tch).1 < 0
        ∨ (put_cmd_wait_retry ops CY_REG_BASE CY_TEN_SEC_TMO_MS (some _cyttsp4_chk_mode_change)
            ts.addr_tch 2 0 (_cyttsp4_write_block_data ops dev CY_REG_BASE
              [new_mode + CY_MODE_CHANGE] ts.addr_tch).2).1 = err_timedout
        ∨ (put_cmd_wait_retry ops CY_REG_BASE CY_TEN_SEC_TMO_MS (some _cyttsp4_chk_mode_change)
            ts.addr_tch 2 0 (_cyttsp4_write_block_data ops dev CY_REG_BASE
              [new_mode + CY_MODE_CHANGE] ts.addr_tch).2).1 = err_io
        ∨ (put_cmd_wait_retry ops CY_REG_BASE CY_TEN_SEC_TMO_MS (some _cyttsp4_chk_mode_change)
            ts.addr_tch 2 0 (_cyttsp4_write_block_data ops dev CY_REG_BASE
              [new_mode + CY_MODE_CHANGE] ts.addr_tch).2).2.1 ≠ new_mode) →
        (_cyttsp4_set_mode ops ts dev new_mode).1 < 0
        ∧ (_cyttsp4_set_mode ops ts dev new_mode).2.1.driver_state = CY_IDLE_STATE) := by
  obtain ⟨pre, cur, new_state, haddr, heq⟩ := set_mode_eq ops ts dev new_mode hm
  have hb := (valid_mode_byte new_mode hm).1
  have hidle : (_cyttsp4_set_mode ops ts dev new_mode).1 < 0 →
      (_cyttsp4_set_mode ops ts dev new_mode).2.1.driver_state = CY_IDLE_STATE := by
    rw [heq]
    split
    · intro _; rfl
    · intro h; exact absurd h (by assumption)
  refine ⟨hidle, ?_⟩
  intro hfail
  have hneg : (_cyttsp4_set_mode ops ts dev new_mode).1 < 0 := by
    have hd : (_cyttsp4_set_mode ops ts dev new_mode).1
        = (_cyttsp4_set_device_mode ops pre dev new_mode cur).1 := by
      rw [heq]; split <;> rfl
    rw [hd, set_device_mode_eq, haddr, hb]
    simp only
    by_cases hw : (_cyttsp4_write_block_data ops dev CY_REG_BASE [new_mode + CY_MODE_CHANGE]
        ts.addr_tch).1 < 0
    · rw [if_pos hw]; exact hw
    · rw [if_neg hw]
      rcases hfail with h | h | h | h
      · exact absurd h hw
      · rw [if_pos (by rw [h]; decide), h]; decide
      · rw [if_pos (by rw [h]; decide), h]; decide
      · by_cases hq : (put_cmd_wait_retry ops CY_REG_BASE CY_TEN_SEC_TMO_MS
            (some _cyttsp4_chk_mode_change) ts.addr_tch 2 0
            (_cyttsp4_write_block_data ops dev CY_REG_BASE [new_mode + CY_MODE_CHANGE]
              ts.addr_tch).2).1 < 0
        · rw [if_pos hq]; exact hq
        · rw [if_neg hq, if_pos h]
          show err_io < 0
          decide
  exact ⟨hneg, hidle hneg⟩

/-- Witness for C10: a device that refuses the command write, target mode
Sysinfo. -/
theorem C10_failed_mode_change_goes_idle_witness :
    (_cyttsp4_set_mode bus_write_fails sample_ts () CY_SYSINFO_MODE).1 < 0
    ∧ (_cyttsp4_set_mode bus_write_fails sample_ts () CY_SYSINFO_MODE).2.1.driver_state
        = CY_IDLE_STATE :=
  ⟨by decide,
    (C10_failed_mode_change_goes_idle bus_write_fails sample_ts () CY_SYSINFO_MODE
      (Or.inr (Or.inl rfl))).1 (by decide)⟩

/-! ## Proofs: touch report -/

/-- Witness for C4: first record with track id 31 on a platform with ids
0..15. -/
theorem C4_bad_track_id_sync_only_witness :
    (get_mt_touches_loop 1 0 (sample_ts_bad_id, 0)).1.input
      = (get_mt_touches_loop 0 0 (sample_ts_bad_id, 0)).1.input ++ [input_event.mt_sync] :=
  (C4_bad_track_id_sync_only sample_ts_bad_id 2 0 (by decide) (by decide)).1

theorem contact_events_congr {a b : cyttsp4} (h : same_touch_cfg a b) (i : Nat) :
    contact_events a i = contact_events b i := by
  unfold contact_events abs_event contact_x contact_y
  simp only [contact_record_congr h, frmwrk_abs_at_congr h]

theorem contact_valid_congr {a b : cyttsp4} (h : same_touch_cfg a b) (i : Nat) :
    contact_valid a i ↔ contact_valid b i := by
  unfold contact_valid
  rw [track_id_out_of_range_congr h, contact_record_congr h]

theorem emit_eq_emit_list (ts : cyttsp4) (e : input_event) : emit ts e = emit_list ts [e] := rfl

theorem emit_list_nil (ts : cyttsp4) : emit_list ts [] = ts := by
  cases ts; simp [emit_list]

theorem emit_list_emit_list (ts : cyttsp4) (a b : List input_event) :
    emit_list (emit_list ts a) b = emit_list ts (a ++ b) := by
  simp [emit_list, List.append_assoc]

theorem frmwrk_abs_at_emit_list (ts : cyttsp4) (a : List input_event) (k : Nat) :
    frmwrk_abs_at (emit_list ts a) k = frmwrk_abs_at ts k := rfl

theorem abs_event_emit_list (ts : cyttsp4) (a : List input_event) (k : Nat) (v : Int) :
    abs_event (emit_list ts a) k v = abs_event ts k v := rfl

theorem abs_step (ts : cyttsp4) (k : Nat) (v : Int) :
    (if frmwrk_abs_at ts k ≠ CY_IGNORE_VALUE then
        emit ts (input_event.report_abs (frmwrk_abs_at ts k) v) else ts)
      = emit_list ts (abs_event ts k v) := by
  unfold abs_event
  split
  · rfl
  · exact (emit_list_nil ts).symm

theorem report_pos_loop_eq (touch : List Nat) (ts : cyttsp4) :
    report_pos_loop touch CY_ABS_W_OST 0 ts
      = emit_list ts (abs_event ts ((CY_ABS_X_OST + 0) * CY_NUM_ABS_SET + 0)
            (s32 (touch.getD (CY_TCH_X + 0) 0))
          ++ abs_event ts ((CY_ABS_X_OST + 1) * CY_NUM_ABS_SET + 0)
            (s32 (touch.getD (CY_TCH_X + 1) 0))
          ++ abs_event ts ((CY_ABS_X_OST + 2) * CY_NUM_ABS_SET + 0)
            (s32 (touch.getD (CY_TCH_X + 2) 0))) := by
  show report_pos_loop touch 3 0 ts = _
  simp only [report_pos_loop, Nat.zero_add]
  rw [abs_step, abs_step, abs_step]
  simp only [emit_list_emit_list, abs_event_emit_list, List.append_assoc]

/-- What one well-formed contact adds to the input trace. -/
theorem get_mt_touches_body_valid (i : Nat) (st : cyttsp4 × Nat) (hv : contact_valid st.1 i) :
    get_mt_touches_body i st = (emit_list st.1 (contact_events st.1 i), st.2 + 1) := by
  obtain ⟨hin, hev⟩ := hv
  unfold track_id_out_of_range at hin
  unfold get_mt_touches_body
  simp only
  unfold contact_events contact_x contact_y
  unfold contact_record at hin hev ⊢
  generalize _cyttsp4_get_touch st.1 (List.drop (i * st.1.si_ofs.tch_rec_siz) st.1.xy_data)
    = touch at hin hev ⊢
  rw [if_neg hin, if_neg (fun h => hev h.2), abs_step, report_pos_loop_eq]
  simp only [emit_list_emit_list, frmwrk_abs_at_emit_list, abs_event_emit_list]
  rw [abs_step, emit_eq_emit_list]
  simp only [emit_list_emit_list, abs_event_emit_list, List.append_assoc]
  rfl

theorem same_touch_cfg_emit_list (ts : cyttsp4) (a : List input_event) :
    same_touch_cfg (emit_list ts a) ts := ⟨rfl, rfl, rfl⟩

/-- The extraction loop over `n` well-formed contacts sends their contact
records in order and counts `n` syncs. -/
theorem get_mt_touches_loop_valid (ts : cyttsp4) :
    ∀ (n c : Nat), (∀ k, k < n → contact_valid ts k) →
      get_mt_touches_loop n 0 (ts, c)
        = (emit_list ts ((List.range n).flatMap (contact_events ts)), c + n) := by
  intro n
  induction n with
  | zero => intro c _; simp [get_mt_touches_loop, emit_list_nil]
  | succ n ih =>
    intro c hv
    have hprev := ih c (fun k hk => hv k (by omega))
    have hcfg := same_touch_cfg_emit_list ts ((List.range n).flatMap (contact_events ts))
    have hvn : contact_valid (emit_list ts ((List.range n).flatMap (contact_events ts))) n :=
      (contact_valid_congr hcfg n).mpr (hv n (by omega))
    have hb := get_mt_touches_body_valid n
      (emit_list ts ((List.range n).flatMap (contact_events ts)), c + n) hvn
    rw [get_mt_touches_loop_succ, hprev, Nat.zero_add, hb]
    simp only [contact_events_congr hcfg, emit_list_emit_list, List.range_succ,
      List.flatMap_append, List.flatMap_cons, List.flatMap_nil, List.append_nil,
      Nat.add_assoc]

theorem count_mt_sync_abs_event (ts : cyttsp4) (k : Nat) (v : Int) :
    (abs_event ts k v).count input_event.mt_sync = 0 := by
  unfold abs_event
  split <;> simp

theorem count_mt_sync_contact_events (ts : cyttsp4) (i : Nat) :
    (contact_events ts i).count input_event.mt_sync = 1 := by
  unfold contact_events
  simp [List.count_append, count_mt_sync_abs_event]

theorem count_mt_sync_contacts (ts : cyttsp4) (n : Nat) :
    ((List.range n).flatMap (contact_events ts)).count input_event.mt_sync = n := by
  induction n with
  | zero => simp
  | succ n ih =>
    simp only [List.range_succ, List.flatMap_append, List.flatMap_cons, List.flatMap_nil,
      List.append_nil, List.count_append, ih, count_mt_sync_contact_events]

theorem mem_abs_event (ts : cyttsp4) (k : Nat) (v : Int)
    (h : frmwrk_abs_at ts k ≠ CY_IGNORE_VALUE) :
    input_event.report_abs (frmwrk_abs_at ts k) v ∈ abs_event ts k v := by
  unfold abs_event
  rw [if_pos h]
  exact List.mem_singleton.mpr rfl

/-- C7 (amended): for every report whose effective touch count `n` is at
least 1 and whose `n` records all have an in-range track id and a
non-lift-off event id, the touch part of `_cyttsp4_xy_worker` sends, after
what was sent before: a `BTN_TOUCH` press exactly when the previous touch
count was 0, then the `n` contact records in order (each closed by its
multi-touch sync, `n` syncs in all), then one input sync; afterwards the
stored previous touch count is `n`.  Contact record `i` carries the X and Y
values of touch record `i` whenever the platform X and Y signals are not
`CY_IGNORE_VALUE`, and these values are the X and Y fields read from the
bytes at offset `i * tch_rec_siz` of the touch buffer. -/
theorem C7_touch_report (ts : cyttsp4) (rep_stat tt_stat : Nat)
    (hn : 1 ≤ xy_num_cur_tch ts.si_ofs tt_stat)
    (hv : ∀ i, i < xy_num_cur_tch ts.si_ofs tt_stat → contact_valid ts i) :
    (xy_worker_touches ts rep_stat tt_stat).input
        = ts.input
          ++ (if ts.num_prv_tch = 0 then [input_event.report_key BTN_TOUCH CY_BTN_PRESSED]
              else [])
          ++ (List.range (xy_num_cur_tch ts.si_ofs tt_stat)).flatMap (contact_events ts)
          ++ [input_event.sync]
    ∧ (xy_worker_touches ts rep_stat tt_stat).num_prv_tch
        = (xy_num_cur_tch ts.si_ofs tt_stat : Int)
    ∧ ((List.range (xy_num_cur_tch ts.si_ofs tt_stat)).flatMap
        (contact_events ts)).count input_event.mt_sync = xy_num_cur_tch ts.si_ofs tt_stat
    ∧ (∀ i, i < xy_num_cur_tch ts.si_ofs tt_stat →
        frmwrk_abs_at ts ((CY_ABS_X_OST + 0) * CY_NUM_ABS_SET + 0) ≠ CY_IGNORE_VALUE →
        frmwrk_abs_at ts ((CY_ABS_X_OST + 1) * CY_NUM_ABS_SET + 0) ≠ CY_IGNORE_VALUE →
        input_event.report_abs (frmwrk_abs_at ts ((CY_ABS_X_OST + 0) * CY_NUM_ABS_SET + 0))
            (contact_x ts i) ∈ contact_events ts i
        ∧ input_event.report_abs (frmwrk_abs_at ts ((CY_ABS_X_OST + 1) * CY_NUM_ABS_SET + 0))
            (contact_y ts i) ∈ contact_events ts i)
    ∧ (∀ i,
        contact_x ts i
          = s32 (_cyttsp4_get_touch_axis (ts.si_ofs.tch_abs.getD CY_TCH_X default).size
              (ts.si_ofs.tch_abs.getD CY_TCH_X default).max
              ((record_bytes ts i).drop (ts.si_ofs.tch_abs.getD CY_TCH_X default).ofs)
              (ts.si_ofs.tch_abs.getD CY_TCH_X default).bofs)
        ∧ contact_y ts i
          = s32 (_cyttsp4_get_touch_axis (ts.si_ofs.tch_abs.getD CY_TCH_Y default).size
              (ts.si_ofs.tch_abs.getD CY_TCH_Y default).max
              ((record_bytes ts i).drop (ts.si_ofs.tch_abs.getD CY_TCH_Y default).ofs)
              (ts.si_ofs.tch_abs.getD CY_TCH_Y default).bofs)) := by
  have hne : xy_num_cur_tch ts.si_ofs tt_stat ≠ 0 := by omega
  have key : ∀ t : cyttsp4, same_touch_cfg t ts →
      _cyttsp4_get_mt_touches t (xy_num_cur_tch ts.si_ofs tt_stat)
        = { emit_list t ((List.range (xy_num_cur_tch ts.si_ofs tt_stat)).flatMap
              (contact_events ts) ++ [input_event.sync])
            with num_prv_tch := (xy_num_cur_tch ts.si_ofs tt_stat : Int) } := by
    intro t ht
    have hvt : ∀ k, k < xy_num_cur_tch ts.si_ofs tt_stat → contact_valid t k :=
      fun k hk => (contact_valid_congr ht k).mpr (hv k hk)
    have hl := get_mt_touches_loop_valid t _ 0 hvt
    have hce : contact_events t = contact_events ts := funext (contact_events_congr ht)
    unfold _cyttsp4_get_mt_touches
    simp only [hl, Nat.zero_add, hce, if_pos hne, emit_eq_emit_list, emit_list_emit_list]
  have hw : xy_worker_touches ts rep_stat tt_stat
      = _cyttsp4_get_mt_touches
          (if ts.num_prv_tch = 0 then
            emit { ts with prev_record_count := GET_RECORD_COUNT rep_stat }
              (input_event.report_key BTN_TOUCH CY_BTN_PRESSED)
           else { ts with prev_record_count := GET_RECORD_COUNT rep_stat })
          (xy_num_cur_tch ts.si_ofs tt_stat) := by
    unfold xy_worker_touches
    simp only [if_pos hne]
  have hcfg : same_touch_cfg
      (if ts.num_prv_tch = 0 then
        emit { ts with prev_record_count := GET_RECORD_COUNT rep_stat }
          (input_event.report_key BTN_TOUCH CY_BTN_PRESSED)
       else { ts with prev_record_count := GET_RECORD_COUNT rep_stat }) ts := by
    split <;> exact ⟨rfl, rfl, rfl⟩
  have hin : (if ts.num_prv_tch = 0 then
        emit { ts with prev_record_count := GET_RECORD_COUNT rep_stat }
          (input_event.report_key BTN_TOUCH CY_BTN_PRESSED)
       else { ts with prev_record_count := GET_RECORD_COUNT rep_stat }).input
      = ts.input ++ (if ts.num_prv_tch = 0 then
          [input_event.report_key BTN_TOUCH CY_BTN_PRESSED] else []) := by
    split
    · rfl
    · simp
  rw [hw, key _ hcfg]
  refine ⟨?_, rfl, count_mt_sync_contacts ts _, ?_, ?_⟩
  · show _ ++ _ = _
    rw [hin]
    simp only [List.append_assoc]
  · intro i _ hx hy
    unfold contact_events
    refine ⟨?_, ?_⟩
    · have := mem_abs_event ts _ (contact_x ts i) hx
      simp only [List.mem_append]
      tauto
    · have := mem_abs_event ts _ (contact_y ts i) hy
      simp only [List.mem_append]
      tauto
  · intro i
    constructor
    · simp [contact_x, contact_record, record_bytes, _cyttsp4_get_touch, CY_TCH_NUM_ABS,
        CY_TCH_X, List.range_succ]
    · simp [contact_y, contact_record, record_bytes, _cyttsp4_get_touch, CY_TCH_NUM_ABS,
        CY_TCH_Y, List.range_succ]

set_option maxRecDepth 100000 in
theorem sample_two_touches_valid :
    1 ≤ xy_num_cur_tch sample_ts_two_touches.si_ofs 2
    ∧ ∀ i, i < xy_num_cur_tch sample_ts_two_touches.si_ofs 2 →
        contact_valid sample_ts_two_touches i := by
  refine ⟨by decide, ?_⟩
  intro i hi
  have h2 : xy_num_cur_tch sample_ts_two_touches.si_ofs 2 = 2 := by decide
  rw [h2] at hi
  interval_cases i <;> decide

/-- Witness for C7 (amended): `tt_stat` low bits 2, two ten-byte records,
previous touch count 0. -/
theorem C7_touch_report_witness :
    (xy_worker_touches sample_ts_two_touches 0 2).num_prv_tch
        = (xy_num_cur_tch sample_ts_two_touches.si_ofs 2 : Int)
    ∧ (xy_worker_touches sample_ts_two_touches 0 2).input
        = sample_ts_two_touches.input
          ++ (if sample_ts_two_touches.num_prv_tch = 0 then
                [input_event.report_key BTN_TOUCH CY_BTN_PRESSED] else [])
          ++ (List.range (xy_num_cur_tch sample_ts_two_touches.si_ofs 2)).flatMap
              (contact_events sample_ts_two_touches)
          ++ [input_event.sync] :=
  ⟨(C7_touch_report sample_ts_two_touches 0 2 sample_two_touches_valid.1
      sample_two_touches_valid.2).2.1,
   (C7_touch_report sample_ts_two_touches 0 2 sample_two_touches_valid.1
      sample_two_touches_valid.2).1⟩

set_option maxRecDepth 100000 in
/-- The trace of the sample report, evaluated: touch-down, two contact
records with their X and Y, one input sync. -/
theorem sample_two_touches_trace :
    (xy_worker_touches sample_ts_two_touches 0 2).input
      = [input_event.report_key BTN_TOUCH 1,
         input_event.report_abs 0x39 1, input_event.report_abs 0x35 0x123,
         input_event.report_abs 0x36 0x45, input_event.report_abs 0x3a 0x20,
         input_event.report_abs 0x30 5, input_event.mt_sync,
         input_event.report_abs 0x39 2, input_event.report_abs 0x35 0x234,
         input_event.report_abs 0x36 0x156, input_event.report_abs 0x3a 0x30,
         input_event.report_abs 0x30 6, input_event.mt_sync,
         input_event.sync] := by
  decide

set_option maxRecDepth 100000 in
/-- Counterexample to C7 as stated: on a platform whose X signal is
`CY_IGNORE_VALUE`, a report with one well-formed contact at X = 0x123 sends a
contact record that carries no X value at all. -/
theorem C7_x_ignored_counterexample :
    xy_num_cur_tch sample_ts_x_ignored.si_ofs 1 = 1
    ∧ contact_valid sample_ts_x_ignored 0
    ∧ contact_x sample_ts_x_ignored 0 = 0x123
    ∧ (xy_worker_touches sample_ts_x_ignored 0 1).input
        = [input_event.report_key BTN_TOUCH 1,
           input_event.report_abs 0x39 1, input_event.report_abs 0x36 0x45,
           input_event.report_abs 0x3a 0x20, input_event.report_abs 0x30 5,
           input_event.mt_sync, input_event.sync]
    ∧ ¬ ∃ code, input_event.report_abs code (contact_x sample_ts_x_ignored 0)
          ∈ (xy_worker_touches sample_ts_x_ignored 0 1).input := by
  have hx : contact_x sample_ts_x_ignored 0 = 0x123 := by decide
  have hin : (xy_worker_touches sample_ts_x_ignored 0 1).input
        = [input_event.report_key BTN_TOUCH 1,
           input_event.report_abs 0x39 1, input_event.report_abs 0x36 0x45,
           input_event.report_abs 0x3a 0x20, input_event.report_abs 0x30 5,
           input_event.mt_sync, input_event.sync] := by decide
  refine ⟨by decide, by decide, hx, hin, ?_⟩
  rw [hx, hin]
  simp

/-! ## Proofs: button edges -/

theorem release_body_eq_edge (cur_btn cur_btn_mask btn : Nat) (ts : cyttsp4) :
    btn_key_release_body cur_btn cur_btn_mask btn ts
      = btn_edge_body 0 CY_BTN_PRESSED CY_BTN_RELEASED cur_btn cur_btn_mask btn ts := rfl

theorem press_body_eq_edge (cur_btn cur_btn_mask btn : Nat) (ts : cyttsp4) :
    btn_key_press_body cur_btn cur_btn_mask btn ts
      = btn_edge_body 1 CY_BTN_RELEASED CY_BTN_PRESSED cur_btn cur_btn_mask btn ts := rfl

theorem btn_loop_inv (I : Nat → cyttsp4 → Prop) (body : Nat → cyttsp4 → cyttsp4) (base : Nat) :
    ∀ (n k : Nat) (t : cyttsp4),
      (∀ j t', k ≤ j → j < k + n → I (base + j) t' → I (base + j + 1) (body j t')) →
      I (base + k) t → I (base + k + n) (btn_loop body n k t) := by
  intro n
  induction n with
  | zero => intro k t _ h; simpa [btn_loop] using h
  | succ n ih =>
    intro k t hstep h
    rw [btn_loop]
    have h1 := hstep k t (le_refl k) (by omega) h
    have h2 := ih (k + 1) (body k t) (fun j t' hj1 hj2 => hstep j t' (by omega) (by omega))
      (by simpa [Nat.add_assoc] using h1)
    have e : base + (k + 1) + n = base + k + (n + 1) := by omega
    rw [e] at h2
    exact h2

/-- One pass of the register loop of `_cyttsp4_xy_worker` carries a progress
invariant from the buttons of the registers below `r` to those below
`r + n`. -/
theorem btn_reg_loop_inv (I : Nat → cyttsp4 → Prop) (ts0 : cyttsp4) (N : Nat)
    (st : Int) (trig : Nat) (src dst : Int)
    (hp : (st = CY_BTN_RELEASED ∧ trig = 0 ∧ src = CY_BTN_PRESSED ∧ dst = CY_BTN_RELEASED)
      ∨ (st = CY_BTN_PRESSED ∧ trig = 1 ∧ src = CY_BTN_RELEASED ∧ dst = CY_BTN_PRESSED))
    (hframe : ∀ p t, I p t → t.xy_mode = ts0.xy_mode ∧ t.si_ofs = ts0.si_ofs)
    (hstep : ∀ idx t, idx < N → I idx t →
      I (idx + 1) (btn_edge_body trig src dst (4 * (idx / 4))
        (ld8 ts0.xy_mode (ts0.si_ofs.rep_ofs + 2 + idx / 4)) (idx % 4) t)) :
    ∀ (n r : Nat) (t : cyttsp4), I (min (4 * r) N) t →
      I (min (4 * (r + n)) N) (btn_reg_loop st n r (4 * r) ((N : Int) - ((4 * r : Nat) : Int)) t) := by
  intro n
  induction n with
  | zero => intro r t h; simpa [btn_reg_loop] using h
  | succ n ih =>
    intro r t h
    rw [btn_reg_loop]
    have hnext : ∀ t', I (min (4 * (r + 1)) N) t' →
        I (min (4 * (r + (n + 1))) N)
          (btn_reg_loop st n (r + 1) (4 * r + CY_NUM_BTN_PER_REG)
            ((N : Int) - ((4 * r : Nat) : Int) - (CY_NUM_BTN_PER_REG : Nat)) t') := by
      intro t' h'
      have := ih (r + 1) t' h'
      have e1 : 4 * r + CY_NUM_BTN_PER_REG = 4 * (r + 1) := by simp [CY_NUM_BTN_PER_REG]; omega
      have e2 : (N : Int) - ((4 * r : Nat) : Int) - (CY_NUM_BTN_PER_REG : Nat)
          = (N : Int) - ((4 * (r + 1) : Nat) : Int) := by
        simp [CY_NUM_BTN_PER_REG]; omega
      have e3 : r + 1 + n = r + (n + 1) := by omega
      rw [e1, e2, ← e3]
      exact this
    by_cases hpos : (N : Int) - ((4 * r : Nat) : Int) > 0
    · simp only [if_pos hpos]
      apply hnext
      have hr : 4 * r < N := by omega
      have hmin : min (4 * r) N = 4 * r := by omega
      rw [hmin] at h
      obtain ⟨hxy, hsi⟩ := hframe _ _ h
      -- the number of buttons of this register
      have hi : (if ((N : Int) - ((4 * r : Nat) : Int)) / (CY_NUM_BTN_PER_REG : Nat) ≠ 0
            then ((CY_NUM_BTN_PER_REG : Nat) : Int)
            else (N : Int) - ((4 * r : Nat) : Int)).toNat = min 4 (N - 4 * r) := by
        simp only [CY_NUM_BTN_PER_REG]
        split <;> omega
      rw [hi, hxy, hsi]
      have hloop := btn_loop_inv I
        (btn_edge_body trig src dst (4 * r) (ld8 ts0.xy_mode (ts0.si_ofs.rep_ofs + 2 + r)))
        (4 * r) (min 4 (N - 4 * r)) 0 t
        (by
          intro j t' _ hj hI
          have hj4 : j < 4 := by omega
          have hidx : 4 * r + j < N := by omega
          have := hstep (4 * r + j) t' hidx hI
          have e1 : (4 * r + j) / 4 = r := by omega
          have e2 : (4 * r + j) % 4 = j := by omega
          rw [e1, e2] at this
          exact this)
        (by simpa using h)
      have e4 : 4 * r + 0 + min 4 (N - 4 * r) = min (4 * (r + 1)) N := by omega
      rw [e4] at hloop
      rcases hp with ⟨h1, h2, h3, h4⟩ | ⟨h1, h2, h3, h4⟩
      · subst h1 h2 h3 h4
        simp only [if_true]
        exact hloop
      · subst h1 h2 h3 h4
        rw [if_neg (by decide), if_pos rfl]
        exact hloop
    · simp only [if_neg hpos]
      apply hnext
      have e : min (4 * (r + 1)) N = min (4 * r) N := by omega
      rw [e]
      exact h

theorem key_events_append (c : Nat) (a b : List input_event) :
    key_events c (a ++ b) = key_events c a ++ key_events c b := by
  simp [key_events]

theorem key_events_key_sync (c k : Nat) (v : Int) :
    key_events c [input_event.report_key k v, input_event.sync]
      = if k = c then [input_event.report_key k v] else [] := by
  by_cases h : k = c
  · simp [key_events, List.filter, h]
  · have hb : (k == c) = false := by simpa using h
    simp [key_events, List.filter, h, hb]

theorem btn_frame_refl (ts : cyttsp4) : btn_frame ts ts := ⟨rfl, rfl, rfl, fun _ => rfl⟩

theorem btn_frame_trans {a b c : cyttsp4} (h1 : btn_frame a b) (h2 : btn_frame b c) :
    btn_frame a c :=
  ⟨h1.1.trans h2.1, h1.2.1.trans h2.2.1, h1.2.2.1.trans h2.2.2.1,
    fun j => (h1.2.2.2 j).trans (h2.2.2.2 j)⟩

/-- The state after an edge step that fired on button `idx`. -/
theorem edge_fired_fields (t : cyttsp4) (idx : Nat) (x : cyttsp4_btn) (dst : Int) :
    (emit (set_btn_state (emit t (.report_key x.key_code dst)) idx dst) .sync).xy_mode
        = t.xy_mode
    ∧ (emit (set_btn_state (emit t (.report_key x.key_code dst)) idx dst) .sync).si_ofs
        = t.si_ofs
    ∧ (emit (set_btn_state (emit t (.report_key x.key_code dst)) idx dst) .sync).btn
        = t.btn.modify (fun b => { b with state := dst }) idx
    ∧ (emit (set_btn_state (emit t (.report_key x.key_code dst)) idx dst) .sync).input
        = t.input ++ [input_event.report_key x.key_code dst, input_event.sync] := by
  refine ⟨rfl, rfl, rfl, ?_⟩
  simp [emit, set_btn_state]

/-- One edge step advances the progress invariant of button `b`. -/
theorem btn_edge_step (ts0 : cyttsp4) (b : Nat) (bt : cyttsp4_btn) (s : Int) (trig : Nat)
    (src dst : Int) (hbt : ts0.btn[b]? = some bt) (hen : bt.enabled = true)
    (huniq : ∀ (j : Nat) (x : cyttsp4_btn), ts0.btn[j]? = some x → j ≠ b →
      x.key_code ≠ bt.key_code) :
    ∀ (idx : Nat) (t : cyttsp4), idx < ts0.btn.length →
      btn_pass_inv ts0 b bt.key_code (btn_fresh ts0 b) s trig src dst idx t →
      btn_pass_inv ts0 b bt.key_code (btn_fresh ts0 b) s trig src dst (idx + 1)
        (btn_edge_body trig src dst (4 * (idx / 4))
          (ld8 ts0.xy_mode (ts0.si_ofs.rep_ofs + 2 + idx / 4)) (idx % 4) t) := by
  intro idx t hidx hI
  obtain ⟨hfr, hst, hev⟩ := hI
  obtain ⟨hxy, hsi, hlen, hstatic⟩ := hfr
  have eidx : 4 * (idx / 4) + idx % 4 = idx := by omega
  have hlt : idx < t.btn.length := by omega
  obtain ⟨x, hx⟩ : ∃ x, t.btn[idx]? = some x := ⟨t.btn[idx], List.getElem?_eq_getElem hlt⟩
  -- facts about the button examined when it is button `b`
  have hself : idx = b → x.enabled = true ∧ x.key_code = bt.key_code ∧ x.state = s
      ∧ btn_field (ld8 ts0.xy_mode (ts0.si_ofs.rep_ofs + 2 + idx / 4)) (idx % 4)
          = btn_fresh ts0 b := by
    intro e
    subst e
    have h1 := hstatic idx
    rw [hx, hbt] at h1
    simp only [Option.map_some', Option.some.injEq, Prod.mk.injEq] at h1
    rw [hx] at hst
    simp only [Option.map_some', Option.some.injEq, lt_self_iff_false, false_and,
      if_false] at hst
    exact ⟨h1.1.trans hen, h1.2, hst, rfl⟩
  have hother : idx ≠ b → x.key_code ≠ bt.key_code := by
    intro hne
    have h1 := hstatic idx
    rw [hx] at h1
    cases h0 : ts0.btn[idx]? with
    | none => rw [h0] at h1; simp at h1
    | some y =>
      rw [h0] at h1
      simp only [Option.map_some', Option.some.injEq, Prod.mk.injEq] at h1
      rw [h1.2]
      exact huniq idx y h0 hne
  unfold btn_edge_body
  rw [eidx, hx]
  simp only
  by_cases hc : x.enabled = true
      ∧ btn_field (ld8 ts0.xy_mode (ts0.si_ofs.rep_ofs + 2 + idx / 4)) (idx % 4) = trig
      ∧ x.state = src
  · rw [if_pos hc]
    obtain ⟨f1, f2, f3, f4⟩ := edge_fired_fields t idx x dst
    refine ⟨⟨f1.trans hxy, f2.trans hsi, ?_, ?_⟩, ?_, ?_⟩
    · rw [f3, List.length_modify]; exact hlen
    · intro j
      rw [f3, ← hstatic j, List.getElem?_modify]
      cases t.btn[j]? with
      | none => rfl
      | some y => by_cases hj : idx = j <;> simp [hj]
    · rw [f3]
      by_cases hb : idx = b
      · obtain ⟨_, _, hs, hf⟩ := hself hb
        subst hb
        rw [List.getElem?_modify_eq, hx]
        have hcond : idx < idx + 1 ∧ btn_fresh ts0 idx = trig ∧ s = src :=
          ⟨by omega, hf ▸ hc.2.1, hs ▸ hc.2.2⟩
        simp [hcond]
      · rw [List.getElem?_modify_ne _ _ hb, hst]
        have : (b < idx + 1) ↔ (b < idx) := by omega
        simp only [this]
    · rw [f4, key_events_append, hev, key_events_key_sync]
      by_cases hb : idx = b
      · obtain ⟨_, hk, hs, hf⟩ := hself hb
        subst hb
        have hcond : idx < idx + 1 ∧ btn_fresh ts0 idx = trig ∧ s = src :=
          ⟨by omega, hf ▸ hc.2.1, hs ▸ hc.2.2⟩
        simp [hcond, hk]
      · have : (b < idx + 1) ↔ (b < idx) := by omega
        simp only [this, if_neg (hother hb), List.append_nil]
  · rw [if_neg hc]
    have hiff : (b < idx + 1 ∧ btn_fresh ts0 b = trig ∧ s = src)
        ↔ (b < idx ∧ btn_fresh ts0 b = trig ∧ s = src) := by
      constructor
      · rintro ⟨h1, h2, h3⟩
        by_cases hb : idx = b
        · obtain ⟨he, _, hs, hf⟩ := hself hb
          exact absurd ⟨he, hf.trans h2, hs.trans h3⟩ hc
        · exact ⟨by omega, h2, h3⟩
      · rintro ⟨h1, h2, h3⟩
        exact ⟨by omega, h2, h3⟩
    refine ⟨⟨hxy, hsi, hlen, hstatic⟩, ?_, ?_⟩
    · rw [hst]; simp only [hiff]
    · rw [hev]; simp only [hiff]

/-- One pass of the register loop over all buttons, seen from button `b`. -/
theorem btn_pass (ts0 : cyttsp4) (b : Nat) (bt : cyttsp4_btn) (st : Int) (trig : Nat)
    (src dst : Int)
    (hp : (st = CY_BTN_RELEASED ∧ trig = 0 ∧ src = CY_BTN_PRESSED ∧ dst = CY_BTN_RELEASED)
      ∨ (st = CY_BTN_PRESSED ∧ trig = 1 ∧ src = CY_BTN_RELEASED ∧ dst = CY_BTN_PRESSED))
    (hN : ts0.si_ofs.num_btns = ts0.btn.length)
    (hR : ts0.si_ofs.num_btn_regs = (ts0.si_ofs.num_btns + 3) / 4)
    (hbt : ts0.btn[b]? = some bt) (hen : bt.enabled = true)
    (huniq : ∀ (j : Nat) (x : cyttsp4_btn), ts0.btn[j]? = some x → j ≠ b →
      x.key_code ≠ bt.key_code) :
    btn_pass_inv ts0 b bt.key_code (btn_fresh ts0 b) bt.state trig src dst (b + 1)
      (btn_reg_loop st ts0.si_ofs.num_btn_regs 0 0 ts0.si_ofs.num_btns ts0) := by
  have hb : b < ts0.btn.length := by
    by_contra h
    have := List.getElem?_eq_none (Nat.le_of_not_lt h)
    rw [this] at hbt
    exact absurd hbt (by simp)
  have h0 : btn_pass_inv ts0 b bt.key_code (btn_fresh ts0 b) bt.state trig src dst
      (min (4 * 0) ts0.btn.length) ts0 := by
    refine ⟨btn_frame_refl ts0, ?_, ?_⟩
    · rw [hbt]; simp
    · simp
  have h := btn_reg_loop_inv
    (btn_pass_inv ts0 b bt.key_code (btn_fresh ts0 b) bt.state trig src dst)
    ts0 ts0.btn.length st trig src dst hp
    (fun p t hI => ⟨hI.1.1, hI.1.2.1⟩)
    (btn_edge_step ts0 b bt bt.state trig src dst hbt hen huniq)
    ts0.si_ofs.num_btn_regs 0 ts0 h0
  have e1 : min (4 * (0 + ts0.si_ofs.num_btn_regs)) ts0.btn.length = ts0.btn.length := by
    rw [hR, hN]; omega
  rw [e1] at h
  simp only [Nat.mul_zero, Nat.cast_zero, sub_zero, ← hN] at h
  obtain ⟨hf, hs, he⟩ := h
  have hiff : ∀ q : Prop, (b < ts0.si_ofs.num_btns ∧ q) ↔ (b < b + 1 ∧ q) := by
    intro q
    constructor
    · rintro ⟨_, h2⟩; exact ⟨by omega, h2⟩
    · rintro ⟨_, h2⟩; exact ⟨by omega, h2⟩
  refine ⟨hf, ?_, ?_⟩
  · rw [hs]; simp only [hiff]
  · rw [he]; simp only [hiff]

theorem btn_ok_frame {t ts : cyttsp4} (hf : btn_frame t ts) (b c : Nat) (s s' : Int)
    (hok : btn_ok ts b c s) (hs' : s' = CY_BTN_RELEASED ∨ s' = CY_BTN_PRESSED)
    (hst : (t.btn[b]?).map (fun (x : cyttsp4_btn) => x.state) = some s') :
    btn_ok t b c s' := by
  obtain ⟨hN, hR, _, ⟨bt, hbt, hen, hk, _⟩, huniq⟩ := hok
  obtain ⟨_, hsi, hlen, hstatic⟩ := hf
  refine ⟨by rw [hsi, hlen]; exact hN, by rw [hsi]; exact hR, hs', ?_, ?_⟩
  · cases hx : t.btn[b]? with
    | none => rw [hx] at hst; simp at hst
    | some x =>
      have h1 := hstatic b
      rw [hx, hbt] at h1
      simp only [Option.map_some', Option.some.injEq, Prod.mk.injEq] at h1
      rw [hx] at hst
      simp only [Option.map_some', Option.some.injEq] at hst
      exact ⟨x, rfl, h1.1.trans hen, h1.2.trans hk, hst⟩
  · intro j x hx hj
    have h1 := hstatic j
    rw [hx] at h1
    cases h0 : ts.btn[j]? with
    | none => rw [h0] at h1; simp at h1
    | some y =>
      rw [h0] at h1
      simp only [Option.map_some', Option.some.injEq, Prod.mk.injEq] at h1
      rw [h1.2]
      exact huniq j y h0 hj

/-- One report, seen from an enabled button: a key event is sent exactly when
the fresh value differs from the stored state, and the stored state becomes
the fresh value. -/
theorem button_report_step (ts : cyttsp4) (b c : Nat) (s : Int) (hok : btn_ok ts b c s)
    (hfresh : btn_fresh ts b = 0 ∨ btn_fresh ts b = 1) :
    key_events c (xy_worker_buttons ts).input
        = key_events c ts.input
          ++ (if (btn_fresh ts b : Int) ≠ s then
                [input_event.report_key c (btn_fresh ts b)] else [])
    ∧ btn_ok (xy_worker_buttons ts) b c (btn_fresh ts b)
    ∧ btn_frame (xy_worker_buttons ts) ts := by
  have hok0 := hok
  obtain ⟨hN, hR, hs, ⟨bt, hbt, hen, hk, hst⟩, huniq⟩ := hok
  have hb : b < ts.btn.length := by
    by_contra h
    have := List.getElem?_eq_none (Nat.le_of_not_lt h)
    rw [this] at hbt
    exact absurd hbt (by simp)
  have hpos : ts.si_ofs.num_btns > 0 := by omega
  subst hk
  -- release pass
  have h1 := btn_pass ts b bt CY_BTN_RELEASED 0 CY_BTN_PRESSED CY_BTN_RELEASED
    (Or.inl ⟨rfl, rfl, rfl, rfl⟩) hN hR hbt hen huniq
  generalize hts1 : btn_reg_loop CY_BTN_RELEASED ts.si_ofs.num_btn_regs 0 0
    ts.si_ofs.num_btns ts = ts1 at h1
  obtain ⟨hf1, hs1, he1⟩ := h1
  -- the state of the button after the release pass
  obtain ⟨s1, hs1def⟩ : ∃ s1 : Int, s1 =
      (if b < b + 1 ∧ btn_fresh ts b = 0 ∧ bt.state = CY_BTN_PRESSED then CY_BTN_RELEASED
        else bt.state) := ⟨_, rfl⟩
  rw [← hs1def] at hs1
  have hs1v : s1 = CY_BTN_RELEASED ∨ s1 = CY_BTN_PRESSED := by
    rw [hs1def]; split
    · exact Or.inl rfl
    · rw [hst]; exact hs
  have hok1 : btn_ok ts1 b bt.key_code s1 := btn_ok_frame hf1 b bt.key_code s s1 hok0 hs1v hs1
  obtain ⟨hN1, hR1, _, ⟨bt1, hbt1, hen1, hk1, hst1⟩, huniq1⟩ := hok1
  -- press pass
  have h2 := btn_pass ts1 b bt1 CY_BTN_PRESSED 1 CY_BTN_RELEASED CY_BTN_PRESSED
    (Or.inr ⟨rfl, rfl, rfl, rfl⟩) hN1 hR1 hbt1 hen1 (by rw [hk1]; exact huniq1)
  have hfr : btn_fresh ts1 b = btn_fresh ts b := by
    unfold btn_fresh; rw [hf1.1, hf1.2.1]
  rw [hfr, hk1, hst1] at h2
  have hres : xy_worker_buttons ts
      = btn_reg_loop CY_BTN_PRESSED ts1.si_ofs.num_btn_regs 0 0 ts1.si_ofs.num_btns ts1 := by
    unfold xy_worker_buttons
    rw [if_pos hpos]
    simp only [hts1]
  rw [← hres] at h2
  obtain ⟨hf2, hs2, he2⟩ := h2
  have hlt : b < b + 1 := by omega
  have hfin : (if b < b + 1 ∧ btn_fresh ts b = 1 ∧ s1 = CY_BTN_RELEASED then CY_BTN_PRESSED
      else s1) = (btn_fresh ts b : Int) := by
    rw [hs1def, hst]
    rcases hfresh with hf | hf <;> rcases hs with h | h <;>
      simp [hf, h, hlt, CY_BTN_RELEASED, CY_BTN_PRESSED]
  have hfv : ((btn_fresh ts b : Nat) : Int) = CY_BTN_RELEASED
      ∨ ((btn_fresh ts b : Nat) : Int) = CY_BTN_PRESSED := by
    rcases hfresh with hf | hf <;> rw [hf]
    · exact Or.inl rfl
    · exact Or.inr rfl
  rw [hfin] at hs2
  refine ⟨?_, btn_ok_frame (btn_frame_trans hf2 hf1) b bt.key_code s _ hok0 hfv hs2,
    btn_frame_trans hf2 hf1⟩
  rw [he2, he1, List.append_assoc]
  congr 1
  rw [hs1def, hst]
  rcases hfresh with hf | hf <;> rcases hs with h | h <;>
    simp [hf, h, hlt, CY_BTN_RELEASED, CY_BTN_PRESSED]

/-- One edge step advances the progress invariant over all buttons. -/
theorem btn_full_step (ts0 : cyttsp4) (trig : Nat) (src dst : Int) :
    ∀ (idx : Nat) (t : cyttsp4), idx < ts0.btn.length →
      btn_full_inv ts0 trig src dst idx t →
      btn_full_inv ts0 trig src dst (idx + 1)
        (btn_edge_body trig src dst (4 * (idx / 4))
          (ld8 ts0.xy_mode (ts0.si_ofs.rep_ofs + 2 + idx / 4)) (idx % 4) t) := by
  intro idx t hidx hI
  obtain ⟨hfr, hst, hin⟩ := hI
  obtain ⟨hxy, hsi, hlen, hstatic⟩ := hfr
  have eidx : 4 * (idx / 4) + idx % 4 = idx := by omega
  have hlt : idx < t.btn.length := by omega
  obtain ⟨x, hx⟩ : ∃ x, t.btn[idx]? = some x := ⟨t.btn[idx], List.getElem?_eq_getElem hlt⟩
  obtain ⟨y, hy⟩ : ∃ y, ts0.btn[idx]? = some y := ⟨ts0.btn[idx], List.getElem?_eq_getElem hidx⟩
  have h1 := hstatic idx
  rw [hx, hy] at h1
  simp only [Option.map_some', Option.some.injEq, Prod.mk.injEq] at h1
  have h2 := hst idx
  rw [hx, hy, if_neg (by omega)] at h2
  simp only [Option.map_some', Option.some.injEq] at h2
  have hfresh : btn_field (ld8 ts0.xy_mode (ts0.si_ofs.rep_ofs + 2 + idx / 4)) (idx % 4)
      = btn_fresh ts0 idx := rfl
  have hslot : edge_slot trig src dst ts0 idx
      = if y.enabled = true ∧ btn_fresh ts0 idx = trig ∧ y.state = src then
          [input_event.report_key y.key_code dst, input_event.sync] else [] := by
    unfold edge_slot; rw [hy]
  have hstate : edge_state trig src dst ts0 idx
      = some (if y.enabled = true ∧ btn_fresh ts0 idx = trig ∧ y.state = src then dst
          else y.state) := by
    unfold edge_state; rw [hy]; rfl
  unfold btn_edge_body
  rw [eidx, hx]
  simp only
  rw [hfresh, h1.1, h2]
  by_cases hc : y.enabled = true ∧ btn_fresh ts0 idx = trig ∧ y.state = src
  · rw [if_pos hc]
    obtain ⟨f1, f2, f3, f4⟩ := edge_fired_fields t idx x dst
    refine ⟨⟨f1.trans hxy, f2.trans hsi, ?_, ?_⟩, ?_, ?_⟩
    · rw [f3, List.length_modify]; exact hlen
    · intro j
      rw [f3, ← hstatic j, List.getElem?_modify]
      cases t.btn[j]? with
      | none => rfl
      | some z => by_cases hj : idx = j <;> simp [hj]
    · intro j
      rw [f3]
      by_cases hj : idx = j
      · subst hj
        rw [List.getElem?_modify_eq, hx, if_pos (by omega), hstate, if_pos hc]
        rfl
      · rw [List.getElem?_modify_ne _ _ hj, hst j]
        have : (j < idx + 1) ↔ (j < idx) := by omega
        simp only [this]
    · rw [f4, hin, List.range_succ, List.flatMap_append, List.append_assoc]
      simp only [List.flatMap_cons, List.flatMap_nil, List.append_nil, hslot, if_pos hc, h1.2]
  · rw [if_neg hc]
    refine ⟨⟨hxy, hsi, hlen, hstatic⟩, ?_, ?_⟩
    · intro j
      by_cases hj : idx = j
      · subst hj
        rw [hx, if_pos (by omega), hstate, if_neg hc]
        simp [h2]
      · rw [hst j]
        have : (j < idx + 1) ↔ (j < idx) := by omega
        simp only [this]
    · rw [hin, List.range_succ, List.flatMap_append]
      simp only [List.flatMap_cons, List.flatMap_nil, List.append_nil, hslot, if_neg hc]

/-- One pass of the register loop over all buttons. -/
theorem btn_full_pass (ts0 : cyttsp4) (st : Int) (trig : Nat) (src dst : Int)
    (hp : (st = CY_BTN_RELEASED ∧ trig = 0 ∧ src = CY_BTN_PRESSED ∧ dst = CY_BTN_RELEASED)
      ∨ (st = CY_BTN_PRESSED ∧ trig = 1 ∧ src = CY_BTN_RELEASED ∧ dst = CY_BTN_PRESSED))
    (hN : ts0.si_ofs.num_btns = ts0.btn.length)
    (hR : ts0.si_ofs.num_btn_regs = (ts0.si_ofs.num_btns + 3) / 4) :
    btn_full_inv ts0 trig src dst ts0.btn.length
      (btn_reg_loop st ts0.si_ofs.num_btn_regs 0 0 ts0.si_ofs.num_btns ts0) := by
  have h0 : btn_full_inv ts0 trig src dst (min (4 * 0) ts0.btn.length) ts0 := by
    refine ⟨btn_frame_refl ts0, ?_, ?_⟩
    · intro j; simp
    · simp
  have h := btn_reg_loop_inv (btn_full_inv ts0 trig src dst) ts0 ts0.btn.length st trig src dst
    hp (fun p t hI => ⟨hI.1.1, hI.1.2.1⟩) (btn_full_step ts0 trig src dst)
    ts0.si_ofs.num_btn_regs 0 ts0 h0
  have e1 : min (4 * (0 + ts0.si_ofs.num_btn_regs)) ts0.btn.length = ts0.btn.length := by
    rw [hR, hN]; omega
  rw [e1] at h
  simpa only [Nat.mul_zero, Nat.cast_zero, sub_zero, ← hN] using h

/-- The button section of one report, for any button table: the trace grows
by the release slots of all buttons in index order followed by their press
slots, the stored states become `report_state`, and nothing else about the
buttons changes. -/
theorem button_report_trace (ts : cyttsp4) (hN : ts.si_ofs.num_btns = ts.btn.length)
    (hR : ts.si_ofs.num_btn_regs = (ts.si_ofs.num_btns + 3) / 4) :
    (xy_worker_buttons ts).input
        = ts.input ++ (List.range ts.btn.length).flatMap (release_slot ts)
          ++ (List.range ts.btn.length).flatMap (press_slot ts)
    ∧ btn_frame (xy_worker_buttons ts) ts
    ∧ ∀ j : Nat, ((xy_worker_buttons ts).btn[j]?).map (fun (x : cyttsp4_btn) => x.state)
        = report_state ts j := by
  by_cases hpos : ts.si_ofs.num_btns > 0
  swap
  · have h0 : ts.btn.length = 0 := by omega
    have hnil : ts.btn = [] := List.length_eq_zero.mp h0
    unfold xy_worker_buttons
    rw [if_neg hpos, h0]
    refine ⟨by simp, btn_frame_refl ts, ?_⟩
    intro j
    simp [report_state, hnil]
  · have h1 := btn_full_pass ts CY_BTN_RELEASED 0 CY_BTN_PRESSED CY_BTN_RELEASED
      (Or.inl ⟨rfl, rfl, rfl, rfl⟩) hN hR
    generalize hts1 : btn_reg_loop CY_BTN_RELEASED ts.si_ofs.num_btn_regs 0 0
      ts.si_ofs.num_btns ts = ts1 at h1
    obtain ⟨hf1, hs1, hi1⟩ := h1
    have hN1 : ts1.si_ofs.num_btns = ts1.btn.length := by
      rw [hf1.2.1, hf1.2.2.1]; exact hN
    have hR1 : ts1.si_ofs.num_btn_regs = (ts1.si_ofs.num_btns + 3) / 4 := by
      rw [hf1.2.1]; exact hR
    have h2 := btn_full_pass ts1 CY_BTN_PRESSED 1 CY_BTN_RELEASED CY_BTN_PRESSED
      (Or.inr ⟨rfl, rfl, rfl, rfl⟩) hN1 hR1
    have hres : xy_worker_buttons ts
        = btn_reg_loop CY_BTN_PRESSED ts1.si_ofs.num_btn_regs 0 0 ts1.si_ofs.num_btns ts1 := by
      unfold xy_worker_buttons
      rw [if_pos hpos]
      simp only [hts1]
    rw [← hres] at h2
    obtain ⟨hf2, hs2, hi2⟩ := h2
    have hfr : ∀ j, btn_fresh ts1 j = btn_fresh ts j := by
      intro j; unfold btn_fresh; rw [hf1.1, hf1.2.1]
    -- what the press pass sees of button `j`
    have hsee : ∀ j : Nat, ts1.btn[j]? = (ts.btn[j]?).map (fun (y : cyttsp4_btn) =>
        ({ y with state := if y.enabled = true ∧ btn_fresh ts j = 0 ∧ y.state = CY_BTN_PRESSED
            then CY_BTN_RELEASED else y.state } : cyttsp4_btn)) := by
      intro j
      have a := hf1.2.2.2 j
      have b := hs1 j
      by_cases hj : j < ts.btn.length
      · rw [if_pos hj] at b
        unfold edge_state at b
        cases hx : ts1.btn[j]? with
        | none =>
          have hlen := hf1.2.2.1
          have := List.getElem?_eq_none_iff.mp hx
          omega
        | some x =>
          cases hy : ts.btn[j]? with
          | none =>
            have := List.getElem?_eq_none_iff.mp hy
            omega
          | some y =>
            rw [hx, hy] at a b
            simp only [Option.map_some', Option.some.injEq, Prod.mk.injEq] at a b ⊢
            cases x; cases y
            simp only at a b
            simp only [cyttsp4_btn.mk.injEq]
            exact ⟨a.1, b, a.2⟩
      · have e1 : ts.btn[j]? = none := List.getElem?_eq_none (by omega)
        have e2 : ts1.btn[j]? = none := List.getElem?_eq_none (by rw [hf1.2.2.1]; omega)
        rw [e1, e2]; rfl
    have hslot : ∀ j, edge_slot 1 CY_BTN_RELEASED CY_BTN_PRESSED ts1 j = press_slot ts j := by
      intro j
      unfold press_slot edge_slot
      rw [hsee j, hfr j]
      cases ts.btn[j]? with
      | none => rfl
      | some y =>
        simp only [Option.map_some']
        by_cases hf : btn_fresh ts j = 1
        · have h0 : ¬ (btn_fresh ts j = 0) := by omega
          simp [hf]
        · simp [hf]
    refine ⟨?_, btn_frame_trans hf2 hf1, ?_⟩
    · rw [hi2, hi1, hf1.2.2.1]
      congr 1
      apply List.flatMap_congr
      intro j _
      exact hslot j
    · intro j
      rw [hs2 j]
      by_cases hj : j < ts1.btn.length
      · rw [if_pos hj]
        unfold edge_state report_state
        rw [hsee j, hfr j]
        cases ts.btn[j]? with
        | none => rfl
        | some y => simp only [Option.map_some']
      · rw [if_neg hj]
        have e1 : ts.btn[j]? = none := List.getElem?_eq_none (by rw [← hf1.2.2.1]; omega)
        have e2 : ts1.btn[j]? = none := List.getElem?_eq_none (by omega)
        rw [e2]; unfold report_state; rw [e1]; rfl

/-- For an enabled button whose stored state and fresh value are Released or
Pressed, its two slots together hold one key event (and its sync) exactly when
the fresh value differs from the stored state, and the state after the report
is the fresh value. -/
theorem button_slots_edge (ts : cyttsp4) (b : Nat) (bt : cyttsp4_btn)
    (hbt : ts.btn[b]? = some bt) (hen : bt.enabled = true)
    (hs : bt.state = CY_BTN_RELEASED ∨ bt.state = CY_BTN_PRESSED)
    (hf : btn_fresh ts b = 0 ∨ btn_fresh ts b = 1) :
    release_slot ts b ++ press_slot ts b
        = (if (btn_fresh ts b : Int) ≠ bt.state then
            [input_event.report_key bt.key_code (btn_fresh ts b), input_event.sync] else [])
    ∧ report_state ts b = some (btn_fresh ts b : Int) := by
  unfold release_slot press_slot edge_slot report_state
  rw [hbt]
  rcases hf with hf | hf <;> rcases hs with h | h <;>
    simp [hf, h, hen, CY_BTN_RELEASED, CY_BTN_PRESSED]

theorem btn_fresh_congr {t ts : cyttsp4} (h : t.si_ofs = ts.si_ofs) (m : List Nat) (b : Nat) :
    btn_fresh { t with xy_mode := m } b = btn_fresh { ts with xy_mode := m } b := by
  unfold btn_fresh
  simp only [h]

/-- A sequence of reports, seen from an enabled button: the key events sent
are exactly the fresh values that differ from the value stored before them,
and the stored state ends as the last fresh value. -/
theorem button_reports_edges (b c : Nat) :
    ∀ (ms : List (List Nat)) (ts : cyttsp4) (s : Int), btn_ok ts b c s →
      (∀ m ∈ ms, btn_fresh { ts with xy_mode := m } b = 0
        ∨ btn_fresh { ts with xy_mode := m } b = 1) →
      key_events c (button_reports ts ms).input
          = key_events c ts.input
            ++ (edges s (ms.map (fun m => btn_fresh { ts with xy_mode := m } b))).map
                (fun v => input_event.report_key c (v : Int))
      ∧ btn_ok (button_reports ts ms) b c
          (last_value s (ms.map (fun m => btn_fresh { ts with xy_mode := m } b))) := by
  intro ms
  induction ms with
  | nil => intro ts s hok _; simpa [button_reports, edges, last_value] using hok
  | cons m ms ih =>
    intro ts s hok hall
    have hok' : btn_ok { ts with xy_mode := m } b c s := hok
    have hstep := button_report_step { ts with xy_mode := m } b c s hok'
      (hall m (List.mem_cons_self _ _))
    obtain ⟨hev, hok1, hfr⟩ := hstep
    have hsi : (xy_worker_buttons { ts with xy_mode := m }).si_ofs = ts.si_ofs := hfr.2.1
    have hmap : (ms.map (fun m' =>
          btn_fresh { xy_worker_buttons { ts with xy_mode := m } with xy_mode := m' } b))
        = ms.map (fun m' => btn_fresh { ts with xy_mode := m' } b) := by
      apply List.map_congr_left
      intro m' _
      exact btn_fresh_congr hsi m' b
    have hrec := ih (xy_worker_buttons { ts with xy_mode := m })
      (btn_fresh { ts with xy_mode := m } b) hok1
      (by
        intro m' hm'
        rw [btn_fresh_congr hsi m' b]
        exact hall m' (List.mem_cons_of_mem _ hm'))
    rw [hmap] at hrec
    obtain ⟨hev2, hok2⟩ := hrec
    refine ⟨?_, ?_⟩
    · rw [button_reports, hev2, hev]
      simp only [List.map_cons, edges, List.map_append, List.append_assoc]
      congr 1
      split <;> simp
    · rw [button_reports]
      simpa [last_value] using hok2

theorem sample_one_button_ok (v : Nat) :
    btn_ok { sample_ts_one_button with xy_mode := sample_mode_regs v } 0 158 0 := by
  refine ⟨by simp [sample_ts_one_button], by simp [sample_ts_one_button], Or.inl rfl,
    ⟨⟨true, 0, 158⟩, rfl, rfl, rfl, rfl⟩, ?_⟩
  intro j x hx hj
  cases j with
  | zero => exact absurd rfl hj
  | succ j => simp [sample_ts_one_button] at hx

set_option maxRecDepth 100000 in
theorem sample_button_sequence :
    (button_reports sample_ts_one_button
        [sample_mode_regs 0, sample_mode_regs 1, sample_mode_regs 1, sample_mode_regs 0]).input
      = [input_event.report_key 158 1, input_event.sync,
         input_event.report_key 158 0, input_event.sync]
    ∧ (xy_worker_buttons
        { xy_worker_buttons { sample_ts_one_button with xy_mode := sample_mode_regs 1 }
            with xy_mode := sample_mode_regs 1 }).input
      = (xy_worker_buttons { sample_ts_one_button with xy_mode := sample_mode_regs 1 }).input := by
  decide

/-- C5: for every enabled button and every sequence of reports whose 2-bit
value for that button is Released or Pressed, a key event for the button is
sent exactly when the fresh value differs from the stored `ButtonState`, and
the stored state then equals the fresh value.  First part: one report on any
button table sends the release slots of all buttons followed by their press
slots, and the two slots of an enabled button hold one key event exactly when
its fresh value differs from its stored state, which becomes the fresh value.
Second part: along any sequence of reports the key events carrying the
button's own key code are the fresh values that differ from their
predecessor.  Third part: starting from Released, the sequence Released,
Pressed, Pressed, Released sends exactly one press and one release, and a
repeated Pressed read sends nothing. -/
theorem C5_button_edges :
    (∀ (ts : cyttsp4), ts.si_ofs.num_btns = ts.btn.length →
      ts.si_ofs.num_btn_regs = (ts.si_ofs.num_btns + 3) / 4 →
      (xy_worker_buttons ts).input
          = ts.input ++ (List.range ts.btn.length).flatMap (release_slot ts)
            ++ (List.range ts.btn.length).flatMap (press_slot ts)
      ∧ ∀ (b : Nat) (bt : cyttsp4_btn), ts.btn[b]? = some bt → bt.enabled = true →
          (bt.state = CY_BTN_RELEASED ∨ bt.state = CY_BTN_PRESSED) →
          (btn_fresh ts b = 0 ∨ btn_fresh ts b = 1) →
          release_slot ts b ++ press_slot ts b
              = (if (btn_fresh ts b : Int) ≠ bt.state then
                  [input_event.report_key bt.key_code (btn_fresh ts b), input_event.sync]
                 else [])
          ∧ ((xy_worker_buttons ts).btn[b]?).map (fun (x : cyttsp4_btn) => x.state)
              = some (btn_fresh ts b : Int))
    ∧ (∀ (ts : cyttsp4) (b c : Nat) (s : Int) (ms : List (List Nat)), btn_ok ts b c s →
      (∀ m ∈ ms, btn_fresh { ts with xy_mode := m } b = 0
        ∨ btn_fresh { ts with xy_mode := m } b = 1) →
      key_events c (button_reports ts ms).input
          = key_events c ts.input
            ++ (edges s (ms.map (fun m => btn_fresh { ts with xy_mode := m } b))).map
                (fun v => input_event.report_key c (v : Int))
      ∧ btn_ok (button_reports ts ms) b c
          (last_value s (ms.map (fun m => btn_fresh { ts with xy_mode := m } b))))
    ∧ (button_reports sample_ts_one_button
        [sample_mode_regs 0, sample_mode_regs 1, sample_mode_regs 1, sample_mode_regs 0]).input
      = [input_event.report_key 158 1, input_event.sync,
         input_event.report_key 158 0, input_event.sync]
    ∧ (xy_worker_buttons
        { xy_worker_buttons { sample_ts_one_button with xy_mode := sample_mode_regs 1 }
            with xy_mode := sample_mode_regs 1 }).input
      = (xy_worker_buttons { sample_ts_one_button with xy_mode := sample_mode_regs 1 }).input :=
  ⟨fun ts hN hR =>
      ⟨(button_report_trace ts hN hR).1,
        fun b bt hbt hen hs hf =>
          ⟨(button_slots_edge ts b bt hbt hen hs hf).1,
            ((button_report_trace ts hN hR).2.2 b).trans
              (button_slots_edge ts b bt hbt hen hs hf).2⟩⟩,
    fun ts b c s ms hok hall => button_reports_edges b c ms ts s hok hall,
    sample_button_sequence.1, sample_button_sequence.2⟩

/-- Witness for C5: the one-button context, Released, reading Pressed. -/
theorem C5_button_edges_witness :
    (xy_worker_buttons { sample_ts_one_button with xy_mode := sample_mode_regs 1 }).input
      = { sample_ts_one_button with xy_mode := sample_mode_regs 1 }.input
        ++ (List.range { sample_ts_one_button with xy_mode := sample_mode_regs 1 }.btn.length).flatMap
            (release_slot { sample_ts_one_button with xy_mode := sample_mode_regs 1 })
        ++ (List.range { sample_ts_one_button with xy_mode := sample_mode_regs 1 }.btn.length).flatMap
            (press_slot { sample_ts_one_button with xy_mode := sample_mode_regs 1 }) :=
  (C5_button_edges.1 { sample_ts_one_button with xy_mode := sample_mode_regs 1 }
    (by decide) (by decide)).1

theorem put_cmd_wait_retry_waits_spec {D : Type} (ops : cyttsp4_bus_ops D) (ofs timeout_ms : Nat)
    (c : Nat → Bool) (i2c_addr : Nat) :
    ∀ (n cmd : Nat) (dev : D),
      (put_cmd_wait_retry_waits ops ofs timeout_ms (some c) i2c_addr n cmd dev).length ≤ n + 1
      ∧ (∀ e ∈ (put_cmd_wait_retry_waits ops ofs timeout_ms (some c) i2c_addr n cmd dev).dropLast,
          e.1 ≠ 0 ∧ c e.2 = false)
      ∧ ∃ e, (put_cmd_wait_retry_waits ops ofs timeout_ms (some c) i2c_addr n cmd dev).getLast?
            = some e
          ∧ (c e.2 = true →
              (put_cmd_wait_retry ops ofs timeout_ms (some c) i2c_addr n cmd dev).1 = 0)
          ∧ (c e.2 = false → e.1 = 0 →
              (put_cmd_wait_retry ops ofs timeout_ms (some c) i2c_addr n cmd dev).1 = err_timedout)
          ∧ (c e.2 = false → e.1 ≠ 0 →
              (put_cmd_wait_retry ops ofs timeout_ms (some c) i2c_addr n cmd dev).1 = err_io
              ∧ (put_cmd_wait_retry_waits ops ofs timeout_ms (some c) i2c_addr n cmd dev).length
                  = n + 1) := by
  intro n
  induction n with
  | zero =>
    intro cmd dev
    unfold put_cmd_wait_retry_waits put_cmd_wait_retry
    simp only
    by_cases hc : c (ld8 (_cyttsp4_read_block_data ops (ops.wait dev timeout_ms).2 ofs 1 [cmd]
        i2c_addr).2.1 0) = true
    · simp [hc]
    · simp only [Bool.not_eq_true] at hc
      by_cases hw : (ops.wait dev timeout_ms).1 = 0
      · simp [hc, hw]
      · simp [hc, hw]
  | succ n ih =>
    intro cmd dev
    unfold put_cmd_wait_retry_waits put_cmd_wait_retry
    simp only
    by_cases hc : c (ld8 (_cyttsp4_read_block_data ops (ops.wait dev timeout_ms).2 ofs 1 [cmd]
        i2c_addr).2.1 0) = true
    · simp [hc]
    · simp only [Bool.not_eq_true] at hc
      by_cases hw : (ops.wait dev timeout_ms).1 = 0
      · simp [hc, hw]
      · simp only [hc, hw, Bool.not_false, if_true, if_false]
        generalize (ld8 (_cyttsp4_read_block_data ops (ops.wait dev timeout_ms).2 ofs 1 [cmd]
          i2c_addr).2.1 0) = s at hc ⊢
        generalize (_cyttsp4_read_block_data ops (ops.wait dev timeout_ms).2 ofs 1 [cmd]
          i2c_addr).2.2 = d1
        obtain ⟨h1, h2, e, h3, h4, h5, h6⟩ := ih s d1
        generalize hT : put_cmd_wait_retry_waits ops ofs timeout_ms (some c) i2c_addr n s d1 = T
          at h1 h2 h3 h6 ⊢
        cases T with
        | nil => simp at h3
        | cons y T =>
          refine ⟨by simpa using h1, ?_, e, ?_, h4, h5, ?_⟩
          · intro x hx
            rw [List.dropLast_cons₂] at hx
            rcases List.mem_cons.1 hx with hx | hx
            · subst hx; exact ⟨hw, hc⟩
            · exact h2 x hx
          · rw [List.getLast?_cons_cons]; exact h3
          · intro a b
            obtain ⟨h7, h8⟩ := h6 a b
            exact ⟨h7, by simpa using h8⟩

set_option maxRecDepth 100000 in
/-- The record of the driver state for a command sent in `CY_CMD_STATE` from
the Bootloader state to a device that never shows the command-ready bit:
seven times `CY_CMD_STATE` (the write and three waits with their status
reads), and the Bootloader state again on exit. -/
theorem sample_put_cmd_wait_states :
    (put_cmd_wait_states bus_never_ready sample_ts () sample_ts.si_ofs.cmd_ofs [0x26]
        CY_HALF_SEC_TMO_MS (some _cyttsp4_chk_cmd_rdy) none sample_ts.addr_tch CY_CMD_STATE).2
      = [CY_CMD_STATE, CY_CMD_STATE, CY_CMD_STATE, CY_CMD_STATE, CY_CMD_STATE, CY_CMD_STATE,
         CY_CMD_STATE]
    ∧ (put_cmd_wait_states bus_never_ready sample_ts () sample_ts.si_ofs.cmd_ofs [0x26]
        CY_HALF_SEC_TMO_MS (some _cyttsp4_chk_cmd_rdy) none sample_ts.addr_tch
        CY_CMD_STATE).1.2.2.1.driver_state = CY_BL_STATE := by
  decide

/-- C12: `_cyttsp4_put_cmd_wait` waits at most three times; every wait that
is followed by another one was ended by the interrupt (non-zero `uretval`)
with the condition false on the status byte; when the condition is false
after a wait that timed out the result is `-ETIMEDOUT`; when it is false
after a wait ended by the interrupt, that wait was the third one and the
result is `-EIO`; when it holds the result is `0`; and a call whose write
succeeded waits at least once. -/
theorem C12_put_cmd_wait_waits {D : Type} (ops : cyttsp4_bus_ops D) (ts : cyttsp4)
    (dev : D) (ofs : Nat) (cmd_buf : List Nat) (timeout_ms : Nat) (c : Nat → Bool)
    (retcmd : Option Nat) (i2c_addr : Nat) (cmd_state : cyttsp4_driver_state) :
    (put_cmd_wait_waits ops dev ofs cmd_buf timeout_ms (some c) i2c_addr).length ≤ 3
    ∧ (∀ e ∈ (put_cmd_wait_waits ops dev ofs cmd_buf timeout_ms (some c) i2c_addr).dropLast,
        e.1 ≠ 0 ∧ c e.2 = false)
    ∧ (∀ e, (put_cmd_wait_waits ops dev ofs cmd_buf timeout_ms (some c) i2c_addr).getLast?
          = some e →
        (c e.2 = false → e.1 = 0 →
          (_cyttsp4_put_cmd_wait ops ts dev ofs cmd_buf timeout_ms (some c) retcmd i2c_addr
            cmd_state).1 = err_timedout)
        ∧ (c e.2 = false → e.1 ≠ 0 →
          (_cyttsp4_put_cmd_wait ops ts dev ofs cmd_buf timeout_ms (some c) retcmd i2c_addr
            cmd_state).1 = err_io
          ∧ (put_cmd_wait_waits ops dev ofs cmd_buf timeout_ms (some c) i2c_addr).length = 3)
        ∧ (c e.2 = true →
          (_cyttsp4_put_cmd_wait ops ts dev ofs cmd_buf timeout_ms (some c) retcmd i2c_addr
            cmd_state).1 = 0))
    ∧ (0 ≤ (_cyttsp4_write_block_data ops dev ofs cmd_buf i2c_addr).1 →
        put_cmd_wait_waits ops dev ofs cmd_buf timeout_ms (some c) i2c_addr ≠ []) := by
  unfold put_cmd_wait_waits _cyttsp4_put_cmd_wait
  by_cases hw : (_cyttsp4_write_block_data ops dev ofs cmd_buf i2c_addr).1 < 0
  · simp only [if_pos hw]
    refine ⟨by simp, by simp, by simp, ?_⟩
    intro h; omega
  · simp only [if_neg hw]
    obtain ⟨h1, h2, e, h3, h4, h5, h6⟩ := put_cmd_wait_retry_waits_spec ops ofs timeout_ms c
      i2c_addr 2 0 (_cyttsp4_write_block_data ops dev ofs cmd_buf i2c_addr).2
    refine ⟨h1, h2, ?_, ?_⟩
    · intro e1 he1
      rw [h3] at he1
      cases he1
      exact ⟨h5, h6, h4⟩
    · intro _ hnil
      rw [hnil] at h3
      simp at h3

/-- C12 on a device that raises its interrupt at every wait and never shows
the ready bit: three waits, then `-EIO`. -/
theorem C12_put_cmd_wait_waits_witness :
    put_cmd_wait_waits bus_never_ready () 2 [0x26] 500 (some _cyttsp4_chk_cmd_rdy) 0x67
        = [(1, 0), (1, 0), (1, 0)]
    ∧ (_cyttsp4_put_cmd_wait bus_never_ready sample_ts () 2 [0x26] 500
        (some _cyttsp4_chk_cmd_rdy) none 0x67 CY_CMD_STATE).1 = err_io := by
  have h := C12_put_cmd_wait_waits bus_never_ready sample_ts () 2 [0x26] 500
    _cyttsp4_chk_cmd_rdy none 0x67 CY_CMD_STATE
  have hT : put_cmd_wait_waits bus_never_ready () 2 [0x26] 500 (some _cyttsp4_chk_cmd_rdy) 0x67
      = [(1, 0), (1, 0), (1, 0)] := by decide
  refine ⟨hT, ?_⟩
  exact ((h.2.2.1 (1, 0) (by rw [hT]; rfl)).2.1 (by decide) (by decide)).1

/-! ## Configuration blocks -/

/-- A `memcpy` of `n` bytes to the end of the prefix `pre` of a buffer. -/
theorem store_eq_append (pre mid : List Nat) (k n : Nat) (pdata : List Nat)
    (hk : pre.length = k) :
    store (pre ++ mid) k n pdata = pre ++ payload_bytes pdata n ++ mid.drop n := by
  subst hk
  unfold store payload_bytes ld8
  congr 1
  · congr 1
    apply List.ext_getElem
    · simp
    · intro i h1 h2
      simp at h1
      simp [List.getD_eq_getElem?_getD, List.getElem?_append_left, h1]
  · rw [List.drop_append_eq_append_drop]
    simp

theorem payload_bytes_length (pdata : List Nat) (n : Nat) :
    (payload_bytes pdata n).length = n := by
  simp [payload_bytes]

/-- The buffer of `_cyttsp4_calc_data_crc` for at most 122 bytes of data. -/
theorem calc_data_crc_eq (ndata : Nat) (pdata : List Nat) (hn : ndata ≤ 122) :
    _cyttsp4_calc_data_crc ndata pdata
      = (0, (padded_block_crc (payload_bytes pdata ndata)).1,
          (padded_block_crc (payload_bytes pdata ndata)).2) := by
  unfold _cyttsp4_calc_data_crc padded_block_crc
  have hb : ((((List.replicate 126 0).set 0 0x00).set 1 0x7E).set 2 0x00).set 3 0x7E
      = [0x00, 0x7E, 0x00, 0x7E] ++ List.replicate 122 0 := by decide
  have hlen : ([0x00, 0x7E, 0x00, 0x7E] ++ payload_bytes pdata ndata
      ++ List.replicate (122 - ndata) 0).length = 126 := by
    simp [payload_bytes_length]; omega
  simp only [if_neg (Nat.not_lt.2 hn), hb]
  rw [store_eq_append [0x00, 0x7E, 0x00, 0x7E] (List.replicate 122 0) 4 ndata pdata rfl,
    List.drop_replicate, payload_bytes_length, List.take_of_length_le (le_of_eq hlen)]

/-- C16: for `n ≤ 122` bytes of data `_cyttsp4_calc_data_crc` returns 0 and
`(crc_h, crc_l)` is the configuration CRC of the 126-byte buffer made of the
header `00 7E 00 7E`, the `n` data bytes and zero padding; for `n > 122` it
returns `-EOVERFLOW` with `crc_h = crc_l = 0`. -/
theorem C16_calc_data_crc (ndata : Nat) (pdata : List Nat) :
    (ndata ≤ 122 →
      _cyttsp4_calc_data_crc ndata pdata
        = (0, (padded_block_crc (payload_bytes pdata ndata)).1,
            (padded_block_crc (payload_bytes pdata ndata)).2)
      ∧ ([0x00, 0x7E, 0x00, 0x7E] ++ payload_bytes pdata ndata
          ++ List.replicate (122 - (payload_bytes pdata ndata).length) 0).length = 126)
    ∧ (122 < ndata → _cyttsp4_calc_data_crc ndata pdata = (err_overflow, 0, 0)) := by
  constructor
  · intro hn
    refine ⟨calc_data_crc_eq ndata pdata hn, ?_⟩
    simp [payload_bytes_length]; omega
  · intro hn
    unfold _cyttsp4_calc_data_crc
    simp [hn]

/-- C16 on three bytes of data, and on 123 bytes. -/
theorem C16_calc_data_crc_witness :
    (_cyttsp4_calc_data_crc 3 [0x11, 0x22, 0x33]
        = (0, (padded_block_crc [0x11, 0x22, 0x33]).1, (padded_block_crc [0x11, 0x22, 0x33]).2))
    ∧ _cyttsp4_calc_data_crc 123 (List.replicate 123 0) = (err_overflow, 0, 0) :=
  ⟨((C16_calc_data_crc 3 [0x11, 0x22, 0x33]).1 (by decide)).1,
    (C16_calc_data_crc 123 (List.replicate 123 0)).2 (by decide)⟩

/-- The packet of `_cyttsp4_write_config_block` for at most 122 bytes of
data, part by part. -/
theorem write_config_block_buf_eq (blockid : Nat) (pdata : List Nat) (ndata crc_h crc_l : Nat)
    (hn : ndata ≤ 122) :
    write_config_block_buf blockid pdata ndata crc_h crc_l
      = [0x04, 0x00, 0x00, 0x00, 0x80, blockid % 256, 0x00, 0x7E, 0x00, 0x7E]
        ++ payload_bytes pdata ndata ++ List.replicate (122 - ndata) 0
        ++ [crc_h % 256, crc_l % 256]
        ++ [0x45, 0x63, 0x36, 0x6F, 0x34, 0x38, 0x73, 0x77] := by
  unfold write_config_block_buf
  have hb : ((((((((((List.replicate 142 0).set 0 0x04).set 1 0x00).set 2 0x00).set 3 0x00).set 4
      0x80).set 5 (blockid % 256)).set 6 0x00).set 7 0x7E).set 8 0x00).set 9 0x7E
      = [0x04, 0x00, 0x00, 0x00, 0x80, blockid % 256, 0x00, 0x7E, 0x00, 0x7E]
        ++ (List.replicate 122 0 ++ List.replicate 10 0) := by rfl
  simp only [hb]
  rw [store_eq_append [0x04, 0x00, 0x00, 0x00, 0x80, blockid % 256, 0x00, 0x7E, 0x00, 0x7E]
    (List.replicate 122 0 ++ List.replicate 10 0) 10 ndata pdata rfl]
  have hd : (List.replicate 122 0 ++ List.replicate 10 0).drop ndata
      = List.replicate (122 - ndata) 0 ++ List.replicate 10 0 := by
    rw [List.drop_append_of_le_length (by simpa using hn), List.drop_replicate]
  rw [hd, ← List.append_assoc]
  generalize hA : [0x04, 0x00, 0x00, 0x00, 0x80, blockid % 256, 0x00, 0x7E, 0x00, 0x7E]
    ++ payload_bytes pdata ndata ++ List.replicate (122 - ndata) 0 = A
  have hlen : A.length = 132 := by
    subst hA; simp [payload_bytes_length]; omega
  have hs : ∀ (l : List Nat) (i v : Nat), (A ++ l).set (132 + i) v = A ++ l.set i v := by
    intro l i v
    rw [List.set_append_right _ _ (by omega)]
    congr 2; omega
  rw [hs _ 0, hs _ 1, hs _ 2, hs _ 3, hs _ 4, hs _ 5, hs _ 6, hs _ 7, hs _ 8, hs _ 9]
  rw [List.append_assoc]
  rfl

/-! ### The write log -/

theorem read_tries_log {D : Type} (ops : cyttsp4_bus_ops D) (command length i2c_addr : Nat) :
    ∀ (n : Nat) (retval : Int) (buf : List Nat) (s : D × List (Nat × List Nat)),
      (read_tries (log_writes ops) command length i2c_addr n retval buf s).2.2.2 = s.2 := by
  intro n
  induction n with
  | zero => intro retval buf s; rfl
  | succ n ih =>
    intro retval buf s
    unfold read_tries
    split
    · simp only [ih]; rfl
    · rfl

/-- Reading a block leaves the write log as it was. -/
theorem read_block_data_log {D : Type} (ops : cyttsp4_bus_ops D)
    (s : D × List (Nat × List Nat)) (command length : Nat) (buf : List Nat) (i2c_addr : Nat) :
    (_cyttsp4_read_block_data (log_writes ops) s command length buf i2c_addr).2.2.2 = s.2 := by
  unfold _cyttsp4_read_block_data
  split
  · rfl
  · exact read_tries_log ops command length i2c_addr _ _ _ _

/-- The wait phase of `_cyttsp4_put_cmd_wait` leaves the write log as it was. -/
theorem put_cmd_wait_retry_log {D : Type} (ops : cyttsp4_bus_ops D) (ofs timeout_ms : Nat)
    (cond : Option (Nat → Bool)) (i2c_addr : Nat) :
    ∀ (n cmd : Nat) (s : D × List (Nat × List Nat)),
      (put_cmd_wait_retry (log_writes ops) ofs timeout_ms cond i2c_addr n cmd s).2.2.2.2
        = s.2 := by
  have hstep : ∀ (cmd : Nat) (s : D × List (Nat × List Nat)),
      (_cyttsp4_read_block_data (log_writes ops) ((log_writes ops).wait s timeout_ms).2 ofs 1
        [cmd] i2c_addr).2.2.2 = s.2 := by
    intro cmd s
    rw [read_block_data_log]; rfl
  intro n
  induction n with
  | zero =>
    intro cmd s
    unfold put_cmd_wait_retry
    cases cond with
    | none => exact hstep cmd s
    | some c =>
      simp only
      split
      · split <;> exact hstep cmd s
      · exact hstep cmd s
  | succ n ih =>
    intro cmd s
    unfold put_cmd_wait_retry
    cases cond with
    | none => exact hstep cmd s
    | some c =>
      simp only
      split
      · split
        · exact hstep cmd s
        · rw [ih]; exact hstep cmd s
      · exact hstep cmd s

/-- A block write that the bus takes at the first attempt adds one entry to
the write log. -/
theorem write_block_data_log_ok {D : Type} (ops : cyttsp4_bus_ops D)
    (s : D × List (Nat × List Nat)) (command : Nat) (buf : List Nat) (i2c_addr : Nat)
    (hn : 0 < ops.num_retry) (hb : buf ≠ [])
    (h : 0 ≤ (ops.write s.1 command buf i2c_addr).1) :
    _cyttsp4_write_block_data (log_writes ops) s command buf i2c_addr
      = ((ops.write s.1 command buf i2c_addr).1,
          ((ops.write s.1 command buf i2c_addr).2, s.2 ++ [(command, buf)])) :=
  write_block_data_ok (log_writes ops) s command buf i2c_addr hn hb h

/-- A command whose write the bus takes at the first attempt adds that one
write to the log. -/
theorem put_cmd_wait_log_ok {D : Type} (ops : cyttsp4_bus_ops D) (ts : cyttsp4)
    (s : D × List (Nat × List Nat)) (ofs : Nat) (cmd_buf : List Nat) (timeout_ms : Nat)
    (cond : Option (Nat → Bool)) (retcmd : Option Nat) (i2c_addr : Nat)
    (cmd_state : cyttsp4_driver_state) (hn : 0 < ops.num_retry) (hb : cmd_buf ≠ [])
    (h : 0 ≤ (ops.write s.1 ofs cmd_buf i2c_addr).1) :
    (_cyttsp4_put_cmd_wait (log_writes ops) ts s ofs cmd_buf timeout_ms cond retcmd i2c_addr
      cmd_state).2.2.2.2 = s.2 ++ [(ofs, cmd_buf)] := by
  unfold _cyttsp4_put_cmd_wait
  rw [write_block_data_log_ok ops s ofs cmd_buf i2c_addr hn hb h]
  simp only [if_neg (not_lt.2 h), put_cmd_wait_retry_log]

/-- C19: for at most 122 bytes of data the 142-byte packet that
`_cyttsp4_write_config_block` builds is the header
`04 00 00 00 80 blockid 00 7E 00 7E`, the data bytes from byte 10 on, zero
fill up to byte 131, `crc_h`, `crc_l` at bytes 132 and 133 and the key
`45 63 36 6F 34 38 73 77` at bytes 134..141; on a bus that takes writes it
goes out as bytes 1..141 written behind the command register followed by
byte 0 written to the command register.  For more than 122 bytes the function
returns `-EOVERFLOW` and writes nothing to the device. -/
theorem C19_write_config_block_packet {D : Type} (ops : cyttsp4_bus_ops D) (ts : cyttsp4)
    (dev : D) (blockid : Nat) (pdata : List Nat) (ndata crc_h crc_l : Nat) :
    (ndata ≤ 122 →
      write_config_block_buf blockid pdata ndata crc_h crc_l
        = [0x04, 0x00, 0x00, 0x00, 0x80, blockid % 256, 0x00, 0x7E, 0x00, 0x7E]
          ++ payload_bytes pdata ndata ++ List.replicate (122 - ndata) 0
          ++ [crc_h % 256, crc_l % 256]
          ++ [0x45, 0x63, 0x36, 0x6F, 0x34, 0x38, 0x73, 0x77]
      ∧ (write_config_block_buf blockid pdata ndata crc_h crc_l).length = 142
      ∧ (payload_bytes pdata ndata).length = ndata
      ∧ (0 < ops.num_retry → (∀ d c b a, 0 ≤ (ops.write d c b a).1) →
          (_cyttsp4_write_config_block (log_writes ops) ts (dev, []) blockid pdata ndata
              crc_h crc_l).2.2.2
            = [(ts.si_ofs.cmd_ofs + 1,
                  (write_config_block_buf blockid pdata ndata crc_h crc_l).drop 1),
                (ts.si_ofs.cmd_ofs, [0x04])]))
    ∧ (122 < ndata →
        _cyttsp4_write_config_block (log_writes ops) ts (dev, []) blockid pdata ndata
          crc_h crc_l = (err_overflow, ts, (dev, []))) := by
  constructor
  · intro hn
    have hbuf := write_config_block_buf_eq blockid pdata ndata crc_h crc_l hn
    have hlen : (write_config_block_buf blockid pdata ndata crc_h crc_l).length = 142 := by
      rw [hbuf]; simp [payload_bytes_length]; omega
    refine ⟨hbuf, hlen, payload_bytes_length _ _, ?_⟩
    intro hr hw
    have htake : (write_config_block_buf blockid pdata ndata crc_h crc_l).take 1 = [0x04] := by
      rw [hbuf]; rfl
    unfold _cyttsp4_write_config_block
    generalize write_config_block_buf blockid pdata ndata crc_h crc_l = B at hlen htake ⊢
    have hdrop : (B.drop 1).take 141 = B.drop 1 :=
      List.take_of_length_le (by simp [hlen])
    have hne : B.drop 1 ≠ [] := by
      intro h
      have := congrArg List.length h
      simp [hlen] at this
    rw [if_neg (Nat.not_lt.2 hn)]
    simp only [hdrop, htake]
    rw [write_block_data_log_ok ops (dev, []) _ _ _ hr hne (hw _ _ _ _)]
    simp only [if_neg (not_lt.2 (hw _ _ _ _))]
    have hp := fun (t : cyttsp4) (st : D) => put_cmd_wait_log_ok ops t
      (st, [] ++ [(ts.si_ofs.cmd_ofs + 1, B.drop 1)])
      ts.si_ofs.cmd_ofs [0x04] CY_TEN_SEC_TMO_MS (some _cyttsp4_chk_cmd_rdy) none ts.addr_tch
      CY_CMD_STATE hr (by simp) (hw _ _ _ _)
    split
    · rw [hp]; rfl
    · split
      · rw [read_block_data_log, hp]; rfl
      · split <;> (rw [read_block_data_log, hp]; rfl)
  · intro hn
    unfold _cyttsp4_write_config_block
    rw [if_pos hn]

/-- C19 on three bytes of data and on 123 bytes. -/
theorem C19_write_config_block_packet_witness :
    write_config_block_buf 5 sample_cfg_data 3 0xAB 0xCD
        = [0x04, 0x00, 0x00, 0x00, 0x80, 5, 0x00, 0x7E, 0x00, 0x7E]
          ++ [0x11, 0x22, 0x33] ++ List.replicate 119 0 ++ [0xAB, 0xCD]
          ++ [0x45, 0x63, 0x36, 0x6F, 0x34, 0x38, 0x73, 0x77]
    ∧ _cyttsp4_write_config_block (log_writes (bus_cfg 0 0 0)) sample_ts (0, []) 5
        (List.replicate 123 0) 123 0xAB 0xCD = (err_overflow, sample_ts, (0, [])) :=
  ⟨((C19_write_config_block_packet (bus_cfg 0 0 0) sample_ts 0 5 sample_cfg_data 3 0xAB 0xCD).1
      (by decide)).1,
    (C19_write_config_block_packet (bus_cfg 0 0 0) sample_ts 0 5 (List.replicate 123 0) 123
      0xAB 0xCD).2 (by decide)⟩

theorem partial_crc_lt (pdata : List Nat) (crc : Nat) (hc : crc < 65536) :
    _cyttsp4_calc_partial_crc pdata crc < 65536 := by
  rw [partial_crc_eq_feed pdata crc hc]
  exact foldl_feed_lt _ _ hc

/-- The two bytes `_cyttsp4_calc_crc` delivers are bytes. -/
theorem calc_crc_lt (pdata : List Nat) :
    (_cyttsp4_calc_crc pdata 0 0).1 < 256 ∧ (_cyttsp4_calc_crc pdata 0 0).2 < 256 := by
  unfold _cyttsp4_calc_crc
  split
  · simp
  · have h := partial_crc_lt pdata 0xFFFF (by norm_num)
    constructor
    · show _cyttsp4_calc_partial_crc pdata 0xFFFF / 256 < 256
      omega
    · show _cyttsp4_calc_partial_crc pdata 0xFFFF % 256 < 256
      omega

/-- The return code of `_cyttsp4_write_config_block` for at most 122 bytes of
data, when the block write `w`, the command `p` and the status read `r`
succeed: it is the return code of the status read, whatever the status. -/
theorem write_config_block_ok {D : Type} (ops : cyttsp4_bus_ops D) (ts : cyttsp4)
    (dev : D) (blockid : Nat) (pdata : List Nat) (ndata crc_h crc_l : Nat) (hn : ndata ≤ 122)
    (w : Int × D) (p : Int × Option Nat × cyttsp4 × D) (r : Int × List Nat × D)
    (hw : w = _cyttsp4_write_block_data ops dev (ts.si_ofs.cmd_ofs + 1)
      (((write_config_block_buf blockid pdata ndata crc_h crc_l).drop 1).take 141) ts.addr_tch)
    (hw0 : 0 ≤ w.1)
    (hp : p = _cyttsp4_put_cmd_wait ops { ts with low_power_enable := false } w.2
      ts.si_ofs.cmd_ofs ((write_config_block_buf blockid pdata ndata crc_h crc_l).take 1)
      CY_TEN_SEC_TMO_MS (some _cyttsp4_chk_cmd_rdy) none ts.addr_tch CY_CMD_STATE)
    (hp0 : 0 ≤ p.1)
    (hr : r = _cyttsp4_read_block_data ops p.2.2.2 (p.2.2.1.si_ofs.cmd_ofs + 1) 1 [0]
      p.2.2.1.addr_tch)
    (hr0 : 0 ≤ r.1) :
    _cyttsp4_write_config_block ops ts dev blockid pdata ndata crc_h crc_l
      = (r.1, { p.2.2.1 with low_power_enable := ts.low_power_enable }, r.2.2) := by
  unfold _cyttsp4_write_config_block
  generalize write_config_block_buf blockid pdata ndata crc_h crc_l = B at hw hp
  subst hw hp hr
  simp only [if_neg (Nat.not_lt.2 hn), if_neg (not_lt.2 hw0), if_neg (not_lt.2 hp0),
    if_neg (not_lt.2 hr0), ite_self]

/-- The path of `_cyttsp4_set_data_block` on which the block is up to date. -/
theorem set_data_block_same {D : Type} (ops : cyttsp4_bus_ops D) (ts : cyttsp4) (dev : D)
    (blkid : Nat) (pdata : List Nat) (ndata : Nat)
    (m : Int × cyttsp4 × D) (g : Int × Nat × Nat × cyttsp4 × D) (hn : ndata ≤ 122)
    (hm : m = _cyttsp4_set_mode ops ts dev CY_OPERATE_MODE) (hm0 : 0 ≤ m.1)
    (hg : g = _cyttsp4_get_ic_crc ops m.2.1 m.2.2 blkid 0 0) (hg0 : 0 ≤ g.1)
    (hh : (_cyttsp4_calc_data_crc ndata pdata).2.1 = g.2.1)
    (hl : (_cyttsp4_calc_data_crc ndata pdata).2.2 = g.2.2.1) :
    _cyttsp4_set_data_block ops ts dev blkid pdata ndata false
      = (g.1, false, g.2.2.2.1, g.2.2.2.2) := by
  have hc : ¬ (_cyttsp4_calc_data_crc ndata pdata).1 < 0 := by
    rw [calc_data_crc_eq ndata pdata hn]; simp
  unfold _cyttsp4_set_data_block
  subst hm hg
  simp only [if_neg hc, if_neg (not_lt.2 hm0), if_neg (not_lt.2 hg0)]
  rw [if_neg]
  simp [hh, hl]

/-- The path of `_cyttsp4_set_data_block` on which the block is written. -/
theorem set_data_block_write {D : Type} (ops : cyttsp4_bus_ops D) (ts : cyttsp4) (dev : D)
    (blkid : Nat) (pdata : List Nat) (ndata : Nat) (force : Bool)
    (m : Int × cyttsp4 × D) (g : Int × Nat × Nat × cyttsp4 × D)
    (m2 : Int × cyttsp4 × D) (w : Int × cyttsp4 × D) (hn : ndata ≤ 122)
    (hm : m = _cyttsp4_set_mode ops ts dev CY_OPERATE_MODE) (hm0 : 0 ≤ m.1)
    (hg : g = _cyttsp4_get_ic_crc ops m.2.1 m.2.2 blkid 0 0) (hg0 : 0 ≤ g.1)
    (hd : (_cyttsp4_calc_data_crc ndata pdata).2.1 ≠ g.2.1
      ∨ (_cyttsp4_calc_data_crc ndata pdata).2.2 ≠ g.2.2.1 ∨ force = true)
    (hm2 : m2 = _cyttsp4_set_mode ops g.2.2.2.1 g.2.2.2.2 CY_CONFIG_MODE) (hm20 : 0 ≤ m2.1)
    (hw : w = _cyttsp4_write_config_block ops m2.2.1 m2.2.2 blkid pdata ndata
      (_cyttsp4_calc_data_crc ndata pdata).2.1 (_cyttsp4_calc_data_crc ndata pdata).2.2)
    (hw0 : 0 ≤ w.1) :
    _cyttsp4_set_data_block ops ts dev blkid pdata ndata force = (w.1, true, w.2.1, w.2.2) := by
  have hc : ¬ (_cyttsp4_calc_data_crc ndata pdata).1 < 0 := by
    rw [calc_data_crc_eq ndata pdata hn]; simp
  unfold _cyttsp4_set_data_block
  subst hm hg hm2 hw
  simp only [if_neg hc, if_neg (not_lt.2 hm0), if_neg (not_lt.2 hg0)]
  rw [if_pos hd]
  simp only [if_neg (not_lt.2 hm20), if_neg (not_lt.2 hw0)]

/-- A command that the bus takes at the first attempt, whose status the bus
delivers at the first attempt after the first wait, and whose status
satisfies the ready condition: `_cyttsp4_put_cmd_wait` returns 0 after that
one wait. -/
theorem put_cmd_wait_ready {D : Type} (ops : cyttsp4_bus_ops D) (ts : cyttsp4) (dev : D)
    (ofs : Nat) (cmd_buf : List Nat) (timeout_ms : Nat) (c : Nat → Bool)
    (retcmd : Option Nat) (i2c_addr : Nat) (cmd_state : cyttsp4_driver_state)
    (hn : 0 < ops.num_retry) (hb : cmd_buf ≠ [])
    (hw : 0 ≤ (ops.write dev ofs cmd_buf i2c_addr).1)
    (hr : 0 ≤ (ops.read (ops.wait (ops.write dev ofs cmd_buf i2c_addr).2 timeout_ms).2 ofs 1
      i2c_addr).1)
    (hc : c ((ops.read (ops.wait (ops.write dev ofs cmd_buf i2c_addr).2 timeout_ms).2 ofs 1
      i2c_addr).2.1.getD 0 0 % 256) = true) :
    _cyttsp4_put_cmd_wait ops ts dev ofs cmd_buf timeout_ms (some c) retcmd i2c_addr cmd_state
      = (0, retcmd.map (fun _ => (ops.read (ops.wait (ops.write dev ofs cmd_buf i2c_addr).2
            timeout_ms).2 ofs 1 i2c_addr).2.1.getD 0 0 % 256), ts,
          (ops.read (ops.wait (ops.write dev ofs cmd_buf i2c_addr).2 timeout_ms).2 ofs 1
            i2c_addr).2.2) := by
  have hts := put_cmd_wait_restores ops ts dev ofs cmd_buf timeout_ms (some c) retcmd i2c_addr
    cmd_state
  have hq : put_cmd_wait_retry ops ofs timeout_ms (some c) i2c_addr 2 0
      (ops.write dev ofs cmd_buf i2c_addr).2
      = (0, (ops.read (ops.wait (ops.write dev ofs cmd_buf i2c_addr).2 timeout_ms).2 ofs 1
            i2c_addr).2.1.getD 0 0 % 256, true,
          (ops.read (ops.wait (ops.write dev ofs cmd_buf i2c_addr).2 timeout_ms).2 ofs 1
            i2c_addr).2.2) := by
    unfold put_cmd_wait_retry
    simp only [read_block_data_ok ops _ ofs 1 [0] i2c_addr hn (by norm_num) hr,
      ld8_store_one, hc]
    simp
  have hres : ∀ x : Int × Option Nat × cyttsp4 × D, x.2.2.1 = ts →
      x = (x.1, x.2.1, ts, x.2.2.2) := by
    rintro ⟨a, b, t, d⟩ h; simp only at h; rw [h]
  rw [hres _ hts]
  unfold _cyttsp4_put_cmd_wait
  simp only [write_block_data_ok ops dev ofs cmd_buf i2c_addr hn hb hw, if_neg (not_lt.2 hw),
    hq, if_true]

/-- The CRC query on the configuration device: it succeeds, delivers the
device's CRC bytes and costs one write of the command. -/
theorem get_ic_crc_bus_cfg (status h l : Nat) (ts : cyttsp4) (s : Nat × List (Nat × List Nat))
    (blk : Nat) (hofs : ts.si_ofs.cmd_ofs = 2) :
    _cyttsp4_get_ic_crc (log_writes (bus_cfg status h l)) ts s blk 0 0
      = (0, h % 256, l % 256, ts, (s.1, s.2 ++ [(2, [5, blk % 256, 0, 0, 0, 0, 0])])) := by
  have hcmd : (((List.replicate (CY_NUM_DAT + 1) 0).set 0 CY_GET_CFG_BLK_CRC).set 1
    (blk % 256)) = [5, blk % 256, 0, 0, 0, 0, 0] := rfl
  have hP := put_cmd_wait_ready (log_writes (bus_cfg status h l)) ts s 2
    [5, blk % 256, 0, 0, 0, 0, 0] CY_ONE_SEC_TMO_MS _cyttsp4_chk_cmd_rdy none ts.addr_tch
    CY_CMD_STATE (by simp [log_writes, bus_cfg]) (by simp) (by simp [log_writes, bus_cfg])
    (by simp [log_writes, bus_cfg]) (by simp [log_writes, bus_cfg]; decide)
  unfold _cyttsp4_get_ic_crc
  simp only [hofs, hcmd, hP]
  rw [read_block_data_ok _ _ _ _ _ _ (by simp [log_writes, bus_cfg]) (by decide)
    (by simp [log_writes, bus_cfg])]
  simp [log_writes, bus_cfg, store, ld8, CY_NUM_DAT, List.range_succ]

/-- C17: for a data block of at most 122 bytes, once the switch to the
Operational mode (`m`) and the CRC query (`g`) have succeeded: when the CRC
computed from the platform data equals the CRC the device reported and
`force` is false, `_cyttsp4_set_data_block` returns the non-negative code of
the CRC query with `data_updated = false`, and the driver context and the
device are as the CRC query left them, so neither the switch to the Config
mode nor the write-config-block command is issued; when the CRCs differ or
`force` is true and the switch to the Config mode (`m2`) and the block write
(`w`) succeed, it returns with `data_updated = true`. -/
theorem C17_set_data_block_sync {D : Type} (ops : cyttsp4_bus_ops D) (ts : cyttsp4) (dev : D)
    (blkid : Nat) (pdata : List Nat) (ndata : Nat) (force : Bool)
    (m : Int × cyttsp4 × D) (g : Int × Nat × Nat × cyttsp4 × D) (hn : ndata ≤ 122)
    (hm : m = _cyttsp4_set_mode ops ts dev CY_OPERATE_MODE) (hm0 : 0 ≤ m.1)
    (hg : g = _cyttsp4_get_ic_crc ops m.2.1 m.2.2 blkid 0 0) (hg0 : 0 ≤ g.1) :
    (((_cyttsp4_calc_data_crc ndata pdata).2.1 = g.2.1
        ∧ (_cyttsp4_calc_data_crc ndata pdata).2.2 = g.2.2.1 ∧ force = false) →
      _cyttsp4_set_data_block ops ts dev blkid pdata ndata force
        = (g.1, false, g.2.2.2.1, g.2.2.2.2))
    ∧ (((_cyttsp4_calc_data_crc ndata pdata).2.1 ≠ g.2.1
        ∨ (_cyttsp4_calc_data_crc ndata pdata).2.2 ≠ g.2.2.1 ∨ force = true) →
      ∀ (m2 w : Int × cyttsp4 × D),
        m2 = _cyttsp4_set_mode ops g.2.2.2.1 g.2.2.2.2 CY_CONFIG_MODE → 0 ≤ m2.1 →
        w = _cyttsp4_write_config_block ops m2.2.1 m2.2.2 blkid pdata ndata
          (_cyttsp4_calc_data_crc ndata pdata).2.1 (_cyttsp4_calc_data_crc ndata pdata).2.2 →
        0 ≤ w.1 →
        _cyttsp4_set_data_block ops ts dev blkid pdata ndata force
          = (w.1, true, w.2.1, w.2.2)) := by
  constructor
  · rintro ⟨hh, hl, hf⟩
    subst hf
    exact set_data_block_same ops ts dev blkid pdata ndata m g hn hm hm0 hg hg0 hh hl
  · intro hd m2 w hm2 hm20 hw hw0
    exact set_data_block_write ops ts dev blkid pdata ndata force m g m2 w hn hm hm0 hg hg0 hd
      hm2 hm20 hw hw0

set_option maxRecDepth 100000 in
theorem set_mode_operate_bus_cfg_sample :
    _cyttsp4_set_mode (log_writes (bus_cfg_sample 0)) sample_ts (0, []) CY_OPERATE_MODE
      = (0, sample_ts_operational, (0x80, [(0, [0x08]), (0, [0x80])])) := by
  decide

/-- The CRC query that follows the switch to the Operational mode on the
sample configuration device. -/
theorem get_ic_crc_bus_cfg_sample (status : Nat) :
    _cyttsp4_get_ic_crc (log_writes (bus_cfg_sample status)) sample_ts_operational
        (0x80, [(0, [0x08]), (0, [0x80])]) 0 0 0
      = (0, (padded_block_crc sample_cfg_data).1, (padded_block_crc sample_cfg_data).2,
          sample_ts_operational,
          (0x80, [(0, [0x08]), (0, [0x80]), (2, [5, 0, 0, 0, 0, 0, 0])])) := by
  have h := calc_crc_lt ([0x00, 0x7E, 0x00, 0x7E] ++ sample_cfg_data
    ++ List.replicate (122 - sample_cfg_data.length) 0)
  unfold bus_cfg_sample
  rw [get_ic_crc_bus_cfg _ _ _ _ _ _ rfl]
  unfold padded_block_crc
  rw [Nat.mod_eq_of_lt h.1, Nat.mod_eq_of_lt h.2]
  rfl

/-- C17 on the sample configuration device holding the CRC of the platform
data: the call returns 0 with `data_updated = false`, and the writes it made
are the mode command, the handshake and the CRC query. -/
theorem C17_set_data_block_sync_witness :
    _cyttsp4_set_data_block (log_writes (bus_cfg_sample 0)) sample_ts (0, []) 0
        sample_cfg_data 3 false
      = (0, false, sample_ts_operational,
          (0x80, [(0, [0x08]), (0, [0x80]), (2, [5, 0, 0, 0, 0, 0, 0])])) := by
  have hm := set_mode_operate_bus_cfg_sample
  have hg := get_ic_crc_bus_cfg_sample 0
  have hc := calc_data_crc_eq 3 sample_cfg_data (by decide)
  have hpb : payload_bytes sample_cfg_data 3 = sample_cfg_data := by decide
  rw [hpb] at hc
  have T := (C17_set_data_block_sync (log_writes (bus_cfg_sample 0)) sample_ts (0, []) 0
    sample_cfg_data 3 false _ _ (by decide) rfl (by rw [hm]) rfl
    (by rw [hm, hg])).1
  rw [hm, hg, hc] at T
  exact T ⟨rfl, rfl, rfl⟩

set_option maxRecDepth 100000 in
/-- C18 (evaluation at the failing input): on a device whose write-block
status reads 1, `_cyttsp4_write_config_block` returns 0, and a forced
`_cyttsp4_set_data_block` returns 0 with `data_updated = true`. -/
theorem C18_nonzero_status_reported_as_success :
    (∀ d : Nat, ((bus_cfg 1 0 0).read d 3 1 0x67).2.1 = [1])
    ∧ (_cyttsp4_write_config_block (bus_cfg 1 0 0) sample_ts_operational 0x20 0
        sample_cfg_data 3 0xAB 0xCD).1 = 0
    ∧ (_cyttsp4_set_data_block (bus_cfg 1 0 0) sample_ts 0 0 sample_cfg_data 3 true).1 = 0
    ∧ (_cyttsp4_set_data_block (bus_cfg 1 0 0) sample_ts 0 0 sample_cfg_data 3 true).2.1
        = true := by
  have hw : (_cyttsp4_write_config_block (bus_cfg 1 0 0)
      (_cyttsp4_set_mode (bus_cfg 1 0 0)
        (_cyttsp4_get_ic_crc (bus_cfg 1 0 0)
          (_cyttsp4_set_mode (bus_cfg 1 0 0) sample_ts 0 CY_OPERATE_MODE).2.1
          (_cyttsp4_set_mode (bus_cfg 1 0 0) sample_ts 0 CY_OPERATE_MODE).2.2 0 0 0).2.2.2.1
        (_cyttsp4_get_ic_crc (bus_cfg 1 0 0)
          (_cyttsp4_set_mode (bus_cfg 1 0 0) sample_ts 0 CY_OPERATE_MODE).2.1
          (_cyttsp4_set_mode (bus_cfg 1 0 0) sample_ts 0 CY_OPERATE_MODE).2.2 0 0 0).2.2.2.2
        CY_CONFIG_MODE).2.1
      (_cyttsp4_set_mode (bus_cfg 1 0 0)
        (_cyttsp4_get_ic_crc (bus_cfg 1 0 0)
          (_cyttsp4_set_mode (bus_cfg 1 0 0) sample_ts 0 CY_OPERATE_MODE).2.1
          (_cyttsp4_set_mode (bus_cfg 1 0 0) sample_ts 0 CY_OPERATE_MODE).2.2 0 0 0).2.2.2.1
        (_cyttsp4_get_ic_crc (bus_cfg 1 0 0)
          (_cyttsp4_set_mode (bus_cfg 1 0 0) sample_ts 0 CY_OPERATE_MODE).2.1
          (_cyttsp4_set_mode (bus_cfg 1 0 0) sample_ts 0 CY_OPERATE_MODE).2.2 0 0 0).2.2.2.2
        CY_CONFIG_MODE).2.2
      0 sample_cfg_data 3 (_cyttsp4_calc_data_crc 3 sample_cfg_data).2.1
      (_cyttsp4_calc_data_crc 3 sample_cfg_data).2.2).1 = 0 := by decide
  have h := set_data_block_write (bus_cfg 1 0 0) sample_ts 0 0 sample_cfg_data 3 true _ _ _ _
    (by decide) rfl (by decide) rfl (by decide) (Or.inr (Or.inr rfl)) rfl (by decide) rfl
    (by rw [hw])
  refine ⟨fun d => rfl, by decide, ?_, ?_⟩
  · rw [h]; exact hw
  · rw [h]

/-! ## Bootloader command packets -/

theorem compute_crc_lt (buf : List Nat) : _cyttsp4_compute_crc buf < 65536 := by
  unfold _cyttsp4_compute_crc
  split
  · norm_num
  · exact Nat.mod_lt _ (by norm_num)

theorem ldr_row_bytes_length (row_image : cyttsp4_hex_image) (row_data n : Nat) :
    (ldr_row_bytes row_image row_data n).length = n := by
  simp [ldr_row_bytes]

/-- The tail of a command, written with the bytes of the CRC as the frame
has them. -/
theorem shr8_byte (c : Nat) (hc : c < 65536) : (c >>> 8) % 256 = c / 256 := by
  rw [Nat.shiftRight_eq_div_pow]
  have h : c / 2 ^ 8 < 256 := by norm_num; omega
  rw [Nat.mod_eq_of_lt h]; norm_num

theorem ldr_crc_tail (c : Nat) (hc : c < 65536) :
    [c % 256, (c >>> 8) % 256, CY_END_OF_PACKET] = [c % 256, c / 256, 0x17] := by
  rw [shr8_byte c hc]; rfl

/-- C20: each bootloader command the loader builds (enter 0x38, erase row
0x34, send data 0x37, program row 0x39, verify row 0x3A, verify checksum 0x31,
exit 0x3B) is the frame `0x01, opcode, len_lo, len_hi, payload, crc_lo,
crc_hi, 0x17` of its payload; and in every such frame with a payload shorter
than 65536 bytes the two length bytes are bytes and hold the number of
payload bytes, the two CRC bytes are the low and high byte of the loader CRC
of all bytes before them, and the frame is 7 bytes longer than the payload. -/
theorem C20_loader_packets (row_image : cyttsp4_hex_image) (row_data : Nat) :
    ldr_enter_cmd = ldr_frame 0x38 []
    ∧ ldr_erase_row_cmd row_image = ldr_frame 0x34 (ldr_row_address row_image)
    ∧ ldr_send_data_cmd row_image row_data
        = ldr_frame 0x37 (ldr_row_bytes row_image row_data 96)
    ∧ ldr_prog_row_cmd row_image row_data
        = ldr_frame 0x39 (ldr_row_address row_image ++ ldr_row_bytes row_image row_data 96)
    ∧ ldr_verify_row_cmd row_image = ldr_frame 0x3A (ldr_row_address row_image)
    ∧ ldr_verify_chksum_cmd = ldr_frame 0x31 []
    ∧ ldr_exit_cmd = ldr_frame 0x3B []
    ∧ (∀ (opcode : Nat) (payload : List Nat), payload.length < 65536 →
        (ldr_frame opcode payload).length = payload.length + 7
        ∧ ld8 (ldr_frame opcode payload) 2 + 256 * ld8 (ldr_frame opcode payload) 3
            = payload.length
        ∧ (ldr_frame opcode payload).take (payload.length + 4)
            = [0x01, opcode, payload.length % 256, payload.length / 256] ++ payload
        ∧ (ldr_frame opcode payload).drop (payload.length + 4)
            = [_cyttsp4_compute_crc ((ldr_frame opcode payload).take (payload.length + 4))
                  % 256,
                _cyttsp4_compute_crc ((ldr_frame opcode payload).take (payload.length + 4))
                  / 256,
                0x17]
        ∧ _cyttsp4_compute_crc ((ldr_frame opcode payload).take (payload.length + 4)) / 256
            < 256) := by
  have hrow : ((row_image.row_num % 65536) >>> 8) % 256 = row_image.row_num % 65536 / 256 :=
    shr8_byte _ (Nat.mod_lt _ (by norm_num))
  have hrow2 : row_image.row_num % 256 = row_image.row_num % 65536 % 256 := by omega
  refine ⟨?_, ?_, ?_, ?_, ?_, ?_, ?_, ?_⟩
  · unfold ldr_enter_cmd ldr_frame
    simp only [ldr_crc_tail _ (compute_crc_lt _)]
    simp [CY_START_OF_PACKET, CY_CMD_LDR_ENTER, CY_CMD_LDR_ERASE_ROW, CY_CMD_LDR_SEND_DATA,
      CY_CMD_LDR_PROG_ROW, CY_CMD_LDR_VERIFY_ROW, CY_CMD_LDR_VERIFY_CHKSUM, CY_CMD_LDR_EXIT,
      CY_PACKET_DATA_LEN, ldr_row_bytes_length]
  · unfold ldr_erase_row_cmd ldr_frame ldr_row_address
    simp only [ldr_crc_tail _ (compute_crc_lt _), hrow, hrow2]
    simp [CY_START_OF_PACKET, CY_CMD_LDR_ENTER, CY_CMD_LDR_ERASE_ROW, CY_CMD_LDR_SEND_DATA,
      CY_CMD_LDR_PROG_ROW, CY_CMD_LDR_VERIFY_ROW, CY_CMD_LDR_VERIFY_CHKSUM, CY_CMD_LDR_EXIT,
      CY_PACKET_DATA_LEN, ldr_row_bytes_length]
  · unfold ldr_send_data_cmd ldr_frame
    simp only [ldr_crc_tail _ (compute_crc_lt _), ldr_row_bytes_length]
    simp [CY_START_OF_PACKET, CY_CMD_LDR_ENTER, CY_CMD_LDR_ERASE_ROW, CY_CMD_LDR_SEND_DATA,
      CY_CMD_LDR_PROG_ROW, CY_CMD_LDR_VERIFY_ROW, CY_CMD_LDR_VERIFY_CHKSUM, CY_CMD_LDR_EXIT,
      CY_PACKET_DATA_LEN, ldr_row_bytes_length]
  · unfold ldr_prog_row_cmd ldr_frame ldr_row_address
    simp only [ldr_crc_tail _ (compute_crc_lt _), hrow, hrow2, List.length_append,
      ldr_row_bytes_length]
    simp [CY_START_OF_PACKET, CY_CMD_LDR_ENTER, CY_CMD_LDR_ERASE_ROW, CY_CMD_LDR_SEND_DATA,
      CY_CMD_LDR_PROG_ROW, CY_CMD_LDR_VERIFY_ROW, CY_CMD_LDR_VERIFY_CHKSUM, CY_CMD_LDR_EXIT,
      CY_PACKET_DATA_LEN, ldr_row_bytes_length]
  · unfold ldr_verify_row_cmd ldr_frame ldr_row_address
    simp only [ldr_crc_tail _ (compute_crc_lt _), hrow, hrow2]
    simp [CY_START_OF_PACKET, CY_CMD_LDR_ENTER, CY_CMD_LDR_ERASE_ROW, CY_CMD_LDR_SEND_DATA,
      CY_CMD_LDR_PROG_ROW, CY_CMD_LDR_VERIFY_ROW, CY_CMD_LDR_VERIFY_CHKSUM, CY_CMD_LDR_EXIT,
      CY_PACKET_DATA_LEN, ldr_row_bytes_length]
  · unfold ldr_verify_chksum_cmd ldr_frame
    simp only [ldr_crc_tail _ (compute_crc_lt _)]
    simp [CY_START_OF_PACKET, CY_CMD_LDR_ENTER, CY_CMD_LDR_ERASE_ROW, CY_CMD_LDR_SEND_DATA,
      CY_CMD_LDR_PROG_ROW, CY_CMD_LDR_VERIFY_ROW, CY_CMD_LDR_VERIFY_CHKSUM, CY_CMD_LDR_EXIT,
      CY_PACKET_DATA_LEN, ldr_row_bytes_length]
  · unfold ldr_exit_cmd ldr_frame
    simp only [ldr_crc_tail _ (compute_crc_lt _)]
    simp [CY_START_OF_PACKET, CY_CMD_LDR_ENTER, CY_CMD_LDR_ERASE_ROW, CY_CMD_LDR_SEND_DATA,
      CY_CMD_LDR_PROG_ROW, CY_CMD_LDR_VERIFY_ROW, CY_CMD_LDR_VERIFY_CHKSUM, CY_CMD_LDR_EXIT,
      CY_PACKET_DATA_LEN, ldr_row_bytes_length]
  · intro opcode payload hlen
    have htake : (ldr_frame opcode payload).take (payload.length + 4)
        = [0x01, opcode, payload.length % 256, payload.length / 256] ++ payload := by
      unfold ldr_frame
      rw [List.take_append_of_le_length (by simp)]
      exact List.take_of_length_le (by simp)
    refine ⟨?_, ?_, htake, ?_, ?_⟩
    · simp [ldr_frame]
    · simp only [ldr_frame, ld8]
      simp
      omega
    · rw [htake]
      unfold ldr_frame
      rw [List.drop_append_of_le_length (by simp)]
      rw [List.drop_of_length_le (by simp)]
      rfl
    · have := compute_crc_lt ((ldr_frame opcode payload).take (payload.length + 4))
      omega

set_option maxRecDepth 100000 in
/-- C20 on the exit command and on the erase command for row 0x0123 of
array 1. -/
theorem C20_loader_packets_witness :
    ldr_exit_cmd = ldr_frame 0x3B []
    ∧ ldr_frame 0x3B [] = [0x01, 0x3B, 0x00, 0x00, 0x4F, 0x6D, 0x17]
    ∧ ldr_erase_row_cmd sample_row_image = ldr_frame 0x34 [0x01, 0x23, 0x01]
    ∧ ldr_frame 0x34 [0x01, 0x23, 0x01]
        = [0x01, 0x34, 0x03, 0x00, 0x01, 0x23, 0x01, 0x9B, 0x1B, 0x17] :=
  ⟨(C20_loader_packets sample_row_image 0).2.2.2.2.2.2.1, by decide,
    (C20_loader_packets sample_row_image 0).2.1, by decide⟩

/-! ## System information -/

theorem write_tries_log {D : Type} (ops : cyttsp4_bus_ops D) (command : Nat) (buf : List Nat)
    (i2c_addr : Nat) :
    ∀ (n : Nat) (retval : Int) (s : D × List (Nat × List Nat)),
      ∃ k, k ≤ n
        ∧ (write_tries (log_writes ops) command buf i2c_addr n retval s).2.2
            = s.2 ++ List.replicate k (command, buf)
        ∧ (retval < 0 → 0 < n → 1 ≤ k)
        ∧ (retval < 0 → 0 < n → (∀ d c b a, 0 ≤ (ops.write d c b a).1) → k = 1) := by
  intro n
  induction n with
  | zero => intro retval s; exact ⟨0, le_refl _, by simp [write_tries], by omega, by omega⟩
  | succ n ih =>
    intro retval s
    unfold write_tries
    by_cases h : retval < 0
    · simp only [if_pos h]
      obtain ⟨k, hk, hlog, _, _⟩ := ih ((log_writes ops).write s command buf i2c_addr).1
        ((log_writes ops).write s command buf i2c_addr).2
      refine ⟨k + 1, by omega, ?_, by omega, ?_⟩
      · rw [hlog]
        show (s.2 ++ [(command, buf)]) ++ List.replicate k (command, buf) = _
        rw [List.append_assoc, List.replicate_succ]; rfl
      · intro _ _ hw
        have h0 : 0 ≤ ((log_writes ops).write s command buf i2c_addr).1 := hw _ _ _ _
        have hd := write_tries_done (log_writes ops) command buf i2c_addr n _
          ((log_writes ops).write s command buf i2c_addr).2 h0
        rw [hd] at hlog
        have hl : (s.2 ++ [(command, buf)]).length
            = ((s.2 ++ [(command, buf)]) ++ List.replicate k (command, buf)).length :=
          congrArg List.length hlog
        simp at hl
        omega
    · simp only [if_neg h]
      exact ⟨0, by omega, by simp, fun h' => absurd h' h, fun h' => absurd h' h⟩

/-- The writes of one handshake: at least one and at most `CY_NUM_RETRY`
attempts of the same one-byte write to register 0, and a single one when the
bus takes writes. -/
theorem handshake_log {D : Type} (ops : cyttsp4_bus_ops D) (ts : cyttsp4)
    (s : D × List (Nat × List Nat)) (hst_mode : Nat) (hn : 0 < ops.num_retry) :
    ∃ k, 1 ≤ k ∧ k ≤ ops.num_retry
      ∧ (_cyttsp4_handshake (log_writes ops) ts s hst_mode).2.2
          = s.2 ++ List.replicate k (CY_REG_BASE, [handshake_cmd ts hst_mode])
      ∧ ((∀ d c b a, 0 ≤ (ops.write d c b a).1) → k = 1) := by
  unfold _cyttsp4_handshake _cyttsp4_write_block_data
  rw [if_neg (by simp)]
  obtain ⟨k, hk, hlog, h1, h2⟩ := write_tries_log ops CY_REG_BASE [handshake_cmd ts hst_mode]
    ts.addr_tch ops.num_retry (-1) s
  exact ⟨k, h1 (by norm_num) hn, hk, hlog, h2 (by norm_num) hn⟩

theorem same_handshake_cfg_refl (a : cyttsp4) : same_handshake_cfg a a := ⟨rfl, rfl, rfl⟩

theorem same_handshake_cfg_trans {a b c : cyttsp4} (h1 : same_handshake_cfg a b)
    (h2 : same_handshake_cfg b c) : same_handshake_cfg a c :=
  ⟨h1.1.trans h2.1, h1.2.1.trans h2.2.1, h1.2.2.trans h2.2.2⟩

theorem get_sysinfo_regs_btn_cfg (ts : cyttsp4) :
    same_handshake_cfg (get_sysinfo_regs_btn ts) ts := by
  unfold get_sysinfo_regs_btn
  split <;> exact ⟨rfl, rfl, rfl⟩

theorem get_sysinfo_regs_bufs_cfg (ts : cyttsp4) :
    same_handshake_cfg (get_sysinfo_regs_bufs ts) ts := by
  unfold get_sysinfo_regs_bufs
  simp only
  refine ⟨?_, ?_, ?_⟩ <;> (repeat' split) <;> rfl

theorem get_sysinfo_regs_decode_cfg (ts : cyttsp4) :
    same_handshake_cfg (get_sysinfo_regs_decode ts) ts := ⟨rfl, rfl, rfl⟩

theorem read_block_data_log_state {D : Type} (ops : cyttsp4_bus_ops D)
    (s : D × List (Nat × List Nat)) (command length : Nat) (buf : List Nat) (i2c_addr : Nat) :
    (_cyttsp4_read_block_data (log_writes ops) s command length buf i2c_addr).2.2
      = ((_cyttsp4_read_block_data (log_writes ops) s command length buf i2c_addr).2.2.1,
          s.2) :=
  Prod.ext rfl (read_block_data_log ops s command length buf i2c_addr)

theorem mdata_ends_at_exit {D : Type} (kzalloc_ok : Nat → Bool) (ops : cyttsp4_bus_ops D)
    (ts0 ts : cyttsp4) (s : D × List (Nat × List Nat)) (h : same_handshake_cfg ts ts0) :
    ∃ (ts1 : cyttsp4) (d1 : D),
      get_sysinfo_regs_mdata kzalloc_ok (log_writes ops) ts s
        = get_sysinfo_regs_exit (log_writes ops) ts1 (d1, s.2)
      ∧ same_handshake_cfg ts1 ts0 := by
  unfold get_sysinfo_regs_mdata
  simp only
  split
  · exact ⟨_, s.1, rfl, same_handshake_cfg_trans (get_sysinfo_regs_bufs_cfg _)
      (same_handshake_cfg_trans (get_sysinfo_regs_btn_cfg _) h)⟩
  · split
    · rw [read_block_data_log_state]
      exact ⟨_, _, rfl, h⟩
    · rw [read_block_data_log_state]
      exact ⟨_, _, rfl, same_handshake_cfg_trans (get_sysinfo_regs_bufs_cfg _)
        (same_handshake_cfg_trans (get_sysinfo_regs_btn_cfg _) h)⟩

theorem ddata_ends_at_exit {D : Type} (kzalloc_ok : Nat → Bool) (ops : cyttsp4_bus_ops D)
    (ts0 ts : cyttsp4) (s : D × List (Nat × List Nat)) (h : same_handshake_cfg ts ts0) :
    ∃ (ts1 : cyttsp4) (d1 : D),
      get_sysinfo_regs_ddata kzalloc_ok (log_writes ops) ts s
        = get_sysinfo_regs_exit (log_writes ops) ts1 (d1, s.2)
      ∧ same_handshake_cfg ts1 ts0 := by
  unfold get_sysinfo_regs_ddata
  simp only
  split
  · exact mdata_ends_at_exit kzalloc_ok ops ts0 _ s h
  · split
    · rw [read_block_data_log_state]
      exact ⟨_, _, rfl, h⟩
    · rw [read_block_data_log_state]
      exact mdata_ends_at_exit kzalloc_ok ops ts0 _ (_, s.2) h

theorem opcfg_ends_at_exit {D : Type} (kzalloc_ok : Nat → Bool) (ops : cyttsp4_bus_ops D)
    (ts0 ts : cyttsp4) (s : D × List (Nat × List Nat)) (h : same_handshake_cfg ts ts0) :
    ∃ (ts1 : cyttsp4) (d1 : D),
      get_sysinfo_regs_opcfg kzalloc_ok (log_writes ops) ts s
        = get_sysinfo_regs_exit (log_writes ops) ts1 (d1, s.2)
      ∧ same_handshake_cfg ts1 ts0 := by
  unfold get_sysinfo_regs_opcfg
  simp only
  split
  · exact ⟨_, s.1, rfl, h⟩
  · split
    · rw [read_block_data_log_state]
      exact ⟨_, _, rfl, h⟩
    · rw [read_block_data_log_state]
      exact ddata_ends_at_exit kzalloc_ok ops ts0 _ (_, s.2)
        (same_handshake_cfg_trans (get_sysinfo_regs_decode_cfg _) h)

theorem pcfg_ends_at_exit {D : Type} (kzalloc_ok : Nat → Bool) (ops : cyttsp4_bus_ops D)
    (ts0 ts : cyttsp4) (s : D × List (Nat × List Nat)) (h : same_handshake_cfg ts ts0) :
    ∃ (ts1 : cyttsp4) (d1 : D),
      get_sysinfo_regs_pcfg kzalloc_ok (log_writes ops) ts s
        = get_sysinfo_regs_exit (log_writes ops) ts1 (d1, s.2)
      ∧ same_handshake_cfg ts1 ts0 := by
  unfold get_sysinfo_regs_pcfg
  simp only
  split
  · exact ⟨_, s.1, rfl, h⟩
  · split
    · rw [read_block_data_log_state]
      exact ⟨_, _, rfl, h⟩
    · rw [read_block_data_log_state]
      exact opcfg_ends_at_exit kzalloc_ok ops ts0 _ (_, s.2) h

theorem test_ends_at_exit {D : Type} (kzalloc_ok : Nat → Bool) (ops : cyttsp4_bus_ops D)
    (ts0 ts : cyttsp4) (s : D × List (Nat × List Nat)) (h : same_handshake_cfg ts ts0) :
    ∃ (ts1 : cyttsp4) (d1 : D),
      get_sysinfo_regs_test kzalloc_ok (log_writes ops) ts s
        = get_sysinfo_regs_exit (log_writes ops) ts1 (d1, s.2)
      ∧ same_handshake_cfg ts1 ts0 := by
  unfold get_sysinfo_regs_test
  simp only
  split
  · exact ⟨_, s.1, rfl, h⟩
  · split
    · rw [read_block_data_log_state]
      exact ⟨_, _, rfl, h⟩
    · rw [read_block_data_log_state]
      exact pcfg_ends_at_exit kzalloc_ok ops ts0 _ (_, s.2) h

/-- The write log of the exit label: the attempts of one handshake write. -/
theorem exit_log {D : Type} (ops : cyttsp4_bus_ops D) (ts0 ts : cyttsp4)
    (s : D × List (Nat × List Nat)) (hn : 0 < ops.num_retry) (h : same_handshake_cfg ts ts0) :
    ∃ k, 1 ≤ k ∧ k ≤ ops.num_retry
      ∧ (get_sysinfo_regs_exit (log_writes ops) ts s).2.2.2
          = s.2 ++ List.replicate k
              (CY_REG_BASE, [handshake_cmd ts0 (ld8 ts0.sysinfo_data 0)])
      ∧ ((∀ d c b a, 0 ≤ (ops.write d c b a).1) → k = 1) := by
  obtain ⟨k, h1, h2, h3, h4⟩ := handshake_log ops ts s (ld8 ts.sysinfo_data 0) hn
  refine ⟨k, h1, h2, ?_, h4⟩
  have hc : handshake_cmd ts (ld8 ts.sysinfo_data 0)
      = handshake_cmd ts0 (ld8 ts0.sysinfo_data 0) := by
    unfold handshake_cmd
    rw [h.1, h.2.1]
  rw [← hc]
  exact h3

/-- C15 (amended): with `hdr` the read of the header, `ts1` the context after
the conversion of its offsets and `cy` the read of the cydata block:
when the header read fails, or the cydata block is allocated and its read
fails, `_cyttsp4_get_sysinfo_regs` returns that error and has written nothing
to the device; on every other return path (allocation failures, later read
failures, success) the writes it has made are the attempts of exactly one
handshake, each the byte `handshake_cmd` for the header's `hst_mode` written
to register 0: at least one, at most `CY_NUM_RETRY`, and a single one on a bus
that takes writes. -/
theorem C15_handshake_on_exit {D : Type} (kzalloc_ok : Nat → Bool) (ops : cyttsp4_bus_ops D)
    (ts : cyttsp4) (dev : D) (hn : 0 < ops.num_retry)
    (hdr cy : Int × List Nat × (D × List (Nat × List Nat))) (ts1 : cyttsp4)
    (hhdr : hdr = _cyttsp4_read_block_data (log_writes ops) (dev, []) CY_REG_BASE 16
      ts.sysinfo_data ts.addr_tch)
    (hts1 : ts1 = get_sysinfo_regs_offsets
      { ts with si_ofs := si_ofs_zero, sysinfo_data := hdr.2.1 })
    (hcy : cy = _cyttsp4_read_block_data (log_writes ops) hdr.2.2 ts1.si_ofs.cydata_ofs
      (size_t_sub ts1.si_ofs.test_ofs ts1.si_ofs.cydata_ofs)
      (List.replicate (size_t_sub ts1.si_ofs.test_ofs ts1.si_ofs.cydata_ofs) 0) ts.addr_tch) :
    (hdr.1 < 0 →
      (_cyttsp4_get_sysinfo_regs kzalloc_ok (log_writes ops) ts (dev, [])).1 = hdr.1
      ∧ (_cyttsp4_get_sysinfo_regs kzalloc_ok (log_writes ops) ts (dev, [])).2.2.2 = [])
    ∧ (0 ≤ hdr.1 →
        kzalloc_ok (size_t_sub ts1.si_ofs.test_ofs ts1.si_ofs.cydata_ofs) = true → cy.1 < 0 →
      (_cyttsp4_get_sysinfo_regs kzalloc_ok (log_writes ops) ts (dev, [])).1 = cy.1
      ∧ (_cyttsp4_get_sysinfo_regs kzalloc_ok (log_writes ops) ts (dev, [])).2.2.2 = [])
    ∧ (0 ≤ hdr.1 →
        (kzalloc_ok (size_t_sub ts1.si_ofs.test_ofs ts1.si_ofs.cydata_ofs) = false
          ∨ 0 ≤ cy.1) →
      ∃ k, 1 ≤ k ∧ k ≤ ops.num_retry
        ∧ (_cyttsp4_get_sysinfo_regs kzalloc_ok (log_writes ops) ts (dev, [])).2.2.2
            = List.replicate k (CY_REG_BASE, [handshake_cmd ts (ld8 hdr.2.1 0)])
        ∧ ((∀ d c b a, 0 ≤ (ops.write d c b a).1) → k = 1)) := by
  have hlog1 : hdr.2.2.2 = [] := by
    rw [hhdr]; exact read_block_data_log ops _ _ _ _ _
  have hlog2 : cy.2.2.2 = [] := by
    rw [hcy, read_block_data_log]; exact hlog1
  have hcfg : same_handshake_cfg ts1
      { ts with si_ofs := si_ofs_zero, sysinfo_data := hdr.2.1 } := by
    rw [hts1]; exact ⟨rfl, rfl, rfl⟩
  have hcmd : handshake_cmd { ts with si_ofs := si_ofs_zero, sysinfo_data := hdr.2.1 }
      (ld8 ({ ts with si_ofs := si_ofs_zero, sysinfo_data := hdr.2.1 } : cyttsp4).sysinfo_data 0)
      = handshake_cmd ts (ld8 hdr.2.1 0) := rfl
  have hR : _cyttsp4_get_sysinfo_regs kzalloc_ok (log_writes ops) ts (dev, [])
      = if hdr.1 < 0 then
          (hdr.1, { ts with si_ofs := si_ofs_zero, sysinfo_data := hdr.2.1 }, hdr.2.2)
        else get_sysinfo_regs_cydata kzalloc_ok (log_writes ops) ts1 hdr.2.2 := by
    unfold _cyttsp4_get_sysinfo_regs
    rw [hts1, hhdr]
  have hC : get_sysinfo_regs_cydata kzalloc_ok (log_writes ops) ts1 hdr.2.2
      = if (!kzalloc_ok (size_t_sub ts1.si_ofs.test_ofs ts1.si_ofs.cydata_ofs)) = true then
          get_sysinfo_regs_exit (log_writes ops)
            { ts1 with
              si_ofs := { ts1.si_ofs with
                cydata_size := size_t_sub ts1.si_ofs.test_ofs ts1.si_ofs.cydata_ofs },
              sysinfo_ptr := { ts1.sysinfo_ptr with cydata := [] } } hdr.2.2
        else if cy.1 < 0 then
          (cy.1, { ts1 with
              si_ofs := { ts1.si_ofs with
                cydata_size := size_t_sub ts1.si_ofs.test_ofs ts1.si_ofs.cydata_ofs },
              sysinfo_ptr := { ts1.sysinfo_ptr with cydata := cy.2.1 } }, cy.2.2)
        else get_sysinfo_regs_test kzalloc_ok (log_writes ops)
          { ts1 with
              si_ofs := { ts1.si_ofs with
                cydata_size := size_t_sub ts1.si_ofs.test_ofs ts1.si_ofs.cydata_ofs },
              sysinfo_ptr := { ts1.sysinfo_ptr with cydata := cy.2.1 } } cy.2.2 := by
    unfold get_sysinfo_regs_cydata
    have hta : ts1.addr_tch = ts.addr_tch := by rw [hts1]; rfl
    simp only [hcy, hta]
  rw [hR]
  refine ⟨?_, ?_, ?_⟩
  · intro h
    rw [if_pos h]
    exact ⟨rfl, hlog1⟩
  · intro h hk hc
    rw [if_neg (not_lt.2 h), hC, hk]
    simp only [Bool.not_true, Bool.false_eq_true, if_false, if_pos hc]
    exact ⟨trivial, hlog2⟩
  · intro h hor
    rw [if_neg (not_lt.2 h), hC]
    have key : ∀ (t : cyttsp4) (s : D × List (Nat × List Nat)), s.2 = [] →
        same_handshake_cfg t { ts with si_ofs := si_ofs_zero, sysinfo_data := hdr.2.1 } →
        ∃ k, 1 ≤ k ∧ k ≤ ops.num_retry
          ∧ (get_sysinfo_regs_exit (log_writes ops) t s).2.2.2
              = List.replicate k (CY_REG_BASE, [handshake_cmd ts (ld8 hdr.2.1 0)])
          ∧ ((∀ d c b a, 0 ≤ (ops.write d c b a).1) → k = 1) := by
      intro t s hs ht
      obtain ⟨k, h1, h2, h3, h4⟩ := exit_log ops _ t s hn ht
      rw [hs, hcmd, List.nil_append] at h3
      exact ⟨k, h1, h2, h3, h4⟩
    by_cases hk : kzalloc_ok (size_t_sub ts1.si_ofs.test_ofs ts1.si_ofs.cydata_ofs) = true
    · have hc : ¬ cy.1 < 0 := by
        rcases hor with hf | hc
        · rw [hk] at hf; cases hf
        · exact not_lt.2 hc
      rw [hk]
      simp only [Bool.not_true, Bool.false_eq_true, if_false, if_neg hc]
      obtain ⟨t1, d1, he, hcfg1⟩ := test_ends_at_exit kzalloc_ok ops
        { ts with si_ofs := si_ofs_zero, sysinfo_data := hdr.2.1 }
        { ts1 with
            si_ofs := { ts1.si_ofs with
              cydata_size := size_t_sub ts1.si_ofs.test_ofs ts1.si_ofs.cydata_ofs },
            sysinfo_ptr := { ts1.sysinfo_ptr with cydata := cy.2.1 } } cy.2.2
        ⟨hcfg.1, hcfg.2.1, hcfg.2.2⟩
      rw [he, hlog2]
      exact key t1 (d1, []) rfl hcfg1
    · simp only [Bool.not_eq_true] at hk
      rw [hk]
      simp only [Bool.not_false, if_true]
      exact key _ hdr.2.2 hlog1 ⟨hcfg.1, hcfg.2.1, hcfg.2.2⟩

/-! ### The block sizes -/

theorem get_sysinfo_regs_btn_si (ts : cyttsp4) : (get_sysinfo_regs_btn ts).si_ofs = ts.si_ofs := by
  unfold get_sysinfo_regs_btn
  split <;> rfl

theorem get_sysinfo_regs_bufs_si (ts : cyttsp4) :
    (get_sysinfo_regs_bufs ts).si_ofs = ts.si_ofs := by
  unfold get_sysinfo_regs_bufs
  simp only
  (repeat' split) <;> rfl

theorem get_sysinfo_regs_exit_ts {D : Type} (ops : cyttsp4_bus_ops D) (ts : cyttsp4) (dev : D) :
    (get_sysinfo_regs_exit ops ts dev).2.1 = ts := rfl

theorem mdata_layout {D : Type} (kzalloc_ok : Nat → Bool) (ops : cyttsp4_bus_ops D)
    (ts : cyttsp4) (dev : D) (m a b c d e f s1 s2 s3 s4 s5 s6 : Nat)
    (hL : sysinfo_layout ts.si_ofs = [m, a, b, c, d, e, f, s1, s2, s3, s4, s5, s6]) :
    sysinfo_layout (get_sysinfo_regs_mdata kzalloc_ok ops ts dev).2.1.si_ofs
      = [m, a, b, c, d, e, f, s1, s2, s3, s4, s5, size_t_sub m f] := by
  simp only [sysinfo_layout, List.cons.injEq, and_true] at hL
  obtain ⟨h1, h2, h3, h4, h5, h6, h7, h8, h9, h10, h11, h12, _⟩ := hL
  unfold get_sysinfo_regs_mdata
  simp only
  split
  · simp [get_sysinfo_regs_exit_ts, get_sysinfo_regs_bufs_si, get_sysinfo_regs_btn_si,
      sysinfo_layout, *]
  · split
    · simp [get_sysinfo_regs_exit_ts, sysinfo_layout, *]
    · simp [get_sysinfo_regs_exit_ts, get_sysinfo_regs_bufs_si, get_sysinfo_regs_btn_si,
        sysinfo_layout, *]

theorem ddata_layout {D : Type} (kzalloc_ok : Nat → Bool) (ops : cyttsp4_bus_ops D)
    (ts : cyttsp4) (dev : D) (hn : 0 < ops.num_retry) (hk : ∀ n, kzalloc_ok n = true)
    (hr : ∀ d c l a, 0 ≤ (ops.read d c l a).1)
    (m a b c d e f s1 s2 s3 s4 s5 s6 : Nat)
    (hL : sysinfo_layout ts.si_ofs = [m, a, b, c, d, e, f, s1, s2, s3, s4, s5, s6])
    (hne : size_t_sub f e ≠ 0) :
    sysinfo_layout (get_sysinfo_regs_ddata kzalloc_ok ops ts dev).2.1.si_ofs
      = [m, a, b, c, d, e, f, s1, s2, s3, s4, size_t_sub f e, size_t_sub m f] := by
  simp only [sysinfo_layout, List.cons.injEq, and_true] at hL
  obtain ⟨h1, h2, h3, h4, h5, h6, h7, h8, h9, h10, h11, _, h13⟩ := hL
  unfold get_sysinfo_regs_ddata
  simp only [hk, Bool.not_true, Bool.false_eq_true, if_false]
  rw [h6, h7]
  rw [read_block_data_ok ops dev _ _ _ _ hn hne (hr _ _ _ _), if_neg (not_lt.2 (hr _ _ _ _))]
  apply mdata_layout kzalloc_ok ops _ _ m a b c d e f s1 s2 s3 s4 (size_t_sub f e) s6
  simp [sysinfo_layout, *]

theorem get_sysinfo_regs_decode_layout (ts : cyttsp4) :
    sysinfo_layout (get_sysinfo_regs_decode ts).si_ofs = sysinfo_layout ts.si_ofs := rfl

theorem opcfg_layout {D : Type} (kzalloc_ok : Nat → Bool) (ops : cyttsp4_bus_ops D)
    (ts : cyttsp4) (dev : D) (hn : 0 < ops.num_retry) (hk : ∀ n, kzalloc_ok n = true)
    (hr : ∀ d c l a, 0 ≤ (ops.read d c l a).1)
    (m a b c d e f s1 s2 s3 s4 s5 s6 : Nat)
    (hL : sysinfo_layout ts.si_ofs = [m, a, b, c, d, e, f, s1, s2, s3, s4, s5, s6])
    (hne4 : size_t_sub e d ≠ 0) (hne5 : size_t_sub f e ≠ 0) :
    sysinfo_layout (get_sysinfo_regs_opcfg kzalloc_ok ops ts dev).2.1.si_ofs
      = [m, a, b, c, d, e, f, s1, s2, s3, size_t_sub e d, size_t_sub f e, size_t_sub m f] := by
  simp only [sysinfo_layout, List.cons.injEq, and_true] at hL
  obtain ⟨h1, h2, h3, h4, h5, h6, h7, h8, h9, h10, _, h12, h13⟩ := hL
  unfold get_sysinfo_regs_opcfg
  simp only [hk, Bool.not_true, Bool.false_eq_true, if_false]
  rw [h5, h6]
  rw [read_block_data_ok ops dev _ _ _ _ hn hne4 (hr _ _ _ _), if_neg (not_lt.2 (hr _ _ _ _))]
  apply ddata_layout kzalloc_ok ops _ _ hn hk hr m a b c d e f s1 s2 s3 (size_t_sub e d) s5 s6 _
    hne5
  rw [get_sysinfo_regs_decode_layout]
  simp [sysinfo_layout, *]

theorem pcfg_layout {D : Type} (kzalloc_ok : Nat → Bool) (ops : cyttsp4_bus_ops D)
    (ts : cyttsp4) (dev : D) (hn : 0 < ops.num_retry) (hk : ∀ n, kzalloc_ok n = true)
    (hr : ∀ d c l a, 0 ≤ (ops.read d c l a).1)
    (m a b c d e f s1 s2 s3 s4 s5 s6 : Nat)
    (hL : sysinfo_layout ts.si_ofs = [m, a, b, c, d, e, f, s1, s2, s3, s4, s5, s6])
    (hne3 : size_t_sub d c ≠ 0) (hne4 : size_t_sub e d ≠ 0) (hne5 : size_t_sub f e ≠ 0) :
    sysinfo_layout (get_sysinfo_regs_pcfg kzalloc_ok ops ts dev).2.1.si_ofs
      = [m, a, b, c, d, e, f, s1, s2, size_t_sub d c, size_t_sub e d, size_t_sub f e,
          size_t_sub m f] := by
  simp only [sysinfo_layout, List.cons.injEq, and_true] at hL
  obtain ⟨h1, h2, h3, h4, h5, h6, h7, h8, h9, _, h11, h12, h13⟩ := hL
  unfold get_sysinfo_regs_pcfg
  simp only [hk, Bool.not_true, Bool.false_eq_true, if_false]
  rw [h4, h5]
  rw [read_block_data_ok ops dev _ _ _ _ hn hne3 (hr _ _ _ _), if_neg (not_lt.2 (hr _ _ _ _))]
  apply opcfg_layout kzalloc_ok ops _ _ hn hk hr m a b c d e f s1 s2 (size_t_sub d c) s4 s5 s6 _
    hne4 hne5
  simp [sysinfo_layout, *]

theorem test_layout {D : Type} (kzalloc_ok : Nat → Bool) (ops : cyttsp4_bus_ops D)
    (ts : cyttsp4) (dev : D) (hn : 0 < ops.num_retry) (hk : ∀ n, kzalloc_ok n = true)
    (hr : ∀ d c l a, 0 ≤ (ops.read d c l a).1)
    (m a b c d e f s1 s2 s3 s4 s5 s6 : Nat)
    (hL : sysinfo_layout ts.si_ofs = [m, a, b, c, d, e, f, s1, s2, s3, s4, s5, s6])
    (hne2 : size_t_sub c b ≠ 0) (hne3 : size_t_sub d c ≠ 0) (hne4 : size_t_sub e d ≠ 0)
    (hne5 : size_t_sub f e ≠ 0) :
    sysinfo_layout (get_sysinfo_regs_test kzalloc_ok ops ts dev).2.1.si_ofs
      = [m, a, b, c, d, e, f, s1, size_t_sub c b, size_t_sub d c, size_t_sub e d,
          size_t_sub f e, size_t_sub m f] := by
  simp only [sysinfo_layout, List.cons.injEq, and_true] at hL
  obtain ⟨h1, h2, h3, h4, h5, h6, h7, h8, _, h10, h11, h12, h13⟩ := hL
  unfold get_sysinfo_regs_test
  simp only [hk, Bool.not_true, Bool.false_eq_true, if_false]
  rw [h3, h4]
  rw [read_block_data_ok ops dev _ _ _ _ hn hne2 (hr _ _ _ _), if_neg (not_lt.2 (hr _ _ _ _))]
  apply pcfg_layout kzalloc_ok ops _ _ hn hk hr m a b c d e f s1 (size_t_sub c b) s3 s4 s5 s6 _
    hne3 hne4 hne5
  simp [sysinfo_layout, *]

theorem cydata_layout {D : Type} (kzalloc_ok : Nat → Bool) (ops : cyttsp4_bus_ops D)
    (ts : cyttsp4) (dev : D) (hn : 0 < ops.num_retry) (hk : ∀ n, kzalloc_ok n = true)
    (hr : ∀ d c l a, 0 ≤ (ops.read d c l a).1)
    (m a b c d e f s1 s2 s3 s4 s5 s6 : Nat)
    (hL : sysinfo_layout ts.si_ofs = [m, a, b, c, d, e, f, s1, s2, s3, s4, s5, s6])
    (hne1 : size_t_sub b a ≠ 0) (hne2 : size_t_sub c b ≠ 0) (hne3 : size_t_sub d c ≠ 0)
    (hne4 : size_t_sub e d ≠ 0) (hne5 : size_t_sub f e ≠ 0) :
    sysinfo_layout (get_sysinfo_regs_cydata kzalloc_ok ops ts dev).2.1.si_ofs
      = [m, a, b, c, d, e, f, size_t_sub b a, size_t_sub c b, size_t_sub d c, size_t_sub e d,
          size_t_sub f e, size_t_sub m f] := by
  simp only [sysinfo_layout, List.cons.injEq, and_true] at hL
  obtain ⟨h1, h2, h3, h4, h5, h6, h7, _, h9, h10, h11, h12, h13⟩ := hL
  unfold get_sysinfo_regs_cydata
  simp only [hk, Bool.not_true, Bool.false_eq_true, if_false]
  rw [h2, h3]
  rw [read_block_data_ok ops dev _ _ _ _ hn hne1 (hr _ _ _ _), if_neg (not_lt.2 (hr _ _ _ _))]
  apply test_layout kzalloc_ok ops _ _ hn hk hr m a b c d e f (size_t_sub b a) s2 s3 s4 s5 s6 _
    hne2 hne3 hne4 hne5
  simp [sysinfo_layout, *]

theorem size_t_sub_eq (a b : Nat) (hb : b ≤ a) (ha : a < 4294967296) :
    size_t_sub a b = a - b := by
  unfold size_t_sub
  omega

theorem ld8_lt (buf : List Nat) (i : Nat) : ld8 buf i < 256 :=
  Nat.mod_lt _ (by norm_num)

/-- The offsets converted from a header are 16-bit numbers. -/
theorem get_sysinfo_regs_offsets_lt (ts : cyttsp4) :
    ∀ x ∈ (sysinfo_layout (get_sysinfo_regs_offsets ts).si_ofs).take 7, x < 65536 := by
  intro x hx
  simp only [sysinfo_layout, get_sysinfo_regs_offsets, List.take, List.mem_cons,
    List.mem_nil_iff, or_false] at hx
  have h := fun i => ld8_lt ts.sysinfo_data i
  have h2 := h 2; have h3 := h 3; have h4 := h 4; have h5 := h 5; have h6 := h 6
  have h7 := h 7; have h8 := h 8; have h9 := h 9; have h10 := h 10; have h11 := h 11
  have h12 := h 12; have h13 := h 13; have h14 := h 14; have h15 := h 15
  rcases hx with hx | hx | hx | hx | hx | hx | hx <;> (rw [hx]; omega)

/-- C13 (amended): when every allocation and every bus read succeeds and the
header read from the device gives offsets with
`16 ≤ cydata < test < pcfg < opcfg < ddata < mdata ≤ map_sz`, the layout
`_cyttsp4_get_sysinfo_regs` leaves in `ts->si_ofs` has those offsets, each of
the six block sizes is the distance from its offset to the next (to `map_sz`
for the last block) without wrap-around, and the six sizes plus the 16 bytes
of the header do not exceed `map_sz`. -/
theorem C13_block_sizes {D : Type} (kzalloc_ok : Nat → Bool) (ops : cyttsp4_bus_ops D)
    (ts : cyttsp4) (dev : D) (hn : 0 < ops.num_retry) (hk : ∀ n, kzalloc_ok n = true)
    (hr : ∀ d c l a, 0 ≤ (ops.read d c l a).1) (o si : cyttsp4_sysinfo_ofs)
    (ho : o = (get_sysinfo_regs_offsets { ts with
      si_ofs := si_ofs_zero,
      sysinfo_data := store ts.sysinfo_data 0 16
        (ops.read dev CY_REG_BASE 16 ts.addr_tch).2.1 }).si_ofs)
    (h16 : 16 ≤ o.cydata_ofs) (hinc : sysinfo_offsets_increasing o)
    (hmap : o.mdata_ofs ≤ o.map_sz)
    (hsi : si = (_cyttsp4_get_sysinfo_regs kzalloc_ok ops ts dev).2.1.si_ofs) :
    (si.map_sz = o.map_sz ∧ si.cydata_ofs = o.cydata_ofs ∧ si.test_ofs = o.test_ofs
      ∧ si.pcfg_ofs = o.pcfg_ofs ∧ si.opcfg_ofs = o.opcfg_ofs ∧ si.ddata_ofs = o.ddata_ofs
      ∧ si.mdata_ofs = o.mdata_ofs)
    ∧ si.cydata_ofs + si.cydata_size = si.test_ofs
    ∧ si.test_ofs + si.test_size = si.pcfg_ofs
    ∧ si.pcfg_ofs + si.pcfg_size = si.opcfg_ofs
    ∧ si.opcfg_ofs + si.opcfg_size = si.ddata_ofs
    ∧ si.ddata_ofs + si.ddata_size = si.mdata_ofs
    ∧ si.mdata_ofs + si.mdata_size = si.map_sz
    ∧ sysinfo_block_sizes si + 16 ≤ si.map_sz := by
  obtain ⟨i1, i2, i3, i4, i5⟩ := hinc
  have hlt := get_sysinfo_regs_offsets_lt { ts with
      si_ofs := si_ofs_zero,
      sysinfo_data := store ts.sysinfo_data 0 16
        (ops.read dev CY_REG_BASE 16 ts.addr_tch).2.1 }
  rw [← ho] at hlt
  simp only [sysinfo_layout, List.take, List.mem_cons, List.mem_nil_iff, or_false,
    forall_eq_or_imp, forall_eq] at hlt
  obtain ⟨b0, b1, b2, b3, b4, b5, b6⟩ := hlt
  have hL : sysinfo_layout o
      = [o.map_sz, o.cydata_ofs, o.test_ofs, o.pcfg_ofs, o.opcfg_ofs, o.ddata_ofs, o.mdata_ofs,
          0, 0, 0, 0, 0, 0] := by
    rw [ho]; rfl
  have hrun : _cyttsp4_get_sysinfo_regs kzalloc_ok ops ts dev
      = get_sysinfo_regs_cydata kzalloc_ok ops (get_sysinfo_regs_offsets { ts with
          si_ofs := si_ofs_zero,
          sysinfo_data := store ts.sysinfo_data 0 16
            (ops.read dev CY_REG_BASE 16 ts.addr_tch).2.1 })
          (ops.read dev CY_REG_BASE 16 ts.addr_tch).2.2 := by
    unfold _cyttsp4_get_sysinfo_regs
    simp only
    rw [read_block_data_ok ops dev _ _ _ _ hn (by norm_num) (hr _ _ _ _),
      if_neg (not_lt.2 (hr _ _ _ _))]
  have hfin := cydata_layout kzalloc_ok ops (get_sysinfo_regs_offsets { ts with
      si_ofs := si_ofs_zero,
      sysinfo_data := store ts.sysinfo_data 0 16
        (ops.read dev CY_REG_BASE 16 ts.addr_tch).2.1 })
    (ops.read dev CY_REG_BASE 16 ts.addr_tch).2.2 hn hk hr
    o.map_sz o.cydata_ofs o.test_ofs o.pcfg_ofs o.opcfg_ofs o.ddata_ofs o.mdata_ofs 0 0 0 0 0 0
    (by rw [← ho]; exact hL)
    (by rw [size_t_sub_eq _ _ (le_of_lt i1) (by omega)]; omega)
    (by rw [size_t_sub_eq _ _ (le_of_lt i2) (by omega)]; omega)
    (by rw [size_t_sub_eq _ _ (le_of_lt i3) (by omega)]; omega)
    (by rw [size_t_sub_eq _ _ (le_of_lt i4) (by omega)]; omega)
    (by rw [size_t_sub_eq _ _ (le_of_lt i5) (by omega)]; omega)
  rw [← hrun, ← hsi, size_t_sub_eq _ _ (le_of_lt i1) (by omega),
    size_t_sub_eq _ _ (le_of_lt i2) (by omega), size_t_sub_eq _ _ (le_of_lt i3) (by omega),
    size_t_sub_eq _ _ (le_of_lt i4) (by omega), size_t_sub_eq _ _ (le_of_lt i5) (by omega),
    size_t_sub_eq _ _ hmap (by omega)] at hfin
  simp only [sysinfo_layout, List.cons.injEq, and_true] at hfin
  obtain ⟨f0, f1, f2, f3, f4, f5, f6, g1, g2, g3, g4, g5, g6⟩ := hfin
  refine ⟨⟨f0, f1, f2, f3, f4, f5, f6⟩, ?_, ?_, ?_, ?_, ?_, ?_, ?_⟩
  · omega
  · omega
  · omega
  · omega
  · omega
  · omega
  · unfold sysinfo_block_sizes
    omega

set_option maxRecDepth 100000 in
/-- C13 as stated fails: a header with strictly increasing offsets that puts
the cydata block at offset 8 gives six sizes that, with the 16 bytes of the
header, exceed `map_sz` (60 + 16 > 68). -/
theorem C13_offsets_counterexample :
    sysinfo_offsets_increasing (_cyttsp4_get_sysinfo_regs (fun _ => true)
        (bus_regs overlapping_sysinfo_map none) sample_ts ()).2.1.si_ofs
    ∧ ¬ (sysinfo_block_sizes (_cyttsp4_get_sysinfo_regs (fun _ => true)
          (bus_regs overlapping_sysinfo_map none) sample_ts ()).2.1.si_ofs + 16
        ≤ (_cyttsp4_get_sysinfo_regs (fun _ => true)
          (bus_regs overlapping_sysinfo_map none) sample_ts ()).2.1.si_ofs.map_sz) := by
  decide

set_option maxRecDepth 100000 in
/-- C13 (amended) on the sample register map: the six sizes are 4, 2, 12, 26,
4 and 4, and with the header they fill the 68 bytes of the map. -/
theorem C13_block_sizes_witness :
    sysinfo_block_sizes (_cyttsp4_get_sysinfo_regs (fun _ => true)
        (bus_regs sample_sysinfo_map none) sample_ts ()).2.1.si_ofs + 16
      ≤ (_cyttsp4_get_sysinfo_regs (fun _ => true)
        (bus_regs sample_sysinfo_map none) sample_ts ()).2.1.si_ofs.map_sz :=
  (C13_block_sizes (fun _ => true) (bus_regs sample_sysinfo_map none) sample_ts ()
    (by decide) (fun _ => rfl) (fun _ _ _ _ => by simp [bus_regs])
    _ _ rfl (by decide) (by decide) (by decide) rfl).2.2.2.2.2.2.2

set_option maxRecDepth 100000 in
/-- C14 (evaluation at the failing inputs): on the sample register map, with
the read of one block failing with `-EIO` (-5) and every write taken, the
function returns `-EIO` when the failing read is that of the header (register
0) or of the cydata block (register 16), and returns 0 when it is that of the
test (20), pcfg (22), opcfg (34), ddata (60) or mdata (64) block. -/
theorem C14_read_failure_code :
    (_cyttsp4_read_block_data (bus_regs sample_sysinfo_map (some 20)) () 20 2 [0, 0] 0x67).1
        = -5
    ∧ (_cyttsp4_get_sysinfo_regs (fun _ => true) (bus_regs sample_sysinfo_map (some 0))
        sample_ts ()).1 = -5
    ∧ (_cyttsp4_get_sysinfo_regs (fun _ => true) (bus_regs sample_sysinfo_map (some 16))
        sample_ts ()).1 = -5
    ∧ (_cyttsp4_get_sysinfo_regs (fun _ => true) (bus_regs sample_sysinfo_map (some 20))
        sample_ts ()).1 = 0
    ∧ (_cyttsp4_get_sysinfo_regs (fun _ => true) (bus_regs sample_sysinfo_map (some 22))
        sample_ts ()).1 = 0
    ∧ (_cyttsp4_get_sysinfo_regs (fun _ => true) (bus_regs sample_sysinfo_map (some 34))
        sample_ts ()).1 = 0
    ∧ (_cyttsp4_get_sysinfo_regs (fun _ => true) (bus_regs sample_sysinfo_map (some 60))
        sample_ts ()).1 = 0
    ∧ (_cyttsp4_get_sysinfo_regs (fun _ => true) (bus_regs sample_sysinfo_map (some 64))
        sample_ts ()).1 = 0 := by
  decide

set_option maxRecDepth 100000 in
/-- C15 as stated fails: when the read of the header fails, and when the read
of the cydata block fails, the function returns without any write to the
device, so without a handshake. -/
theorem C15_no_handshake_counterexample :
    (_cyttsp4_get_sysinfo_regs (fun _ => true)
        (log_writes (bus_regs sample_sysinfo_map (some 0))) sample_ts ((), [])).2.2.2 = []
    ∧ (_cyttsp4_get_sysinfo_regs (fun _ => true)
        (log_writes (bus_regs sample_sysinfo_map (some 16))) sample_ts ((), [])).2.2.2 = []
    ∧ ¬ ((_cyttsp4_get_sysinfo_regs (fun _ => true)
        (log_writes (bus_regs sample_sysinfo_map (some 0))) sample_ts ((), [])).2.2.2.length
          = 1) := by
  decide

set_option maxRecDepth 100000 in
/-- C15 (amended) on the sample register map: with every read answered the
only write is the handshake `0x90` for the header's `hst_mode` `0x10`, and so
it is when the read of the test block fails. -/
theorem C15_handshake_on_exit_witness :
    (_cyttsp4_get_sysinfo_regs (fun _ => true)
        (log_writes (bus_regs sample_sysinfo_map none)) sample_ts ((), [])).2.2.2
      = [(0, [0x90])]
    ∧ (_cyttsp4_get_sysinfo_regs (fun _ => true)
        (log_writes (bus_regs sample_sysinfo_map (some 20))) sample_ts ((), [])).2.2.2
      = [(0, [0x90])] := by
  obtain ⟨k, _, _, h3, h4⟩ := (C15_handshake_on_exit (fun _ => true)
    (bus_regs sample_sysinfo_map none) sample_ts () (by decide) _ _ _ rfl rfl rfl).2.2
    (by decide) (Or.inr (by decide))
  obtain ⟨k2, _, _, h5, h6⟩ := (C15_handshake_on_exit (fun _ => true)
    (bus_regs sample_sysinfo_map (some 20)) sample_ts () (by decide) _ _ _ rfl rfl rfl).2.2
    (by decide) (Or.inr (by decide))
  have hk := h4 (fun _ _ _ _ => le_refl _)
  have hk2 := h6 (fun _ _ _ _ => le_refl _)
  subst hk hk2
  exact ⟨by rw [h3]; decide, by rw [h5]; decide⟩

/-! ## Handshake byte -/

set_option maxRecDepth 100000 in
theorem handshake_byte_facts :
    ∀ x, x < 256 →
      (if x &&& 0x80 ≠ 0 then x &&& (0xFF - 0x80) else x ||| 0x80) = x ^^^ 0x80
      ∧ ((x ^^^ 0x80) ||| 0x04) &&& 0x80 ≠ x &&& 0x80
      ∧ ((x ^^^ 0x80) &&& 0xFB) &&& 0x80 ≠ x &&& 0x80
      ∧ ((x ^^^ 0x80) ||| 0x04) < 256
      ∧ ((x ^^^ 0x80) &&& 0xFB) < 256
      ∧ ((((x ^^^ 0x80) ||| 0x04) ^^^ 0x80) ||| 0x04) = x ||| 0x04
      ∧ ((((x ^^^ 0x80) &&& 0xFB) ^^^ 0x80) &&& 0xFB) = x &&& 0xFB
      ∧ (x &&& 0x04 ≠ 0 → (x ^^^ 0x80) ||| 0x04 = x ^^^ 0x80)
      ∧ (x &&& 0x04 = 0 → (x ^^^ 0x80) &&& 0xFB = x ^^^ 0x80)
      ∧ (x ||| 0x04) &&& 0x80 = x &&& 0x80
      ∧ (x &&& 0xFB) &&& 0x80 = x &&& 0x80 := by
  decide

/-- The byte of `_cyttsp4_handshake`: the host-mode byte with the handshake
bit toggled and the low-power bit set to `ts->low_power_enable`. -/
theorem handshake_cmd_eq (ts : cyttsp4) (h : Nat) :
    handshake_cmd ts h = with_low_power_bit (toggle_handshake_bit h) ts.low_power_enable := by
  have hf := (handshake_byte_facts (h % 256) (Nat.mod_lt _ (by norm_num))).1
  unfold handshake_cmd with_low_power_bit toggle_handshake_bit CY_HANDSHAKE_BIT
  simp only
  rw [hf]

/-- C25 (amended): for every host-mode byte `h`, `_cyttsp4_handshake` writes
to register 0 one byte (repeated only while the bus refuses it), which is `h`
with the handshake bit 0x80 toggled and the low-power bit 0x04 set to
`ts->low_power_enable`; its handshake bit differs from that of `h`, and
acknowledging that byte again gives back the handshake bit of `h` (the whole
of `h` up to the low-power bit).  When the low-power bit of `h` agrees with
`ts->low_power_enable` the byte is `h XOR 0x80`. -/
theorem C25_handshake_byte {D : Type} (ops : cyttsp4_bus_ops D) (ts : cyttsp4)
    (s : D × List (Nat × List Nat)) (h : Nat) (hn : 0 < ops.num_retry) :
    handshake_cmd ts h = with_low_power_bit (toggle_handshake_bit h) ts.low_power_enable
    ∧ (∃ k, 1 ≤ k ∧ k ≤ ops.num_retry
        ∧ (_cyttsp4_handshake (log_writes ops) ts s h).2.2
            = s.2 ++ List.replicate k (CY_REG_BASE, [handshake_cmd ts h])
        ∧ ((∀ d c b a, 0 ≤ (ops.write d c b a).1) → k = 1))
    ∧ handshake_cmd ts h &&& CY_HANDSHAKE_BIT ≠ (h % 256) &&& CY_HANDSHAKE_BIT
    ∧ handshake_cmd ts (handshake_cmd ts h) &&& CY_HANDSHAKE_BIT
        = (h % 256) &&& CY_HANDSHAKE_BIT
    ∧ handshake_cmd ts (handshake_cmd ts h) = with_low_power_bit (h % 256) ts.low_power_enable
    ∧ (ts.low_power_enable = true → (h % 256) &&& CY_LOW_POWER_MODE ≠ 0 →
        handshake_cmd ts h = toggle_handshake_bit h)
    ∧ (ts.low_power_enable = false → (h % 256) &&& CY_LOW_POWER_MODE = 0 →
        handshake_cmd ts h = toggle_handshake_bit h) := by
  obtain ⟨_, f2, f3, f4, f5, f6, f7, f8, f9, f10, f11⟩ :=
    handshake_byte_facts (h % 256) (Nat.mod_lt _ (by norm_num))
  have e1 := handshake_cmd_eq ts h
  have e2 := handshake_cmd_eq ts (handshake_cmd ts h)
  have e3 : handshake_cmd ts (handshake_cmd ts h)
      = with_low_power_bit (h % 256) ts.low_power_enable := by
    rw [e2, e1]
    unfold with_low_power_bit toggle_handshake_bit CY_HANDSHAKE_BIT CY_LOW_POWER_MODE
    split
    · rw [Nat.mod_eq_of_lt f4]; exact f6
    · rw [Nat.mod_eq_of_lt f5]; exact f7
  refine ⟨e1, handshake_log ops ts s h hn, ?_, ?_, e3, ?_, ?_⟩
  · rw [e1]
    unfold with_low_power_bit toggle_handshake_bit CY_HANDSHAKE_BIT CY_LOW_POWER_MODE
    split
    · exact f2
    · exact f3
  · rw [e3]
    unfold with_low_power_bit CY_HANDSHAKE_BIT CY_LOW_POWER_MODE
    split
    · exact f10
    · exact f11
  · intro hl hb
    rw [e1, hl]
    exact f8 hb
  · intro hl hb
    rw [e1, hl]
    exact f9 hb

set_option maxRecDepth 100000 in
/-- C25 as stated fails: with `low_power_enable` false the handshake for the
host-mode byte 0x04 writes 0x80, while 0x04 XOR 0x80 is 0x84. -/
theorem C25_low_power_bit_counterexample :
    (_cyttsp4_handshake (log_writes bus_mode_ack) sample_ts (0, []) 0x04).2.2
        = [(0, [0x80])]
    ∧ 0x04 ^^^ 0x80 = 0x84 ∧ (0x80 : Nat) ≠ 0x84 := by
  decide

set_option maxRecDepth 100000 in
/-- C25 (amended) on the host-mode byte 0x10 with `low_power_enable` false:
one write of 0x90 to register 0. -/
theorem C25_handshake_byte_witness :
    (_cyttsp4_handshake (log_writes bus_mode_ack) sample_ts (0, []) 0x10).2.2
        = [(0, [0x90])]
    ∧ handshake_cmd sample_ts (handshake_cmd sample_ts 0x10) = 0x10 := by
  obtain ⟨_, ⟨k, _, _, h3, h4⟩, _, _, h5, _, _⟩ :=
    C25_handshake_byte bus_mode_ack sample_ts (0, []) 0x10 (by decide)
  have hk := h4 (fun _ _ _ _ => le_refl _)
  subst hk
  exact ⟨by rw [h3]; decide, by rw [h5]; decide⟩

/-! ## `_cyttsp4_bits_2_bytes` and the touch-field layout -/

/-- The loop of `_cyttsp4_bits_2_bytes` ends by its own condition: with any
number of passes allowed that is at least `nbits` it adds `ceil(nbits / 8)`
to `nbytes`. -/
theorem bits_2_bytes_loop_eq :
    ∀ (fuel nbits nbytes : Nat), nbits ≤ fuel →
      bits_2_bytes_loop fuel nbits nbytes = nbytes + (nbits + 7) / 8 := by
  intro fuel
  induction fuel with
  | zero =>
    intro nbits nbytes h
    have : nbits = 0 := by omega
    subst this
    simp [bits_2_bytes_loop]
  | succ fuel ih =>
    intro nbits nbytes h
    unfold bits_2_bytes_loop
    by_cases h0 : nbits > 0
    · rw [if_pos h0]
      by_cases h8 : nbits > 8
      · rw [if_pos h8, ih _ _ (by omega)]
        omega
      · rw [if_neg h8, ih _ _ (by omega)]
        omega
    · rw [if_neg h0]
      omega

set_option maxRecDepth 100000 in
theorem loc_split : ∀ loc, loc < 256 →
    ((loc &&& 0xE0) >>> 5) * 32 + (loc &&& 0x1F) = loc := by
  decide

/-- C26: for every bit size `n` with `0 ≤ n ≤ 30` the loop of
`_cyttsp4_bits_2_bytes` ends (allowing more passes than `n` changes nothing),
the function returns `ceil(n / 8)` and sets `*max` to `2^n`; for every `loc`
byte, the bit offset `(loc & 0xE0) >> 5` and the byte offset `loc & 0x1F`
give back `loc = bit_offset * 32 + byte_offset`; and each of the seven touch
fields that `_cyttsp4_get_sysinfo_regs` decodes from the opcfg block holds
these values for its `loc` and `size` bytes. -/
theorem C26_bits_2_bytes (n : Nat) (hn : n ≤ 30) :
    (∀ fuel, n ≤ fuel → bits_2_bytes_loop fuel n 0 = (n + 7) / 8)
    ∧ (_cyttsp4_bits_2_bytes n).1 = (n + 7) / 8
    ∧ (_cyttsp4_bits_2_bytes n).2 = 2 ^ n
    ∧ (∀ loc, loc < 256 →
        ((loc &&& CY_BOFS_MASK) >>> CY_BOFS_SHIFT) * 32 + (loc &&& CY_BYTE_OFS_MASK) = loc)
    ∧ (∀ (ts : cyttsp4) (abs : Nat), abs < CY_TCH_NUM_ABS →
        ∃ e : cyttsp4_tch_abs_params,
          (get_sysinfo_regs_decode ts).si_ofs.tch_abs[abs]? = some e
          ∧ e.bofs * 32 + e.ofs = ld8 ts.sysinfo_ptr.opcfg (9 + 2 * abs)
          ∧ e.size = (ld8 ts.sysinfo_ptr.opcfg (9 + 2 * abs + 1) + 7) / 8
          ∧ (ld8 ts.sysinfo_ptr.opcfg (9 + 2 * abs + 1) = n → e.max = 2 ^ n)) := by
  have hmax : ∀ m, m ≤ 30 → (_cyttsp4_bits_2_bytes m).2 = 2 ^ m := by
    intro m hm
    unfold _cyttsp4_bits_2_bytes
    simp only [Nat.shiftLeft_eq, one_mul]
    apply Nat.mod_eq_of_lt
    calc 2 ^ m ≤ 2 ^ 30 := Nat.pow_le_pow_right (by norm_num) hm
      _ < 4294967296 := by norm_num
  have hsz : ∀ m, (_cyttsp4_bits_2_bytes m).1 = (m + 7) / 8 := by
    intro m
    unfold _cyttsp4_bits_2_bytes
    simp only [bits_2_bytes_loop_eq m m 0 (le_refl m), Nat.zero_add]
  refine ⟨fun fuel hf => by rw [bits_2_bytes_loop_eq fuel n 0 hf, Nat.zero_add], hsz n, hmax n hn,
    fun loc hl => loc_split loc hl, ?_⟩
  intro ts abs habs
  have habs7 : abs < 7 := habs
  refine ⟨{ ofs := ld8 ts.sysinfo_ptr.opcfg (9 + 2 * abs) &&& CY_BYTE_OFS_MASK
            size := (_cyttsp4_bits_2_bytes (ld8 ts.sysinfo_ptr.opcfg (9 + 2 * abs + 1))).1
            max := (_cyttsp4_bits_2_bytes (ld8 ts.sysinfo_ptr.opcfg (9 + 2 * abs + 1))).2
            bofs := (ld8 ts.sysinfo_ptr.opcfg (9 + 2 * abs) &&& CY_BOFS_MASK) >>> CY_BOFS_SHIFT },
    ?_, ?_, ?_, ?_⟩
  · unfold get_sysinfo_regs_decode
    simp only [CY_NUM_OLD_TCH_FIELDS, CY_NUM_NEW_TCH_FIELDS]
    rw [List.getElem?_map, List.getElem?_range (by simpa [CY_TCH_NUM_ABS] using habs7)]
    rfl
  · exact loc_split _ (Nat.mod_lt _ (by norm_num))
  · exact hsz _
  · intro h
    rw [h]
    exact hmax n hn

/-- C26 on a 12-bit field. -/
theorem C26_bits_2_bytes_witness :
    (_cyttsp4_bits_2_bytes 12).1 = 2 ∧ (_cyttsp4_bits_2_bytes 12).2 = 4096 := by
  have h := C26_bits_2_bytes 12 (by decide)
  exact ⟨h.2.1, h.2.2.1⟩

/-! ## Failed status read in `_cyttsp4_put_cmd_wait` -/

/-- When every attempt of the status read fails, the local `cmd` of
`_cyttsp4_put_cmd_wait` keeps the value it had, the failure is not returned,
and a condition that holds on that value (or a NULL condition) ends the wait
with return code 0. -/
theorem put_cmd_wait_retry_failed_read {D : Type} (ops : cyttsp4_bus_ops D)
    (ofs timeout_ms : Nat) (cond : Option (Nat → Bool)) (i2c_addr n cmd : Nat) (dev : D)
    (hc : ∀ c, cond = some c → c (cmd % 256) = true)
    (hr : (_cyttsp4_read_block_data ops (ops.wait dev timeout_ms).2 ofs 1 [cmd] i2c_addr).2.1
        = [cmd]) :
    (put_cmd_wait_retry ops ofs timeout_ms cond i2c_addr n cmd dev).1 = 0
    ∧ (put_cmd_wait_retry ops ofs timeout_ms cond i2c_addr n cmd dev).2.1 = cmd % 256 := by
  cases n <;>
  · unfold put_cmd_wait_retry
    simp only [hr]
    have h0 : ld8 [cmd] 0 = cmd % 256 := by simp [ld8]
    rw [h0]
    cases cond with
    | none => exact ⟨rfl, rfl⟩
    | some c =>
      have := hc c rfl
      simp [this]

set_option maxRecDepth 100000 in
/-- C27 (evaluation at the failing input): on a device that takes the command
write and fails every read, the status read of `_cyttsp4_put_cmd_wait` fails,
yet with the mode-change condition the function returns 0 and hands back the
byte 0 that was never read from the device; with a NULL condition it returns 0
as well; only with the command-ready condition, which does not hold on the
byte 0, does the same failed read end in an error. -/
theorem C27_put_cmd_wait_failed_read :
    (_cyttsp4_read_block_data bus_read_fails () CY_REG_BASE 1 [0] sample_ts.addr_tch).1 < 0
    ∧ (_cyttsp4_put_cmd_wait bus_read_fails sample_ts () CY_REG_BASE [0x28] CY_TEN_SEC_TMO_MS
        (some _cyttsp4_chk_mode_change) (some 0x28) sample_ts.addr_tch CY_CMD_STATE).1 = 0
    ∧ (_cyttsp4_put_cmd_wait bus_read_fails sample_ts () CY_REG_BASE [0x28] CY_TEN_SEC_TMO_MS
        (some _cyttsp4_chk_mode_change) (some 0x28) sample_ts.addr_tch CY_CMD_STATE).2.1 = some 0
    ∧ (_cyttsp4_put_cmd_wait bus_read_fails sample_ts () CY_REG_BASE [0x28] CY_TEN_SEC_TMO_MS
        none (some 0x28) sample_ts.addr_tch CY_CMD_STATE).1 = 0
    ∧ (_cyttsp4_put_cmd_wait bus_read_fails sample_ts () sample_ts.si_ofs.cmd_ofs [0x26]
        CY_HALF_SEC_TMO_MS (some _cyttsp4_chk_cmd_rdy) none sample_ts.addr_tch
        CY_CMD_STATE).1 < 0 := by
  decide

/-! ## The effective touch count -/

/-- When the decoded `max_tchs` is at least `CY_NUM_TCH_ID`, the touch count
that goes on to extraction is at most `max_tchs`. -/
theorem xy_num_cur_tch_le (si_ofs : cyttsp4_sysinfo_ofs) (tt_stat : Nat)
    (h : CY_NUM_TCH_ID ≤ si_ofs.max_tchs) :
    xy_num_cur_tch si_ofs tt_stat ≤ si_ofs.max_tchs := by
  unfold xy_num_cur_tch
  simp only
  split
  · exact Nat.zero_le _
  · split
    · split
      · exact Nat.zero_le _
      · exact h
    · omega

set_option maxRecDepth 100000 in
/-- C28 (evaluation at the failing input): with a layout decoded for four
touches of ten bytes (`max_tchs = 4`, touch buffer of `4 * 10` bytes) and a
status byte that announces five touches, the branch "too many tch; set to max
tch" sets the count to `CY_NUM_TCH_ID = 10`, and `_cyttsp4_get_mt_touches` is
run for ten records, six of them past the end of the touch buffer. -/
theorem C28_touch_count_exceeds_max :
    sample_ts_four_touches.si_ofs.max_tchs = 4
    ∧ sample_ts_four_touches.si_ofs.tch_rec_siz = 10
    ∧ sample_ts_four_touches.xy_data.length = 4 * 10
    ∧ GET_NUM_TOUCHES 5 = 5
    ∧ xy_num_cur_tch sample_ts_four_touches.si_ofs 5 = 10
    ∧ xy_worker_touches sample_ts_four_touches 0 5
        = _cyttsp4_get_mt_touches
            (emit { sample_ts_four_touches with prev_record_count := 0 }
              (.report_key BTN_TOUCH CY_BTN_PRESSED)) 10
    ∧ (xy_worker_touches sample_ts_four_touches 0 5).input.count input_event.mt_sync = 10
    ∧ sample_ts_four_touches.xy_data.length
        < 10 * sample_ts_four_touches.si_ofs.tch_rec_siz := by
  decide

/-! ## Proofs: the order of the button examinations -/

theorem btn_examine_frame (st : Int) (e : Nat × Nat × Nat) (t : cyttsp4) :
    (btn_examine st e t).xy_mode = t.xy_mode ∧ (btn_examine st e t).si_ofs = t.si_ofs := by
  unfold btn_examine btn_key_release_body btn_key_press_body
  simp only
  split
  · split
    · exact ⟨rfl, rfl⟩
    · split <;> exact ⟨rfl, rfl⟩
  · split
    · split
      · exact ⟨rfl, rfl⟩
      · split <;> exact ⟨rfl, rfl⟩
    · exact ⟨rfl, rfl⟩

/-- What one examination sends: nothing, or the key event of the pass followed
by an input sync. -/
theorem btn_examine_input (st : Int) (e : Nat × Nat × Nat) (t : cyttsp4) :
    ∃ l : List input_event, (btn_examine st e t).input = t.input ++ l
      ∧ ∀ x ∈ l, x = input_event.sync ∨ ∃ c, x = input_event.report_key c st := by
  unfold btn_examine btn_key_release_body btn_key_press_body
  simp only
  split
  · rename_i h
    split
    · exact ⟨[], by simp, by simp⟩
    · split
      · rename_i b _ _
        refine ⟨[input_event.report_key b.key_code CY_BTN_RELEASED, input_event.sync], ?_, ?_⟩
        · simp [emit, set_btn_state]
        · intro x hx
          simp only [List.mem_cons, List.mem_singleton, List.not_mem_nil, or_false] at hx
          rcases hx with hx | hx
          · right; exact ⟨_, by rw [hx, h]⟩
          · left; exact hx
      · exact ⟨[], by simp, by simp⟩
  · split
    · rename_i h
      split
      · exact ⟨[], by simp, by simp⟩
      · split
        · rename_i b _ _
          refine ⟨[input_event.report_key b.key_code CY_BTN_PRESSED, input_event.sync], ?_, ?_⟩
          · simp [emit, set_btn_state]
          · intro x hx
            simp only [List.mem_cons, List.mem_singleton, List.not_mem_nil, or_false] at hx
            rcases hx with hx | hx
            · right; exact ⟨_, by rw [hx, h]⟩
            · left; exact hx
        · exact ⟨[], by simp, by simp⟩
    · exact ⟨[], by simp, by simp⟩

theorem btn_examine_fold_frame (st : Int) :
    ∀ (L : List (Nat × Nat × Nat)) (t : cyttsp4),
      (L.foldl (fun t e => btn_examine st e t) t).xy_mode = t.xy_mode
      ∧ (L.foldl (fun t e => btn_examine st e t) t).si_ofs = t.si_ofs := by
  intro L
  induction L with
  | nil => intro t; exact ⟨rfl, rfl⟩
  | cons e L ih =>
    intro t
    rw [List.foldl_cons]
    obtain ⟨h1, h2⟩ := ih (btn_examine st e t)
    obtain ⟨h3, h4⟩ := btn_examine_frame st e t
    exact ⟨h1.trans h3, h2.trans h4⟩

theorem btn_examine_fold_input (st : Int) :
    ∀ (L : List (Nat × Nat × Nat)) (t : cyttsp4),
      ∃ l : List input_event, (L.foldl (fun t e => btn_examine st e t) t).input = t.input ++ l
        ∧ ∀ x ∈ l, x = input_event.sync ∨ ∃ c, x = input_event.report_key c st := by
  intro L
  induction L with
  | nil => intro t; exact ⟨[], by simp, by simp⟩
  | cons e L ih =>
    intro t
    rw [List.foldl_cons]
    obtain ⟨l2, h2, p2⟩ := ih (btn_examine st e t)
    obtain ⟨l1, h1, p1⟩ := btn_examine_input st e t
    refine ⟨l1 ++ l2, by rw [h2, h1, List.append_assoc], ?_⟩
    intro x hx
    rcases List.mem_append.mp hx with hx | hx
    · exact p1 x hx
    · exact p2 x hx

/-- The loop of `_cyttsp4_btn_key_release` is the sequence of its
examinations. -/
theorem btn_loop_release_fold (cur_reg cur_btn : Nat) :
    ∀ (n k : Nat) (t : cyttsp4),
      btn_loop (btn_key_release_body cur_btn (ld8 t.xy_mode (t.si_ofs.rep_ofs + 2 + cur_reg)))
          n k t
        = (btn_loop_examined cur_reg cur_btn n k).foldl
            (fun t e => btn_examine CY_BTN_RELEASED e t) t := by
  intro n
  induction n with
  | zero => intro k t; rfl
  | succ n ih =>
    intro k t
    rw [btn_loop, btn_loop_examined, List.foldl_cons]
    have hb : btn_key_release_body cur_btn (ld8 t.xy_mode (t.si_ofs.rep_ofs + 2 + cur_reg)) k t
        = btn_examine CY_BTN_RELEASED (cur_btn, cur_reg, k) t := by
      simp [btn_examine]
    rw [hb]
    obtain ⟨h1, h2⟩ := btn_examine_frame CY_BTN_RELEASED (cur_btn, cur_reg, k) t
    rw [← ih (k + 1) (btn_examine CY_BTN_RELEASED (cur_btn, cur_reg, k) t), h1, h2]

/-- The loop of `_cyttsp4_btn_key_press` is the sequence of its
examinations. -/
theorem btn_loop_press_fold (cur_reg cur_btn : Nat) :
    ∀ (n k : Nat) (t : cyttsp4),
      btn_loop (btn_key_press_body cur_btn (ld8 t.xy_mode (t.si_ofs.rep_ofs + 2 + cur_reg)))
          n k t
        = (btn_loop_examined cur_reg cur_btn n k).foldl
            (fun t e => btn_examine CY_BTN_PRESSED e t) t := by
  intro n
  induction n with
  | zero => intro k t; rfl
  | succ n ih =>
    intro k t
    rw [btn_loop, btn_loop_examined, List.foldl_cons]
    have hb : btn_key_press_body cur_btn (ld8 t.xy_mode (t.si_ofs.rep_ofs + 2 + cur_reg)) k t
        = btn_examine CY_BTN_PRESSED (cur_btn, cur_reg, k) t := by
      simp [btn_examine, CY_BTN_PRESSED, CY_BTN_RELEASED]
    rw [hb]
    obtain ⟨h1, h2⟩ := btn_examine_frame CY_BTN_PRESSED (cur_btn, cur_reg, k) t
    rw [← ih (k + 1) (btn_examine CY_BTN_PRESSED (cur_btn, cur_reg, k) t), h1, h2]

/-- A pass of the register loop of `_cyttsp4_xy_worker` is the sequence of
the examinations that `btn_reg_loop_examined` lists. -/
theorem btn_reg_loop_fold (st : Int) :
    ∀ (n cur_reg cur_btn : Nat) (num_cur_btn : Int) (t : cyttsp4),
      btn_reg_loop st n cur_reg cur_btn num_cur_btn t
        = (btn_reg_loop_examined n cur_reg cur_btn num_cur_btn).foldl
            (fun t e => btn_examine st e t) t := by
  intro n
  induction n with
  | zero => intro cur_reg cur_btn num_cur_btn t; rfl
  | succ n ih =>
    intro cur_reg cur_btn num_cur_btn t
    rw [btn_reg_loop, btn_reg_loop_examined, List.foldl_append, ih]
    congr 1
    by_cases hpos : num_cur_btn > 0
    · simp only [if_pos hpos]
      by_cases h1 : st = CY_BTN_RELEASED
      · subst h1
        simp only [if_true]
        unfold _cyttsp4_btn_key_release
        exact btn_loop_release_fold cur_reg cur_btn _ 0 t
      · simp only [if_neg h1]
        by_cases h2 : st = CY_BTN_PRESSED
        · subst h2
          simp only [if_true]
          unfold _cyttsp4_btn_key_press
          exact btn_loop_press_fold cur_reg cur_btn _ 0 t
        · simp only [if_neg h2]
          generalize btn_loop_examined cur_reg cur_btn _ 0 = L
          induction L with
          | nil => rfl
          | cons e L ihL =>
            rw [List.foldl_cons]
            have : btn_examine st e t = t := by simp [btn_examine, h1, h2]
            rw [this]
            exact ihL
    · simp only [if_neg hpos, List.foldl_nil]

theorem btn_loop_examined_eq (cur_reg cur_btn : Nat) :
    ∀ (n k : Nat), btn_loop_examined cur_reg cur_btn n k
        = (List.range' k n).map (fun j => (cur_btn, cur_reg, j)) := by
  intro n
  induction n with
  | zero => intro k; rfl
  | succ n ih =>
    intro k
    rw [btn_loop_examined, ih (k + 1), List.range'_succ, List.map_cons]

/-- The examinations of one pass over `N` buttons, from register `r` on with
`n` registers left. -/
theorem btn_reg_loop_examined_from (N : Nat) :
    ∀ (n r : Nat),
      btn_reg_loop_examined n r (4 * r) ((N : Int) - ((4 * r : Nat) : Int))
        = (List.range' (4 * r) (min (4 * (r + n)) N - 4 * r)).map
            (fun b => (4 * (b / 4), b / 4, b % 4)) := by
  intro n
  induction n with
  | zero =>
    intro r
    have : min (4 * (r + 0)) N - 4 * r = 0 := by omega
    rw [this]
    rfl
  | succ n ih =>
    intro r
    rw [btn_reg_loop_examined]
    have e1 : 4 * r + CY_NUM_BTN_PER_REG = 4 * (r + 1) := by simp [CY_NUM_BTN_PER_REG]; omega
    have e2 : (N : Int) - ((4 * r : Nat) : Int) - (CY_NUM_BTN_PER_REG : Nat)
        = (N : Int) - ((4 * (r + 1) : Nat) : Int) := by
      simp [CY_NUM_BTN_PER_REG]; omega
    rw [e1, e2, ih (r + 1)]
    by_cases hpos : (N : Int) - ((4 * r : Nat) : Int) > 0
    · simp only [if_pos hpos]
      have hi : (if ((N : Int) - ((4 * r : Nat) : Int)) / (CY_NUM_BTN_PER_REG : Nat) ≠ 0
            then ((CY_NUM_BTN_PER_REG : Nat) : Int)
            else (N : Int) - ((4 * r : Nat) : Int)).toNat = min 4 (N - 4 * r) := by
        simp only [CY_NUM_BTN_PER_REG]
        split <;> omega
      rw [hi, btn_loop_examined_eq]
      have hin : (List.range' 0 (min 4 (N - 4 * r))).map (fun j => (4 * r, r, j))
          = (List.range' (4 * r) (min 4 (N - 4 * r))).map
              (fun b => (4 * (b / 4), b / 4, b % 4)) := by
        rw [List.range'_eq_map_range (4 * r), ← List.range_eq_range', List.map_map]
        apply List.map_congr_left
        intro j hj
        have hj4 : j < 4 := by
          have := List.mem_range.mp hj
          omega
        simp only [Function.comp]
        have a1 : (4 * r + j) / 4 = r := by omega
        have a2 : (4 * r + j) % 4 = j := by omega
        rw [a1, a2]
      rw [hin, ← List.map_append]
      congr 1
      by_cases hfull : 4 * (r + 1) ≤ N
      · have l1 : min 4 (N - 4 * r) = 4 := by omega
        have l2 : 4 * (r + 1) = 4 * r + 4 := by omega
        have l3 : min (4 * (r + (n + 1))) N - 4 * r
            = (min (4 * (r + 1 + n)) N - 4 * (r + 1)) + 4 := by omega
        rw [l1, l3, l2, List.range'_append_1, Nat.add_comm]
      · have l1 : min (4 * (r + 1 + n)) N - 4 * (r + 1) = 0 := by omega
        have l3 : min (4 * (r + (n + 1))) N - 4 * r = min 4 (N - 4 * r) := by omega
        rw [l1, l3]
        simp
    · simp only [if_neg hpos, List.nil_append]
      have l1 : min (4 * (r + 1 + n)) N - 4 * (r + 1) = 0 := by omega
      have l3 : min (4 * (r + (n + 1))) N - 4 * r = 0 := by omega
      rw [l1, l3]
      rfl

/-- The examinations of one pass over `N` buttons in `ceil(N / 4)` registers:
button indices `0 .. N - 1`, each once, in order. -/
theorem btn_reg_loop_examined_all (N R : Nat) (hR : R = (N + 3) / 4) :
    btn_reg_loop_examined R 0 0 N
      = (List.range N).map (fun b => (4 * (b / 4), b / 4, b % 4)) := by
  have h := btn_reg_loop_examined_from N R 0
  have e : min (4 * (0 + R)) N - 4 * 0 = N := by omega
  rw [e] at h
  simpa [List.range_eq_range'] using h

/-- The 2-bit field `btn` of a button register is bits `2 * btn` and
`2 * btn + 1` of the register. -/
theorem btn_field_bits (m p : Nat) : btn_field m p = (m / 2 ^ (2 * p)) % 4 := by
  unfold btn_field
  simp only [CY_BITS_PER_BTN, CY_NUM_BTN_EVENT_ID, Nat.shiftRight_eq_div_pow]
  have : (4 - 1 : Nat) = 2 ^ 2 - 1 := by norm_num
  rw [this, Nat.and_pow_two_sub_one_eq_mod, Nat.mul_comm p 2]

/-- C30: for every button count `num_btns ≥ 1` with `num_btn_regs =
ceil(num_btns / 4)`, each pass of the register loop of `_cyttsp4_xy_worker`
examines the button indices `0 .. num_btns - 1`, each exactly once and in
order, and no other index: index `b` is examined as `ts->btn[4 * (b div 4) +
b mod 4]` with the 2-bit field `b mod 4` (bits `2 * (b mod 4)` and
`2 * (b mod 4) + 1`) of button register `b div 4`; the pass is the sequence of
these examinations, the button section is the release pass followed by the
press pass, and what the report sends is a block holding only release events
and input syncs followed by a block holding only press events and input
syncs. -/
theorem C30_button_passes (ts : cyttsp4) (hN : 1 ≤ ts.si_ofs.num_btns)
    (hR : ts.si_ofs.num_btn_regs = (ts.si_ofs.num_btns + 3) / 4) :
    btn_reg_loop_examined ts.si_ofs.num_btn_regs 0 0 ts.si_ofs.num_btns
        = (List.range ts.si_ofs.num_btns).map (fun b => (4 * (b / 4), b / 4, b % 4))
    ∧ (btn_reg_loop_examined ts.si_ofs.num_btn_regs 0 0 ts.si_ofs.num_btns).map
          (fun e => e.1 + e.2.2)
        = List.range ts.si_ofs.num_btns
    ∧ (∀ (st : Int) (t : cyttsp4),
        btn_reg_loop st ts.si_ofs.num_btn_regs 0 0 ts.si_ofs.num_btns t
          = ((List.range ts.si_ofs.num_btns).map (fun b => (4 * (b / 4), b / 4, b % 4))).foldl
              (fun t e => btn_examine st e t) t)
    ∧ xy_worker_buttons ts
        = btn_reg_loop CY_BTN_PRESSED ts.si_ofs.num_btn_regs 0 0 ts.si_ofs.num_btns
            (btn_reg_loop CY_BTN_RELEASED ts.si_ofs.num_btn_regs 0 0 ts.si_ofs.num_btns ts)
    ∧ (∀ m p : Nat, btn_field m p = (m / 2 ^ (2 * p)) % 4)
    ∧ ∃ rel prs : List input_event,
        (btn_reg_loop CY_BTN_RELEASED ts.si_ofs.num_btn_regs 0 0 ts.si_ofs.num_btns ts).input
          = ts.input ++ rel
        ∧ (xy_worker_buttons ts).input = ts.input ++ rel ++ prs
        ∧ (∀ x ∈ rel, x = input_event.sync
            ∨ ∃ c, x = input_event.report_key c CY_BTN_RELEASED)
        ∧ (∀ x ∈ prs, x = input_event.sync
            ∨ ∃ c, x = input_event.report_key c CY_BTN_PRESSED) := by
  have hex := btn_reg_loop_examined_all ts.si_ofs.num_btns ts.si_ofs.num_btn_regs hR
  have hfold : ∀ (st : Int) (t : cyttsp4),
      btn_reg_loop st ts.si_ofs.num_btn_regs 0 0 ts.si_ofs.num_btns t
        = ((List.range ts.si_ofs.num_btns).map (fun b => (4 * (b / 4), b / 4, b % 4))).foldl
            (fun t e => btn_examine st e t) t := by
    intro st t
    rw [btn_reg_loop_fold, hex]
  have hw : xy_worker_buttons ts
      = btn_reg_loop CY_BTN_PRESSED ts.si_ofs.num_btn_regs 0 0 ts.si_ofs.num_btns
          (btn_reg_loop CY_BTN_RELEASED ts.si_ofs.num_btn_regs 0 0 ts.si_ofs.num_btns ts) := by
    unfold xy_worker_buttons
    rw [if_pos (by omega)]
    have hs := btn_examine_fold_frame CY_BTN_RELEASED
      ((List.range ts.si_ofs.num_btns).map (fun b => (4 * (b / 4), b / 4, b % 4))) ts
    rw [← hfold] at hs
    simp only [hs.2]
  refine ⟨hex, ?_, hfold, hw, btn_field_bits, ?_⟩
  · rw [hex, List.map_map]
    conv_rhs => rw [← List.map_id (List.range ts.si_ofs.num_btns)]
    apply List.map_congr_left
    intro b _
    simp only [Function.comp, id]
    omega
  · obtain ⟨rel, h1, p1⟩ := btn_examine_fold_input CY_BTN_RELEASED
      ((List.range ts.si_ofs.num_btns).map (fun b => (4 * (b / 4), b / 4, b % 4))) ts
    rw [← hfold] at h1
    obtain ⟨prs, h2, p2⟩ := btn_examine_fold_input CY_BTN_PRESSED
      ((List.range ts.si_ofs.num_btns).map (fun b => (4 * (b / 4), b / 4, b % 4)))
      (btn_reg_loop CY_BTN_RELEASED ts.si_ofs.num_btn_regs 0 0 ts.si_ofs.num_btns ts)
    rw [← hfold, ← hw, h1] at h2
    exact ⟨rel, prs, h1, h2, p1, p2⟩

set_option maxRecDepth 100000 in
/-- The report of the six-button sample, evaluated: button 4 goes from
Pressed to Released and buttons 3 and 5 from Released to Pressed; the release
of button 4 is sent before the press of button 3. -/
theorem sample_six_buttons_trace :
    btn_reg_loop_examined 2 0 0 6
      = [(0, 0, 0), (0, 0, 1), (0, 0, 2), (0, 0, 3), (4, 1, 0), (4, 1, 1)]
    ∧ (xy_worker_buttons sample_ts_six_buttons).input
      = [input_event.report_key 14 0, input_event.sync,
         input_event.report_key 13 1, input_event.sync,
         input_event.report_key 15 1, input_event.sync] := by
  decide

/-- Witness for C30: six buttons in two registers. -/
theorem C30_button_passes_witness :
    1 ≤ sample_ts_six_buttons.si_ofs.num_btns
    ∧ (btn_reg_loop_examined sample_ts_six_buttons.si_ofs.num_btn_regs 0 0
          sample_ts_six_buttons.si_ofs.num_btns).map (fun e => e.1 + e.2.2)
        = List.range sample_ts_six_buttons.si_ofs.num_btns :=
  ⟨by decide, (C30_button_passes sample_ts_six_buttons (by decide) (by decide)).2.1⟩

/-! ## Proofs: parsing an image record -/

theorem parse_row_copy_spec (row_buf : List Nat) :
    ∀ (n i j : Nat) (rd : List Nat),
      (parse_row_copy row_buf n i j rd).length = rd.length
      ∧ ∀ k, (parse_row_copy row_buf n i j rd).getD k 0
          = if i ≤ k ∧ k < i + n ∧ k < rd.length then ld8 row_buf (j + (k - i))
            else rd.getD k 0 := by
  intro n
  induction n with
  | zero =>
    intro i j rd
    refine ⟨rfl, ?_⟩
    intro k
    have : ¬ (i ≤ k ∧ k < i + 0 ∧ k < rd.length) := by omega
    rw [if_neg this]
    rfl
  | succ n ih =>
    intro i j rd
    rw [parse_row_copy]
    obtain ⟨hl, hk⟩ := ih (i + 1) (j + 1) (rd.set i (ld8 row_buf j))
    refine ⟨by rw [hl, List.length_set], ?_⟩
    intro k
    rw [hk k, List.length_set]
    by_cases h1 : i + 1 ≤ k ∧ k < i + 1 + n ∧ k < rd.length
    · rw [if_pos h1, if_pos (by omega)]
      congr 1
      omega
    · rw [if_neg h1]
      by_cases h2 : k = i
      · subst h2
        by_cases h3 : k < rd.length
        · rw [if_pos (by omega)]
          simp [List.getD_eq_getElem?_getD, List.getElem?_set, h3]
        · rw [if_neg (by omega)]
          have h4 : rd.length ≤ k := by omega
          simp [List.getD_eq_getElem?_getD, List.getElem?_set, h3,
            List.getElem?_eq_none h4]
      · rw [if_neg (by omega)]
        simp [List.getD_eq_getElem?_getD, List.getElem?_set, Ne.symm h2]

theorem get_short_eq (buf : List Nat) (i : Nat) :
    _cyttsp4_get_short buf i = ld8 buf i * 256 + ld8 buf (i + 1) := by
  unfold _cyttsp4_get_short
  have h1 := ld8_lt buf i
  have h2 := ld8_lt buf (i + 1)
  rw [Nat.shiftLeft_eq]
  norm_num
  omega

/-- What `_cyttsp4_ldr_parse_row` leaves in `*row_image`. -/
theorem parse_row_spec (row_buf : List Nat) (row_image : cyttsp4_hex_image) :
    (_cyttsp4_ldr_parse_row row_buf row_image).2.array_id = ld8 row_buf 0
    ∧ (_cyttsp4_ldr_parse_row row_buf row_image).2.row_num
        = ld8 row_buf 1 * 256 + ld8 row_buf 2
    ∧ (_cyttsp4_ldr_parse_row row_buf row_image).2.row_size
        = ld8 row_buf 3 * 256 + ld8 row_buf 4
    ∧ (ld8 row_buf 3 * 256 + ld8 row_buf 4 > CY_DATA_ROW_SIZE →
        (_cyttsp4_ldr_parse_row row_buf row_image).1 = err_overflow
        ∧ (_cyttsp4_ldr_parse_row row_buf row_image).2.row_data = row_image.row_data)
    ∧ (ld8 row_buf 3 * 256 + ld8 row_buf 4 ≤ CY_DATA_ROW_SIZE →
        (_cyttsp4_ldr_parse_row row_buf row_image).1 = 0
        ∧ (_cyttsp4_ldr_parse_row row_buf row_image).2.row_data.length
            = row_image.row_data.length
        ∧ ∀ k, (_cyttsp4_ldr_parse_row row_buf row_image).2.row_data.getD k 0
            = if k < ld8 row_buf 3 * 256 + ld8 row_buf 4 ∧ k < row_image.row_data.length
              then ld8 row_buf (5 + k) else row_image.row_data.getD k 0) := by
  unfold _cyttsp4_ldr_parse_row
  simp only [get_short_eq]
  by_cases h : ld8 row_buf 3 * 256 + ld8 row_buf 4 > CY_DATA_ROW_SIZE
  · rw [if_pos h]
    exact ⟨rfl, rfl, rfl, fun _ => ⟨rfl, rfl⟩, fun h2 => absurd h2 (by omega)⟩
  · rw [if_neg h]
    refine ⟨rfl, rfl, rfl, fun h2 => absurd h2 h, fun _ => ⟨rfl, ?_, ?_⟩⟩
    · exact (parse_row_copy_spec row_buf _ 0 5 _).1
    · intro k
      have := (parse_row_copy_spec row_buf (ld8 row_buf 3 * 256 + ld8 row_buf 4) 0 5
        row_image.row_data).2 k
      simp only [Nat.zero_le, true_and, Nat.zero_add, Nat.sub_zero] at this
      exact this

/-- The row buffer of one pass of the row loop holds the bytes of the record
at `fw + p`. -/
theorem get_row_bytes (row_buf fw : List Nat) (p size k : Nat) (hk : k < size) :
    ld8 (_cyttsp4_get_row row_buf fw p size) k = ld8 fw (p + k) := by
  unfold _cyttsp4_get_row store ld8
  simp only [List.range_zero, List.map_nil, List.nil_append, Nat.zero_add]
  rw [List.getD_append _ _ _ _ (by simpa using hk)]
  simp [List.getD_eq_getElem?_getD, List.getElem?_map, List.getElem?_range hk, List.getElem?_drop]

/-- C22: for every record buffer, `_cyttsp4_ldr_parse_row` sets `array_id` to
byte 0, `row_num` to the big-endian 16-bit value of bytes 1..2 and `row_size`
to the big-endian 16-bit value of bytes 3..4; it returns `-EOVERFLOW` exactly
when `row_size > 288`, leaving `row_data` as it was, and returns 0 otherwise
with `row_data[i]` = byte `5 + i` for every `i < row_size`; in the row loop of
`_cyttsp4_load_app` the buffer holds the 293 bytes of the record; and
`_cyttsp4_load_app` returns `-EINVAL` with the driver context and the device
untouched for every image whose size is 0 or not a multiple of 293. -/
theorem C22_parse_row (row_buf : List Nat) (row_image : cyttsp4_hex_image)
    (hdata : row_image.row_data.length = CY_DATA_ROW_SIZE) :
    (_cyttsp4_ldr_parse_row row_buf row_image).2.array_id = ld8 row_buf 0
    ∧ (_cyttsp4_ldr_parse_row row_buf row_image).2.row_num
        = ld8 row_buf 1 * 256 + ld8 row_buf 2
    ∧ (_cyttsp4_ldr_parse_row row_buf row_image).2.row_size
        = ld8 row_buf 3 * 256 + ld8 row_buf 4
    ∧ ((_cyttsp4_ldr_parse_row row_buf row_image).1 = err_overflow
        ↔ (_cyttsp4_ldr_parse_row row_buf row_image).2.row_size > 288)
    ∧ ((_cyttsp4_ldr_parse_row row_buf row_image).1 = 0
        ↔ (_cyttsp4_ldr_parse_row row_buf row_image).2.row_size ≤ 288)
    ∧ ((_cyttsp4_ldr_parse_row row_buf row_image).2.row_size > 288 →
        (_cyttsp4_ldr_parse_row row_buf row_image).2.row_data = row_image.row_data)
    ∧ ((_cyttsp4_ldr_parse_row row_buf row_image).2.row_size ≤ 288 →
        (_cyttsp4_ldr_parse_row row_buf row_image).2.row_data.length = 288
        ∧ ∀ i, i < (_cyttsp4_ldr_parse_row row_buf row_image).2.row_size →
            ld8 (_cyttsp4_ldr_parse_row row_buf row_image).2.row_data i = ld8 row_buf (5 + i))
    ∧ (∀ {D : Type} (ops : cyttsp4_bus_ops D) (fw : List Nat) (p k : Nat), k < 293 →
        ld8 (_cyttsp4_get_row (List.replicate (row_buf_size ops) 0) fw p image_rec_size) k
          = ld8 fw (p + k))
    ∧ (image_rec_size = 293
        ∧ ∀ {D : Type} (ops : cyttsp4_bus_ops D) (ts : cyttsp4) (dev : D) (fw : List Nat),
          (fw.length = 0 ∨ fw.length % 293 ≠ 0) →
          _cyttsp4_load_app ops ts dev fw = (err_inval, ts, dev)) := by
  obtain ⟨h1, h2, h3, h4, h5⟩ := parse_row_spec row_buf row_image
  have h288 : CY_DATA_ROW_SIZE = 288 := rfl
  rw [h288] at h4 h5 hdata
  rw [h1, h2, h3]
  refine ⟨rfl, rfl, rfl, ?_, ?_, fun h => (h4 h).2, ?_, ?_, rfl, ?_⟩
  · constructor
    · intro h
      by_contra hc
      have := (h5 (by omega)).1
      rw [this] at h
      exact absurd h (by decide)
    · intro h
      exact (h4 h).1
  · constructor
    · intro h
      by_contra hc
      have := (h4 (by omega)).1
      rw [this] at h
      exact absurd h (by decide)
    · intro h
      exact (h5 h).1
  · intro h
    obtain ⟨_, hl, hk⟩ := h5 h
    refine ⟨by rw [hl, hdata], ?_⟩
    intro i hi
    unfold ld8 at hk ⊢
    rw [hk i, if_pos ⟨hi, by omega⟩]
    exact Nat.mod_mod _ _
  · intro D ops fw p k hk
    exact get_row_bytes _ fw p image_rec_size k hk
  · intro D ops ts dev fw h
    have h2 : fw.length = 0 ∨ fw.length % image_rec_size ≠ 0 := h
    unfold _cyttsp4_load_app
    rw [if_pos h2]

set_option maxRecDepth 100000 in
/-- The sample record, parsed into a fresh row image. -/
theorem sample_record_parsed :
    sample_record.length = 293
    ∧ (_cyttsp4_ldr_parse_row sample_record row_image_zero).1 = 0
    ∧ (_cyttsp4_ldr_parse_row sample_record row_image_zero).2.array_id = 1
    ∧ (_cyttsp4_ldr_parse_row sample_record row_image_zero).2.row_num = 0x0123
    ∧ (_cyttsp4_ldr_parse_row sample_record row_image_zero).2.row_size = 288
    ∧ ld8 (_cyttsp4_ldr_parse_row sample_record row_image_zero).2.row_data 287 = 31 := by
  decide

/-- Witness for C22: the sample record parsed into a fresh row image. -/
theorem C22_parse_row_witness :
    row_image_zero.row_data.length = CY_DATA_ROW_SIZE
    ∧ (_cyttsp4_ldr_parse_row sample_record row_image_zero).2.row_num
        = ld8 sample_record 1 * 256 + ld8 sample_record 2
    ∧ ((_cyttsp4_ldr_parse_row sample_record row_image_zero).1 = 0
        ↔ (_cyttsp4_ldr_parse_row sample_record row_image_zero).2.row_size ≤ 288) :=
  ⟨by simp [row_image_zero],
   (C22_parse_row sample_record row_image_zero (by simp [row_image_zero])).2.1,
   (C22_parse_row sample_record row_image_zero (by simp [row_image_zero])).2.2.2.2.1⟩

/-! ## Proofs: bootloader commands and the write log -/

theorem nosub_log_writes {D : Type} (ops : cyttsp4_bus_ops D) :
    nosub (log_writes ops) = log_writes (nosub ops) := rfl

theorem write_block_data_log {D : Type} (ops : cyttsp4_bus_ops D)
    (s : D × List (Nat × List Nat)) (command : Nat) (buf : List Nat) (i2c_addr : Nat) :
    ∃ k, k ≤ ops.num_retry
      ∧ (_cyttsp4_write_block_data (log_writes ops) s command buf i2c_addr).2.2
          = s.2 ++ List.replicate k (command, buf) := by
  unfold _cyttsp4_write_block_data
  by_cases hb : buf.length = 0
  · rw [if_pos hb]
    exact ⟨0, Nat.zero_le _, by simp⟩
  · rw [if_neg hb]
    obtain ⟨k, hk, hlog, _, _⟩ := write_tries_log ops command buf i2c_addr ops.num_retry (-1) s
    exact ⟨k, hk, hlog⟩

theorem get_status_tries_log {D : Type} (ops : cyttsp4_bus_ops D) (size i2c_addr : Nat) :
    ∀ (n : Nat) (retval : Int) (buf : List Nat) (s : D × List (Nat × List Nat)),
      (get_status_tries (log_writes ops) size i2c_addr n retval buf s).2.2.2 = s.2 := by
  intro n
  induction n with
  | zero => intro retval buf s; rfl
  | succ n ih =>
    intro retval buf s
    unfold get_status_tries
    simp only [nosub_log_writes]
    split
    · rw [ih]
      exact read_block_data_log (nosub ops) s CY_REG_BASE size buf i2c_addr
    · exact read_block_data_log (nosub ops) s CY_REG_BASE size buf i2c_addr

theorem get_status_log {D : Type} (ops : cyttsp4_bus_ops D) (ts : cyttsp4)
    (s : D × List (Nat × List Nat)) (buf : List Nat) (size timeout_ms : Nat) :
    (_cyttsp4_get_status (log_writes ops) ts s buf size timeout_ms).2.2.2 = s.2 := by
  unfold _cyttsp4_get_status
  split
  · rw [get_status_tries_log]
    rfl
  · rfl

/-- What `_cyttsp4_send_cmd` writes to the device: the command, once per
attempt of the bus write, and nothing else. -/
theorem send_cmd_log {D : Type} (ops : cyttsp4_bus_ops D) (ts : cyttsp4)
    (s : D × List (Nat × List Nat)) (cmd_buf : List Nat) (stat_ret : Option Nat)
    (num_stat_byte status_size timeout_ms : Nat) :
    ∃ k, k ≤ ops.num_retry
      ∧ (_cyttsp4_send_cmd (log_writes ops) ts s cmd_buf stat_ret num_stat_byte status_size
          timeout_ms).2.2.2 = s.2 ++ List.replicate k (CY_REG_BASE, cmd_buf) := by
  unfold _cyttsp4_send_cmd
  by_cases hb : cmd_buf.length = 0
  · rw [if_pos hb]
    exact ⟨0, Nat.zero_le _, by simp⟩
  · rw [if_neg hb]
    simp only [nosub_log_writes]
    obtain ⟨k, hk, hlog⟩ := write_block_data_log (nosub ops) s CY_REG_BASE cmd_buf ts.addr_ldr
    refine ⟨k, hk, ?_⟩
    generalize _cyttsp4_write_block_data (log_writes (nosub ops)) s CY_REG_BASE cmd_buf
      ts.addr_ldr = w at hlog
    split
    · exact hlog
    · split
      · have hg := get_status_log ops ts w.2 (List.replicate CY_MAX_STATUS_SIZE 0) status_size
          timeout_ms
        split
        · rw [hg]; exact hlog
        · split
          · rw [hg]; exact hlog
          · rw [hg]; exact hlog
      · exact hlog

/-- The return code of a bus read is never positive when the bus answers
with 0 or an error. -/
theorem read_tries_nonpos {D : Type} (ops : cyttsp4_bus_ops D) (command length i2c_addr : Nat)
    (h : ∀ d c l a, (ops.read d c l a).1 ≤ 0) :
    ∀ (n : Nat) (retval : Int) (buf : List Nat) (dev : D), retval ≤ 0 →
      (read_tries ops command length i2c_addr n retval buf dev).1 ≤ 0 := by
  intro n
  induction n with
  | zero => intro retval buf dev hr; exact hr
  | succ n ih =>
    intro retval buf dev hr
    unfold read_tries
    split
    · exact ih _ _ _ (h _ _ _ _)
    · exact hr

theorem read_block_data_nonpos {D : Type} (ops : cyttsp4_bus_ops D) (dev : D)
    (command length : Nat) (buf : List Nat) (i2c_addr : Nat)
    (h : ∀ d c l a, (ops.read d c l a).1 ≤ 0) :
    (_cyttsp4_read_block_data ops dev command length buf i2c_addr).1 ≤ 0 := by
  unfold _cyttsp4_read_block_data
  split
  · show err_inval ≤ 0
    decide
  · exact read_tries_nonpos ops command length i2c_addr h _ _ _ _ (by decide)

theorem get_status_tries_nonpos {D : Type} (ops : cyttsp4_bus_ops D) (size i2c_addr : Nat)
    (h : ∀ d c l a, (ops.read_nosub d c l a).1 ≤ 0) :
    ∀ (n : Nat) (retval : Int) (buf : List Nat) (dev : D), retval ≤ 0 →
      (get_status_tries ops size i2c_addr n retval buf dev).1 ≤ 0 := by
  intro n
  induction n with
  | zero => intro retval buf dev hr; exact hr
  | succ n ih =>
    intro retval buf dev hr
    unfold get_status_tries
    have hr1 := read_block_data_nonpos (nosub ops) dev CY_REG_BASE size buf i2c_addr h
    simp only []
    split
    · exact ih _ _ _ hr1
    · exact hr1

/-- A bootloader command that waits for its status returns 0 or an error when
the bus reads return 0 or an error. -/
theorem send_cmd_nonpos {D : Type} (ops : cyttsp4_bus_ops D) (ts : cyttsp4) (dev : D)
    (cmd_buf : List Nat) (stat_ret : Option Nat) (num_stat_byte status_size timeout_ms : Nat)
    (h : ∀ d c l a, (ops.read_nosub d c l a).1 ≤ 0) (ht : 0 < timeout_ms) :
    (_cyttsp4_send_cmd ops ts dev cmd_buf stat_ret num_stat_byte status_size timeout_ms).1
      ≤ 0 := by
  unfold _cyttsp4_send_cmd
  by_cases hb : cmd_buf.length = 0
  · rw [if_pos hb]
  · rw [if_neg hb]
    simp only []
    by_cases hw : (_cyttsp4_write_block_data (nosub ops) dev CY_REG_BASE cmd_buf
        ts.addr_ldr).1 < 0
    · rw [if_pos hw]
      exact le_of_lt hw
    · rw [if_neg hw, if_pos ht]
      have hg : (_cyttsp4_get_status ops ts
          (_cyttsp4_write_block_data (nosub ops) dev CY_REG_BASE cmd_buf ts.addr_ldr).2
          (List.replicate CY_MAX_STATUS_SIZE 0) status_size timeout_ms).1 ≤ 0 := by
        unfold _cyttsp4_get_status
        rw [if_pos (by omega)]
        exact get_status_tries_nonpos ops status_size ts.addr_ldr h _ _ _ _ (le_refl _)
      generalize _cyttsp4_get_status ops ts
          (_cyttsp4_write_block_data (nosub ops) dev CY_REG_BASE cmd_buf ts.addr_ldr).2
          (List.replicate CY_MAX_STATUS_SIZE 0) status_size timeout_ms = g at hg
      by_cases h1 : g.1 < 0 ∨ ld8 g.2.1 0 ≠ CY_START_OF_PACKET
      · rw [if_pos h1]
        by_cases h2 : g.1 < 0
        · simp only [h2, not_true_eq_false, if_false]
          exact hg
        · simp only [h2, not_false_eq_true, if_true]
          show err_io ≤ 0
          decide
      · rw [if_neg h1]
        by_cases h3 : ld8 g.2.1 CY_STATUS_BYTE ≠ ERROR_SUCCESS
        · rw [if_pos h3]
          show err_io ≤ 0
          decide
        · rw [if_neg h3]
          exact hg

/-! ## Proofs: the erase retries -/

theorem erase_attempts_dev_succ {D : Type} (ops : cyttsp4_bus_ops D) (ts : cyttsp4)
    (row_image : cyttsp4_hex_image) :
    ∀ (k : Nat) (dev : D),
      erase_attempts_dev ops ts row_image (k + 1) dev
        = (_cyttsp4_ldr_erase_row ops ts (erase_attempts_dev ops ts row_image k dev)
            row_image).2 := by
  intro k
  induction k with
  | zero => intro dev; rfl
  | succ k ih =>
    intro dev
    rw [erase_attempts_dev, ih]
    rfl

theorem load_app_erase_unfold {D : Type} (ops : cyttsp4_bus_ops D) (ts : cyttsp4)
    (row_image : cyttsp4_hex_image) (n : Nat) (dev : D) :
    load_app_erase ops ts row_image n dev
      = if (_cyttsp4_ldr_erase_row ops ts dev row_image).1 ≠ 0 then
          match n with
          | k + 1 =>
            load_app_erase ops ts row_image k (_cyttsp4_ldr_erase_row ops ts dev row_image).2
          | 0 => _cyttsp4_ldr_erase_row ops ts dev row_image
        else _cyttsp4_ldr_erase_row ops ts dev row_image := by
  cases n <;> rw [load_app_erase]

/-- The erase loop entered with `n` retries left stops at the first attempt
that returns 0, which is not repeated. -/
theorem load_app_erase_success {D : Type} (ops : cyttsp4_bus_ops D) (ts : cyttsp4)
    (row_image : cyttsp4_hex_image) :
    ∀ (j n : Nat) (dev : D), j ≤ n →
      (∀ i, i < j → erase_attempt_code ops ts row_image i dev ≠ 0) →
      erase_attempt_code ops ts row_image j dev = 0 →
      load_app_erase ops ts row_image n dev
        = (0, erase_attempts_dev ops ts row_image (j + 1) dev) := by
  intro j
  induction j with
  | zero =>
    intro n dev _ _ h0
    have h0' : (_cyttsp4_ldr_erase_row ops ts dev row_image).1 = 0 := h0
    rw [load_app_erase_unfold, if_neg (by rw [h0']; simp)]
    exact Prod.ext h0' rfl
  | succ j ih =>
    intro n dev hn hf h0
    have hfirst : (_cyttsp4_ldr_erase_row ops ts dev row_image).1 ≠ 0 := hf 0 (by omega)
    obtain ⟨m, rfl⟩ : ∃ m, n = m + 1 := ⟨n - 1, by omega⟩
    rw [load_app_erase_unfold, if_pos hfirst]
    exact ih m _ (by omega) (fun i hi => hf (i + 1) (by omega)) h0

/-- The erase loop entered with `n` retries left gives up after `n + 1`
failed attempts. -/
theorem load_app_erase_failure {D : Type} (ops : cyttsp4_bus_ops D) (ts : cyttsp4)
    (row_image : cyttsp4_hex_image) :
    ∀ (n : Nat) (dev : D),
      (∀ i, i < n + 1 → erase_attempt_code ops ts row_image i dev ≠ 0) →
      load_app_erase ops ts row_image n dev
        = (erase_attempt_code ops ts row_image n dev,
           erase_attempts_dev ops ts row_image (n + 1) dev) := by
  intro n
  induction n with
  | zero =>
    intro dev hf
    have hfirst : (_cyttsp4_ldr_erase_row ops ts dev row_image).1 ≠ 0 := hf 0 (by omega)
    rw [load_app_erase_unfold, if_pos hfirst]
    rfl
  | succ n ih =>
    intro dev hf
    have hfirst : (_cyttsp4_ldr_erase_row ops ts dev row_image).1 ≠ 0 := hf 0 (by omega)
    rw [load_app_erase_unfold, if_pos hfirst]
    exact ih _ (fun i hi => hf (i + 1) (by omega))

/-- What consecutive erase attempts write to the device: erase commands for
the row and nothing else. -/
theorem erase_attempts_log {D : Type} (ops : cyttsp4_bus_ops D) (ts : cyttsp4)
    (row_image : cyttsp4_hex_image) :
    ∀ (k : Nat) (s : D × List (Nat × List Nat)),
      ∃ m, (erase_attempts_dev (log_writes ops) ts row_image k s).2
          = s.2 ++ List.replicate m (CY_REG_BASE, ldr_erase_row_cmd row_image) := by
  intro k
  induction k with
  | zero => intro s; exact ⟨0, by simp [erase_attempts_dev]⟩
  | succ k ih =>
    intro s
    rw [erase_attempts_dev]
    obtain ⟨m1, _, h1⟩ := send_cmd_log ops ts s (ldr_erase_row_cmd row_image) none 0 7
      CY_HALF_SEC_TMO_MS
    obtain ⟨m2, h2⟩ := ih (_cyttsp4_ldr_erase_row (log_writes ops) ts s row_image).2
    refine ⟨m1 + m2, ?_⟩
    rw [h2]
    unfold _cyttsp4_ldr_erase_row
    simp only
    rw [h1, List.append_assoc, List.replicate_add]

/-- C23: in the row loop of `_cyttsp4_load_app`, with bus reads that return 0
or an error, every erase attempt returns 0 or an error, and for every row:
when the first `j ≤ 5` erase attempts fail and attempt `j + 1` succeeds, the
erase loop ends with code 0 after exactly `j + 1` attempts (the successful
attempt is not repeated) and the pass goes on to program the row; when six
consecutive attempts fail, the erase loop ends after the sixth attempt with
its error code, the pass leaves for the error exit without any further access
to the device, and `_cyttsp4_load_app` returns that error code with the
driver state set to Bootloader.  Consecutive erase attempts write erase
commands for the row to the device and nothing else. -/
theorem C23_erase_retry {D : Type} (ops : cyttsp4_bus_ops D) (ts : cyttsp4) (dev : D)
    (fw : List Nat) (p : Nat) (prev row_image : cyttsp4_hex_image)
    (hbus : ∀ d c l a, (ops.read_nosub d c l a).1 ≤ 0)
    (hrow : _cyttsp4_ldr_parse_row
        (_cyttsp4_get_row (List.replicate (row_buf_size ops) 0) fw p image_rec_size) prev
      = (0, row_image)) :
    (∀ k, erase_attempt_code ops ts row_image k dev ≤ 0)
    ∧ (∀ j, j ≤ 5 →
        (∀ i, i < j → erase_attempt_code ops ts row_image i dev < 0) →
        erase_attempt_code ops ts row_image j dev = 0 →
        load_app_erase ops ts row_image 5 dev
            = (0, erase_attempts_dev ops ts row_image (j + 1) dev)
        ∧ load_app_row ops ts fw p prev dev
            = load_app_row_prog ops ts row_image
                (erase_attempts_dev ops ts row_image (j + 1) dev))
    ∧ ((∀ i, i < 6 → erase_attempt_code ops ts row_image i dev < 0) →
        load_app_erase ops ts row_image 5 dev
            = (erase_attempt_code ops ts row_image 5 dev,
               erase_attempts_dev ops ts row_image 6 dev)
        ∧ load_app_row ops ts fw p prev dev
            = (load_app_next.error_exit, erase_attempt_code ops ts row_image 5 dev, row_image,
               erase_attempts_dev ops ts row_image 6 dev)
        ∧ ∀ (n : Nat) (retval : Int),
            load_app_finish ops ts (load_app_rows ops ts fw (n + 1) p retval prev dev)
              = (erase_attempt_code ops ts row_image 5 dev,
                 _cyttsp4_change_state ts CY_BL_STATE,
                 erase_attempts_dev ops ts row_image 6 dev))
    ∧ (∀ (k : Nat) (s : D × List (Nat × List Nat)),
        ∃ m, (erase_attempts_dev (log_writes ops) ts row_image k s).2
            = s.2 ++ List.replicate m (CY_REG_BASE, ldr_erase_row_cmd row_image)) := by
  have hrow_unfold : ∀ d : D, load_app_row ops ts fw p prev d
      = if (load_app_erase ops ts row_image 5 d).1 < 0 then
          (load_app_next.error_exit, (load_app_erase ops ts row_image 5 d).1, row_image,
            (load_app_erase ops ts row_image 5 d).2)
        else load_app_row_prog ops ts row_image (load_app_erase ops ts row_image 5 d).2 := by
    intro d
    unfold load_app_row
    simp only [hrow]
    rw [if_neg (by decide)]
  refine ⟨?_, ?_, ?_, erase_attempts_log ops ts row_image⟩
  · intro k
    unfold erase_attempt_code _cyttsp4_ldr_erase_row
    exact send_cmd_nonpos ops ts _ _ _ _ _ _ hbus (by decide)
  · intro j hj hf h0
    have hl := load_app_erase_success ops ts row_image j 5 dev hj
      (fun i hi => ne_of_lt (hf i hi)) h0
    refine ⟨hl, ?_⟩
    rw [hrow_unfold, hl, if_neg (by show ¬ ((0 : Int) < 0); decide)]
  · intro hf
    have hl := load_app_erase_failure ops ts row_image 5 dev
      (fun i hi => ne_of_lt (hf i hi))
    have hneg := hf 5 (by decide)
    have hr : load_app_row ops ts fw p prev dev
        = (load_app_next.error_exit, erase_attempt_code ops ts row_image 5 dev, row_image,
           erase_attempts_dev ops ts row_image 6 dev) := by
      rw [hrow_unfold, hl, if_pos hneg]
    refine ⟨hl, hr, ?_⟩
    intro n retval
    rw [load_app_rows, hr]
    rfl

set_option maxRecDepth 1000000 in
/-- The load of the one-record sample image on bootloaders that refuse the
first 4, 5 and 6 erase commands: with 4 or 5 refusals the load succeeds after
5 or 6 erase commands and ends with the exit command (0x3B); with 6 refusals
it returns `-EIO` in the Bootloader state after 6 erase commands, the erase
command (0x34) being the last command the device has seen. -/
theorem sample_flaky_load :
    _cyttsp4_load_app (bus_ldr_flaky 4) sample_ts (0, 0) sample_fw
      = (0, { sample_ts with soft_reset_asserted := true, driver_state := CY_TRANSFER_STATE },
          (5, 0x3B))
    ∧ _cyttsp4_load_app (bus_ldr_flaky 5) sample_ts (0, 0) sample_fw
      = (0, { sample_ts with soft_reset_asserted := true, driver_state := CY_TRANSFER_STATE },
          (6, 0x3B))
    ∧ _cyttsp4_load_app (bus_ldr_flaky 6) sample_ts (0, 0) sample_fw
      = (err_io, { sample_ts with soft_reset_asserted := true, driver_state := CY_BL_STATE },
          (6, 0x34)) := by
  decide

set_option maxRecDepth 1000000 in
theorem sample_flaky_attempts :
    (∀ i, i < 4 → erase_attempt_code (bus_ldr_flaky 4) sample_ts sample_fw_row i (0, 0) < 0)
    ∧ erase_attempt_code (bus_ldr_flaky 4) sample_ts sample_fw_row 4 (0, 0) = 0
    ∧ _cyttsp4_ldr_parse_row
        (_cyttsp4_get_row (List.replicate (row_buf_size (bus_ldr_flaky 4)) 0) sample_fw 0
          image_rec_size) row_image_zero = (0, sample_fw_row) := by
  refine ⟨?_, by decide, Prod.ext (by decide) rfl⟩
  intro i hi
  interval_cases i <;> decide

/-- Witness for C23: a bootloader that refuses the first four erase commands;
the fifth attempt succeeds and the erase loop ends after it. -/
theorem C23_erase_retry_witness :
    (∀ d c l a, ((bus_ldr_flaky 4).read_nosub d c l a).1 ≤ 0)
    ∧ load_app_erase (bus_ldr_flaky 4) sample_ts sample_fw_row 5 (0, 0)
        = (0, erase_attempts_dev (bus_ldr_flaky 4) sample_ts sample_fw_row (4 + 1) (0, 0)) :=
  ⟨fun _ _ _ _ => le_refl _,
   ((C23_erase_retry (bus_ldr_flaky 4) sample_ts (0, 0) sample_fw 0 row_image_zero
      sample_fw_row (fun _ _ _ _ => le_refl _) sample_flaky_attempts.2.2).2.1 4 (by decide)
      sample_flaky_attempts.1 sample_flaky_attempts.2.1).1⟩

/-! ## Proofs: programming a row -/

theorem ld8_store_zero (buf data : List Nat) (size k : Nat) (hk : k < size) :
    ld8 (store buf 0 size data) k = data.getD k 0 % 256 := by
  unfold store ld8
  simp only [List.range_zero, List.map_nil, List.nil_append, Nat.zero_add]
  rw [List.getD_append _ _ _ _ (by simpa using hk)]
  simp [List.getD_eq_getElem?_getD, List.getElem?_map, List.getElem?_range hk]

theorem accepts_ldr_cmds_log {D : Type} (ops : cyttsp4_bus_ops D) (addr : Nat)
    (h : accepts_ldr_cmds ops addr) : accepts_ldr_cmds (log_writes ops) addr :=
  ⟨fun d c buf => h.1 d.1 c buf, fun d size => h.2 d.1 size⟩

/-- A bootloader command on a device that accepts the bootloader commands:
the command is written once, the status read follows the wait, and the return
code is 0. -/
theorem send_cmd_accepted {D : Type} (ops : cyttsp4_bus_ops D) (ts : cyttsp4) (dev : D)
    (cmd_buf : List Nat) (num_stat_byte status_size timeout_ms : Nat)
    (hacc : accepts_ldr_cmds ops ts.addr_ldr) (hn : 0 < ops.num_retry) (hb : cmd_buf ≠ [])
    (ht : 0 < timeout_ms) (hs : 2 ≤ status_size) :
    (_cyttsp4_send_cmd ops ts dev cmd_buf none num_stat_byte status_size timeout_ms).1 = 0
    ∧ (_cyttsp4_send_cmd ops ts dev cmd_buf none num_stat_byte status_size timeout_ms).2.2
        = (ops.read_nosub (ops.wait (ops.write_nosub dev CY_REG_BASE cmd_buf ts.addr_ldr).2
            timeout_ms).2 CY_REG_BASE status_size ts.addr_ldr).2.2 := by
  have hw : _cyttsp4_write_block_data (nosub ops) dev CY_REG_BASE cmd_buf ts.addr_ldr
      = ops.write_nosub dev CY_REG_BASE cmd_buf ts.addr_ldr :=
    write_block_data_ok (nosub ops) dev CY_REG_BASE cmd_buf ts.addr_ldr hn hb
      (by show 0 ≤ (ops.write_nosub dev CY_REG_BASE cmd_buf ts.addr_ldr).1
          rw [hacc.1]);
  have hw0 := hacc.1 dev CY_REG_BASE cmd_buf
  generalize ops.write_nosub dev CY_REG_BASE cmd_buf ts.addr_ldr = w at hw hw0
  obtain ⟨hr0, hr1, hr2⟩ := hacc.2 (ops.wait w.2 timeout_ms).2 status_size
  have hrd : _cyttsp4_read_block_data (nosub ops) (ops.wait w.2 timeout_ms).2 CY_REG_BASE
      status_size (List.replicate CY_MAX_STATUS_SIZE 0) ts.addr_ldr
      = ((ops.read_nosub (ops.wait w.2 timeout_ms).2 CY_REG_BASE status_size ts.addr_ldr).1,
         store (List.replicate CY_MAX_STATUS_SIZE 0) 0 status_size
          (ops.read_nosub (ops.wait w.2 timeout_ms).2 CY_REG_BASE status_size ts.addr_ldr).2.1,
         (ops.read_nosub (ops.wait w.2 timeout_ms).2 CY_REG_BASE status_size
          ts.addr_ldr).2.2) :=
    read_block_data_ok (nosub ops) _ CY_REG_BASE status_size _ ts.addr_ldr hn (by omega)
      (by show 0 ≤ (ops.read_nosub (ops.wait w.2 timeout_ms).2 CY_REG_BASE status_size
            ts.addr_ldr).1
          rw [hr0])
  generalize ops.read_nosub (ops.wait w.2 timeout_ms).2 CY_REG_BASE status_size ts.addr_ldr
    = r at hrd hr0 hr1 hr2
  have hb0 : ld8 (store (List.replicate CY_MAX_STATUS_SIZE 0) 0 status_size r.2.1) 0
      = CY_START_OF_PACKET := by
    rw [ld8_store_zero _ _ _ _ (by omega)]; exact hr1
  have hb1 : ld8 (store (List.replicate CY_MAX_STATUS_SIZE 0) 0 status_size r.2.1) 1
      = ERROR_SUCCESS := by
    rw [ld8_store_zero _ _ _ _ (by omega)]; exact hr2
  have hg : _cyttsp4_get_status ops ts w.2 (List.replicate CY_MAX_STATUS_SIZE 0) status_size
      timeout_ms
      = (r.1, store (List.replicate CY_MAX_STATUS_SIZE 0) 0 status_size r.2.1, r.2.2) := by
    unfold _cyttsp4_get_status
    rw [if_pos (by omega)]
    simp only []
    unfold get_status_tries
    simp only [hrd]
    rw [if_neg]
    rw [hb1]
    decide
  unfold _cyttsp4_send_cmd
  rw [if_neg (by simpa using hb)]
  simp only [hw]
  rw [if_neg (by rw [hw0]; decide), if_pos ht]
  simp only [hg]
  rw [if_neg (by rw [hr0, hb0]; decide)]
  simp only [CY_STATUS_BYTE]
  rw [if_neg (by rw [hb1]; decide)]
  exact ⟨hr0, rfl⟩

theorem send_cmd_accepted_log {D : Type} (ops : cyttsp4_bus_ops D) (ts : cyttsp4)
    (s : D × List (Nat × List Nat)) (cmd_buf : List Nat)
    (num_stat_byte status_size timeout_ms : Nat)
    (hacc : accepts_ldr_cmds ops ts.addr_ldr) (hn : 0 < ops.num_retry) (hb : cmd_buf ≠ [])
    (ht : 0 < timeout_ms) (hs : 2 ≤ status_size) :
    (_cyttsp4_send_cmd (log_writes ops) ts s cmd_buf none num_stat_byte status_size
      timeout_ms).1 = 0
    ∧ (_cyttsp4_send_cmd (log_writes ops) ts s cmd_buf none num_stat_byte status_size
      timeout_ms).2.2.2 = s.2 ++ [(CY_REG_BASE, cmd_buf)] := by
  obtain ⟨h1, h2⟩ := send_cmd_accepted (log_writes ops) ts s cmd_buf num_stat_byte status_size
    timeout_ms (accepts_ldr_cmds_log ops ts.addr_ldr hacc) hn hb ht hs
  refine ⟨h1, ?_⟩
  rw [h2]
  rfl

theorem ldr_row_bytes_append (row_image : cyttsp4_hex_image) (a m n : Nat) :
    ldr_row_bytes row_image a m ++ ldr_row_bytes row_image (a + m) n
      = ldr_row_bytes row_image a (m + n) := by
  unfold ldr_row_bytes
  rw [List.range_add, List.map_append, List.map_map]
  congr 1
  apply List.map_congr_left
  intro x _
  simp only [Function.comp]
  congr 1
  omega

theorem ldr_send_data_cmd_frame (row_image : cyttsp4_hex_image) (row_data : Nat) :
    ldr_send_data_cmd row_image row_data
      = ldr_frame 0x37 (ldr_row_bytes row_image row_data 96) := by
  unfold ldr_send_data_cmd ldr_frame
  simp only [ldr_crc_tail _ (compute_crc_lt _), ldr_row_bytes_length]
  simp [CY_START_OF_PACKET, CY_CMD_LDR_SEND_DATA, CY_PACKET_DATA_LEN, ldr_row_bytes_length]

theorem ldr_prog_row_cmd_frame (row_image : cyttsp4_hex_image) (row_data : Nat) :
    ldr_prog_row_cmd row_image row_data
      = ldr_frame 0x39 (ldr_row_address row_image ++ ldr_row_bytes row_image row_data 96) := by
  have hrow : ((row_image.row_num % 65536) >>> 8) % 256 = row_image.row_num % 65536 / 256 :=
    shr8_byte _ (Nat.mod_lt _ (by norm_num))
  have hrow2 : row_image.row_num % 256 = row_image.row_num % 65536 % 256 := by omega
  unfold ldr_prog_row_cmd ldr_frame ldr_row_address
  simp only [ldr_crc_tail _ (compute_crc_lt _), hrow, hrow2, List.length_append,
    ldr_row_bytes_length]
  simp [CY_START_OF_PACKET, CY_CMD_LDR_PROG_ROW, CY_PACKET_DATA_LEN, ldr_row_bytes_length]

/-- What `_cyttsp4_ldr_prog_row` writes to a device that accepts the
bootloader commands. -/
theorem prog_row_accepted_log {D : Type} (ops : cyttsp4_bus_ops D) (ts : cyttsp4)
    (s : D × List (Nat × List Nat)) (row_image : cyttsp4_hex_image)
    (hacc : accepts_ldr_cmds ops ts.addr_ldr) (hn : 0 < ops.num_retry) :
    (_cyttsp4_ldr_prog_row (log_writes ops) ts s row_image).1 = 0
    ∧ (_cyttsp4_ldr_prog_row (log_writes ops) ts s row_image).2.2
        = s.2 ++ [(CY_REG_BASE, ldr_send_data_cmd row_image 0),
                  (CY_REG_BASE, ldr_send_data_cmd row_image 96),
                  (CY_REG_BASE, ldr_prog_row_cmd row_image 192)] := by
  have hsd : ∀ k, ldr_send_data_cmd row_image k ≠ [] := by
    intro k; simp [ldr_send_data_cmd]
  have hpr : ∀ k, ldr_prog_row_cmd row_image k ≠ [] := by
    intro k; simp [ldr_prog_row_cmd]
  have h1 := send_cmd_accepted_log ops ts s (ldr_send_data_cmd row_image 0) 0 8
    CY_HALF_SEC_TMO_MS hacc hn (hsd 0) (by decide) (by decide)
  generalize hr1 : _cyttsp4_send_cmd (log_writes ops) ts s (ldr_send_data_cmd row_image 0)
    none 0 8 CY_HALF_SEC_TMO_MS = r1 at h1
  have h2 := send_cmd_accepted_log ops ts r1.2.2 (ldr_send_data_cmd row_image 96) 0 8
    CY_HALF_SEC_TMO_MS hacc hn (hsd 96) (by decide) (by decide)
  generalize hr2 : _cyttsp4_send_cmd (log_writes ops) ts r1.2.2
    (ldr_send_data_cmd row_image 96) none 0 8 CY_HALF_SEC_TMO_MS = r2 at h2
  have h3 := send_cmd_accepted_log ops ts r2.2.2 (ldr_prog_row_cmd row_image 192) 0 7
    CY_HALF_SEC_TMO_MS hacc hn (hpr 192) (by decide) (by decide)
  generalize hr3 : _cyttsp4_send_cmd (log_writes ops) ts r2.2.2
    (ldr_prog_row_cmd row_image 192) none 0 7 CY_HALF_SEC_TMO_MS = r3 at h3
  have hseg : ldr_prog_row_segments (log_writes ops) ts row_image
      (CY_DATA_ROW_SIZE / CY_PACKET_DATA_LEN - 1) 0 s = (0, 192, r2.2.2) := by
    have e : CY_DATA_ROW_SIZE / CY_PACKET_DATA_LEN - 1 = 2 := rfl
    rw [e]
    rw [ldr_prog_row_segments]
    simp only [hr1]
    rw [if_neg (by rw [h1.1]; decide)]
    rw [ldr_prog_row_segments]
    have e2 : 0 + CY_PACKET_DATA_LEN = 96 := rfl
    simp only [e2, hr2]
    rw [if_neg (by rw [h2.1]; decide)]
    rfl
  unfold _cyttsp4_ldr_prog_row
  simp only [hseg, hr3]
  rw [if_neg (by decide)]
  refine ⟨h3.1, ?_⟩
  show r3.2.2.2 = _
  rw [h3.2, h2.2, h1.2]
  simp

theorem bus_ldr_ok_accepts (addr : Nat) : accepts_ldr_cmds bus_ldr_ok addr :=
  ⟨fun _ _ _ => rfl, fun _ _ => ⟨rfl, rfl, rfl⟩⟩

/-- C21 (amended): on a device that accepts the bootloader commands,
`_cyttsp4_ldr_prog_row` returns 0 and writes exactly three commands, in this
order: a send-data command (0x37) carrying the row bytes 0..95, a send-data
command carrying the row bytes 96..191, and the program-row command (0x39)
carrying the array id, the row number (low byte first) and the row bytes
192..287; the segment size is `CY_PACKET_DATA_LEN = 96`, and the three
segments together are the 288 bytes of `row_data` in order. -/
theorem C21_prog_row_segments {D : Type} (ops : cyttsp4_bus_ops D) (ts : cyttsp4)
    (s : D × List (Nat × List Nat)) (row_image : cyttsp4_hex_image)
    (hacc : accepts_ldr_cmds ops ts.addr_ldr) (hn : 0 < ops.num_retry) :
    (_cyttsp4_ldr_prog_row (log_writes ops) ts s row_image).1 = 0
    ∧ (_cyttsp4_ldr_prog_row (log_writes ops) ts s row_image).2.2
        = s.2 ++ [(CY_REG_BASE, ldr_frame 0x37 (ldr_row_bytes row_image 0 96)),
                  (CY_REG_BASE, ldr_frame 0x37 (ldr_row_bytes row_image 96 96)),
                  (CY_REG_BASE, ldr_frame 0x39
                    (ldr_row_address row_image ++ ldr_row_bytes row_image 192 96))]
    ∧ CY_PACKET_DATA_LEN = 96
    ∧ ldr_row_bytes row_image 0 96 ++ ldr_row_bytes row_image 96 96
          ++ ldr_row_bytes row_image 192 96
        = (List.range CY_DATA_ROW_SIZE).map (fun i => ld8 row_image.row_data i) := by
  obtain ⟨h1, h2⟩ := prog_row_accepted_log ops ts s row_image hacc hn
  refine ⟨h1, ?_, rfl, ?_⟩
  · rw [h2, ldr_send_data_cmd_frame, ldr_send_data_cmd_frame, ldr_prog_row_cmd_frame]
  · have a := ldr_row_bytes_append row_image 0 96 96
    have b := ldr_row_bytes_append row_image 0 192 96
    simp only [Nat.zero_add] at a b
    rw [a, b]
    unfold ldr_row_bytes
    simp only [Nat.zero_add]
    rfl

set_option maxRecDepth 1000000 in
/-- Counterexample to C21 as stated: for the sample row, the opcode, the
declared payload length and the total length of the commands that
`_cyttsp4_ldr_prog_row` writes.  There are two send-data commands, each with
96 data bytes; segments of 32 bytes would take eight send-data commands with a
payload length of 32 before the program-row command. -/
theorem C21_segment_size_counterexample :
    (_cyttsp4_ldr_prog_row (log_writes bus_ldr_ok) sample_ts ((), []) sample_row_image).2.2.map
        (fun e => (ld8 e.2 1, ld8 e.2 2 + 256 * ld8 e.2 3, e.2.length))
      = [(0x37, 96, 103), (0x37, 96, 103), (0x39, 99, 106)]
    ∧ ((_cyttsp4_ldr_prog_row (log_writes bus_ldr_ok) sample_ts ((), [])
          sample_row_image).2.2.getD 0 (0, [])).2.take 36
      = [0x01, 0x37, 96, 0] ++ (List.range 32).map (fun i => i) := by
  decide

/-- Witness for C21 (amended): the sample row on a bootloader that accepts
every command. -/
theorem C21_prog_row_segments_witness :
    accepts_ldr_cmds bus_ldr_ok sample_ts.addr_ldr
    ∧ (_cyttsp4_ldr_prog_row (log_writes bus_ldr_ok) sample_ts ((), []) sample_row_image).2.2
        = [] ++ [(CY_REG_BASE, ldr_frame 0x37 (ldr_row_bytes sample_row_image 0 96)),
                 (CY_REG_BASE, ldr_frame 0x37 (ldr_row_bytes sample_row_image 96 96)),
                 (CY_REG_BASE, ldr_frame 0x39
                    (ldr_row_address sample_row_image
                      ++ ldr_row_bytes sample_row_image 192 96))] :=
  ⟨bus_ldr_ok_accepts _,
   (C21_prog_row_segments bus_ldr_ok sample_ts ((), []) sample_row_image
      (bus_ldr_ok_accepts _) (by decide)).2.1⟩

/-! ## Proofs: the row data sent for a record -/

theorem list_eq_of_getD (a b : List Nat) (hl : a.length = b.length)
    (h : ∀ k, a.getD k 0 = b.getD k 0) : a = b := by
  apply List.ext_getElem hl
  intro k h1 h2
  have := h k
  simpa [List.getD_eq_getElem?_getD, List.getElem?_eq_getElem h1,
    List.getElem?_eq_getElem h2] using this

/-- A record that declares all 288 data bytes determines the row image by
itself, whatever the row image held before. -/
theorem parse_row_full_record (row_buf : List Nat) (p1 p2 : cyttsp4_hex_image)
    (h1 : p1.row_data.length = CY_DATA_ROW_SIZE) (h2 : p2.row_data.length = CY_DATA_ROW_SIZE)
    (hsz : ld8 row_buf 3 * 256 + ld8 row_buf 4 = CY_DATA_ROW_SIZE) :
    _cyttsp4_ldr_parse_row row_buf p1 = _cyttsp4_ldr_parse_row row_buf p2 := by
  obtain ⟨a1, a2, a3, _, a5⟩ := parse_row_spec row_buf p1
  obtain ⟨b1, b2, b3, _, b5⟩ := parse_row_spec row_buf p2
  obtain ⟨a6, a7, a8⟩ := a5 (le_of_eq hsz)
  obtain ⟨b6, b7, b8⟩ := b5 (le_of_eq hsz)
  have hd : (_cyttsp4_ldr_parse_row row_buf p1).2.row_data
      = (_cyttsp4_ldr_parse_row row_buf p2).2.row_data := by
    apply list_eq_of_getD
    · rw [a7, b7, h1, h2]
    · intro k
      rw [a8 k, b8 k, hsz, h1, h2]
      by_cases hk : k < CY_DATA_ROW_SIZE
      · rw [if_pos ⟨hk, hk⟩, if_pos ⟨hk, hk⟩]
      · rw [if_neg (fun h => hk h.1), if_neg (fun h => hk h.1)]
        rw [List.getD_eq_default _ _ (by omega), List.getD_eq_default _ _ (by omega)]
  apply Prod.ext
  · rw [a6, b6]
  · generalize _cyttsp4_ldr_parse_row row_buf p1 = x at *
    generalize _cyttsp4_ldr_parse_row row_buf p2 = y at *
    obtain ⟨x1, ⟨xa, xn, xs, xd⟩⟩ := x
    obtain ⟨y1, ⟨ya, yn, ys, yd⟩⟩ := y
    simp only at a1 a2 a3 b1 b2 b3 hd
    simp only [cyttsp4_hex_image.mk.injEq]
    exact ⟨a1.trans b1.symm, a2.trans b2.symm, a3.trans b3.symm, hd⟩

set_option maxRecDepth 1000000 in
/-- C29 (evaluation at the failing input): two images that hold the same
second record, which declares 16 data bytes, after first records with data
bytes 0xAA and 0xBB.  Both loads succeed on a bootloader that accepts every
command; the entries 7..11 of the write log are the erase, send-data,
send-data, program-row and verify commands of the second record; they carry
288 data bytes, of which byte 15 is the last declared byte of the record and
byte 16 is a byte of the FIRST record, 0xAA for one image and 0xBB for the
other. -/
theorem C29_stale_row_data :
    (sample_fw_two 0xAA).drop 293 = (sample_fw_two 0xBB).drop 293
    ∧ (_cyttsp4_load_app (log_writes bus_ldr_ok) sample_ts ((), []) (sample_fw_two 0xAA)).1 = 0
    ∧ (_cyttsp4_load_app (log_writes bus_ldr_ok) sample_ts ((), []) (sample_fw_two 0xBB)).1 = 0
    ∧ (((_cyttsp4_load_app (log_writes bus_ldr_ok) sample_ts ((), [])
          (sample_fw_two 0xAA)).2.2.2.drop 7).take 5).map (fun e => (ld8 e.2 1, e.2.length))
        = [(0x34, 10), (0x37, 103), (0x37, 103), (0x39, 106), (0x3A, 10)]
    ∧ (row_data_sent (((_cyttsp4_load_app (log_writes bus_ldr_ok) sample_ts ((), [])
          (sample_fw_two 0xAA)).2.2.2.drop 7).take 5)).length = 288
    ∧ (row_data_sent (((_cyttsp4_load_app (log_writes bus_ldr_ok) sample_ts ((), [])
          (sample_fw_two 0xAA)).2.2.2.drop 7).take 5)).getD 15 0 = 0x11
    ∧ (row_data_sent (((_cyttsp4_load_app (log_writes bus_ldr_ok) sample_ts ((), [])
          (sample_fw_two 0xAA)).2.2.2.drop 7).take 5)).getD 16 0 = 0xAA
    ∧ (row_data_sent (((_cyttsp4_load_app (log_writes bus_ldr_ok) sample_ts ((), [])
          (sample_fw_two 0xBB)).2.2.2.drop 7).take 5)).getD 15 0 = 0x11
    ∧ (row_data_sent (((_cyttsp4_load_app (log_writes bus_ldr_ok) sample_ts ((), [])
          (sample_fw_two 0xBB)).2.2.2.drop 7).take 5)).getD 16 0 = 0xBB := by
  decide

/-! ## Proofs: the Invalid state after a failed startup -/

theorem reset_keeps_bl {D : Type} (ops : cyttsp4_bus_ops D) (ts : cyttsp4) (dev : D)
    (h : ts.driver_state = CY_BL_STATE) :
    (_cyttsp4_reset ops ts dev).2.1.driver_state = CY_BL_STATE := by
  unfold _cyttsp4_reset
  simp only []
  repeat' split
  all_goals first | exact h | rfl

/-- Every way in which the reflash branch leaves for the exit label carries
a negative return code. -/
theorem startup_reflash_exit_neg {D : Type} (ops : cyttsp4_bus_ops D) (ts : cyttsp4) (dev : D)
    (upgraded : Bool)
    (hx : (startup_reflash ops ts dev upgraded).1 = startup_next.exit) :
    (startup_reflash ops ts dev upgraded).2.1 < 0 := by
  unfold startup_reflash at hx ⊢
  simp only [] at hx ⊢
  by_cases hu : upgraded = true
  · rw [if_pos hu]
    show err_io < 0
    decide
  · rw [if_neg hu] at hx ⊢
    cases hf : (_cyttsp4_change_state ts CY_BL_STATE).fw_img with
    | none =>
      simp only [hf]
      show err_nodata < 0
      decide
    | some img =>
      simp only [hf] at hx ⊢
      by_cases hl : img.length = 0
      · rw [if_pos hl]
        show err_nodata < 0
        decide
      · rw [if_neg hl] at hx ⊢
        by_cases hla : (_cyttsp4_load_app ops (_cyttsp4_change_state ts CY_BL_STATE) dev
            img).1 ≠ 0
        · rw [if_pos hla]
          show err_io < 0
          decide
        · rw [if_neg hla] at hx
          exact absurd hx (by simp)

theorem startup_read_sysinfo_exit_neg {D : Type} (ops : cyttsp4_bus_ops D) (ts : cyttsp4)
    (dev : D) (upgraded : Bool)
    (hx : (startup_read_sysinfo ops ts dev upgraded).1 = startup_next.exit) :
    (startup_read_sysinfo ops ts dev upgraded).2.1 < 0 := by
  unfold startup_read_sysinfo at hx ⊢
  simp only [] at hx ⊢
  split
  · rename_i h
    rw [if_pos h] at hx
    exact startup_reflash_exit_neg ops _ _ upgraded hx
  · rename_i h
    rw [if_neg h] at hx
    exact absurd hx (by simp)

/-- Every way in which a pass of `_cyttsp4_startup` leaves for the exit label
before `_cyttsp4_get_sysinfo_regs` carries a negative return code. -/
theorem startup_pass_exit_neg {D : Type} (ops : cyttsp4_bus_ops D) (ts : cyttsp4) (dev : D)
    (upgraded : Bool)
    (hx : (startup_pass ops ts dev upgraded).1 = startup_next.exit) :
    (startup_pass ops ts dev upgraded).2.1 < 0 := by
  unfold startup_pass at hx ⊢
  simp only [] at hx ⊢
  split
  · rename_i hw
    exact hw
  · rename_i hw
    rw [if_neg hw] at hx
    split
    · rename_i hq
      exact hq
    · rename_i hq
      rw [if_neg hq] at hx
      exact startup_read_sysinfo_exit_neg ops _ _ upgraded hx

/-- Every modelled run of `_cyttsp4_startup` returns a negative code. -/
theorem startup_returns_neg {D : Type} (ops : cyttsp4_bus_ops D) (ts : cyttsp4) (dev : D)
    (r : Int × cyttsp4 × D) (h : _cyttsp4_startup ops ts dev = some r) : r.1 < 0 := by
  unfold _cyttsp4_startup at h
  simp only [] at h
  split at h
  · rename_i hx
    have := startup_pass_exit_neg ops _ dev false hx
    simp only [Option.some.injEq] at h
    rw [← h]
    exact this
  · exact absurd h (by simp)
  · split at h
    · rename_i hx
      have := startup_pass_exit_neg ops _ _ true hx
      simp only [Option.some.injEq] at h
      rw [← h]
      exact this
    · exact absurd h (by simp)
    · exact absurd h (by simp)

/-- Whatever state a modelled run of `_cyttsp4_startup` ends in, Invalid
included, `cyttsp4_ts_work_func` and `cyttsp4_open` replace it by Idle. -/
theorem startup_callers_go_idle {D : Type} (ops : cyttsp4_bus_ops D) (ts : cyttsp4) (dev : D) :
    (∀ x, cyttsp4_ts_work_func ops ts dev = some x → x.1.driver_state = CY_IDLE_STATE)
    ∧ (ts.powered = false → ∀ x, cyttsp4_open ops ts dev = some x →
        x.2.1.driver_state = CY_IDLE_STATE) := by
  constructor
  · intro x hx
    unfold cyttsp4_ts_work_func at hx
    simp only [] at hx
    cases hs : _cyttsp4_startup ops (emit (emit ts input_event.mt_sync) input_event.sync) dev with
    | none => rw [hs] at hx; exact absurd hx (by simp)
    | some r =>
      rw [hs] at hx
      simp only [Option.map_some', Option.some.injEq] at hx
      rw [← hx, if_pos (startup_returns_neg ops _ dev r hs)]
      rfl
  · intro hp x hx
    unfold cyttsp4_open at hx
    rw [hp] at hx
    simp only [Bool.not_false, if_true] at hx
    cases hs : _cyttsp4_startup ops ts dev with
    | none => rw [hs] at hx; exact absurd hx (by simp)
    | some r =>
      rw [hs] at hx
      simp only [Option.map_some', Option.some.injEq] at hx
      rw [← hx, if_pos (startup_returns_neg ops _ dev r hs)]
      rfl

set_option maxRecDepth 1000000 in
/-- Counterexample to C24 as stated: on a device whose reads fail, with
no platform firmware image, `_cyttsp4_startup` sets the driver state to
Invalid and returns `-ENODATA`; `cyttsp4_ts_work_func` and `cyttsp4_open`,
to which it returns, then set the driver state to Idle.  The same happens
with a firmware image whose load fails: `_cyttsp4_startup` ends in the
Invalid state with `-EIO`, and the callers replace Invalid by Idle. -/
theorem C24_invalid_overwritten :
    sample_ts.fw_img = none
    ∧ (_cyttsp4_startup bus_read_fails sample_ts ()).map (fun r => (r.1, r.2.1.driver_state))
        = some (err_nodata, CY_INVALID_STATE)
    ∧ (cyttsp4_ts_work_func bus_read_fails sample_ts ()).map (fun x => x.1.driver_state)
        = some CY_IDLE_STATE
    ∧ (cyttsp4_open bus_read_fails sample_ts ()).map (fun x => x.2.1.driver_state)
        = some CY_IDLE_STATE
    ∧ (_cyttsp4_startup bus_read_fails { sample_ts with fw_img := some sample_fw } ()).map
          (fun r => (r.1, r.2.1.driver_state))
        = some (err_io, CY_INVALID_STATE)
    ∧ (cyttsp4_ts_work_func bus_read_fails { sample_ts with fw_img := some sample_fw } ()).map
          (fun x => x.1.driver_state)
        = some CY_IDLE_STATE
    ∧ (cyttsp4_open bus_read_fails { sample_ts with fw_img := some sample_fw } ()).map
          (fun x => x.2.1.driver_state)
        = some CY_IDLE_STATE := by
  decide

theorem startup_reflash_upgraded {D : Type} (ops : cyttsp4_bus_ops D) (ts : cyttsp4) (dev : D) :
    (startup_reflash ops ts dev true).1 = startup_next.exit := by
  unfold startup_reflash
  simp

theorem startup_read_sysinfo_upgraded {D : Type} (ops : cyttsp4_bus_ops D) (ts : cyttsp4)
    (dev : D) : (startup_read_sysinfo ops ts dev true).1 ≠ startup_next.restart := by
  unfold startup_read_sysinfo
  simp only []
  by_cases h : (_cyttsp4_read_block_data ops dev CY_REG_BASE 16 (List.replicate 16 0)
      ts.addr_tch).1 < 0
  · rw [if_pos h, startup_reflash_upgraded]
    simp
  · rw [if_neg h]
    simp

/-- A pass of `_cyttsp4_startup` entered with `upgraded = true` does not ask
for another pass. -/
theorem startup_pass_upgraded {D : Type} (ops : cyttsp4_bus_ops D) (ts : cyttsp4) (dev : D) :
    (startup_pass ops ts dev true).1 ≠ startup_next.restart := by
  unfold startup_pass
  simp only []
  by_cases hw : (_cyttsp4_wait_int ops
      (_cyttsp4_reset ops (_cyttsp4_change_state ts CY_BL_STATE) dev).2.2
      CY_HALF_SEC_TMO_MS).1 < 0
  · rw [if_pos hw]
    simp
  · rw [if_neg hw]
    by_cases hq : (startup_irq_poll ops (CY_DELAY_MAX * 10 * 5)
        (_cyttsp4_wait_si_int ops
          (_cyttsp4_wait_int ops
            (_cyttsp4_reset ops (_cyttsp4_change_state ts CY_BL_STATE) dev).2.2
            CY_HALF_SEC_TMO_MS).2 CY_TEN_SEC_TMO_MS).2).1 < 0
    · rw [if_pos hq]
      simp
    · rw [if_neg hq]
      exact startup_read_sysinfo_upgraded ops _ _

/-- A run of `_cyttsp4_startup` is outside the model only when one of its
passes reaches the call of `_cyttsp4_get_sysinfo_regs`. -/
theorem startup_none {D : Type} (ops : cyttsp4_bus_ops D) (ts : cyttsp4) (dev : D)
    (h : _cyttsp4_startup ops ts dev = none) :
    ∃ (t : cyttsp4) (d : D) (u : Bool), (startup_pass ops t d u).1 = startup_next.sysinfo := by
  unfold _cyttsp4_startup at h
  simp only [] at h
  split at h
  · exact absurd h (by simp)
  · rename_i hx
    exact ⟨_, _, _, hx⟩
  · split at h
    · exact absurd h (by simp)
    · rename_i hx
      exact ⟨_, _, _, hx⟩
    · rename_i hx
      exact absurd hx (startup_pass_upgraded ops _ _)

/-- C24 (amended): Invalid is not terminal across the return of
`_cyttsp4_startup`.  Every run of `_cyttsp4_startup` that ends before the
system information is decoded (the runs that set `CY_INVALID_STATE` are among
them) returns a negative code, and a run is outside this only when a pass
reaches the call of `_cyttsp4_get_sysinfo_regs`; on such a return
`cyttsp4_ts_work_func` and `cyttsp4_open` set the driver state to Idle,
whatever state the startup left.  An interrupt, a suspend, and a resume with
no charger/HDMI update pending, taken while the driver state is Invalid, leave
the driver context as it is. -/
theorem C24_invalid_not_terminal {D : Type} (ops : cyttsp4_bus_ops D) (ts : cyttsp4)
    (dev : D) :
    (∀ r, _cyttsp4_startup ops ts dev = some r → r.1 < 0)
    ∧ (_cyttsp4_startup ops ts dev = none →
        ∃ (t : cyttsp4) (d : D) (u : Bool),
          (startup_pass ops t d u).1 = startup_next.sysinfo)
    ∧ (∀ r, _cyttsp4_startup ops (emit (emit ts input_event.mt_sync) input_event.sync) dev
          = some r →
        cyttsp4_ts_work_func ops ts dev
          = some (_cyttsp4_change_state r.2.1 CY_IDLE_STATE, r.2.2))
    ∧ (ts.powered = false → ∀ r, _cyttsp4_startup ops ts dev = some r →
        cyttsp4_open ops ts dev
          = some (0, _cyttsp4_change_state { r.2.1 with powered := false } CY_IDLE_STATE,
              r.2.2))
    ∧ (ts.driver_state = CY_INVALID_STATE → cyttsp4_irq ops ts dev = some (ts, dev))
    ∧ (ts.driver_state = CY_INVALID_STATE → ∃ rv, cyttsp4_suspend ts = some (rv, ts))
    ∧ (ts.driver_state = CY_INVALID_STATE → ts.charger_hdmi_update_pending = false →
        cyttsp4_resume ts = some (0, ts)) := by
  refine ⟨fun r h => startup_returns_neg ops ts dev r h, startup_none ops ts dev, ?_, ?_, ?_, ?_,
    ?_⟩
  · intro r h
    unfold cyttsp4_ts_work_func
    simp only [h, Option.map_some']
    rw [if_pos (startup_returns_neg ops _ dev r h)]
  · intro hp r h
    unfold cyttsp4_open
    rw [hp]
    simp only [Bool.not_false, if_true, h, Option.map_some']
    rw [if_pos (startup_returns_neg ops _ dev r h)]
  · intro hs
    unfold cyttsp4_irq
    rw [hs]
  · intro hs
    unfold cyttsp4_suspend
    split
    · exact ⟨_, rfl⟩
    · rw [hs]
      exact ⟨_, rfl⟩
  · intro hs hc
    unfold cyttsp4_resume
    rw [hs]
    simp only [hc]
    rfl

set_option maxRecDepth 1000000 in
theorem sample_startup_invalid :
    (_cyttsp4_startup bus_read_fails (emit (emit sample_ts input_event.mt_sync) input_event.sync)
        ()).map (fun r => (r.1, r.2.1.driver_state))
      = some (err_nodata, CY_INVALID_STATE) := by
  decide

/-- Witness for C24 (amended): the run of `_cyttsp4_startup` that
`cyttsp4_ts_work_func` starts on a device whose reads fail, with no firmware
image, ends in the Invalid state, and `cyttsp4_ts_work_func` replaces it by
Idle; an interrupt in the Invalid state changes nothing. -/
theorem C24_invalid_not_terminal_witness :
    (∃ r, _cyttsp4_startup bus_read_fails
          (emit (emit sample_ts input_event.mt_sync) input_event.sync) () = some r
        ∧ r.2.1.driver_state = CY_INVALID_STATE
        ∧ cyttsp4_ts_work_func bus_read_fails sample_ts ()
            = some (_cyttsp4_change_state r.2.1 CY_IDLE_STATE, r.2.2))
    ∧ cyttsp4_irq bus_read_fails sample_ts_invalid () = some (sample_ts_invalid, ()) := by
  refine ⟨?_, (C24_invalid_not_terminal bus_read_fails sample_ts_invalid ()).2.2.2.2.1 rfl⟩
  have hs := sample_startup_invalid
  cases h : _cyttsp4_startup bus_read_fails
      (emit (emit sample_ts input_event.mt_sync) input_event.sync) () with
  | none =>
    rw [h] at hs
    exact absurd hs (by simp)
  | some r =>
    rw [h] at hs
    simp only [Option.map_some', Option.some.injEq, Prod.mk.injEq] at hs
    exact ⟨r, rfl, hs.2, (C24_invalid_not_terminal bus_read_fails sample_ts ()).2.2.1 r h⟩

end Cyttsp4
